import Mathlib

set_option linter.unusedVariables false
set_option maxRecDepth 100000

namespace MtLib

/-! Shallow embedding of `src/mtengine/mtlib.c`. -/

/-- The C macro `clamp(x, low, high)`:
`((x) > (high)) ? (high) : (((x) < (low)) ? (low) : (x))`. -/
def clamp (x low high : Int) : Int :=
  if x > high then high else if x < low then low else x

/-- A counted loop `for (k = 0; k < n; k++) s = body k s`. -/
def forLoop {σ : Type} : Nat → (Nat → σ → σ) → σ → σ
  | 0, _, s => s
  | n + 1, body, s => body n (forLoop n body s)

/-- Serialized operator definition (one entry of `fm_instrument.op[6]`).
The struct is declared in the header `mtlib.h`; the fields listed are the ones
`mtlib.c` reads or writes, each holding its raw integer value. -/
structure fm_instrument_operator where
  mult : Int
  finetune : Int
  detune : Int
  vol : Int
  connectOut : Int
  connect : Int
  connect2 : Int
  delay : Int
  i : Int
  a : Int
  h : Int
  d : Int
  s : Int
  r : Int
  waveform : Int
  offset : Int
  fixedFreq : Int
  envLoop : Int
  muted : Int
  pitchInitialRatio : Int
  pitchFinalRatio : Int
  pitchDecay : Int
  pitchRelease : Int
  lfoFM : Int
  lfoAM : Int
  velSensitivity : Int
  kbdVolScaling : Int
  kbdAScaling : Int
  kbdDScaling : Int
  kbdPitchScaling : Int
  kbdCenterNote : Int

/-- Serialized instrument (`fm_instrument`); arrays are total functions of the
index, `op` is used at indices 0..5 and `toMix` at 0..3. -/
structure fm_instrument where
  magic : List Nat
  dummy : Int
  version : Int
  name : List Nat
  lfoWaveform : Int
  volume : Int
  feedbackSource : Int
  feedback : Int
  lfoSpeed : Int
  lfoDelay : Int
  lfoA : Int
  lfoOffset : Int
  transpose : Int
  tuning : Int
  flags : Int
  kfx : Int
  envReset : Int
  phaseReset : Int
  temperament : Nat → Int
  toMix : Nat → Int
  op : Nat → fm_instrument_operator

/-- Assignment to `i->op[k]`. -/
def setOp (i : fm_instrument) (k : Nat) (o : fm_instrument_operator) : fm_instrument :=
  { i with op := Function.update i.op k o }

/-- The per-operator clamps of `mt_instrumentRecovery` (lines 1565-1588). -/
def recoverOpFields (o : fm_instrument_operator) : fm_instrument_operator :=
  { o with
    vol := clamp o.vol 0 99
    delay := clamp o.delay 0 70
    a := clamp o.a 0 99
    h := clamp o.h 0 80
    d := clamp o.d 0 99
    s := clamp o.s 0 99
    r := clamp o.r (-99) 99
    mult := if o.fixedFreq ≠ 0 then clamp o.mult 0 255 else clamp o.mult 0 40
    finetune := clamp o.finetune 0 24
    detune := clamp o.detune (-100) 100
    waveform := clamp o.waveform 0 7
    offset := clamp o.offset 0 31
    pitchDecay := clamp o.pitchDecay 0 99
    pitchRelease := clamp o.pitchRelease 0 99
    pitchInitialRatio := clamp o.pitchInitialRatio (-99) 99
    pitchFinalRatio := clamp o.pitchFinalRatio (-99) 99
    connect := clamp o.connect (-1) 5
    connect2 := clamp o.connect2 (-1) 6
    connectOut := clamp o.connectOut (-1) 5 }

/-- Body of the inner loop `for (op2 = 0; op2 < 6; op2++)` (lines 1603-1613). -/
def breakMutual (op op2 : Nat) (i : fm_instrument) : fm_instrument :=
  if op ≠ op2 then
    let i1 :=
      if (i.op op).connect = (op2 : Int) ∧ (i.op op2).connect = (op : Int) then
        setOp i op2 { i.op op2 with connect := -1 }
      else i
    if (i1.op op).connect2 = (op2 : Int) ∧ (i1.op op2).connect2 = (op : Int) then
      setOp i1 op2 { i1.op op2 with connect2 := -1 }
    else i1
  else i

/-- Body of the loop `for (op = 0; op < 6; op++)` (lines 1563-1615); the state
is the instrument together with the counter `nbOuts`. -/
def recoverOp (op : Nat) (st : fm_instrument × Nat) : fm_instrument × Nat :=
  let i1 := setOp st.1 op (recoverOpFields (st.1.op op))
  let nbOuts := if (i1.op op).connectOut ≥ 0 then st.2 + 1 else st.2
  let i2 := if (i1.op op).connect = (op : Int) then setOp i1 op { i1.op op with connect := -1 } else i1
  let i3 := if (i2.op op).connect2 = (op : Int) then setOp i2 op { i2.op op with connect2 := -1 } else i2
  (forLoop 6 (breakMutual op) i3, nbOuts)

/-- The instrument-level clamps of `mt_instrumentRecovery` (lines 1547-1556);
the magic becomes the characters `FMCI`. -/
def recoverHeader (i : fm_instrument) : fm_instrument :=
  { i with
    magic := [70, 77, 67, 73]
    lfoWaveform := clamp i.lfoWaveform 0 19
    volume := clamp i.volume 0 99
    feedbackSource := clamp i.feedbackSource 0 5
    transpose := clamp i.transpose (-12) 12
    tuning := clamp i.tuning (-100) 100 }

/-- The loop `for (j = 0; j < 4; j++) i->toMix[j] = clamp(i->toMix[j], -1, 5)`. -/
def recoverToMix (i : fm_instrument) : fm_instrument :=
  forLoop 4 (fun j x => { x with toMix := Function.update x.toMix j (clamp (x.toMix j) (-1) 5) }) i

/-- The assignments `i->op[k].connectOut = k` for k = 0..5 (lines 1618-1623). -/
def identityOut (i : fm_instrument) : fm_instrument :=
  forLoop 6 (fun k x => setOp x k { x.op k with connectOut := (k : Int) }) i

/-- The function `mt_instrumentRecovery` (lines 1545-1625). -/
def mt_instrumentRecovery (i : fm_instrument) : fm_instrument :=
  let r := forLoop 6 recoverOp (recoverToMix (recoverHeader i), 0)
  if r.2 = 0 then identityOut r.1 else r.1

/-- An operator whose bytes are all zero, as left by the
`memset(..., 0, ...)` in `mt_resizeInstrumentList` (line 1866). -/
def zeroOperator : fm_instrument_operator :=
  { mult := 0, finetune := 0, detune := 0, vol := 0, connectOut := 0, connect := 0, connect2 := 0,
    delay := 0, i := 0, a := 0, h := 0, d := 0, s := 0, r := 0, waveform := 0, offset := 0,
    fixedFreq := 0, envLoop := 0, muted := 0, pitchInitialRatio := 0, pitchFinalRatio := 0,
    pitchDecay := 0, pitchRelease := 0, lfoFM := 0, lfoAM := 0, velSensitivity := 0,
    kbdVolScaling := 0, kbdAScaling := 0, kbdDScaling := 0, kbdPitchScaling := 0,
    kbdCenterNote := 0 }

/-- An instrument slot whose bytes are all zero (line 1866). -/
def zeroInstrument : fm_instrument :=
  { magic := [0, 0, 0, 0], dummy := 0, version := 0, name := List.replicate 24 0,
    lfoWaveform := 0, volume := 0, feedbackSource := 0, feedback := 0, lfoSpeed := 0,
    lfoDelay := 0, lfoA := 0, lfoOffset := 0, transpose := 0, tuning := 0, flags := 0, kfx := 0,
    envReset := 0, phaseReset := 0, temperament := fun _ => 0, toMix := fun _ => 0,
    op := fun _ => zeroOperator }

/-- The function `mt_createDefaultInstrument` (lines 1824-1841), acting on the
content of the slot: name `Default`, magic `MDTI`, version 1, every operator
routed to the output, operator 0 audible. -/
def mt_createDefaultInstrument (i : fm_instrument) : fm_instrument :=
  let i1 : fm_instrument :=
    { i with
      name := [68, 101, 102, 97, 117, 108, 116] ++ i.name.drop 7
      magic := [77, 68, 84, 73]
      dummy := 0
      version := 1 }
  let i2 := forLoop 6
    (fun op x => setOp x op { x.op op with connectOut := (op : Int), connect := -1, connect2 := -1 }) i1
  let i3 : fm_instrument := { i2 with volume := 99 }
  setOp i3 0 { i3.op 0 with a := 99, mult := 1, vol := 99, r := 99 }

/-- The instrument a fresh slot holds: zeroed memory turned into the default
instrument (lines 1866-1870). -/
def defaultInstrument : fm_instrument := mt_createDefaultInstrument zeroInstrument

/-- An instrument none of whose operators is routed to the output
(`connectOut = -1` everywhere). -/
def silentInstrument : fm_instrument :=
  { defaultInstrument with op := fun _ => { zeroOperator with connectOut := -1 } }

/-- An instrument in which operators 0 and 1 modulate each other on both slots. -/
def mutualInstrument : fm_instrument :=
  setOp (setOp defaultInstrument 0 { zeroOperator with connect := 1, connect2 := 1 })
    1 { zeroOperator with connect := 0, connect2 := 0 }

/-- The value an operator's own routing slot gets in its pass of the operator
loop: clamp into `-1..hi`, then clear a self-reference. -/
def slotHead (hi : Int) (op : Nat) (g : Nat → Int) : Int :=
  if clamp (g op) (-1) hi = (op : Int) then -1 else clamp (g op) (-1) hi

/-- One pass of the operator loop on a single routing slot (`connect` with
upper clamp bound 5, `connect2` with 6), as a map on the slot values. -/
def slotStep (hi : Int) (op : Nat) (g : Nat → Int) : Nat → Int :=
  fun k => if k = op then slotHead hi op g
    else if k < 6 ∧ slotHead hi op g = (k : Int) ∧ g k = (op : Int) then -1 else g k

/-- Number of channels, `FM_ch`. -/
def FM_ch : Nat := 24

/-- Current version of the instrument/song formats (line 10). -/
def MUDTRACKER_VERSION : Nat := 1

/-- The C macro `clamp` on unsigned operands. -/
def clampN (x low high : Nat) : Nat :=
  if x > high then high else if x < low then low else x

/-- One tracker cell. Modelled from the spec: the struct `Cell` is declared in
the header `mtlib.h`; it has the five one-byte fields `note`, `instr`, `vol`,
`fx`, `fxdata`, in this order. -/
structure Cell where
  note : Nat
  instr : Nat
  vol : Nat
  fx : Nat
  fxdata : Nat
deriving DecidableEq, Repr

/-- A cell all of whose bytes are 255, as left by `memset(..., 255, ...)` in
`mt_clearPattern`. -/
def emptyCell : Cell := ⟨255, 255, 255, 255, 255⟩

/-- One row of the state table (`ChannelState`): tempo, per-channel pan and
volume, and the time in seconds from the start of the song, in exact arithmetic. -/
structure ChannelState where
  tempo : Nat
  pan : Nat → Nat
  vol : Nat → Nat
  time : ℚ

/-- The state table: `get o j` is `mt->channelStates[o][j]`. -/
structure StateTable where
  get : Nat → Nat → ChannelState

instance : CoeFun StateTable (fun _ => Nat → Nat → ChannelState) := ⟨StateTable.get⟩

/-- The engine `mtsynth`, restricted to the song data and the sequencer position
(the audio runtime of the channels and the reverb buffer are not part of this
record). Arrays are total functions of their indices; `pattern o j ch` is
`mt->pattern[o][j][ch]` and `instrument k b` is byte `b` of `mt->instrument[k]`. -/
structure mtsynth where
  totalFileSize : Nat
  readSeek : Nat
  order : Nat
  row : Nat
  songName : List Nat
  author : List Nat
  comments : List Nat
  initial_tempo : Nat
  diviseur : Nat
  _globalVolume : Nat
  transpose : Nat
  initialReverbLength : ℚ
  initialReverbRoomSize : ℚ
  initial_pan : Nat → Nat
  initial_vol : Nat → Nat
  initial_reverb : Nat → Nat
  patternCount : Nat
  patternSize : Nat → Nat
  pattern : Nat → Nat → Nat → Cell
  channelStatesDone : Bool
  instrumentCount : Nat
  instrument : Nat → Nat → Nat
  tempo : Nat
  sampleRate : Int
  frameTimer : Nat
  tempOrder : Int
  tempRow : Int
  loopCount : Int
  looping : Int
  playing : Bool

/-- Assignment to `channelStates[o][j]`. -/
def setState (cs : StateTable) (o j : Nat) (x : ChannelState) : StateTable :=
  ⟨Function.update cs.get o (Function.update (cs.get o) j x)⟩

/-- Assignment `channelStates[o][j].tempo = t`. -/
def setTempo (cs : StateTable) (o j t : Nat) : StateTable :=
  setState cs o j { cs o j with tempo := t }

/-- Assignment `channelStates[o][j].time = t`. -/
def setTime (cs : StateTable) (o j : Nat) (t : ℚ) : StateTable :=
  setState cs o j { cs o j with time := t }

/-- Assignment `channelStates[o][j].pan[ch] = v`. -/
def setPan (cs : StateTable) (o j ch v : Nat) : StateTable :=
  setState cs o j { cs o j with pan := Function.update (cs o j).pan ch v }

/-- Assignment `channelStates[o][j].vol[ch] = v`. -/
def setVol (cs : StateTable) (o j ch v : Nat) : StateTable :=
  setState cs o j { cs o j with vol := Function.update (cs o j).vol ch v }

/-- Body of the channel loop of `mt_buildStateTable` (lines 1203-1226): copy
volume and pan of the channel from the previous row, then apply the effect of
the cell (`T` = 84, `X` = 88, `M` = 77). -/
def stateChannel (mt : mtsynth) (order j ch : Nat) (cs : StateTable) : StateTable :=
  let cs1 :=
    if j > 0 then
      let a := setVol cs order j ch ((cs order (j - 1)).vol ch)
      setPan a order j ch ((a order (j - 1)).pan ch)
    else if order > 0 then
      let a := setVol cs order j ch ((cs (order - 1) (mt.patternSize (order - 1) - 1)).vol ch)
      setPan a order j ch ((a (order - 1) (mt.patternSize (order - 1) - 1)).pan ch)
    else cs
  let c := mt.pattern order j ch
  if c.fx = 84 then setTempo cs1 order j (if c.fxdata = 0 then 1 else c.fxdata)
  else if c.fx = 88 then setPan cs1 order j ch c.fxdata
  else if c.fx = 77 then setVol cs1 order j ch c.fxdata
  else cs1

/-- Lines 1190-1200 of `mt_buildStateTable`: copy the tempo and accumulate the
time from the previous row (the row above, or the last row of the previous
order); row 0 of order 0 is left as initialised. -/
def stateCarry (mt : mtsynth) (order j : Nat) (cs : StateTable) : StateTable :=
  if j > 0 then
    let a := setTempo cs order j (cs order (j - 1)).tempo
    setTime a order j
      ((a order (j - 1)).time + 60 / (((a order j).tempo * mt.diviseur : Nat) : ℚ))
  else if order > 0 then
    let a := setTempo cs order j (cs (order - 1) (mt.patternSize (order - 1) - 1)).tempo
    setTime a order j
      ((a (order - 1) (mt.patternSize (order - 1) - 1)).time
        + 60 / (((a order j).tempo * mt.diviseur : Nat) : ℚ))
  else cs

/-- Body of the row loop of `mt_buildStateTable` (lines 1187-1228). -/
def stateRow (mt : mtsynth) (channelStart channelEnd order j : Nat) (cs : StateTable) :
    StateTable :=
  forLoop (channelEnd - channelStart) (fun t => stateChannel mt order j (channelStart + t))
    (stateCarry mt order j cs)

/-- Body of the channel loop in the block `if (order == 0)` (lines 1179-1183). -/
def stateInitChannel (mt : mtsynth) (ch : Nat) (cs : StateTable) : StateTable :=
  setVol (setPan cs 0 0 ch (mt.initial_pan ch)) 0 0 ch (mt.initial_vol ch)

/-- The block `if (order == 0)` of `mt_buildStateTable` (lines 1177-1186): row 0
of order 0 receives the initial pan and volume of each channel, the initial
tempo and time 0. -/
def stateInit (mt : mtsynth) (cs : StateTable) : StateTable :=
  setTime (setTempo (forLoop FM_ch (stateInitChannel mt) cs) 0 0 mt.initial_tempo) 0 0 0

/-- Body of the order loop of `mt_buildStateTable` (lines 1174-1229). -/
def stateOrder (mt : mtsynth) (channelStart channelEnd order : Nat) (cs : StateTable) :
    StateTable :=
  forLoop (mt.patternSize order) (stateRow mt channelStart channelEnd order)
    (if order = 0 then stateInit mt cs else cs)

/-- The function `mt_buildStateTable` (lines 1165-1231), returning the new
table; the caller's `channelStatesDone` becomes 1. -/
def mt_buildStateTable (mt : mtsynth) (cs : StateTable)
    (orderStart orderEnd channelStart channelEnd : Nat) : StateTable :=
  let os := clampN orderStart 0 mt.patternCount
  let oe := clampN orderEnd 0 mt.patternCount
  let s := clampN channelStart 0 FM_ch
  let e := clampN channelEnd 0 FM_ch
  forLoop (oe - os) (fun t => stateOrder mt s e (os + t)) cs

/-- The function `mt_getSongLength` (lines 2432-2441) in exact arithmetic, for
an engine `mt` with state table `cs`. -/
def mt_getSongLength (mt : mtsynth) (cs : StateTable) : ℚ :=
  if mt.patternCount = 0 then 0
  else
    let cs1 :=
      if ¬ mt.channelStatesDone then mt_buildStateTable mt cs 0 mt.patternCount 0 FM_ch else cs
    let last := cs1 (mt.patternCount - 1) (mt.patternSize (mt.patternCount - 1) - 1)
    last.time + 1 / (last.tempo : ℚ) * (60 / (mt.diviseur : ℚ))

/-- Effect of one cell on the tempo of its row in the state table: effect `T`
(84) replaces it by `fxdata`, or by 1 when `fxdata` is 0. -/
def cellTempo (c : Cell) (t : Nat) : Nat :=
  if c.fx = 84 then (if c.fxdata = 0 then 1 else c.fxdata) else t

/-- Tempo of a row after the channel loop has visited `n` channels from
`channelStart`, starting from tempo `t`. -/
def rowTempo (mt : mtsynth) (o j channelStart n t : Nat) : Nat :=
  forLoop n (fun k x => cellTempo (mt.pattern o j (channelStart + k)) x) t

/-- The row that precedes row `(o, j)` in the state table: the row above, or
the last row of the previous order. -/
def prevRow (mt : mtsynth) (o j : Nat) : Nat × Nat :=
  if j > 0 then (o, j - 1) else (o - 1, mt.patternSize (o - 1) - 1)

/-- Duration of a row in the state table: `60 / (tempo * diviseur)` seconds. -/
def rowDuration (mt : mtsynth) (cs : StateTable) (o j : Nat) : ℚ :=
  60 / (((cs o j).tempo * mt.diviseur : Nat) : ℚ)

/-- Time of the first row of an order, from the table before the order is processed. -/
def orderBase (mt : mtsynth) (cs : StateTable) (o : Nat) : ℚ :=
  if o = 0 then 0
  else (cs (o - 1) (mt.patternSize (o - 1) - 1)).time
    + rowDuration mt cs (o - 1) (mt.patternSize (o - 1) - 1)

/-- Sum of the durations of all rows of the orders before `o`. -/
def elapsedOrders (mt : mtsynth) (cs : StateTable) (o : Nat) : ℚ :=
  ∑ a in Finset.range o, ∑ k in Finset.range (mt.patternSize a), rowDuration mt cs a k

/-- Sum of the durations of all rows that precede row `(o, j)` in playback
order: every row of the orders before `o`, and the rows before `j` of order `o`. -/
def elapsedBefore (mt : mtsynth) (cs : StateTable) (o j : Nat) : ℚ :=
  elapsedOrders mt cs o + ∑ k in Finset.range j, rowDuration mt cs o k

/-- Length of a row in output samples, `(60.0 / diviseur) * sampleRate / tempo`
(line 632), in exact arithmetic. -/
def rowLength (mt : mtsynth) : ℚ :=
  (60 / (mt.diviseur : ℚ)) * (mt.sampleRate : ℚ) / (mt.tempo : ℚ)

/-- Lines 637-641: `if (++mt->row >= mt->patternSize[mt->order])` jump to the
next pattern. -/
def nextRow (mt : mtsynth) : mtsynth :=
  if mt.row + 1 ≥ mt.patternSize mt.order then { mt with row := 0, order := mt.order + 1 }
  else { mt with row := mt.row + 1 }

/-- Lines 647-648: a pending pattern jump (effect `B`). -/
def jumpOrder (mt : mtsynth) : mtsynth :=
  if mt.tempOrder ≠ -1 then { mt with order := min mt.tempOrder.toNat (mt.patternCount - 1) }
  else mt

/-- Lines 650-651: a pending row jump (effect `C`). -/
def jumpRow (mt : mtsynth) : mtsynth :=
  if mt.tempRow ≠ -1 then { mt with row := min mt.tempRow.toNat (mt.patternSize mt.order - 1) }
  else mt

/-- Lines 643-654: apply the pending jumps and clear them. -/
def applyJump (mt : mtsynth) : mtsynth :=
  if mt.tempOrder ≠ -1 ∨ mt.tempRow ≠ -1 then
    { jumpRow (jumpOrder { mt with loopCount := mt.loopCount + 1 }) with
      tempOrder := -1, tempRow := -1 }
  else mt

/-- Lines 656-660: wrap to order 0 at the end of the song. -/
def wrapSong (mt : mtsynth) : mtsynth :=
  if mt.order ≥ mt.patternCount then { mt with loopCount := mt.loopCount + 1, order := 0 }
  else mt

/-- Lines 662-665: stop when the loop limit is exceeded. -/
def checkLoop (mt : mtsynth) : mtsynth :=
  if mt.looping ≠ -1 ∧ mt.loopCount > mt.looping then { mt with playing := false } else mt

/-- The row advance of the render loop (lines 637-665), entered when the frame
timer has reached the row length. -/
def rowAdvance (mt : mtsynth) : mtsynth :=
  checkLoop (wrapSong (applyJump (nextRow mt)))

/-- The fields of the engine that fix the frame timer and the row length. -/
def timing (mt : mtsynth) : Nat × Nat × Nat × Int :=
  (mt.frameTimer, mt.tempo, mt.diviseur, mt.sampleRate)

/-- The engine as `mt_create(48000)` leaves it: zeroed memory (`calloc`) with the
values of `mt_setDefaults` (lines 112-134); no pattern and no instrument yet. -/
def createdEngine : mtsynth :=
  { totalFileSize := 0, readSeek := 0, order := 0, row := 0,
    songName := [], author := [], comments := [],
    initial_tempo := 120, diviseur := 4, _globalVolume := 60, transpose := 0,
    initialReverbLength := 7 / 8, initialReverbRoomSize := 11 / 20,
    initial_pan := fun _ => 127, initial_vol := fun _ => 99, initial_reverb := fun _ => 0,
    patternCount := 0, patternSize := fun _ => 0, pattern := fun _ _ _ => emptyCell,
    channelStatesDone := false, instrumentCount := 0, instrument := fun _ _ => 0,
    tempo := 0, sampleRate := 48000, frameTimer := 0, tempOrder := 0, tempRow := 0,
    loopCount := 0, looping := -1, playing := false }

/-- A song of two patterns (two rows, then one row) whose row 1 of pattern 0
carries the effect `T` with parameter 240 on channel 0. -/
def demoSong : mtsynth :=
  { createdEngine with
    patternCount := 2
    patternSize := fun o => if o = 0 then 2 else 1
    pattern := fun o j ch => if o = 0 ∧ j = 1 ∧ ch = 0 then ⟨255, 255, 255, 84, 240⟩ else emptyCell }

/-- A state table with every entry zero. -/
def zeroTable : StateTable := ⟨fun _ _ => ⟨0, fun _ => 0, fun _ => 0, 0⟩⟩

/-- The engine playing at 44100 Hz, tempo 125, divisor 4, at a row event. -/
def playing441 : mtsynth :=
  { demoSong with
    tempo := 125
    sampleRate := 44100
    frameTimer := 0
    tempOrder := -1
    tempRow := -1
    playing := true }

/-! ### Song files: `adler32`, `mt_saveSong`, `mt_loadSongFromMemory` -/

/-- One step of the loop of `adler32` (lines 1444-1445) on the pair `(s1, s2)`. -/
def adlerStep (s : Nat × Nat) (b : Nat) : Nat × Nat :=
  ((s.1 + b) % 65521, (s.2 + (s.1 + b) % 65521) % 65521)

/-- The function `adler32` (lines 1435-1448) on the bytes of the buffer; the
result `(s2 << 16) | s1` is a 32-bit unsigned value. -/
def adler32 (buf : List Nat) : Nat :=
  let s := buf.foldl adlerStep (1, 0)
  ((s.2 <<< 16) % 4294967296) ||| s.1

/-- The four bytes of a 32-bit unsigned value in memory order (little-endian),
as `fwrite((char*)&checksum, 4, 1, fp)` writes them. -/
def le32 (c : Nat) : List Nat :=
  [c % 256, c / 256 % 256, c / 65536 % 256, c / 16777216 % 256]

/-- The 32-bit unsigned value held by the four bytes at address `p`
(little-endian), as the `memcpy` into `checksum` reads it. -/
def readLe32 (mem : Nat → Nat) (p : Nat) : Nat :=
  mem p + 256 * mem (p + 1) + 65536 * mem (p + 2) + 16777216 * mem (p + 3)

/-- The `n` bytes of memory that start at address `p`. -/
def memBytes (mem : Nat → Nat) (p n : Nat) : List Nat :=
  (List.range n).map (fun k => mem (p + k))

/-- A byte buffer seen as memory: byte `i` of the list at address `i`. The
content of the addresses past the end is immaterial (0 here). -/
def toMem (file : List Nat) : Nat → Nat := fun i => file.getD i 0

/-- The five bytes of a cell in memory order. -/
def cellBytes (c : Cell) : List Nat := [c.note, c.instr, c.vol, c.fx, c.fxdata]

/-- The cell held by the five bytes at address `p`. -/
def readCell (mem : Nat → Nat) (p : Nat) : Cell :=
  ⟨mem p, mem (p + 1), mem (p + 2), mem (p + 3), mem (p + 4)⟩

/-- Layout of the struct `fm_instrument`, which is declared in the header
`mtlib.h`: its size in bytes, the fields read from the bytes of a slot, and the
bytes of a slot after the fields have been stored back. The song file functions
move instruments as raw bytes; only `mt_instrumentRecovery` goes through the
fields. -/
structure InstrLayout where
  size : Nat
  view : (Nat → Nat) → fm_instrument
  store : fm_instrument → (Nat → Nat) → (Nat → Nat)

/-- Values of the memory that `mt_loadSongFromMemory` may read before writing
it: its locals `temp`, `nbOrd`, `nbRow`, and the instrument slots that `realloc`
adds to the instrument list. -/
structure Indeterminate where
  temp : Nat
  nbOrd : Nat
  nbRow : Nat
  heap : Nat → Nat → Nat

/-- Result of `mt_loadSongFromMemory`: 0, the literal 2 returned for a buffer
shorter than the fixed part of the header, or one of the error codes
`MT_ERR_FILEVERSION`, `MT_ERR_FILECORRUPTED` of the header `mtlib.h`. -/
inductive LoadCode where
  | ok
  | two
  | MT_ERR_FILEVERSION
  | MT_ERR_FILECORRUPTED
deriving DecidableEq, Repr

/-- The C string held by a character array that starts with the given bytes
followed by a terminating 0. -/
def cString (bytes : List Nat) : List Nat := bytes.takeWhile (fun b => b ≠ 0)

/-- `x - 1` on a 32-bit unsigned value. -/
def usub1 (x : Nat) : Nat := (x + 4294967295) % 4294967296

/-- Advance `mt->readSeek` by `n`. -/
def advance (mt : mtsynth) (n : Nat) : mtsynth := { mt with readSeek := mt.readSeek + n }

/-- The function `mt_setVolume` (lines 2257-2262) on the byte `_globalVolume`
(the float `globalVolume` belongs to the audio runtime). -/
def mt_setVolume (mt : mtsynth) (volume : Nat) : mtsynth :=
  { mt with _globalVolume := clampN volume 0 99 }

/-- The function `mt_patternClear` (lines 1528-1543). -/
def mt_patternClear (mt : mtsynth) : mtsynth :=
  if mt.patternCount > 0 then { mt with row := 0, order := 0, patternCount := 0 } else mt

/-- The function `mt_clearPattern` (lines 1934-1942): `count` rows from
`rowStart` are filled with the byte 255. -/
def mt_clearPattern (mt : mtsynth) (pattern rowStart count : Nat) : mtsynth :=
  if pattern ≥ mt.patternCount ∨ rowStart > 255 ∨ count > 256 then mt
  else
    { mt with
      pattern := fun o j ch =>
        if o = pattern ∧ rowStart ≤ j ∧ j < rowStart + count then emptyCell else mt.pattern o j ch
      channelStatesDone := false }

/-- Lines 2038-2039 of `mt_resizePattern`: the rows by which the pattern grows
are cleared. -/
def growClear (mt : mtsynth) (order size : Nat) : mtsynth :=
  if size > mt.patternSize order then
    mt_clearPattern mt order (mt.patternSize order) (size - mt.patternSize order)
  else mt

/-- Assignment `mt->patternSize[order] = size`. -/
def setPatternSize (order size : Nat) (mt : mtsynth) : mtsynth :=
  { mt with patternSize := Function.update mt.patternSize order size }

/-- Lines 2043 and 2057 of `mt_resizePattern`:
`mt->row = min(mt->row, mt->patternSize[mt->order] - 1)` and
`channelStatesDone = 0`. -/
def clampRow (mt : mtsynth) : mtsynth :=
  { mt with row := min mt.row (usub1 (mt.patternSize mt.order)), channelStatesDone := false }

/-- The function `mt_resizePattern` (lines 1998-2059) called with
`scaleContent = 0`, allocation succeeding: rows added to the pattern are
cleared. -/
def mt_resizePattern (mt : mtsynth) (order size : Nat) : mtsynth :=
  if order ≥ mt.patternCount ∨ size = 0 then mt
  else
    clampRow (setPatternSize order (clampN size 1 256) (growClear mt order (clampN size 1 256)))

/-- Body of the loop of `mt_resizePatterns` that creates pattern `i` (lines
1918-1924): an empty pattern of one row. -/
def newPattern (i : Nat) (mt : mtsynth) : mtsynth :=
  mt_resizePattern (setPatternSize i 0 mt) i 1

/-- Lines 1894-1895 of `mt_resizePatterns`: when patterns are dropped, the
current order is kept inside the song. -/
def dropOrder (mt : mtsynth) (count : Nat) : mtsynth :=
  if count < mt.patternCount ∧ mt.order ≥ count then { mt with order := max 0 (count - 1) }
  else mt

/-- Assignment `mt->patternCount = count`. -/
def setPatternCount (count : Nat) (mt : mtsynth) : mtsynth := { mt with patternCount := count }

/-- Assignment `mt->channelStatesDone = 0`. -/
def markDirty (mt : mtsynth) : mtsynth := { mt with channelStatesDone := false }

/-- The function `mt_resizePatterns` (lines 1876-1931), allocation succeeding. -/
def mt_resizePatterns (mt : mtsynth) (count : Nat) : mtsynth :=
  if count > 256 then mt
  else if mt.patternCount > 0 ∧ count = 0 then setPatternCount 0 mt
  else
    markDirty
      (forLoop (count - mt.patternCount) (fun t => newPattern (mt.patternCount + t))
        (setPatternCount count (dropOrder mt count)))

/-- The bytes of an instrument slot after `memset(..., 0, ...)` and
`mt_createDefaultInstrument` (lines 1866-1870). -/
def defaultSlot (L : InstrLayout) : Nat → Nat :=
  L.store (mt_createDefaultInstrument (L.view (fun _ => 0))) (fun _ => 0)

/-- The function `mt_resizeInstrumentList` (lines 1843-1874), allocation
succeeding. `alloc` is the number of slots the list holds before the call (it
is `instrumentCount`, except in `mt_loadSongFromMemory`, which overwrites the
counter first); slots that `realloc` adds hold the indeterminate bytes `heap`. -/
def mt_resizeInstrumentList (L : InstrLayout) (heap : Nat → Nat → Nat) (alloc : Nat)
    (mt : mtsynth) (size : Nat) : mtsynth :=
  if size > 255 then mt
  else if mt.instrumentCount > 0 ∧ size = 0 then { mt with instrumentCount := 0 }
  else
    { mt with
      instrument := fun k =>
        if mt.instrumentCount ≤ k ∧ k < size then defaultSlot L
        else if k < alloc then mt.instrument k
        else heap k
      instrumentCount := size }

/-- Assignment to `mt->songName` (as a C string). -/
def setSongName (t : List Nat) (m : mtsynth) : mtsynth := { m with songName := t }

/-- Assignment to `mt->author` (as a C string). -/
def setAuthor (t : List Nat) (m : mtsynth) : mtsynth := { m with author := t }

/-- Assignment to `mt->comments` (as a C string). -/
def setComments (t : List Nat) (m : mtsynth) : mtsynth := { m with comments := t }

/-- Assignment to `mt->initial_tempo`. -/
def setInitialTempo (b : Nat) (m : mtsynth) : mtsynth := { m with initial_tempo := b }

/-- Assignment to `mt->diviseur`. -/
def setDiviseur (b : Nat) (m : mtsynth) : mtsynth := { m with diviseur := b }

/-- Assignment to `mt->_globalVolume`. -/
def setGlobalVolume (b : Nat) (m : mtsynth) : mtsynth := { m with _globalVolume := b }

/-- Assignment to `mt->transpose`. -/
def setTranspose (b : Nat) (m : mtsynth) : mtsynth := { m with transpose := b }

/-- Assignment to `mt->initialReverbLength`. -/
def setReverbLength (x : ℚ) (m : mtsynth) : mtsynth := { m with initialReverbLength := x }

/-- Assignment to `mt->initialReverbRoomSize`. -/
def setReverbRoomSize (x : ℚ) (m : mtsynth) : mtsynth := { m with initialReverbRoomSize := x }

/-- Assignment to `mt->ch[ch].initial_pan`. -/
def setInitialPan (ch b : Nat) (m : mtsynth) : mtsynth :=
  { m with initial_pan := Function.update m.initial_pan ch b }

/-- Assignment to `mt->ch[ch].initial_vol`. -/
def setInitialVol (ch b : Nat) (m : mtsynth) : mtsynth :=
  { m with initial_vol := Function.update m.initial_vol ch b }

/-- Assignment to `mt->ch[ch].initial_reverb`. -/
def setInitialReverb (ch b : Nat) (m : mtsynth) : mtsynth :=
  { m with initial_reverb := Function.update m.initial_reverb ch b }

/-- `readFromMemory(mt, (char *)&mt->instrumentCount, 1, data)` (line 1733): the
byte `b` replaces the low byte of the counter (little-endian); the higher bytes
of the counter stay. -/
def setInstrumentCount (b : Nat) (m : mtsynth) : mtsynth :=
  { m with instrumentCount := m.instrumentCount / 256 * 256 + b }

/-- Locals of `mt_loadSongFromMemory` together with the engine. -/
structure Loader where
  mt : mtsynth
  temp : Nat
  nbOrd : Nat
  nbRow : Nat

/-- `readFromMemory(mt, (char *)&temp, 1, data)`. -/
def readTemp (mem : Nat → Nat) (s : Loader) : Loader :=
  if s.mt.readSeek ≥ s.mt.totalFileSize then s
  else { s with temp := mem s.mt.readSeek, mt := advance s.mt 1 }

/-- `readFromMemory` of `temp` bytes into a character array holding the C
string `old`, followed by `array[temp] = 0`; the result is the new C string and
the engine. (The capacity of the array is not represented.) -/
def readText (mem : Nat → Nat) (s : Loader) (old : List Nat) : List Nat × mtsynth :=
  if s.mt.readSeek ≥ s.mt.totalFileSize then (old.take s.temp, s.mt)
  else (cString (memBytes mem s.mt.readSeek s.temp), advance s.mt s.temp)

/-- One length-prefixed text of the loader: the length byte is read into
`temp`, then the text (`get` reads the character array of the engine, `set`
stores the new C string). -/
def loadText (mem : Nat → Nat) (get : mtsynth → List Nat)
    (set : List Nat → mtsynth → mtsynth) (s : Loader) : Loader :=
  let s1 := readTemp mem s
  let r := readText mem s1 (get s1.mt)
  { s1 with mt := set r.1 r.2 }

/-- Lines 1673-1684: the three length-prefixed texts. -/
def loadTexts (mem : Nat → Nat) (s : Loader) : Loader :=
  let s1 := loadText mem (fun m => m.songName) setSongName s
  let s2 := loadText mem (fun m => m.author) setAuthor s1
  loadText mem (fun m => m.comments) setComments s2

/-- `readFromMemory` of one byte into a field of the engine: `set b` stores the
byte `b`. -/
def readField (mem : Nat → Nat) (set : Nat → mtsynth → mtsynth) (mt : mtsynth) : mtsynth :=
  if mt.readSeek ≥ mt.totalFileSize then mt else set (mem mt.readSeek) (advance mt 1)

/-- Lines 1689-1707: tempo, divisor, global volume, transpose and the two reverb
bytes. -/
def loadGlobals (mem : Nat → Nat) (s : Loader) : Loader :=
  let m1 := readField mem setInitialTempo s.mt
  let m2 := setInitialTempo (max 1 m1.initial_tempo) m1
  let m3 := readField mem setDiviseur m2
  let m4 := setDiviseur (clampN m3.diviseur 1 32) m3
  let m5 := readField mem setGlobalVolume m4
  let m6 := mt_setVolume m5 m5._globalVolume
  let m7 := readField mem setTranspose m6
  let s1 := readTemp mem { s with mt := m7 }
  let s2 : Loader := { s1 with mt := setReverbLength ((s1.temp : ℚ) / 160) s1.mt }
  let s3 := readTemp mem s2
  { s3 with mt := setReverbRoomSize ((s3.temp : ℚ) / 160) s3.mt }

/-- Body of the channel loop of the loader (lines 1709-1719). -/
def loadChannel (mem : Nat → Nat) (ch : Nat) (mt : mtsynth) : mtsynth :=
  let m1 := readField mem (setInitialPan ch) mt
  let m2 := readField mem (setInitialVol ch) m1
  let m3 := setInitialVol ch (min (m2.initial_vol ch) 99) m2
  let m4 := readField mem (setInitialReverb ch) m3
  setInitialReverb ch (min (m4.initial_reverb ch) 99) m4

/-- `readFromMemory` of `sizeof(Cell) * patternSize[i] * FM_ch` bytes into
`mt->pattern[i]` (line 1730). -/
def readPattern (mem : Nat → Nat) (i : Nat) (mt : mtsynth) : mtsynth :=
  if mt.readSeek ≥ mt.totalFileSize then mt
  else
    { advance mt (5 * mt.patternSize i * FM_ch) with
      pattern := fun o j ch =>
        if o = i ∧ j < mt.patternSize i ∧ ch < FM_ch then
          readCell mem (mt.readSeek + 5 * (FM_ch * j + ch))
        else mt.pattern o j ch }

/-- `readFromMemory(mt, (char *)&nbRow, sizeof(nbRow), data)`. -/
def readNbRow (mem : Nat → Nat) (s : Loader) : Loader :=
  if s.mt.readSeek ≥ s.mt.totalFileSize then s
  else { s with nbRow := mem s.mt.readSeek, mt := advance s.mt 1 }

/-- `readFromMemory(mt, (char *)&nbOrd, sizeof(nbOrd), data)`. -/
def readNbOrd (mem : Nat → Nat) (s : Loader) : Loader :=
  if s.mt.readSeek ≥ s.mt.totalFileSize then s
  else { s with nbOrd := mem s.mt.readSeek, mt := advance s.mt 1 }

/-- Body of the pattern loop of the loader (lines 1726-1730). -/
def loadPattern (mem : Nat → Nat) (i : Nat) (s : Loader) : Loader :=
  let s1 := readNbRow mem s
  { s1 with mt := readPattern mem i (mt_resizePattern s1.mt i (max 1 s1.nbRow)) }

/-- Lines 1721-1731: the pattern count and the patterns. -/
def loadPatterns (mem : Nat → Nat) (s : Loader) : Loader :=
  let s1 := readNbOrd mem s
  forLoop s1.nbOrd (loadPattern mem) { s1 with mt := mt_resizePatterns s1.mt s1.nbOrd }

/-- `readFromMemory` of `sizeof(fm_instrument) * instrumentCount` bytes into
`mt->instrument` (line 1745). -/
def readInstruments (L : InstrLayout) (mem : Nat → Nat) (mt : mtsynth) : mtsynth :=
  if mt.readSeek ≥ mt.totalFileSize then mt
  else
    { advance mt (L.size * mt.instrumentCount) with
      instrument := fun k b =>
        if k < mt.instrumentCount ∧ b < L.size then mem (mt.readSeek + L.size * k + b)
        else mt.instrument k b }

/-- Lines 1736-1739: a song without instrument gets one default instrument. -/
def ensureInstrument (L : InstrLayout) (heap : Nat → Nat → Nat) (mt : mtsynth) : mtsynth :=
  if mt.instrumentCount = 0 ∨ mt.instrumentCount > 255 then
    mt_resizeInstrumentList L heap mt.instrumentCount mt 1
  else mt

/-- Lines 1740-1743: a song without pattern gets one empty pattern. -/
def ensurePattern (mt : mtsynth) : mtsynth :=
  if mt.patternCount = 0 then mt_resizePatterns mt 1 else mt

/-- Lines 1733-1745: the instrument count and the instruments. -/
def loadInstruments (L : InstrLayout) (g : Indeterminate) (mem : Nat → Nat) (mt : mtsynth) :
    mtsynth :=
  let m1 := readField mem setInstrumentCount mt
  let m2 := mt_resizeInstrumentList L g.heap mt.instrumentCount m1 m1.instrumentCount
  readInstruments L mem (ensurePattern (ensureInstrument L g.heap m2))

/-- Lines 1670-1671: `mt->order = mt->row = 0; mt_patternClear(mt);`. -/
def clearStage (s : Loader) : Loader :=
  { s with mt := mt_patternClear { s.mt with order := 0, row := 0 } }

/-- Lines 1709-1719: the channel loop of the loader. -/
def loadChannels (mem : Nat → Nat) (s : Loader) : Loader :=
  { s with mt := forLoop FM_ch (loadChannel mem) s.mt }

/-- Lines 1670-1719 of `mt_loadSongFromMemory`: everything up to the channels. -/
def loadHead (mem : Nat → Nat) (s : Loader) : Loader :=
  loadChannels mem (loadGlobals mem (loadTexts mem (clearStage s)))

/-- Everything `mt_loadSongFromMemory` does between the version check and the
checksum (lines 1670-1745). -/
def loadBody (L : InstrLayout) (g : Indeterminate) (mem : Nat → Nat) (s : Loader) : mtsynth :=
  loadInstruments L g mem (loadPatterns mem (loadHead mem s)).mt

/-- Lines 1747-1757: the number of errors after the checksum has been read and
compared; a checksum that cannot be read counts as an error whatever the
comparison of the uninitialised variable gives. -/
def checksumFails (mem : Nat → Nat) (mt : mtsynth) : Bool :=
  if mt.readSeek ≥ mt.totalFileSize then true
  else decide (readLe32 mem mt.readSeek ≠ adler32 (memBytes mem 0 (mt.totalFileSize - 4)))

/-- `mt_instrumentRecovery(&mt->instrument[i])` for every `i < instrumentCount`
(lines 1762-1765), on the bytes of the slots. -/
def recoverInstruments (L : InstrLayout) (mt : mtsynth) : mtsynth :=
  { mt with
    instrument := fun k =>
      if k < mt.instrumentCount then
        L.store (mt_instrumentRecovery (L.view (mt.instrument k))) (mt.instrument k)
      else mt.instrument k }

/-- The read of the checksum (line 1749): four bytes further, unless the read
position is at or past the end of the buffer. -/
def skipChecksum (mt : mtsynth) : mtsynth :=
  if mt.readSeek ≥ mt.totalFileSize then mt else advance mt 4

/-- The function `mt_loadSongFromMemory` (lines 1649-1772) on the buffer of
`len` bytes at `mem`. The calls `mt_initReverb` and `ch[ch].cInstr = 0` act on
the audio runtime only; the final `mt_buildStateTable` leaves
`channelStatesDone = 1`, its table is `mt_buildStateTable` of the result. -/
def mt_loadSongFromMemory (L : InstrLayout) (g : Indeterminate) (mt : mtsynth)
    (mem : Nat → Nat) (len : Nat) : LoadCode × mtsynth :=
  let mt1 : mtsynth := { mt with totalFileSize := len }
  if len < 3 * FM_ch + 6 then (LoadCode.two, mt1)
  else
    let s1 := readTemp mem ⟨{ mt1 with readSeek := 5 }, g.temp, g.nbOrd, g.nbRow⟩
    if s1.temp ≠ MUDTRACKER_VERSION then (LoadCode.MT_ERR_FILEVERSION, s1.mt)
    else
      let m := loadBody L g mem s1
      if checksumFails mem m then
        (LoadCode.MT_ERR_FILECORRUPTED, recoverInstruments L (skipChecksum m))
      else (LoadCode.ok, { skipChecksum m with channelStatesDone := true })

/-- The locals and the engine of `mt_loadSongFromMemory` once the version byte
has been read and accepted (line 1668). -/
def afterVersion (g : Indeterminate) (mt : mtsynth) (len : Nat) : Loader :=
  ⟨{ mt with totalFileSize := len, readSeek := 6 }, MUDTRACKER_VERSION, g.nbOrd, g.nbRow⟩

/-- C `round` of a non-negative value, converted to `unsigned char`. -/
def roundByte (x : ℚ) : Nat := (⌊x + 1 / 2⌋.toNat) % 256

/-- A length-prefixed text of the song file: `temp = strlen(text)` as
`unsigned char`, then `temp` bytes of the text (lines 1463-1473). -/
def textBytes (text : List Nat) : List Nat :=
  [text.length % 256] ++ text.take (text.length % 256)

/-- The bytes of pattern `i`: `patternSize[i]` rows of 24 cells (line 1500). -/
def patternBytes (mt : mtsynth) (i : Nat) : List Nat :=
  (List.range (mt.patternSize i)).flatMap
    (fun j => (List.range FM_ch).flatMap (fun ch => cellBytes (mt.pattern i j ch)))

/-- The bytes of instrument slot `k`. -/
def slotBytes (L : InstrLayout) (mt : mtsynth) (k : Nat) : List Nat :=
  (List.range L.size).map (mt.instrument k)

/-- The loop of `mt_saveSong` that sets `version = MUDTRACKER_VERSION` in every
instrument (lines 1505-1508); `version` is the byte at offset 5 of the struct
(`magic[4]`, `dummy`, `version`, then `name`, see lines 2129-2138). -/
def stampVersion (mt : mtsynth) : mtsynth :=
  { mt with
    instrument := fun k =>
      if k < mt.instrumentCount then Function.update (mt.instrument k) 5 MUDTRACKER_VERSION
      else mt.instrument k }

/-- The three bytes of a channel in the song file (lines 1488-1490). -/
def channelBytes (mt : mtsynth) (ch : Nat) : List Nat :=
  [mt.initial_pan ch, mt.initial_vol ch, mt.initial_reverb ch]

/-- The bytes of a pattern in the song file: its size, then its rows (lines
1498-1500). -/
def patternRecord (mt : mtsynth) (i : Nat) : List Nat :=
  [mt.patternSize i % 256] ++ patternBytes mt i

/-- The part of a song file that follows the version byte, followed by `rest`. -/
def songTail (L : InstrLayout) (mt : mtsynth) (rest : List Nat) : List Nat :=
  textBytes mt.songName ++ (textBytes mt.author ++ (textBytes mt.comments ++
    (mt.initial_tempo :: mt.diviseur :: mt._globalVolume :: mt.transpose ::
      roundByte (mt.initialReverbLength * 160) :: roundByte (mt.initialReverbRoomSize * 160) ::
      ((List.range FM_ch).flatMap (channelBytes mt) ++
        ((mt.patternCount % 256) :: ((List.range mt.patternCount).flatMap (patternRecord mt) ++
          ((mt.instrumentCount % 256) ::
            ((List.range mt.instrumentCount).flatMap (slotBytes L (stampVersion mt)) ++ rest))))))))

/-- Everything `mt_saveSong` writes before the checksum (lines 1457-1510). -/
def songBytes (L : InstrLayout) (magic : List Nat) (mt : mtsynth) : List Nat :=
  magic ++ [0, MUDTRACKER_VERSION]
    ++ textBytes mt.songName ++ textBytes mt.author ++ textBytes mt.comments
    ++ [mt.initial_tempo, mt.diviseur, mt._globalVolume, mt.transpose,
        roundByte (mt.initialReverbLength * 160), roundByte (mt.initialReverbRoomSize * 160)]
    ++ (List.range FM_ch).flatMap (channelBytes mt)
    ++ [mt.patternCount % 256]
    ++ (List.range mt.patternCount).flatMap (patternRecord mt)
    ++ [mt.instrumentCount % 256]
    ++ (List.range mt.instrumentCount).flatMap (slotBytes L (stampVersion mt))

/-- A song file with the given four magic bytes: the song bytes followed by
their Adler-32 checksum (lines 1512-1521). -/
def songFile (L : InstrLayout) (magic : List Nat) (mt : mtsynth) : List Nat :=
  songBytes L magic mt ++ le32 (adler32 (songBytes L magic mt))

/-- The function `mt_saveSong` (lines 1450-1526), the file being opened and
written without error: the engine after the call and the bytes of the file,
which starts with the magic `MDTS`. -/
def mt_saveSong (L : InstrLayout) (mt : mtsynth) : mtsynth × List Nat :=
  (stampVersion mt, songFile L [77, 68, 84, 83] mt)

/-- The memory from the read position of the engine holds the bytes `rest`, and
`rest` ends where the buffer ends. -/
def Tail (mem : Nat → Nat) (mt : mtsynth) (rest : List Nat) : Prop :=
  (∀ k, k < rest.length → mem (mt.readSeek + k) = rest.getD k 0) ∧
  mt.totalFileSize = mt.readSeek + rest.length

/-- The fields the early stages of the loader leave alone: the size of the
buffer, the pattern count and the instrument count. -/
def kept (mt : mtsynth) : Nat × Nat × Nat :=
  (mt.totalFileSize, mt.patternCount, mt.instrumentCount)

/-- The fields no pattern operation touches. -/
def fixedPart (mt : mtsynth) : Nat × Nat × Nat × (Nat → Nat → Nat) :=
  (mt.readSeek, mt.totalFileSize, mt.instrumentCount, mt.instrument)

/-- The pattern data of the engine. -/
def patternPart (mt : mtsynth) : Nat × (Nat → Nat) × (Nat → Nat → Nat → Cell) :=
  (mt.patternCount, mt.patternSize, mt.pattern)

/-- The read position and the size of the buffer. -/
def cursor (mt : mtsynth) : Nat × Nat := (mt.readSeek, mt.totalFileSize)

/-- An assignment that leaves the read position, the size of the buffer, the
pattern count and the instrument count of the engine alone. -/
def Inert (f : mtsynth → mtsynth) : Prop :=
  ∀ m, (f m).readSeek = m.readSeek ∧ (f m).totalFileSize = m.totalFileSize ∧
    (f m).patternCount = m.patternCount ∧ (f m).instrumentCount = m.instrumentCount

/-- An example layout of `fm_instrument` of 40 bytes: the magic at offsets 0..3,
`dummy` at 4, `version` at 5, the name at 6..29 and the instrument volume at 30;
the other fields are not mapped. -/
def demoLayout : InstrLayout where
  size := 40
  view := fun raw =>
    { zeroInstrument with
      magic := [raw 0, raw 1, raw 2, raw 3]
      dummy := raw 4
      version := raw 5
      name := (List.range 24).map (fun k => raw (6 + k))
      volume := raw 30 }
  store := fun i raw b =>
    if b < 4 then i.magic.getD b 0
    else if b = 4 then i.dummy.toNat
    else if b = 5 then i.version.toNat
    else if b < 30 then i.name.getD (b - 6) 0
    else if b = 30 then i.volume.toNat
    else raw b

/-- The demo song with one default instrument, ready to be saved. -/
def savedSong : mtsynth :=
  { demoSong with instrumentCount := 1, instrument := fun _ => defaultSlot demoLayout }

/-- Indeterminate memory that happens to be zero. -/
def zeroGarbage : Indeterminate := ⟨0, 0, 0, fun _ _ => 0⟩

/-- A song without pattern that holds one default instrument. -/
def emptySong : mtsynth :=
  { createdEngine with instrumentCount := 1, instrument := fun _ => defaultSlot demoLayout }

/-- The song `savedSong` with the transpose byte 176. -/
def tunedSong : mtsynth := { savedSong with transpose := 176 }

/-- A buffer of 496 bytes: the song bytes of `tunedSong`, then the four bytes of
the Adler-32 checksum of these song bytes followed by one zero byte, then one
more byte. -/
def trailingFile : List Nat :=
  songBytes demoLayout [77, 68, 84, 83] tunedSong ++
    (le32 (adler32 (songBytes demoLayout [77, 68, 84, 83] tunedSong ++ [0])) ++ [0])

/-- A buffer of 78 zero bytes; its version byte is 0. -/
def zeroFile : List Nat := List.replicate 78 0

/-- A buffer of 78 bytes, all zero but the version byte 1. -/
def shortFile : List Nat := List.replicate 5 0 ++ (1 :: List.replicate 72 0)

/-- The stores of `mt_write` into the addressed cell (lines 2455-2474): a field
of `data` other than 255 replaces the field of the cell. -/
def writeCell (current data : Cell) : Cell :=
  { note := if data.note ≠ 255 then data.note else current.note
    instr := if data.instr ≠ 255 then data.instr else current.instr
    vol := if data.vol ≠ 255 then data.vol else current.vol
    fx := if data.fx ≠ 255 then data.fx else current.fx
    fxdata := if data.fxdata ≠ 255 then data.fxdata else current.fxdata }

/-- The function `mt_write` (lines 2448-2477): the return value and the engine
after the call. -/
def mt_write (mt : mtsynth) (pattern row channel : Nat) (data : Cell) : Nat × mtsynth :=
  if pattern ≥ mt.patternCount ∨ row ≥ mt.patternSize pattern ∨ channel ≥ FM_ch then (0, mt)
  else
    (1, { mt with
          pattern := fun o j c =>
            if o = pattern ∧ j = row ∧ c = channel then writeCell (mt.pattern o j c) data
            else mt.pattern o j c
          channelStatesDone :=
            if data.fx ≠ 255 ∨ data.fxdata ≠ 255 then false else mt.channelStatesDone })

/-- The value of the C expression `(int)mt->patternSize[i]`: inside the array it
is the size of pattern `i`; outside, the read is out of bounds and yields
whatever the memory holds there, `outside i`. -/
def sizeRead (mt : mtsynth) (outside : Int → Int) (i : Int) : Int :=
  if 0 ≤ i ∧ i < (mt.patternCount : Int) then (mt.patternSize i.toNat : Int) else outside i

/-- The value of `clamp(order, 0, mt->patternCount - 1)` (line 1426). The type of
`patternCount` is declared in the header; `countUnsigned` says whether it is
`unsigned` (then `patternCount - 1` and the comparison `order > patternCount - 1`
are computed on 32-bit unsigned values) or `int`. -/
def clampOrder (countUnsigned : Bool) (order : Int) (count : Nat) : Int :=
  if countUnsigned then
    if order % 4294967296 > ((count : Int) - 1) % 4294967296 then
      ((count : Int) - 1) % 4294967296
    else if order < 0 then 0 else order
  else clamp order 0 ((count : Int) - 1)

/-- The function `mt_initChannels` (lines 342-366) on the engine: position
outside the song, nothing happens; otherwise the tempo is taken from the state
table (the other assignments go to the audio runtime). -/
def mt_initChannels (cs : StateTable) (mt : mtsynth) : mtsynth :=
  if mt.order ≥ mt.patternCount ∨ mt.row ≥ mt.patternSize mt.order then mt
  else { mt with tempo := (cs mt.order mt.row).tempo }

/-- The function `mt_setPosition` (lines 1419-1431): the engine after the call
and the indices at which `mt->patternSize` has been read, in order. `cutNotes`
only selects calls that act on the voices (`mt_stopNote`, `mt_stopSound`), so
it does not occur; `frameTimerFx` belongs to the player state. The fields
`order` and `row` are unsigned. -/
def mt_setPosition (countUnsigned : Bool) (outside : Int → Int) (cs : StateTable)
    (mt : mtsynth) (order row : Int) : mtsynth × List Int :=
  let mt1 : mtsynth :=
    { mt with order := ((clampOrder countUnsigned order mt.patternCount) % 4294967296).toNat }
  let mt2 : mtsynth :=
    { mt1 with row := ((clamp row 0 (sizeRead mt outside order - 1)) % 4294967296).toNat }
  let mt3 : mtsynth := { mt2 with frameTimer := 0 }
  if mt3.playing then
    (mt_initChannels cs mt3,
      if mt3.order ≥ mt3.patternCount then [order] else [order, (mt3.order : Int)])
  else (mt3, [order])

/-- The 32-bit two's-complement representation of an `int`. -/
def u32 (v : Int) : Nat := (v % 4294967296).toNat

/-- Conversion of a floating-point value to `int`: truncation towards zero. -/
def truncate (x : ℚ) : Int := if x ≥ 0 then ⌊x⌋ else ⌈x⌉

/-- Line 1305 / 1321: `int val = clamp(rendered[i]*256, -8388608, 8388607)`, in
exact arithmetic. -/
def sample24 (rendered : ℚ) : Int :=
  truncate (if rendered * 256 > 8388607 then 8388607
    else if rendered * 256 < -8388608 then -8388608 else rendered * 256)

/-- `(unsigned char)(val & 0xff)`. -/
def byte0 (val : Int) : Nat := (u32 val &&& 255) % 256

/-- `(unsigned char)((val & 0x00ff00) >> 8)`. -/
def byte1 (val : Int) : Nat := ((u32 val &&& 65280) >>> 8) % 256

/-- `(unsigned char)((val & 0x00ff0000) >> 16)`. -/
def byte2 (val : Int) : Nat := ((u32 val &&& 16711680) >>> 16) % 256

/-- The bytes the 24-bit branch of `mt_render` writes for one sample `val`
(lines 1297-1330), in memory order: three bytes, and with `MT_RENDER_PAD32` a
fourth one. -/
def write24 (pad32 : Bool) (val : Int) : List Nat :=
  if pad32 then [byte0 val, byte1 val, byte2 val, if val < 0 then 255 else 0]
  else [byte0 val, byte1 val, byte2 val]

/-- The 24-bit branch of `mt_render` on the rendered samples. -/
def render24 (pad32 : Bool) (rendered : List ℚ) : List Nat :=
  rendered.flatMap (fun r => write24 pad32 (sample24 r))

/-- The integer a little-endian two's-complement word of `bytes.length` bytes
stands for. -/
def decodeLe (bytes : List Nat) : Int :=
  let n : Nat := bytes.foldr (fun b acc => b + 256 * acc) 0
  if n ≥ 256 ^ bytes.length / 2 then (n : Int) - (256 ^ bytes.length : Nat) else n

/-- The demo song while it plays, positioned at its start. -/
def playingSong : mtsynth := { demoSong with playing := true, tempo := 120 }

/-- Size of the table `expVol` (line 50). -/
def expVolSize : Nat := 100

/-- The reverb of the engine: the fields of `mtsynth` that `mt_initReverb` and
the effect `S` assign, and `sampleRateRatio`. -/
structure Reverb where
  reverbLength : ℚ
  reverbRoomSize : ℚ
  sampleRateRatio : ℚ
  revBufSize : Nat
  revBuf : Nat → ℚ
  reverbPhaseL : Nat
  reverbPhaseL2 : Nat
  reverbPhaseR : Nat
  reverbPhaseR2 : Nat
  allpassPhaseL : Nat
  allpassPhaseR : Nat
  allpassPhaseL2 : Nat
  allpassPhaseR2 : Nat
  reverbMod1 : Nat
  reverbMod2 : Nat
  reverbMod3 : Nat
  reverbMod4 : Nat
  allpassMod : Nat
  allpassMod2 : Nat
  revOffset2 : Nat
  revOffset3 : Nat
  revOffset4 : Nat
  revOffset5 : Nat
  revOffset6 : Nat
  revOffset7 : Nat

/-- Conversion of a non-negative floating-point value to `unsigned`. -/
def toUnsigned (x : ℚ) : Nat := ⌊x⌋.toNat

/-- The function `mt_initReverb` (lines 240-284), `realloc` succeeding; the
delay constants are the macros of lines 35-40. -/
def mt_initReverb (rv : Reverb) (roomSize : ℚ) : Reverb :=
  let mod1 := toUnsigned (roomSize * (8 / 5) * 4096 / rv.sampleRateRatio)
  let mod2 := toUnsigned (roomSize * (3 / 2) * 2485 / rv.sampleRateRatio)
  let mod3 := toUnsigned (roomSize * (8 / 5) * 3801 / rv.sampleRateRatio)
  let mod4 := toUnsigned (roomSize * (3 / 2) * 2333 / rv.sampleRateRatio)
  let mod5 := toUnsigned (roomSize * ((3 / 2) * 2508) / rv.sampleRateRatio)
  let mod6 := toUnsigned (roomSize * ((3 / 2) * 1170) / rv.sampleRateRatio)
  { reverbLength := rv.reverbLength
    reverbRoomSize := roomSize
    sampleRateRatio := rv.sampleRateRatio
    revBufSize := mod1 + mod2 + mod3 + mod4 + 2 * (mod5 + mod6)
    revBuf := fun _ => 0
    reverbPhaseL := 0
    reverbPhaseL2 := 0
    reverbPhaseR := 0
    reverbPhaseR2 := 0
    allpassPhaseL := 0
    allpassPhaseR := 0
    allpassPhaseL2 := 0
    allpassPhaseR2 := 0
    reverbMod1 := mod1
    reverbMod2 := mod2
    reverbMod3 := mod3
    reverbMod4 := mod4
    allpassMod := mod5
    allpassMod2 := mod6
    revOffset2 := mod1 + mod2
    revOffset3 := mod1 + mod2 + mod3
    revOffset4 := mod1 + mod2 + mod3 + mod4
    revOffset5 := mod1 + mod2 + mod3 + mod4 + mod5
    revOffset6 := mod1 + mod2 + mod3 + mod4 + mod5 + mod5
    revOffset7 := mod1 + mod2 + mod3 + mod4 + mod5 + mod5 + mod6 }

/-- A call of the voice interface made by the player. -/
inductive VoiceCall
  | mt_playNote (instrument note ch volume : Nat)
  | mt_stopNote (ch : Nat)
  deriving DecidableEq, Repr

/-- The fields of `mt->ch[ch]` the effects of the player work with. The last
three are written by `mt_playNote` and `mt_stopNote` only, which the player
model records as calls; here they hold the values at the start of the step. -/
structure fm_channel where
  fxActive : Nat
  fxData : Nat
  arpTimer : Int
  arpIter : Nat
  baseArpeggioNote : Nat
  note : Nat
  instrNumber : Nat
  untransposedNote : Nat
  deriving DecidableEq, Repr

/-- The player: the engine, the reverb, the sub-tick timer, the channels, the
calls of the voice interface made so far and the indices at which the effects
`M` and `R` have read the table `expVol`. -/
structure Player where
  mt : mtsynth
  rv : Reverb
  frameTimerFx : ℚ
  ch : Nat → fm_channel
  calls : List VoiceCall
  volReads : List Nat

/-- Assignment to `mt->ch[ch]`. -/
def setChannel (p : Player) (ch : Nat) (c : fm_channel) : Player :=
  { p with ch := Function.update p.ch ch c }

/-- Record a call of the voice interface. -/
def call (p : Player) (v : VoiceCall) : Player := { p with calls := p.calls ++ [v] }

/-- Lines 389-412: the note action of the row event on channel `ch` for the cell
`row`. The volume-only change acts on the voice. (`'D'` is 68, `'G'` is 71.) -/
def noteAction (ch : Nat) (row : Cell) (p : Player) : Player :=
  if row.note = 128 ∧ row.fx ≠ 68 then call p (VoiceCall.mt_stopNote ch)
  else if row.note ≠ 255 then
    if row.fx ≠ 68 ∧ (row.fx ≠ 71 ∨ (row.fx = 71 ∧ (p.ch ch).note = 255)) then
      setChannel (call p (VoiceCall.mt_playNote row.instr row.note ch row.vol)) ch
        { p.ch ch with baseArpeggioNote := row.note }
    else p
  else p

/-- The action of effect `S` (lines 609-618) on the reverb. -/
def effectS (fxData : Nat) (rv : Reverb) : Reverb :=
  if fxData ≤ 40 then { rv with reverbLength := 1 / 2 + (fxData : ℚ) * (1 / 80) }
  else mt_initReverb rv (((clamp ((fxData : Int) - 40) 1 40 : Int) : ℚ) * (1 / 40))

/-- Lines 451-453: arm a repeated effect. -/
def armEffect (ch fx : Nat) (p : Player) : Player :=
  setChannel p ch { p.ch ch with arpTimer := 0, arpIter := 0, fxActive := fx }

/-- Lines 455-462: effect `Q`. -/
def armRetrigger (ch fx : Nat) (p : Player) : Player :=
  if (p.ch ch).fxData > 0 then
    setChannel p ch
      { p.ch ch with arpTimer := ((24 / (p.ch ch).fxData : Nat) : Int), arpIter := 0, fxActive := fx }
  else p

/-- Assignment `mt->tempo = t`. -/
def setEngineTempo (t : Nat) (p : Player) : Player := { p with mt := { p.mt with tempo := t } }

/-- Assignment `mt->tempOrder = o`. -/
def setTempOrder (o : Int) (p : Player) : Player := { p with mt := { p.mt with tempOrder := o } }

/-- Assignment `mt->tempRow = r`. -/
def setTempRow (r : Int) (p : Player) : Player := { p with mt := { p.mt with tempRow := r } }

/-- A read of `expVol[i]` by the effects `M` and `R`. -/
def readExpVol (i : Nat) (p : Player) : Player := { p with volReads := p.volReads ++ [i] }

/-- The `switch (row->fx)` of the row event (lines 417-627) on channel `ch`.
The effects `H`, `J`, `K`, `X` and the portamento target of `G` act on the
voice only; of `M` and `R` the table read is recorded, of `I` the arming. The
letters are ASCII codes: `A` 65, `B` 66, `C` 67, `D` 68, `E` 69, `F` 70, `G` 71,
`I` 73, `M` 77, `P` 80, `Q` 81, `R` 82, `S` 83, `T` 84, `W` 87. -/
def rowEffect (ch : Nat) (row : Cell) (p : Player) : Player :=
  if row.fx = 66 then setTempOrder ((p.ch ch).fxData : Int) p
  else if row.fx = 67 then setTempRow ((p.ch ch).fxData : Int) p
  else if row.fx = 71 ∨ row.fx = 65 ∨ row.fx = 68 ∨ row.fx = 69 ∨ row.fx = 70 ∨ row.fx = 87
      ∨ row.fx = 80 then armEffect ch row.fx p
  else if row.fx = 81 then armRetrigger ch row.fx p
  else if row.fx = 73 then setChannel p ch { p.ch ch with fxActive := 73 }
  else if row.fx = 77 then readExpVol (p.ch ch).fxData p
  else if row.fx = 82 then readExpVol (p.ch ch).fxData p
  else if row.fx = 83 then { p with rv := effectS (p.ch ch).fxData p.rv }
  else if row.fx = 84 then setEngineTempo (max 1 (p.ch ch).fxData) p
  else p

/-- Line 387: `mt->ch[ch].fxActive = 0`. -/
def clearFx (ch : Nat) (p : Player) : Player :=
  setChannel p ch { p.ch ch with fxActive := 0 }

/-- Line 416: `mt->ch[ch].fxData = row->fxdata`. -/
def loadFxData (ch d : Nat) (p : Player) : Player :=
  setChannel p ch { p.ch ch with fxData := d }

/-- Body of the channel loop of the row event (lines 386-627). -/
def rowChannel (ch : Nat) (p : Player) : Player :=
  rowEffect ch (p.mt.pattern p.mt.order p.mt.row ch)
    (loadFxData ch (p.mt.pattern p.mt.order p.mt.row ch).fxdata
      (noteAction ch (p.mt.pattern p.mt.order p.mt.row ch) (clearFx ch p)))

/-- The row event of the render loop (lines 384-629). -/
def rowEvent (p : Player) : Player := forLoop FM_ch rowChannel p

/-- The threshold of the sub-tick timer,
`0.005*(60.0 / diviseur) * sampleRate / tempo` (line 669). -/
def fxThreshold (mt : mtsynth) : ℚ :=
  (1 / 200) * (60 / (mt.diviseur : ℚ)) * (mt.sampleRate : ℚ) / (mt.tempo : ℚ)

/-- Lines 676-687: a sub-tick of the arpeggio (effect `A`). -/
def fxArpeggio (ch : Nat) (p : Player) : Player :=
  let c := p.ch ch
  if c.arpTimer + 1 ≥ 8 then
    let iter := (c.arpIter + 1) % 3
    setChannel
      (call p (VoiceCall.mt_playNote 255
        (if iter = 0 then c.baseArpeggioNote
          else if iter = 1 then c.baseArpeggioNote + c.fxData % 16
          else c.baseArpeggioNote + c.fxData / 16) ch 255))
      ch { c with arpTimer := c.arpTimer + 1 - 8, arpIter := iter }
  else setChannel p ch { c with arpTimer := c.arpTimer + 1 }

/-- Lines 688-698: a sub-tick of the retrigger (effect `Q`, armed with
`fxData > 0` only). -/
def fxRetrigger (ch : Nat) (p : Player) : Player :=
  let c := p.ch ch
  if c.arpTimer + 1 ≥ ((24 / c.fxData : Nat) : Int) ∧ c.arpIter < c.fxData then
    setChannel (call p (VoiceCall.mt_playNote c.instrNumber c.untransposedNote ch 255))
      ch { c with arpTimer := c.arpTimer + 1 - ((24 / c.fxData : Nat) : Int),
                  arpIter := c.arpIter + 1 }
  else setChannel p ch { c with arpTimer := c.arpTimer + 1 }

/-- Line 701: `int delay = frameTimer / (rowLength / 8)`. -/
def delaySteps (mt : mtsynth) : Int := truncate ((mt.frameTimer : ℚ) / (rowLength mt / 8))

/-- Lines 699-713: a sub-tick of the note delay (effect `D`). -/
def fxDelay (ch : Nat) (p : Player) : Player :=
  if delaySteps p.mt ≥ ((p.ch ch).fxData : Int) then
    let row := p.mt.pattern p.mt.order p.mt.row ch
    let p1 :=
      if row.note < 127 then call p (VoiceCall.mt_playNote row.instr row.note ch row.vol)
      else if row.note = 128 then call p (VoiceCall.mt_stopNote ch)
      else p
    setChannel p1 ch { p1.ch ch with fxActive := 0 }
  else p

/-- The `switch (mt->ch[ch].fxActive)` of the sub-tick handler (lines 674-753).
The effects `E`, `F`, `G`, `N`, `P` act on the voice, `W` on the float
`globalVolume`, `I` does nothing. -/
def fxChannel (ch : Nat) (p : Player) : Player :=
  if (p.ch ch).fxActive = 65 then fxArpeggio ch p
  else if (p.ch ch).fxActive = 81 then fxRetrigger ch p
  else if (p.ch ch).fxActive = 68 then fxDelay ch p
  else p

/-- The sub-tick part of one pass of the render loop (lines 669-757): what the
handler does to the channels when it runs. The timer is kept in exact arithmetic
here; its rounding and the output loop are modelled by `playerPass` and
`renderLoop`. -/
def fxTick (p : Player) : Player :=
  let p1 : Player :=
    if p.frameTimerFx ≥ fxThreshold p.mt then
      { forLoop FM_ch fxChannel p with frameTimerFx := p.frameTimerFx - fxThreshold p.mt }
    else p
  { p1 with frameTimerFx := p1.frameTimerFx + 1 }

/-- A reverb at 48000 Hz with room size 0.55 and length 0.875. -/
def demoReverb : Reverb :=
  mt_initReverb
    { reverbLength := 7 / 8, reverbRoomSize := 0, sampleRateRatio := 1, revBufSize := 0,
      revBuf := fun _ => 0, reverbPhaseL := 0, reverbPhaseL2 := 0, reverbPhaseR := 0,
      reverbPhaseR2 := 0, allpassPhaseL := 0, allpassPhaseR := 0, allpassPhaseL2 := 0,
      allpassPhaseR2 := 0, reverbMod1 := 0, reverbMod2 := 0, reverbMod3 := 0, reverbMod4 := 0,
      allpassMod := 0, allpassMod2 := 0, revOffset2 := 0, revOffset3 := 0, revOffset4 := 0,
      revOffset5 := 0, revOffset6 := 0, revOffset7 := 0 }
    (11 / 20)

/-- A channel at rest: no effect, no note. -/
def idleChannel : fm_channel :=
  { fxActive := 0, fxData := 0, arpTimer := 0, arpIter := 0, baseArpeggioNote := 0,
    note := 255, instrNumber := 255, untransposedNote := 0 }

/-- A song of one pattern of one row that carries, on channels 0 to 5, the
effects `T` 100, `T` 200, `B` 3, `B` 5, `C` 1 and `C` 2, on channel 6 the
effect `M` with parameter 200 and on channel 7 the effect `S` with parameter
41. -/
def tieSong : mtsynth :=
  { createdEngine with
    patternCount := 1
    patternSize := fun _ => 1
    tempo := 120
    playing := true
    pattern := fun o j ch =>
      if o = 0 ∧ j = 0 then
        if ch = 0 then ⟨255, 255, 255, 84, 100⟩
        else if ch = 1 then ⟨255, 255, 255, 84, 200⟩
        else if ch = 2 then ⟨255, 255, 255, 66, 3⟩
        else if ch = 3 then ⟨255, 255, 255, 66, 5⟩
        else if ch = 4 then ⟨255, 255, 255, 67, 1⟩
        else if ch = 5 then ⟨255, 255, 255, 67, 2⟩
        else if ch = 6 then ⟨255, 255, 255, 77, 200⟩
        else if ch = 7 then ⟨255, 255, 255, 83, 41⟩
        else emptyCell
      else emptyCell }

/-- A song of one pattern of one row whose channel 0 carries the note 127 with
the effect `D` and parameter 0, and whose channel 1 carries the note 60 with
the effect `D` and parameter 0. -/
def delaySong : mtsynth :=
  { createdEngine with
    patternCount := 1
    patternSize := fun _ => 1
    tempo := 120
    playing := true
    pattern := fun o j ch =>
      if o = 0 ∧ j = 0 then
        if ch = 0 then ⟨127, 0, 99, 68, 0⟩
        else if ch = 1 then ⟨60, 0, 99, 68, 0⟩
        else emptyCell
      else emptyCell }

/-- A channel with an armed arpeggio on the base note 60 with parameter 0x47,
one sub-tick before its first step. -/
def arpChannel : fm_channel :=
  { fxActive := 65, fxData := 71, arpTimer := 7, arpIter := 0, baseArpeggioNote := 60,
    note := 60, instrNumber := 0, untransposedNote := 60 }

/-- The player of an engine at the start of playback. -/
def startPlayer (mt : mtsynth) : Player :=
  { mt := mt, rv := demoReverb, frameTimerFx := 0, ch := fun _ => idleChannel,
    calls := [], volReads := [] }

/-- The fields of a playing operator (`fm_operator`, `mt->ch[ch].op[op]`) that
the envelope of the control tick works with. `connected` stands for
`connectOut != &mt->noConnect`; `id` is the index that `mt_playNote` stores
next to the pointer `connectOut`. -/
structure fm_operator where
  state : Nat
  env : ℚ
  envCount : Nat
  amp : ℚ
  delay : ℚ
  a : ℚ
  d : ℚ
  h : ℚ
  s : ℚ
  i : ℚ
  r : ℚ
  envLoop : Bool
  connected : Bool
  id : Int
  deriving DecidableEq

/-- Lines 1063-1064 of `mt_playNote`: the output routing of a playing operator
is set from the field `connectOut` of the operator of the instrument. -/
def routeOperator (connectOut : Int) (o : fm_operator) : fm_operator :=
  { o with connected := decide (connectOut ≥ 0), id := connectOut }

/-- The attack step `env += (1.4f - env) * a` with the transition to hold or
decay when the envelope reaches 1 (lines 822-829 and 834-839). -/
def attack (o : fm_operator) (env : ℚ) (stay : Nat) : fm_operator :=
  if env + (7 / 5 - env) * o.a ≥ 1 then
    { o with env := 1, state := if o.h > 0 then 3 else 4 }
  else { o with env := env + (7 / 5 - env) * o.a, state := stay }

/-- End of the decay (lines 851-878): the envelope has reached the sustain
level. -/
def sustain (o : fm_operator) : fm_operator :=
  if o.s < 1 / 1000 then
    if o.envLoop then { o with env := o.s, envCount := 99999999, state := 1 }
    else { o with env := 0, amp := 0, state := 0 }
  else
    { o with env := o.s, envCount := 99999999, state := if o.envLoop then 1 else 5 }

/-- The envelope `switch (o->state)` of the control tick (lines 791-900) for one
operator; `envReset` is the flag of the instrument. The pitch envelope and the
phase reset of the delay state are not represented. -/
def envelope (envReset : Bool) (o : fm_operator) : fm_operator :=
  if o.state = 1 then
    if (o.envCount : ℚ) ≥ o.delay then
      attack { o with envCount := o.envCount + 1 }
        (if o.envCount + 1 ≥ 99999999 then o.s else if envReset then o.i else o.env) 2
    else { o with envCount := o.envCount + 1 }
  else if o.state = 2 then attack o o.env 2
  else if o.state = 3 then
    if (o.envCount : ℚ) ≥ o.h then { o with envCount := o.envCount + 1, state := 4 }
    else { o with envCount := o.envCount + 1 }
  else if o.state = 4 then
    if o.env - (o.env - o.s) * o.d - o.s < 1 / 1000 then sustain o
    else { o with env := o.env - (o.env - o.s) * o.d }
  else if o.state = 6 then
    if o.r ≤ 1 then
      if o.env * o.r < 1 / 1000 then { o with env := 0, amp := 0, state := 0 }
      else { o with env := o.env * o.r }
    else
      if o.env * o.r ≥ 1 then { o with env := 1, state := 5 }
      else { o with env := o.env * o.r }
  else o

/-- The part of a channel the control tick of the envelopes works with, and the
local `opOutUsed` of the tick. -/
structure Voice where
  active : Nat
  currentEnvLevel : ℚ
  envReset : Bool
  op : Nat → fm_operator
  opOutUsed : Nat

/-- Body of the operator loop of the control tick (lines 782-906): the state and
the envelope of the operator `op[o->id]` are added when the output of `o` is
connected, then the envelope of `o` advances. -/
def tickOperator (k : Nat) (v : Voice) : Voice :=
  let v1 : Voice :=
    if (v.op k).connected then
      { v with
        opOutUsed := v.opOutUsed + (v.op (v.op k).id.toNat).state
        currentEnvLevel := v.currentEnvLevel + (v.op (v.op k).id.toNat).env }
    else v
  { v1 with op := Function.update v1.op k (envelope v1.envReset (v1.op k)) }

/-- The control tick of a channel (lines 763-908): nothing for an inactive
channel; otherwise the six operators are visited and `active` becomes
`opOutUsed`. Pan smoothing and LFO are not represented. -/
def controlTick (v : Voice) : Voice :=
  if v.active = 0 then v
  else
    { forLoop 6 tickOperator { v with opOutUsed := 0, currentEnvLevel := 0 } with
      active := (forLoop 6 tickOperator { v with opOutUsed := 0, currentEnvLevel := 0 }).opOutUsed }

/-- The state that the control tick adds for the slot `k`: that of the operator
`op[id]`, after its envelope step of this tick when it comes before `k`, before
its envelope step otherwise; nothing when the slot is not connected. -/
def sampledState (v : Voice) (k : Nat) : Nat :=
  if (v.op k).connected then
    if (v.op k).id.toNat < k then (envelope v.envReset (v.op (v.op k).id.toNat)).state
    else (v.op (v.op k).id.toNat).state
  else 0

/-- An operator at rest. -/
def restOperator : fm_operator :=
  { state := 0, env := 0, envCount := 0, amp := 0, delay := 0, a := 1 / 10, d := 1 / 10,
    h := 0, s := 1 / 2, i := 0, r := 1 / 2, envLoop := false, connected := false, id := -1 }

/-- An active voice whose slot 0 is routed to operator 1 (`connectOut = 1`), the
other slots being unconnected; operator 0 is at rest, operator 1 sustains
(state 5). -/
def crossVoice : Voice :=
  { active := 1, currentEnvLevel := 0, envReset := false, opOutUsed := 0
    op := fun k =>
      if k = 0 then routeOperator 1 restOperator
      else if k = 1 then routeOperator (-1) { restOperator with state := 5, env := 1 / 2 }
      else routeOperator (-1) restOperator }

/-- An active voice whose only connected slot is 0, routed to operator 0, which
is in release (state 6) with an envelope that falls below 0.001 in one tick. -/
def fadingVoice : Voice :=
  { active := 1, currentEnvLevel := 0, envReset := false, opOutUsed := 0
    op := fun k =>
      if k = 0 then routeOperator 0 { restOperator with state := 6, env := 1 / 1000 }
      else routeOperator (-1) restOperator }

/-- A song of 256 patterns of one row, with one default instrument. -/
def wideSong : mtsynth :=
  { savedSong with patternCount := 256, patternSize := fun _ => 1 }

/-- A song of one pattern of 256 rows, with one default instrument. -/
def tallSong : mtsynth :=
  { savedSong with patternCount := 1, patternSize := fun _ => 256 }

/-- The demo song with one instrument whose bytes are all zero (version byte 0). -/
def staleSong : mtsynth :=
  { demoSong with instrumentCount := 1, instrument := fun _ _ => 0 }

/-- Sum over every prefix length k = 1..n of (1 + sum of the first k bytes):
the second running sum of the reference Adler-32, before reduction. -/
def prefixSums (p : List Nat) : Nat :=
  ((List.range p.length).map (fun k => 1 + (p.take (k + 1)).sum)).sum

/-- The reference Adler-32 in the words of the specification: with
`a = (1 + sum of all bytes) mod 65521` and `b = prefixSums mod 65521`, the value
`b * 65536 + a`. -/
def adler32Reference (p : List Nat) : Nat :=
  prefixSums p % 65521 * 65536 + (1 + p.sum) % 65521

/-- Bytes of an instrument slot of `demoLayout`, version byte 1, whose first
four bytes are the checksum that the file of `twoSong` has once its instrument
count byte reads 1. -/
def fixedPointSlot : Nat → Nat := fun b =>
  [167, 133, 66, 173, 0, 1, 28, 0, 0, 0, 0, 0, 0, 0, 0, 59, 0, 0, 0, 7, 24, 102, 0, 0, 0, 0, 0,
    0, 0, 0, 0, 52, 0, 0, 43, 0, 0, 0, 0, 0].getD b 0

/-- The song `savedSong` with a second instrument, the slot `fixedPointSlot`. -/
def twoSong : mtsynth :=
  { savedSong with
    instrumentCount := 2
    instrument := fun k => if k = 0 then defaultSlot demoLayout else fixedPointSlot }

/-- One table lookup of `mt_playNote`: the number of entries of the table and
the index used. -/
structure Lookup where
  size : Nat
  index : Int
  deriving DecidableEq

/-- The index of the lookup is inside the table. -/
def inBounds (l : Lookup) : Prop := 0 ≤ l.index ∧ l.index < (l.size : Int)

instance (l : Lookup) : Decidable (inBounds l) := by
  unfold inBounds
  exact inferInstance

/-- The table lookups of `mt_playNote` for one operator (lines 1069-1078), in
the order of the source: `wavetable[8]`, then the 100-entry tables `expVol` and
`expEnv` at `lfoFM` (twice), `lfoAM`, `delay`, `i`, `h`, `s` and `r` or
`abs(r)`. -/
def opLookups (o : fm_instrument_operator) : List Lookup :=
  [⟨8, o.waveform⟩, ⟨100, o.lfoFM⟩, ⟨100, o.lfoFM⟩, ⟨100, o.lfoAM⟩, ⟨100, o.delay⟩,
    ⟨100, o.i⟩, ⟨100, o.h⟩, ⟨100, o.s⟩, ⟨100, if o.r ≥ 0 then o.r else (o.r.natAbs : Int)⟩]

/-- The table lookups of `mt_playNote` when the instrument of the channel
changes (lines 1047-1078): `expVol[volume]`, `lfoMasks[lfoWaveform]` and
`lfoWaveforms[lfoWaveform]` (28 entries each), `expVol[feedback]`,
`expEnv[lfoA]`, `expVol[lfoSpeed]` and `expVol[lfoDelay]` (twice each), then the
lookups of the six operators. -/
def playNoteLookups (i : fm_instrument) : List Lookup :=
  [⟨100, i.volume⟩, ⟨28, i.lfoWaveform⟩, ⟨28, i.lfoWaveform⟩, ⟨100, i.feedback⟩, ⟨100, i.lfoA⟩,
    ⟨100, i.lfoSpeed⟩, ⟨100, i.lfoSpeed⟩, ⟨100, i.lfoDelay⟩, ⟨100, i.lfoDelay⟩]
    ++ (List.range 6).flatMap (fun k => opLookups (i.op k))

/-- The instrument fields that `mt_playNote` uses as table indices. -/
def headIndices (i : fm_instrument) : Int × Int × Int × Int × Int × Int :=
  (i.volume, i.lfoWaveform, i.feedback, i.lfoA, i.lfoSpeed, i.lfoDelay)

/-- The operator fields that `mt_playNote` uses as table indices. -/
def opIndices (o : fm_instrument_operator) : Int × Int × Int × Int × Int × Int × Int × Int :=
  (o.waveform, o.lfoFM, o.lfoAM, o.delay, o.i, o.h, o.s, o.r)

/-- The default instrument with the feedback byte 200. -/
def loudInstrument : fm_instrument := { defaultInstrument with feedback := 200 }

/-- The static tables `expEnv`, `expVol`, `expVolOp` of line 50 and the local
`ini` of `mt_create`, over a field `K` of numbers. -/
structure ScaleTables (K : Type) where
  expEnv : Nat → K
  expVol : Nat → K
  expVolOp : Nat → K
  ini : K

/-- One pass of the loop `for (unsigned i = 1; i < 99; i++)` of `mt_create`
(lines 215-221); `pow` and `log` are the functions of the C library. -/
def tableStep {K : Type} [Field K] (pow : K → K → K) (log : K → K) (i : Nat)
    (t : ScaleTables K) : ScaleTables K :=
  { expVol := Function.update t.expVol i (pow 10 ((log (100 / ((i : K) + 1)) * (-10)) / 20))
    expEnv := Function.update t.expEnv i t.ini
    ini := t.ini * (11 / 10)
    expVolOp := Function.update t.expVolOp i
      (pow 10 ((log (100 / ((i : K) + 1)) * (-10)) / 20) * ((i : K) * (1 / 100))) }

/-- The value that the loop of `mt_create` stores in `expVol[i]` (line 217). -/
def volEntry {K : Type} [Field K] (pow : K → K → K) (log : K → K) (i : Nat) : K :=
  pow 10 ((log (100 / ((i : K) + 1)) * (-10)) / 20)

/-- The value that the loop of `mt_create` stores in `expEnv[i]` (lines
218-219): `0.00001` multiplied `i - 1` times by `1.1`. -/
def envEntry {K : Type} [Field K] (i : Nat) : K := 1 / 100000 * (11 / 10) ^ (i - 1)

/-- The tables before `mt_create` fills them: static storage is zero, and
`ini = 0.00001`. -/
def zeroTables (K : Type) [Field K] : ScaleTables K :=
  ⟨fun _ => 0, fun _ => 0, fun _ => 0, 1 / 100000⟩

/-- The hand-set entries of lines 223-226. -/
def handSet {K : Type} [Field K] (t : ScaleTables K) : ScaleTables K :=
  { t with
    expEnv := Function.update (Function.update (Function.update (Function.update t.expEnv
      96 (1 / 10)) 97 (1 / 5)) 98 (1 / 2)) 99 1
    expVol := Function.update t.expVol 99 1
    expVolOp := Function.update t.expVolOp 99 1 }

/-- The exponential tables as `mt_create` builds them (lines 212-226), in exact
arithmetic over `K`. -/
def mt_createTables {K : Type} [Field K] (pow : K → K → K) (log : K → K) : ScaleTables K :=
  handSet (forLoop 98 (fun k t => tableStep pow log (k + 1) t) (zeroTables K))

/-- An entry of the sine table `wavetable[0]` (line 176):
`sin(i * 2 * M_PI / LUTsize)` with `LUTsize = 2048`. -/
def sineTable {K : Type} [Field K] (sin : K → K) (pi : K) (i : Nat) : K :=
  sin ((i : K) * 2 * pi / 2048)

/-- Index of the right gain in the sine table (line 971):
`(unsigned)pan * LUTratio`, `LUTratio = 2`. -/
def panIndexR (pan : ℚ) : Nat := toUnsigned pan * 2

/-- Index of the left gain in the sine table (line 970):
`LUTsize / 4 + (unsigned)pan * LUTratio`. -/
def panIndexL (pan : ℚ) : Nat := 2048 / 4 + toUnsigned pan * 2

/-- The per-tick step of effect P, the panning slide (line 747):
`pan = clamp(pan + (127 - (int)fxData) * -0.05, 0, 255)`. -/
def panSlide (pan : ℚ) (fxData : Nat) : ℚ :=
  if pan + ((127 - (fxData : Int) : Int) : ℚ) * (-(1 / 20)) > 255 then 255
  else if pan + ((127 - (fxData : Int) : Int) : ℚ) * (-(1 / 20)) < 0 then 0
  else pan + ((127 - (fxData : Int) : Int) : ℚ) * (-(1 / 20))

/-- The release multiplier `o->r` that `mt_playNote` derives from the release
parameter `r` of the instrument (line 1078); `exp` is the function of the C
library. -/
def releaseRate {K : Type} [Field K] (exp : K → K) (expEnv : Nat → K) (sampleRateRatio : K)
    (r : Int) : K :=
  if r ≥ 0 then exp (-(expEnv r.toNat) * sampleRateRatio)
  else 2 - exp (-(expEnv r.natAbs) * sampleRateRatio)

/-- An operator as `mt_playNote` leaves it at note-on (lines 1148-1150:
`envCount = 0`, `state = 1`) with attack rate 1, so that the attack takes one
tick. -/
def noteOnOperator (delay h : ℚ) : fm_operator :=
  { state := 1, env := 0, envCount := 0, amp := 0, delay := delay, a := 1, d := 1 / 2, h := h,
    s := 1 / 2, i := 0, r := 1 / 2, envLoop := false, connected := true, id := 0 }

/-- An operator in the release state with multiplier 1 and envelope 1/2. -/
def heldRelease : fm_operator :=
  { state := 6, env := 1 / 2, envCount := 0, amp := 1, delay := 0, a := 1, d := 1 / 2, h := 0,
    s := 1 / 2, i := 0, r := 1, envLoop := false, connected := true, id := 0 }

/-- The pitch fields of a playing operator (`fm_operator`). -/
structure PitchOp where
  mult : Int
  finetune : Int
  detune : Int
  fixedFreq : Int
  incr : ℚ
  portaDestIncr : ℚ
  deriving DecidableEq

/-- The pitch fields of a channel: its instrument, `transpose`, `tuning`, the
transposed note `note` and the operators. -/
structure PitchChannel where
  instr : fm_instrument
  transpose : Int
  tuning : ℚ
  note : Nat
  op : Nat → PitchOp

/-- The engine fields the pitch computation reads: the table `noteIncr`, the
song transpose and `sampleRateRatio`. -/
structure PitchEngine where
  noteIncr : Nat → ℚ
  transpose : Int
  sampleRateRatio : ℚ

/-- The value `(flags & FM_INSTR_TRANSPOSABLE) >> 2` of line 319; `T` is the
macro `FM_INSTR_TRANSPOSABLE` of the header `mtlib.h`. -/
def transposable (T : Nat) (flags : Int) : Int := (((flags.toNat &&& T) >>> 2 : Nat) : Int)

/-- The local `frequency` of `mt_calcPitch` (line 323) and of the K edits
(lines 541, 551, 557); `SEMITONE_RATIO` is `0.059463 * 0.01`. -/
def frequency (mt : PitchEngine) (instr : fm_instrument) (note : Nat) : ℚ :=
  mt.noteIncr note
    + mt.noteIncr note * (59463 / 1000000) * (1 / 100) * (instr.temperament (note % 12) : ℚ)

/-- The factor `o->mult + (float)o->finetune*_24TO1 + (float)o->detune*_2400TO1`
(lines 331, 542, 552, 558); the macros are `1/24` and `1/2400`. -/
def ratioFactor (o : PitchOp) : ℚ :=
  (o.mult : ℚ) + (o.finetune : ℚ) * 1 / 24 + (o.detune : ℚ) * 1 / 2400

/-- The body of the operator loop of `mt_calcPitch` (lines 329-337);
`LUTratio = 2`. -/
def pitchOperator (mt : PitchEngine) (tuning : ℚ) (freq : ℚ) (o : PitchOp) : PitchOp :=
  { o with
    incr :=
      (if o.fixedFreq = 0 then freq * ratioFactor o
        else (((o.mult * o.mult : Int) : ℚ) + (o.mult : ℚ) * (o.finetune : ℚ) * 1 / 24) * 2
          * mt.sampleRateRatio)
      + (if o.fixedFreq = 0 then freq * ratioFactor o
        else (((o.mult * o.mult : Int) : ℚ) + (o.mult : ℚ) * (o.finetune : ℚ) * 1 / 24) * 2
          * mt.sampleRateRatio) * tuning }

/-- The function `mt_calcPitch` (lines 316-339) on the pitch fields of the
channel. -/
def mt_calcPitch (T : Nat) (mt : PitchEngine) (c : PitchChannel) (note : Int) : PitchChannel :=
  { c with
    note := (clamp (note + c.transpose + mt.transpose * transposable T c.instr.flags) 0 127).toNat
    op := fun k =>
      if k < 6 then
        pitchOperator mt c.tuning
          (frequency mt c.instr
            (clamp (note + c.transpose + mt.transpose * transposable T c.instr.flags) 0 127).toNat)
          (c.op k)
      else c.op k }

/-- The value stored in `portaDestIncr` of operator `k` by effect G on row
entry (lines 432-440) for the note `rowNote` of the cell. -/
def portaTarget (mt : PitchEngine) (instr : fm_instrument) (rowNote : Nat) (k : Nat)
    (o : PitchOp) : ℚ :=
  if (instr.op k).fixedFreq = 0 then
    mt.noteIncr (clamp ((rowNote : Int) + mt.transpose) 0 127).toNat
      * (1 + ((((rowNote : Int) - (instr.op k).kbdCenterNote) * (instr.op k).kbdPitchScaling : Int) : ℚ)
          * (1 / 1000))
      * ((o.mult : ℚ) + (o.finetune : ℚ) * (41666666667 / 1000000000000)
          + (o.detune : ℚ) * (41666666667 / 100000000000000))
  else
    (((o.mult * o.mult : Int) : ℚ) + (o.mult : ℚ) * (o.finetune : ℚ) * (41666666667 / 1000000000000))
      * 2

/-- Row entry of effect G (lines 426-442): with a note in the cell, the
portamento destination of every operator is set. -/
def portaDest (mt : PitchEngine) (c : PitchChannel) (rowNote : Nat) : PitchChannel :=
  if rowNote ≠ 255 then
    { c with
      op := fun k =>
        if k < 6 then { c.op k with portaDestIncr := portaTarget mt c.instr rowNote k (c.op k) }
        else c.op k }
  else c

/-- Assignment to `mt->ch[ch].op[k]`. -/
def setPitchOp (c : PitchChannel) (k : Nat) (o : PitchOp) : PitchChannel :=
  { c with op := Function.update c.op k o }

/-- Conversion `(char)` of a byte, `char` being signed. -/
def toChar (b : Nat) : Int := if b % 256 ≥ 128 then (b % 256 : Int) - 256 else (b % 256 : Int)

/-- The operator the K effect edits: `kfx / 32 - 1` (line 522). -/
def kfxOperator (c : PitchChannel) : Nat := c.instr.kfx.toNat / 32 - 1

/-- Case 3 of the operator edit of effect K (lines 539-544): ratio
multiplier. -/
def kEditMult (mt : PitchEngine) (c : PitchChannel) (fxData : Nat) : PitchChannel :=
  setPitchOp c (kfxOperator c)
    { c.op (kfxOperator c) with
      mult := clamp fxData 0 40
      incr := frequency mt c.instr c.note
        * ratioFactor { c.op (kfxOperator c) with mult := clamp fxData 0 40 } * (1 + c.tuning) }

/-- Case 4 of the operator edit of effect K (lines 545-548): fixed
multiplier. -/
def kEditFixed (mt : PitchEngine) (c : PitchChannel) (fxData : Nat) : PitchChannel :=
  setPitchOp c (kfxOperator c)
    { c.op (kfxOperator c) with
      mult := clamp fxData 0 255
      incr := (((clamp fxData 0 255 * clamp fxData 0 255 : Int) : ℚ)
          + ((clamp fxData 0 255 : Int) : ℚ) * ((c.op (kfxOperator c)).finetune : ℚ) * 1 / 2400)
        * 2 * mt.sampleRateRatio * (1 + c.tuning) }

/-- Case 5 of the operator edit of effect K (lines 549-554): finetune. -/
def kEditFinetune (mt : PitchEngine) (c : PitchChannel) (fxData : Nat) : PitchChannel :=
  setPitchOp c (kfxOperator c)
    { c.op (kfxOperator c) with
      finetune := clamp fxData 0 24
      incr := frequency mt c.instr c.note
        * ratioFactor { c.op (kfxOperator c) with finetune := clamp fxData 0 24 }
        * (1 + c.tuning) }

/-- Case 6 of the operator edit of effect K (lines 555-560): detune. -/
def kEditDetune (mt : PitchEngine) (c : PitchChannel) (fxData : Nat) : PitchChannel :=
  setPitchOp c (kfxOperator c)
    { c.op (kfxOperator c) with
      detune := clamp (toChar fxData) (-100) 100
      incr := frequency mt c.instr c.note
        * ratioFactor { c.op (kfxOperator c) with detune := clamp (toChar fxData) (-100) 100 }
        * (1 + c.tuning) }

/-- The cases 3 to 6 of the operator edit of effect K (the `switch` on
`kfx % 32` of line 524, taken when `kfx / 32` is not 0); the other cases edit
fields of the operator that the pitch computation does not read. -/
def kOperatorEdit (mt : PitchEngine) (c : PitchChannel) (fxData : Nat) : PitchChannel :=
  if c.instr.kfx.toNat % 32 = 3 then kEditMult mt c fxData
  else if c.instr.kfx.toNat % 32 = 4 then kEditFixed mt c fxData
  else if c.instr.kfx.toNat % 32 = 5 then kEditFinetune mt c fxData
  else if c.instr.kfx.toNat % 32 = 6 then kEditDetune mt c fxData
  else c

/-- The table `noteIncr` of `mt_setSampleRate` (line 296) at the notes
`9 + 12 * k`, where the power of two is exact:
`pow(2, (x - 9.0) / 12.0) / sampleRate * 32840 * 440 * LUTratio`. For another
note the value is the one of the next lower such note. -/
def octaveIncr (sampleRate : ℚ) (x : Nat) : ℚ :=
  (2 : ℚ) ^ ((x - 9) / 12) / sampleRate * 32840 * 440 * 2

/-- An engine at 44100 Hz, song transpose 0. -/
def pitchEngine : PitchEngine := ⟨octaveIncr 44100, 0, 48000 / 44100⟩

/-- A playing operator with multiplier 1 in ratio mode. -/
def plainOp : PitchOp := ⟨1, 0, 0, 0, 0, 0⟩

/-- A channel playing the default instrument at note 69 with the tuning
`0.0006 * 100` of an instrument tuned 100 cents up. -/
def tunedChannel : PitchChannel :=
  { instr := defaultInstrument, transpose := 0, tuning := 6 / 100, note := 69, op := fun _ => plainOp }

/-- A channel whose instrument selects the fixed multiplier of operator 0 for
effect K (`kfx = 32 + 4`), operator 0 being in fixed-frequency mode with
multiplier 1 and finetune 12. -/
def fixedChannel : PitchChannel :=
  { instr :=
      { setOp defaultInstrument 0 { defaultInstrument.op 0 with fixedFreq := 1, finetune := 12 } with
        kfx := 36 }
    transpose := 0
    tuning := 0
    note := 69
    op := fun k => if k = 0 then ⟨1, 12, 0, 1, 0, 0⟩ else plainOp }

/-- The macro `clamp` (line 28) on floating-point values. -/
def clampF {K : Type} [LinearOrderedField K] (x low high : K) : K :=
  if x > high then high else if x < low then low else x

/-- The step of the volume slides `N` and `W` (lines 744 and 750):
`clamp(v + ((int)fxData - 127) * 0.0001, 0, 1)`. -/
def slideStep {K : Type} [LinearOrderedField K] (v : K) (fxData : Nat) : K :=
  clampF (v + ((((fxData : Int) - 127 : Int) : K)) * (1 / 10000)) 0 1

/-- The volumes the sub-tick handler works with: `mt->ch[ch].vol` of every
channel and `mt->globalVolume`. -/
structure Volumes (K : Type) where
  vol : Nat → K
  globalVolume : K

/-- The cases `N` (78) and `W` (87) of the `switch (mt->ch[ch].fxActive)` of the
sub-tick handler (lines 743-751), on the volumes; no other case of the switch
assigns a volume. -/
def fxVolume {K : Type} [LinearOrderedField K] (c : fm_channel) (ch : Nat) (v : Volumes K) :
    Volumes K :=
  if c.fxActive = 78 then { v with vol := Function.update v.vol ch (slideStep (v.vol ch) c.fxData) }
  else if c.fxActive = 87 then { v with globalVolume := slideStep v.globalVolume c.fxData }
  else v

/-- The float `mt->globalVolume` that `mt_setVolume` (line 2261) and
`mt_initChannels` (line 348) assign for the byte `_globalVolume`:
`expVol[volume] * 4096 / LUTsize`, `LUTsize = 2048`. -/
def globalVolumeOf {K : Type} [Field K] (expVol : Nat → K) (volume : Nat) : K :=
  expVol volume * 4096 / 2048

/-- A song of one pattern of one row whose channel 0 carries the effect `N`
(channel volume slide) and whose channel 1 carries the effect `W` (global
volume slide), both with parameter 200. -/
def slideSong : mtsynth :=
  { createdEngine with
    patternCount := 1
    patternSize := fun _ => 1
    tempo := 120
    playing := true
    pattern := fun o j ch =>
      if o = 0 ∧ j = 0 then
        if ch = 0 then ⟨255, 255, 255, 78, 200⟩
        else if ch = 1 then ⟨255, 255, 255, 87, 200⟩
        else emptyCell
      else emptyCell }

/-- The indices at which the row advance of the render loop reads
`mt->patternSize`, in order: line 637 reads it at the order of the row that
ends, line 651 reads it at the order reached when a row jump is pending. -/
def advanceReads (mt : mtsynth) : List Nat :=
  [mt.order] ++
    (if (nextRow mt).tempRow ≠ -1 then
      [(jumpOrder { nextRow mt with loopCount := (nextRow mt).loopCount + 1 }).order]
    else [])

/-- A playing engine on the last row of a song of two patterns (2 rows and 1
row), with a pending row jump to row 5 and no pending pattern jump; the entry
of `patternSize` behind the two patterns stands for what the memory holds
there. -/
def edgeSong : mtsynth :=
  { demoSong with
    patternSize := fun i => if i = 0 then 2 else if i = 1 then 1 else 9
    order := 1
    row := 0
    tempOrder := -1
    tempRow := 5
    playing := true }

/-- A playing engine on row 0 of pattern 0 of the demo song (patterns of 2 rows
and 1 row) with a pending pattern jump to pattern 1 (effect `B`) and no pending
row jump. -/
def jumpSong : mtsynth :=
  { demoSong with
    order := 0
    row := 0
    tempOrder := 1
    tempRow := -1
    playing := true }

/-- An operator definition without its routing: the fields `connect`,
`connect2` and `connectOut` are blanked. -/
def opCore (o : fm_instrument_operator) : fm_instrument_operator :=
  { o with connect := 0, connect2 := 0, connectOut := 0 }

/-- An instrument without its operators. -/
def headCore (i : fm_instrument) : fm_instrument := { i with op := fun _ => zeroOperator }

/-- The instrument-level result of `mt_instrumentRecovery` (lines 1547-1561):
the clamps of `recoverHeader` and of the `toMix` loop, the operators
blanked. -/
def headClamped (i : fm_instrument) : fm_instrument :=
  { i with
    magic := [70, 77, 67, 73]
    lfoWaveform := clamp i.lfoWaveform 0 19
    volume := clamp i.volume 0 99
    feedbackSource := clamp i.feedbackSource 0 5
    transpose := clamp i.transpose (-12) 12
    tuning := clamp i.tuning (-100) 100
    toMix := fun j => if j < 4 then clamp (i.toMix j) (-1) 5 else i.toMix j
    op := fun _ => zeroOperator }

/-- Body of the row loop of `mt_setTime` (lines 2280-2287): once a row has been
found the function has returned, so the result is kept; otherwise row `j` of
order `i` is taken when its time is at least `time`. -/
def scanStep (cs : StateTable) (time : Int) (i j : Nat) (found : Option (Nat × Nat)) :
    Option (Nat × Nat) :=
  match found with
  | some x => some x
  | none => if (cs i j).time ≥ (time : ℚ) then some (i, j) else none

/-- Body of the order loop of `mt_setTime` (lines 2278-2288). -/
def scanOrder (mt : mtsynth) (cs : StateTable) (time : Int) (i : Nat)
    (found : Option (Nat × Nat)) : Option (Nat × Nat) :=
  forLoop (mt.patternSize i) (scanStep cs time i) found

/-- The two loops of `mt_setTime`: the row at which the function calls
`mt_setPosition` and returns, if any. -/
def seekTarget (mt : mtsynth) (cs : StateTable) (time : Int) : Option (Nat × Nat) :=
  forLoop mt.patternCount (scanOrder mt cs time) none

/-- The function `mt_setTime` (lines 2276-2290): the engine after the call and
the indices at which `mt_setPosition` has read `patternSize`. When no row is
found the position is set to the last row of the last pattern. -/
def mt_setTime (countUnsigned : Bool) (outside : Int → Int) (cs : StateTable) (mt : mtsynth)
    (time : Int) : mtsynth × List Int :=
  match seekTarget mt cs time with
  | some x => mt_setPosition countUnsigned outside cs mt (x.1 : Int) (x.2 : Int)
  | none =>
    mt_setPosition countUnsigned outside cs mt ((mt.patternCount : Int) - 1)
      ((mt.patternSize (mt.patternCount - 1) : Int) - 1)

/-- Row `(o1, j1)` comes before row `(o2, j2)` in playback order. -/
def rowBefore (o1 j1 o2 j2 : Nat) : Prop := o1 < o2 ∨ (o1 = o2 ∧ j1 < j2)

/-- The row index `i - count` of line 2498: `i` is an `int`, `count` is
`unsigned`, so the difference is computed on 32-bit unsigned values. -/
def srcRow (i count : Nat) : Nat := (((i : Int) - (count : Int)) % 4294967296).toNat

/-- Line 2498 of `mt_insertRows`:
`mt->pattern[mt->order][i][ch] = mt->pattern[mt->order][i - count][ch]`. -/
def shiftCell (count i ch : Nat) (mt : mtsynth) : mtsynth :=
  { mt with
    pattern := fun o j c =>
      if o = mt.order ∧ j = i ∧ c = ch then mt.pattern mt.order (srcRow i count) ch
      else mt.pattern o j c }

/-- The channel loop of `mt_insertRows` (lines 2496-2499) for row `i`. -/
def shiftRow (count i : Nat) (mt : mtsynth) : mtsynth := forLoop FM_ch (shiftCell count i) mt

/-- The loop `for (int i = mt->patternSize[pattern] - 1; i >= row; i--)` of
`mt_insertRows` (lines 2494-2500) for `row >= 1`: `i` runs from `top` down to
`row`. -/
def shiftRows (count top row : Nat) (mt : mtsynth) : mtsynth :=
  forLoop (top + 1 - row) (fun t m => shiftRow count (top - t) m) mt

/-- The function `mt_insertRows` (lines 2486-2507), allocation succeeding: the
return value and the engine after the call. The arguments are `unsigned`, the
sum `patternSize[pattern] + count` is computed on 32 bits. For `row = 0` the
test `i >= row` of the loop, made on unsigned values, never fails: the call
does not return, which is the result `none`. -/
def mt_insertRows (mt : mtsynth) (pattern row count : Nat) : Option (Nat × mtsynth) :=
  if pattern ≥ mt.patternCount ∨ row ≥ mt.patternSize pattern ∨
      (mt.patternSize pattern + count) % 4294967296 > 256 then some (0, mt)
  else if (mt.patternSize pattern + count) % 4294967296 = 0 then some (0, mt)
  else if row = 0 then none
  else
    if pattern ≥ mt.patternCount ∨ row > 255 ∨ count > 256 then
      some (0,
        shiftRows count
          ((mt_resizePattern mt pattern
            ((mt.patternSize pattern + count) % 4294967296)).patternSize pattern - 1) row
          { mt_resizePattern mt pattern ((mt.patternSize pattern + count) % 4294967296) with
            channelStatesDone := false })
    else
      some (1,
        mt_clearPattern
          (shiftRows count
            ((mt_resizePattern mt pattern
              ((mt.patternSize pattern + count) % 4294967296)).patternSize pattern - 1) row
            { mt_resizePattern mt pattern ((mt.patternSize pattern + count) % 4294967296) with
              channelStatesDone := false })
          pattern row count)

/-- The state `mt_insertRows` returns with 1: the pattern is grown, the rows
from the last one down to `row` are copied in the pattern of the current order,
and `count` rows of the given pattern are cleared from `row` on. -/
def insertedRows (mt : mtsynth) (P row count : Nat) : mtsynth :=
  mt_clearPattern
    (shiftRows count ((mt_resizePattern mt P (mt.patternSize P + count)).patternSize P - 1) row
      { mt_resizePattern mt P (mt.patternSize P + count) with channelStatesDone := false })
    P row count

/-- An engine with two patterns of 4 rows and 2 rows whose cell of channel `ch`
in row `j` of pattern `o` carries the note `10 * o + j`, playing pattern 0. -/
def numberedSong : mtsynth :=
  { demoSong with
    patternSize := fun o => if o = 0 then 4 else 2
    pattern := fun o j _ => ⟨10 * o + j, 0, 99, 255, 255⟩
    order := 0
    row := 0 }

/-- The six delay lengths `mt_initReverb` computes (lines 246-251 and
272-277): the four comb delays and the two allpass delays. -/
def reverbDelays (rv : Reverb) : List Nat :=
  [rv.reverbMod1, rv.reverbMod2, rv.reverbMod3, rv.reverbMod4, rv.allpassMod, rv.allpassMod2]

/-- The room size the loader passes to `mt_initReverb` (lines 1704-1707):
the byte read from the song file divided by 160. -/
def loadedRoomSize (b : Nat) : ℚ := (b : ℚ) / 160

/-- A reverb whose eight phase counters have the given values, every other
field being as in `rv`. -/
def setPhases (rv : Reverb) (pL pL2 pR pR2 aL aR aL2 aR2 : Nat) : Reverb :=
  { rv with
    reverbPhaseL := pL
    reverbPhaseL2 := pL2
    reverbPhaseR := pR
    reverbPhaseR2 := pR2
    allpassPhaseL := aL
    allpassPhaseR := aR
    allpassPhaseL2 := aL2
    allpassPhaseR2 := aR2 }

/-- Lines 980-987 of the render loop: the four comb phases advance modulo
their delay lengths. -/
def combPhases (rv : Reverb) : Reverb :=
  { rv with
    reverbPhaseL := (rv.reverbPhaseL + 1) % rv.reverbMod1
    reverbPhaseL2 := (rv.reverbPhaseL2 + 1) % rv.reverbMod2
    reverbPhaseR := (rv.reverbPhaseR + 1) % rv.reverbMod3
    reverbPhaseR2 := (rv.reverbPhaseR2 + 1) % rv.reverbMod4 }

/-- Lines 1003, 1007, 1013 and 1017 of the render loop: the four allpass
phases advance modulo their delay lengths. -/
def allpassPhases (rv : Reverb) : Reverb :=
  { rv with
    allpassPhaseL := (rv.allpassPhaseL + 1) % rv.allpassMod
    allpassPhaseR := (rv.allpassPhaseR + 1) % rv.allpassMod
    allpassPhaseL2 := (rv.allpassPhaseL2 + 1) % rv.allpassMod2
    allpassPhaseR2 := (rv.allpassPhaseR2 + 1) % rv.allpassMod2 }

/-- The phase counters after one sample of the reverb (lines 980-1017). -/
def reverbPhaseStep (rv : Reverb) : Reverb := allpassPhases (combPhases rv)

/-- The indices at which one sample of the reverb reads or writes `revBuf`
(lines 991-1016), in the order of the source: the comb filters use the advanced
phases and the previous ones, the allpass filters their phase before it
advances. -/
def revBufIndices (rv : Reverb) : List Nat :=
  [(combPhases rv).reverbPhaseL,
   rv.reverbMod1 + (combPhases rv).reverbPhaseL2,
   rv.reverbPhaseL,
   rv.reverbMod1 + rv.reverbPhaseL2,
   rv.revOffset2 + (combPhases rv).reverbPhaseR,
   rv.revOffset3 + (combPhases rv).reverbPhaseR2,
   rv.revOffset2 + rv.reverbPhaseR,
   rv.revOffset3 + rv.reverbPhaseR2,
   rv.revOffset4 + rv.allpassPhaseL,
   rv.revOffset5 + rv.allpassPhaseR,
   rv.revOffset6 + rv.allpassPhaseL2,
   rv.revOffset7 + rv.allpassPhaseR2]

/-- The eight delay lines of the reverb as (first index, length): each is the
base offset the render loop adds to a phase counter, with the delay length the
counter is reduced by. -/
def delayLines (rv : Reverb) : List (Nat × Nat) :=
  [(0, rv.reverbMod1), (rv.reverbMod1, rv.reverbMod2), (rv.revOffset2, rv.reverbMod3),
   (rv.revOffset3, rv.reverbMod4), (rv.revOffset4, rv.allpassMod),
   (rv.revOffset5, rv.allpassMod), (rv.revOffset6, rv.allpassMod2),
   (rv.revOffset7, rv.allpassMod2)]

/-- Each phase counter is below the delay length it is reduced by. -/
def phasesBelow (rv : Reverb) : Prop :=
  rv.reverbPhaseL < rv.reverbMod1 ∧ rv.reverbPhaseL2 < rv.reverbMod2 ∧
  rv.reverbPhaseR < rv.reverbMod3 ∧ rv.reverbPhaseR2 < rv.reverbMod4 ∧
  rv.allpassPhaseL < rv.allpassMod ∧ rv.allpassPhaseR < rv.allpassMod ∧
  rv.allpassPhaseL2 < rv.allpassMod2 ∧ rv.allpassPhaseR2 < rv.allpassMod2

instance (rv : Reverb) : Decidable (phasesBelow rv) := by
  unfold phasesBelow
  infer_instance

/-- A state table left over from another song: every entry has tempo 7 and
time 100. -/
def staleTable : StateTable := ⟨fun _ _ => ⟨7, fun _ => 0, fun _ => 0, 100⟩⟩

/-- The value the code computes for `(60.0 / diviseur) * sampleRate / tempo`
(lines 632, 669, 701, 755), the length of a row in output samples: `rnd` is the
rounding of one floating-point operation (the identity in exact arithmetic). -/
def rowLengthR (rnd : ℚ → ℚ) (mt : mtsynth) : ℚ :=
  rnd (rnd (rnd (60 / (mt.diviseur : ℚ)) * (mt.sampleRate : ℚ)) / (mt.tempo : ℚ))

/-- The value the code computes for
`0.005*(60.0 / diviseur) * sampleRate / tempo` (lines 669 and 755), the
threshold of the sub-tick timer, with the rounding `rnd` of each operation and
of the constant. -/
def fxThresholdR (rnd : ℚ → ℚ) (mt : mtsynth) : ℚ :=
  rnd (rnd (rnd (rnd (1 / 200) * rnd (60 / (mt.diviseur : ℚ))) * (mt.sampleRate : ℚ))
    / (mt.tempo : ℚ))

/-- Number of passes of the render loop a row lasts: the computed row length
divided by the 8 by which the frame timer advances in a pass, rounded up. -/
def rowPasses (rnd : ℚ → ℚ) (mt : mtsynth) : Nat := ⌈rowLengthR rnd mt / 8⌉.toNat

/-- The state of the player that decides when row events and sub-ticks happen:
the engine, the sub-tick timer `frameTimerFx`, and for the record the positions
in the output (stereo samples written so far) at which the row event and the
sub-tick handler have run. -/
structure Clock where
  mt : mtsynth
  frameTimerFx : ℚ
  rowEvents : List Nat
  subTicks : List Nat

/-- Lines 381-630: in a pass that starts with `frameTimer == 0` the row event
runs; `ev` is what it does to the engine, `w` the number of stereo samples
written so far. -/
def rowEventStep (ev : mtsynth → mtsynth) (w : Nat) (c : Clock) : Clock :=
  if c.mt.frameTimer = 0 then { c with mt := ev c.mt, rowEvents := c.rowEvents ++ [w] } else c

/-- Lines 631-667: `frameTimer += 8`, and when it has reached the row length the
timer restarts at 0 and the row advances. -/
def advanceFrameR (rnd : ℚ → ℚ) (mt : mtsynth) : mtsynth :=
  let mt1 : mtsynth := { mt with frameTimer := mt.frameTimer + 8 }
  if (mt1.frameTimer : ℚ) ≥ rowLengthR rnd mt1 then rowAdvance { mt1 with frameTimer := 0 }
  else mt1

/-- Lines 669-756: when `frameTimerFx` has reached the threshold the sub-tick
handler runs (`fx` is what it does to the engine) and the threshold is
subtracted; `rSub` is the rounding of the value stored by `-=`. -/
def subTickStep (rnd rSub : ℚ → ℚ) (fx : mtsynth → mtsynth) (w : Nat) (c : Clock) : Clock :=
  if c.frameTimerFx ≥ fxThresholdR rnd c.mt then
    { c with
      mt := fx c.mt
      subTicks := c.subTicks ++ [w]
      frameTimerFx := rSub (c.frameTimerFx - fxThresholdR rnd (fx c.mt)) }
  else c

/-- The player part of one pass of the loop `while (b < length)` of
`_mt_render` (lines 378-758), as far as the timing goes: row event, frame timer,
sub-tick, and `frameTimerFx++` (line 757, `rInc` being the rounding of the
stored value). -/
def playerPass (rnd rSub rInc : ℚ → ℚ) (ev fx : mtsynth → mtsynth) (w : Nat) (c : Clock) :
    Clock :=
  if c.mt.playing then
    { subTickStep rnd rSub fx w
        { rowEventStep ev w c with mt := advanceFrameR rnd (rowEventStep ev w c).mt } with
      frameTimerFx :=
        rInc ((subTickStep rnd rSub fx w
          { rowEventStep ev w c with
            mt := advanceFrameR rnd (rowEventStep ev w c).mt }).frameTimerFx + 1) }
  else c

/-- A body of the row event or of the sub-tick handler that leaves alone what
the timing depends on: frame timer, tempo, divisor, sample rate, the playing
flag and the loop limit. -/
def keepsTiming (g : mtsynth → mtsynth) : Prop :=
  ∀ m, timing (g m) = timing m ∧ (g m).playing = m.playing ∧ (g m).looping = m.looping

/-- The loop `for (iter = 0; iter < 8; iter++)` of `_mt_render` (lines
913-1030) from buffer index `b`, `n` iterations left: each iteration writes one
stereo sample at `buffer[b]`, `buffer[b + 1]`, adds 2 to `b` and returns from
the call when `b >= length`. The result is the new `b` and whether the call has
returned. -/
def sampleLoop (length : Nat) : Nat → Nat → Nat × Bool
  | 0, b => (b, false)
  | n + 1, b => if b + 2 ≥ length then (b + 2, true) else sampleLoop length n (b + 2)

/-- The loop `while (b < length)` of `_mt_render` (lines 374-1032): a pass is
the player part `pass`, given the number of stereo samples written so far,
followed by the loop over 8 samples. The state is the number of stereo samples
written so far and the clock; `fuel` bounds the number of passes. -/
def renderLoop (pass : Nat → Clock → Clock) (length : Nat) :
    Nat → Nat → Nat × Clock → Nat × Clock
  | 0, _, s => s
  | fuel + 1, b, s =>
    if b < length then
      if (sampleLoop length 8 b).2 then
        (s.1 + ((sampleLoop length 8 b).1 - b) / 2, pass s.1 s.2)
      else
        renderLoop pass length fuel (sampleLoop length 8 b).1
          (s.1 + ((sampleLoop length 8 b).1 - b) / 2, pass s.1 s.2)
    else s

/-- One call `_mt_render(mt, buffer, length)`: `b` starts at 0; every pass
advances `b`, so `length` passes are enough. -/
def renderCall (pass : Nat → Clock → Clock) (length : Nat) (s : Nat × Clock) : Nat × Clock :=
  renderLoop pass length length 0 s

/-- A sequence of calls of `_mt_render` with the given buffer lengths. -/
def renderCalls (pass : Nat → Clock → Clock) (lengths : List Nat) (s : Nat × Clock) :
    Nat × Clock :=
  lengths.foldl (fun acc l => renderCall pass l acc) s

/-- A pass of the render loop that writes `f` stereo samples. -/
def passOf (f : Nat) (pass : Nat → Clock → Clock) (s : Nat × Clock) : Nat × Clock :=
  (s.1 + f, pass s.1 s.2)

/-- The distance of two consecutive sub-ticks recorded at the output positions
`a` and `b`, with passes of `f` stereo samples, threshold `T` and rounding error
at most `d` per stored value: `b` lies `k` passes after `a`, and `k` differs
from `T` by less than one pass and the rounding accumulated over the passes. -/
def subTickGap (T d : ℚ) (f a b : Nat) : Prop :=
  ∃ k : Nat, b = a + f * k ∧ T - 1 - ((k : ℚ) + 3) * d < (k : ℚ) ∧ (k : ℚ) < T + 1 + (k : ℚ) * d

/-- A rounding to the nearest multiple of 1/1024, as an example of a rounding
whose error is at most 1/2048. -/
def gridRound (x : ℚ) : ℚ := (⌊x * 1024 + 1 / 2⌋ : ℚ) / 1024

/-- The clock of an engine that starts to play: timers at 0, nothing recorded. -/
def startClock (mt : mtsynth) : Clock :=
  { mt := mt, frameTimerFx := 0, rowEvents := [], subTicks := [] }

theorem slotHead_ne (hi : Int) (op : Nat) (g : Nat → Int) : slotHead hi op g ≠ (op : Int) := by
  unfold slotHead
  split_ifs with h
  · omega
  · exact h

theorem forLoop_succ {σ : Type} (n : Nat) (body : Nat → σ → σ) (s : σ) :
    forLoop (n + 1) body s = body n (forLoop n body s) := rfl

theorem breakMutual_connect (op op2 : Nat) (i : fm_instrument) (k : Nat) :
    ((breakMutual op op2 i).op k).connect =
      if k = op2 ∧ op ≠ op2 ∧ (i.op op).connect = (op2 : Int) ∧ (i.op op2).connect = (op : Int)
      then -1 else (i.op k).connect := by
  unfold breakMutual setOp
  by_cases h : op = op2
  · simp [h]
  · by_cases hk : k = op2
    · subst hk
      simp only [h, ne_eq, not_false_eq_true, if_true]
      split_ifs <;> simp_all [Function.update]
    · simp only [h, ne_eq, not_false_eq_true, if_true]
      split_ifs <;> simp_all [Function.update]

theorem breakMutual_connect2 (op op2 : Nat) (i : fm_instrument) (k : Nat) :
    ((breakMutual op op2 i).op k).connect2 =
      if k = op2 ∧ op ≠ op2 ∧ (i.op op).connect2 = (op2 : Int) ∧ (i.op op2).connect2 = (op : Int)
      then -1 else (i.op k).connect2 := by
  unfold breakMutual setOp
  by_cases h : op = op2
  · simp [h]
  · by_cases hk : k = op2
    · subst hk
      simp only [h, ne_eq, not_false_eq_true, if_true]
      split_ifs <;> simp_all [Function.update]
    · simp only [h, ne_eq, not_false_eq_true, if_true]
      split_ifs <;> simp_all [Function.update]

theorem setOp_op (i : fm_instrument) (k : Nat) (o : fm_instrument_operator) (j : Nat) :
    (setOp i k o).op j = if j = k then o else i.op j := by
  simp [setOp, Function.update]

theorem breakMutual_connectOut (op op2 : Nat) (i : fm_instrument) (k : Nat) :
    ((breakMutual op op2 i).op k).connectOut = (i.op k).connectOut := by
  unfold breakMutual
  by_cases hk : k = op2
  · subst hk
    split_ifs <;> simp [setOp_op] <;> split_ifs <;> simp [setOp_op]
  · split_ifs <;> simp [setOp_op, hk] <;> split_ifs <;> simp [setOp_op, hk]

theorem inner_connect (op : Nat) (i : fm_instrument) (n k : Nat) :
    ((forLoop n (breakMutual op) i).op k).connect =
      if k < n ∧ k ≠ op ∧ (i.op op).connect = (k : Int) ∧ (i.op k).connect = (op : Int)
      then -1 else (i.op k).connect := by
  induction n generalizing k with
  | zero => simp [forLoop]
  | succ n ih =>
    rw [forLoop_succ, breakMutual_connect, ih k, ih op, ih n]
    have e1 : ¬ (op < n ∧ op ≠ op ∧ (i.op op).connect = (op : Int) ∧ (i.op op).connect = (op : Int)) := by
      simp
    have e2 : ¬ (n < n ∧ n ≠ op ∧ (i.op op).connect = (n : Int) ∧ (i.op n).connect = (op : Int)) := by
      simp
    rw [if_neg e1, if_neg e2]
    by_cases hk : k = n
    · subst hk
      by_cases h1 : op = k
      · subst h1; simp
      · have h1b : k ≠ op := fun h => h1 h.symm
        simp [h1, h1b]
    · have : k < n + 1 ↔ k < n := by omega
      simp [hk, this]

theorem inner_connect2 (op : Nat) (i : fm_instrument) (n k : Nat) :
    ((forLoop n (breakMutual op) i).op k).connect2 =
      if k < n ∧ k ≠ op ∧ (i.op op).connect2 = (k : Int) ∧ (i.op k).connect2 = (op : Int)
      then -1 else (i.op k).connect2 := by
  induction n generalizing k with
  | zero => simp [forLoop]
  | succ n ih =>
    rw [forLoop_succ, breakMutual_connect2, ih k, ih op, ih n]
    have e1 : ¬ (op < n ∧ op ≠ op ∧ (i.op op).connect2 = (op : Int) ∧ (i.op op).connect2 = (op : Int)) := by
      simp
    have e2 : ¬ (n < n ∧ n ≠ op ∧ (i.op op).connect2 = (n : Int) ∧ (i.op n).connect2 = (op : Int)) := by
      simp
    rw [if_neg e1, if_neg e2]
    by_cases hk : k = n
    · subst hk
      by_cases h1 : op = k
      · subst h1; simp
      · have h1b : k ≠ op := fun h => h1 h.symm
        simp [h1, h1b]
    · have : k < n + 1 ↔ k < n := by omega
      simp [hk, this]

theorem inner_connectOut (op : Nat) (i : fm_instrument) (n k : Nat) :
    ((forLoop n (breakMutual op) i).op k).connectOut = (i.op k).connectOut := by
  induction n with
  | zero => simp [forLoop]
  | succ n ih => rw [forLoop_succ, breakMutual_connectOut, ih]

theorem recoverOp_connect (op : Nat) (st : fm_instrument × Nat) (k : Nat) :
    ((recoverOp op st).1.op k).connect = slotStep 5 op (fun j => (st.1.op j).connect) k := by
  unfold recoverOp slotStep slotHead
  simp only [inner_connect]
  by_cases hk : k = op
  · subst hk
    simp only [ne_eq, not_true_eq_false, false_and, and_false, if_false, if_true]
    split_ifs <;> simp_all [setOp_op, recoverOpFields]
  · simp only [hk, if_false, ne_eq, not_false_eq_true, true_and]
    split_ifs <;> simp_all [setOp_op, recoverOpFields]

theorem recoverOp_connect2 (op : Nat) (st : fm_instrument × Nat) (k : Nat) :
    ((recoverOp op st).1.op k).connect2 = slotStep 6 op (fun j => (st.1.op j).connect2) k := by
  unfold recoverOp slotStep slotHead
  simp only [inner_connect2]
  by_cases hk : k = op
  · subst hk
    simp only [ne_eq, not_true_eq_false, false_and, and_false, if_false, if_true]
    split_ifs <;> simp_all [setOp_op, recoverOpFields]
  · simp only [hk, if_false, ne_eq, not_false_eq_true, true_and]
    split_ifs <;> simp_all [setOp_op, recoverOpFields]

theorem recoverOp_connectOut (op : Nat) (st : fm_instrument × Nat) (k : Nat) :
    ((recoverOp op st).1.op k).connectOut =
      if k = op then clamp (st.1.op op).connectOut (-1) 5 else (st.1.op k).connectOut := by
  unfold recoverOp
  simp only [inner_connectOut]
  by_cases hk : k = op
  · subst hk
    split_ifs <;> simp_all [setOp_op, recoverOpFields]
  · split_ifs <;> simp_all [setOp_op, recoverOpFields]

theorem recoverOp_nbOuts (op : Nat) (st : fm_instrument × Nat) :
    (recoverOp op st).2 =
      if clamp (st.1.op op).connectOut (-1) 5 ≥ 0 then st.2 + 1 else st.2 := by
  unfold recoverOp
  simp [setOp_op, recoverOpFields]

theorem outer_connect (n : Nat) (st : fm_instrument × Nat) (k : Nat) :
    ((forLoop n recoverOp st).1.op k).connect =
      forLoop n (slotStep 5) (fun j => (st.1.op j).connect) k := by
  induction n generalizing k with
  | zero => rfl
  | succ n ih =>
    rw [forLoop_succ, forLoop_succ, recoverOp_connect]
    congr 1
    funext j
    exact ih j

theorem outer_connect2 (n : Nat) (st : fm_instrument × Nat) (k : Nat) :
    ((forLoop n recoverOp st).1.op k).connect2 =
      forLoop n (slotStep 6) (fun j => (st.1.op j).connect2) k := by
  induction n generalizing k with
  | zero => rfl
  | succ n ih =>
    rw [forLoop_succ, forLoop_succ, recoverOp_connect2]
    congr 1
    funext j
    exact ih j

theorem slot_noMutual (hi : Int) (g : Nat → Int) (n : Nat) (hn : n ≤ 6) :
    ∀ a b, a < n → b < 6 → a ≠ b →
      ¬ (forLoop n (slotStep hi) g a = (b : Int) ∧ forLoop n (slotStep hi) g b = (a : Int)) := by
  induction n with
  | zero => intro a b ha; omega
  | succ n ih =>
    intro a b ha hb hab ⟨h1, h2⟩
    have ih' := ih (by omega)
    rw [forLoop_succ] at h1 h2
    generalize forLoop n (slotStep hi) g = s at h1 h2 ih'
    unfold slotStep at h1 h2
    generalize slotHead hi n s = c1 at h1 h2
    by_cases han : a = n
    · subst han
      have hba : b ≠ a := fun h => hab h.symm
      simp only [if_true, hba, if_false] at h1 h2
      rw [h1] at h2
      simp only [hb, true_and] at h2
      split_ifs at h2 with hc; omega
    · by_cases hbn : b = n
      · subst hbn
        simp only [if_true, han, if_false] at h1 h2
        rw [h2] at h1
        have ha6 : a < 6 := by omega
        simp only [ha6, true_and] at h1
        split_ifs at h1 with hc; omega
      · simp only [han, hbn, if_false] at h1 h2
        have ha' : a < n := by omega
        apply ih' a b ha' hb hab
        constructor
        · split_ifs at h1 with hc; omega
        · split_ifs at h2 with hc; omega

theorem slot_noSelf (hi : Int) (g : Nat → Int) (n : Nat) :
    ∀ a, a < n → forLoop n (slotStep hi) g a ≠ (a : Int) := by
  induction n with
  | zero => intro a ha; omega
  | succ n ih =>
    intro a ha h
    rw [forLoop_succ] at h
    generalize forLoop n (slotStep hi) g = s at h ih
    unfold slotStep at h
    by_cases han : a = n
    · subst han
      simp only [if_true] at h
      exact slotHead_ne hi a s h
    · simp only [han, if_false] at h
      have ha' : a < n := by omega
      split_ifs at h with hc; exact ih a ha' h

theorem clamp_nonneg_iff (x hi : Int) (hhi : 0 ≤ hi) : clamp x (-1) hi ≥ 0 ↔ x ≥ 0 := by
  unfold clamp
  split_ifs <;> omega

theorem outer_connectOut (n : Nat) (st : fm_instrument × Nat) (k : Nat) :
    ((forLoop n recoverOp st).1.op k).connectOut =
      if k < n then clamp (st.1.op k).connectOut (-1) 5 else (st.1.op k).connectOut := by
  induction n generalizing k with
  | zero => simp [forLoop]
  | succ n ih =>
    rw [forLoop_succ, recoverOp_connectOut, ih k, ih n]
    by_cases hk : k = n
    · subst hk
      simp
    · have : k < n + 1 ↔ k < n := by omega
      simp [hk, this]

theorem outer_nbOuts (n : Nat) (i : fm_instrument) :
    (forLoop n recoverOp (i, 0)).2 = 0 ↔ ∀ k, k < n → (i.op k).connectOut < 0 := by
  induction n with
  | zero => simp [forLoop]
  | succ n ih =>
    rw [forLoop_succ, recoverOp_nbOuts, outer_connectOut]
    simp only [lt_irrefl, if_false]
    have hc := clamp_nonneg_iff (i.op n).connectOut 5 (by norm_num)
    constructor
    · intro h k hk
      by_cases h1 : clamp (i.op n).connectOut (-1) 5 ≥ 0
      · rw [if_pos h1] at h
        omega
      · rw [if_neg h1] at h
        rcases Nat.lt_succ_iff_lt_or_eq.mp hk with h2 | h2
        · exact ih.mp h k h2
        · subst h2
          by_contra h3
          exact h1 (hc.mpr (by omega))
    · intro h
      have h1 : ¬ clamp (i.op n).connectOut (-1) 5 ≥ 0 := by
        intro h2
        have := h n (Nat.lt_succ_self n)
        have := hc.mp h2
        omega
      rw [if_neg h1]
      exact ih.mpr (fun k hk => h k (Nat.lt_succ_of_lt hk))

theorem recoverToMix_op (i : fm_instrument) : (recoverToMix i).op = i.op := by
  have h : ∀ n, (forLoop n (fun j x =>
      ({ x with toMix := Function.update x.toMix j (clamp (x.toMix j) (-1) 5) } : fm_instrument)) i).op
      = i.op := by
    intro n
    induction n with
    | zero => rfl
    | succ n ih => rw [forLoop_succ]; exact ih
  exact h 4

theorem recoverHeader_op (i : fm_instrument) : (recoverHeader i).op = i.op := rfl

theorem identityOut_op (i : fm_instrument) (k : Nat) :
    (identityOut i).op k = if k < 6 then { i.op k with connectOut := (k : Int) } else i.op k := by
  have h : ∀ n k, (forLoop n (fun k x => setOp x k { x.op k with connectOut := (k : Int) }) i).op k =
      if k < n then { i.op k with connectOut := (k : Int) } else i.op k := by
    intro n
    induction n with
    | zero => intro k; simp [forLoop]
    | succ n ih =>
      intro k
      rw [forLoop_succ, setOp_op, ih k, ih n]
      by_cases hk : k = n
      · subst hk; simp
      · have : k < n + 1 ↔ k < n := by omega
        simp [hk, this]
  exact h 6 k

theorem recovery_connect (i : fm_instrument) (k : Nat) :
    ((mt_instrumentRecovery i).op k).connect =
      forLoop 6 (slotStep 5) (fun j => (i.op j).connect) k := by
  unfold mt_instrumentRecovery
  simp only []
  split_ifs with h
  · rw [identityOut_op]
    split_ifs <;> simp only [outer_connect, recoverToMix_op, recoverHeader_op]
  · simp only [outer_connect, recoverToMix_op, recoverHeader_op]

theorem recovery_connect2 (i : fm_instrument) (k : Nat) :
    ((mt_instrumentRecovery i).op k).connect2 =
      forLoop 6 (slotStep 6) (fun j => (i.op j).connect2) k := by
  unfold mt_instrumentRecovery
  simp only []
  split_ifs with h
  · rw [identityOut_op]
    split_ifs <;> simp only [outer_connect2, recoverToMix_op, recoverHeader_op]
  · simp only [outer_connect2, recoverToMix_op, recoverHeader_op]

theorem recovery_connectOut (i : fm_instrument) (k : Nat) (hk : k < 6) :
    ((mt_instrumentRecovery i).op k).connectOut =
      if ∀ j, j < 6 → (i.op j).connectOut < 0 then (k : Int)
      else clamp (i.op k).connectOut (-1) 5 := by
  have hnb := outer_nbOuts 6 (recoverToMix (recoverHeader i))
  simp only [recoverToMix_op, recoverHeader_op] at hnb
  unfold mt_instrumentRecovery
  simp only []
  by_cases h : ∀ j, j < 6 → (i.op j).connectOut < 0
  · rw [if_pos h, if_pos (hnb.mpr h), identityOut_op, if_pos hk]
  · rw [if_neg h, if_neg (fun h1 => h (hnb.mp h1)), outer_connectOut, if_pos hk]
    simp only [recoverToMix_op, recoverHeader_op]

/-- C5: when no operator of the input has `connectOut >= 0`, recovery sets
`connectOut` of operator k to k for each of the six operators; when at least one
operator has `connectOut >= 0`, the recovered `connectOut` of every operator is
its input value clamped into -1..5. -/
theorem recovery_connectOut_rule (i : fm_instrument) (k : Nat) (hk : k < 6) :
    ((∀ j, j < 6 → ¬ (i.op j).connectOut ≥ 0) →
        ((mt_instrumentRecovery i).op k).connectOut = (k : Int)) ∧
    ((∃ j, j < 6 ∧ (i.op j).connectOut ≥ 0) →
        ((mt_instrumentRecovery i).op k).connectOut = clamp (i.op k).connectOut (-1) 5) := by
  rw [recovery_connectOut i k hk]
  constructor
  · intro h
    rw [if_pos (fun j hj => lt_of_not_ge (h j hj))]
  · rintro ⟨j, hj, h⟩
    rw [if_neg (fun h1 => absurd (h1 j hj) (not_lt.mpr h))]

/-- Witness for C5: an instrument with every `connectOut = -1` gets the identity
routing, and the default instrument with operator 2 set to 9 gets it clamped to 5. -/
theorem recovery_connectOut_rule_witness :
    (4 < 6 ∧ ((mt_instrumentRecovery silentInstrument).op 4).connectOut = ((4 : Nat) : Int)) ∧
    (2 < 6 ∧ ((mt_instrumentRecovery
        (setOp defaultInstrument 2 { zeroOperator with connectOut := 9 })).op 2).connectOut
        = clamp 9 (-1) 5) :=
  ⟨⟨by decide, (recovery_connectOut_rule silentInstrument 4 (by decide)).1
      (fun j _ => show ¬ ((-1 : Int) ≥ 0) by decide)⟩,
   ⟨by decide, (recovery_connectOut_rule _ 2 (by decide)).2 ⟨0, by decide, by decide⟩⟩⟩

/-- C6: after recovery no two distinct operators a, b point at each other,
neither through `connect` nor through `connect2`. -/
theorem recovery_no_mutual_pair (i : fm_instrument) (a b : Nat)
    (ha : a < 6) (hb : b < 6) (hab : a ≠ b) :
    ¬ (((mt_instrumentRecovery i).op a).connect = (b : Int) ∧
        ((mt_instrumentRecovery i).op b).connect = (a : Int)) ∧
    ¬ (((mt_instrumentRecovery i).op a).connect2 = (b : Int) ∧
        ((mt_instrumentRecovery i).op b).connect2 = (a : Int)) := by
  simp only [recovery_connect, recovery_connect2]
  exact ⟨slot_noMutual 5 _ 6 (le_refl 6) a b ha hb hab,
    slot_noMutual 6 _ 6 (le_refl 6) a b ha hb hab⟩

/-- Witness for C6 at the instrument with the mutual pair 0, 1. -/
theorem recovery_no_mutual_pair_witness :
    (0 < 6 ∧ 1 < 6 ∧ (0 : Nat) ≠ 1) ∧
    (¬ (((mt_instrumentRecovery mutualInstrument).op 0).connect = ((1 : Nat) : Int) ∧
        ((mt_instrumentRecovery mutualInstrument).op 1).connect = ((0 : Nat) : Int)) ∧
    ¬ (((mt_instrumentRecovery mutualInstrument).op 0).connect2 = ((1 : Nat) : Int) ∧
        ((mt_instrumentRecovery mutualInstrument).op 1).connect2 = ((0 : Nat) : Int))) :=
  ⟨⟨by decide, by decide, by decide⟩,
    recovery_no_mutual_pair mutualInstrument 0 1 (by decide) (by decide) (by decide)⟩

/-- C7, counterexample: recovery of the default instrument leaves every operator
k with `connectOut = k`, so the claim that no routing field equals the
operator's own index fails. -/
theorem recovery_self_connectOut_counterexample :
    ¬ (∀ k, k < 6 →
        ((mt_instrumentRecovery defaultInstrument).op k).connect ≠ (k : Int) ∧
        ((mt_instrumentRecovery defaultInstrument).op k).connect2 ≠ (k : Int) ∧
        ((mt_instrumentRecovery defaultInstrument).op k).connectOut ≠ (k : Int)) := by
  intro h
  exact (h 0 (by decide)).2.2 (by decide)

/-- C7, amended: after recovery no operator k has `connect = k` or
`connect2 = k`; `connectOut = k` is left in place, it holds after recovery
exactly when no operator of the input was routed out or the clamped input value
is k. -/
theorem recovery_no_self_edge (i : fm_instrument) (k : Nat) (hk : k < 6) :
    ((mt_instrumentRecovery i).op k).connect ≠ (k : Int) ∧
    ((mt_instrumentRecovery i).op k).connect2 ≠ (k : Int) ∧
    (((mt_instrumentRecovery i).op k).connectOut = (k : Int) ↔
      ((∀ j, j < 6 → (i.op j).connectOut < 0) ∨ clamp (i.op k).connectOut (-1) 5 = (k : Int))) := by
  refine ⟨?_, ?_, ?_⟩
  · rw [recovery_connect]
    exact slot_noSelf 5 _ 6 k hk
  · rw [recovery_connect2]
    exact slot_noSelf 6 _ 6 k hk
  · rw [recovery_connectOut i k hk]
    by_cases h : ∀ j, j < 6 → (i.op j).connectOut < 0
    · rw [if_pos h]
      exact ⟨fun _ => Or.inl h, fun _ => rfl⟩
    · rw [if_neg h]
      exact ⟨Or.inr, fun o => o.resolve_left h⟩

/-- Witness for the amended C7 at operator 3 of an instrument whose operator 3
feeds itself on both slots. -/
theorem recovery_no_self_edge_witness :
    3 < 6 ∧
    ((mt_instrumentRecovery
        (setOp defaultInstrument 3 { zeroOperator with connect := 3, connect2 := 3 })).op 3).connect
      ≠ ((3 : Nat) : Int) :=
  ⟨by decide, (recovery_no_self_edge _ 3 (by decide)).1⟩

theorem setState_same (cs : StateTable) (o j : Nat) (x : ChannelState) :
    (setState cs o j x).get o j = x := by
  unfold setState
  simp

theorem setState_other (cs : StateTable) (o j : Nat) (x : ChannelState) (o1 j1 : Nat)
    (h : ¬ (o1 = o ∧ j1 = j)) : (setState cs o j x).get o1 j1 = cs.get o1 j1 := by
  unfold setState
  by_cases ho : o1 = o
  · subst ho
    have hj : j1 ≠ j := fun e => h ⟨rfl, e⟩
    simp [Function.update, hj]
  · simp [Function.update, ho]

theorem setTempo_other (cs : StateTable) (o j t o1 j1 : Nat) (h : ¬ (o1 = o ∧ j1 = j)) :
    (setTempo cs o j t).get o1 j1 = cs.get o1 j1 := setState_other _ _ _ _ _ _ h

theorem setTime_other (cs : StateTable) (o j : Nat) (t : ℚ) (o1 j1 : Nat)
    (h : ¬ (o1 = o ∧ j1 = j)) :
    (setTime cs o j t).get o1 j1 = cs.get o1 j1 := setState_other _ _ _ _ _ _ h

theorem setPan_other (cs : StateTable) (o j ch v o1 j1 : Nat) (h : ¬ (o1 = o ∧ j1 = j)) :
    (setPan cs o j ch v).get o1 j1 = cs.get o1 j1 := setState_other _ _ _ _ _ _ h

theorem setVol_other (cs : StateTable) (o j ch v o1 j1 : Nat) (h : ¬ (o1 = o ∧ j1 = j)) :
    (setVol cs o j ch v).get o1 j1 = cs.get o1 j1 := setState_other _ _ _ _ _ _ h

theorem setTempo_tempo (cs : StateTable) (o j t : Nat) :
    ((setTempo cs o j t).get o j).tempo = t := by
  unfold setTempo; rw [setState_same]

theorem setTempo_time (cs : StateTable) (o j t : Nat) :
    ((setTempo cs o j t).get o j).time = (cs.get o j).time := by
  unfold setTempo; rw [setState_same]

theorem setTime_time (cs : StateTable) (o j : Nat) (t : ℚ) :
    ((setTime cs o j t).get o j).time = t := by
  unfold setTime; rw [setState_same]

theorem setTime_tempo (cs : StateTable) (o j : Nat) (t : ℚ) :
    ((setTime cs o j t).get o j).tempo = (cs.get o j).tempo := by
  unfold setTime; rw [setState_same]

theorem setPan_tempo (cs : StateTable) (o j ch v : Nat) :
    ((setPan cs o j ch v).get o j).tempo = (cs.get o j).tempo := by
  unfold setPan; rw [setState_same]

theorem setPan_time (cs : StateTable) (o j ch v : Nat) :
    ((setPan cs o j ch v).get o j).time = (cs.get o j).time := by
  unfold setPan; rw [setState_same]

theorem setVol_tempo (cs : StateTable) (o j ch v : Nat) :
    ((setVol cs o j ch v).get o j).tempo = (cs.get o j).tempo := by
  unfold setVol; rw [setState_same]

theorem setVol_time (cs : StateTable) (o j ch v : Nat) :
    ((setVol cs o j ch v).get o j).time = (cs.get o j).time := by
  unfold setVol; rw [setState_same]

theorem stateChannel_other (mt : mtsynth) (o j ch : Nat) (cs : StateTable) (o1 j1 : Nat)
    (h : ¬ (o1 = o ∧ j1 = j)) : (stateChannel mt o j ch cs).get o1 j1 = cs.get o1 j1 := by
  unfold stateChannel
  simp only []
  split_ifs <;>
    simp only [setTempo_other _ _ _ _ _ _ h, setPan_other _ _ _ _ _ _ _ h,
      setVol_other _ _ _ _ _ _ _ h]

theorem stateChannel_time (mt : mtsynth) (o j ch : Nat) (cs : StateTable) :
    ((stateChannel mt o j ch cs).get o j).time = (cs.get o j).time := by
  unfold stateChannel
  simp only []
  split_ifs <;> simp only [setTempo_time, setPan_time, setVol_time]

theorem stateChannel_tempo (mt : mtsynth) (o j ch : Nat) (cs : StateTable) :
    ((stateChannel mt o j ch cs).get o j).tempo
      = cellTempo (mt.pattern o j ch) (cs.get o j).tempo := by
  unfold stateChannel cellTempo
  simp only []
  split_ifs <;> simp only [setTempo_tempo, setPan_tempo, setVol_tempo]

theorem channelLoop_other (mt : mtsynth) (o j s n : Nat) (cs : StateTable) (o1 j1 : Nat)
    (h : ¬ (o1 = o ∧ j1 = j)) :
    (forLoop n (fun t => stateChannel mt o j (s + t)) cs).get o1 j1 = cs.get o1 j1 := by
  induction n with
  | zero => rfl
  | succ n ih => rw [forLoop_succ, stateChannel_other _ _ _ _ _ _ _ h, ih]

theorem channelLoop_time (mt : mtsynth) (o j s n : Nat) (cs : StateTable) :
    ((forLoop n (fun t => stateChannel mt o j (s + t)) cs).get o j).time = (cs.get o j).time := by
  induction n with
  | zero => rfl
  | succ n ih => rw [forLoop_succ, stateChannel_time, ih]

theorem channelLoop_tempo (mt : mtsynth) (o j s n : Nat) (cs : StateTable) :
    ((forLoop n (fun t => stateChannel mt o j (s + t)) cs).get o j).tempo
      = rowTempo mt o j s n (cs.get o j).tempo := by
  induction n with
  | zero => rfl
  | succ n ih =>
    rw [forLoop_succ, stateChannel_tempo, ih]
    rfl

theorem stateCarry_other (mt : mtsynth) (o j : Nat) (cs : StateTable) (o1 j1 : Nat)
    (h : ¬ (o1 = o ∧ j1 = j)) : (stateCarry mt o j cs).get o1 j1 = cs.get o1 j1 := by
  unfold stateCarry
  simp only []
  split_ifs <;> simp only [setTempo_other _ _ _ _ _ _ h, setTime_other _ _ _ _ _ _ h]

theorem stateCarry_first (mt : mtsynth) (cs : StateTable) : stateCarry mt 0 0 cs = cs := by
  unfold stateCarry
  simp

theorem stateCarry_next (mt : mtsynth) (o j : Nat) (cs : StateTable) (h : j > 0 ∨ o > 0) :
    ((stateCarry mt o j cs).get o j).time =
        (cs.get (prevRow mt o j).1 (prevRow mt o j).2).time
          + rowDuration mt cs (prevRow mt o j).1 (prevRow mt o j).2 ∧
    ((stateCarry mt o j cs).get o j).tempo
      = (cs.get (prevRow mt o j).1 (prevRow mt o j).2).tempo := by
  unfold stateCarry prevRow rowDuration
  by_cases hj : j > 0
  · have h1 : ¬ (o = o ∧ j - 1 = j) := by omega
    simp only [hj, if_true]
    rw [setTime_time, setTime_tempo, setTempo_tempo, setTempo_other _ _ _ _ _ _ h1]
    exact ⟨rfl, rfl⟩
  · have ho : o > 0 := by omega
    have h1 : ¬ (o - 1 = o ∧ mt.patternSize (o - 1) - 1 = j) := by omega
    simp only [hj, ho, if_true, if_false]
    rw [setTime_time, setTime_tempo, setTempo_tempo, setTempo_other _ _ _ _ _ _ h1]
    exact ⟨rfl, rfl⟩

theorem stateRow_other (mt : mtsynth) (s e o j : Nat) (cs : StateTable) (o1 j1 : Nat)
    (h : ¬ (o1 = o ∧ j1 = j)) : (stateRow mt s e o j cs).get o1 j1 = cs.get o1 j1 := by
  unfold stateRow
  rw [channelLoop_other _ _ _ _ _ _ _ _ h, stateCarry_other _ _ _ _ _ _ h]

theorem stateRow_first (mt : mtsynth) (s e : Nat) (cs : StateTable) :
    ((stateRow mt s e 0 0 cs).get 0 0).time = (cs.get 0 0).time ∧
    ((stateRow mt s e 0 0 cs).get 0 0).tempo = rowTempo mt 0 0 s (e - s) (cs.get 0 0).tempo := by
  unfold stateRow
  rw [channelLoop_time, channelLoop_tempo, stateCarry_first]
  exact ⟨rfl, rfl⟩

theorem stateRow_next (mt : mtsynth) (s e o j : Nat) (cs : StateTable) (h : j > 0 ∨ o > 0) :
    ((stateRow mt s e o j cs).get o j).time =
        (cs.get (prevRow mt o j).1 (prevRow mt o j).2).time
          + rowDuration mt cs (prevRow mt o j).1 (prevRow mt o j).2 ∧
    ((stateRow mt s e o j cs).get o j).tempo =
        rowTempo mt o j s (e - s) (cs.get (prevRow mt o j).1 (prevRow mt o j).2).tempo := by
  unfold stateRow
  rw [channelLoop_time, channelLoop_tempo, (stateCarry_next mt o j cs h).1,
    (stateCarry_next mt o j cs h).2]
  exact ⟨rfl, rfl⟩

theorem rowDuration_congr (mt : mtsynth) (a b : StateTable) (o j : Nat) (h : a o j = b o j) :
    rowDuration mt a o j = rowDuration mt b o j := by
  unfold rowDuration; rw [h]

theorem rowLoop_other (mt : mtsynth) (s e o n : Nat) (cs : StateTable) (o1 j1 : Nat)
    (h : o1 ≠ o ∨ n ≤ j1) : forLoop n (stateRow mt s e o) cs o1 j1 = cs o1 j1 := by
  induction n with
  | zero => rfl
  | succ n ih =>
    rw [forLoop_succ, stateRow_other _ _ _ _ _ _ _ _ (by omega), ih (by omega)]

theorem rowLoop_stable (mt : mtsynth) (s e o n m : Nat) (cs : StateTable) (j : Nat)
    (hj : j < n) (hnm : n ≤ m) :
    forLoop m (stateRow mt s e o) cs o j = forLoop n (stateRow mt s e o) cs o j := by
  induction m with
  | zero => omega
  | succ m ih =>
    rcases Nat.lt_or_ge n (m + 1) with h | h
    · rw [forLoop_succ, stateRow_other _ _ _ _ _ _ _ _ (by omega), ih (by omega)]
    · have : n = m + 1 := by omega
      rw [this]

theorem rowLoop_time (mt : mtsynth) (s e o n : Nat) (cs : StateTable) :
    ∀ j, j < n → (forLoop n (stateRow mt s e o) cs o j).time =
      (forLoop n (stateRow mt s e o) cs o 0).time
        + ∑ k in Finset.range j, rowDuration mt (forLoop n (stateRow mt s e o) cs) o k := by
  induction n with
  | zero => intro j hj; omega
  | succ n ih =>
    intro j hj
    have hstab : ∀ k, k < n → forLoop (n + 1) (stateRow mt s e o) cs o k
        = forLoop n (stateRow mt s e o) cs o k :=
      fun k hk => rowLoop_stable mt s e o n (n + 1) cs k hk (Nat.le_succ n)
    have hsum : ∀ j, j ≤ n →
        ∑ k in Finset.range j, rowDuration mt (forLoop (n + 1) (stateRow mt s e o) cs) o k
        = ∑ k in Finset.range j, rowDuration mt (forLoop n (stateRow mt s e o) cs) o k := by
      intro j hj
      apply Finset.sum_congr rfl
      intro k hk
      exact rowDuration_congr mt _ _ o k (hstab k (by have := Finset.mem_range.mp hk; omega))
    rcases Nat.lt_succ_iff_lt_or_eq.mp hj with h | h
    · rw [hsum j (by omega), hstab j h, hstab 0 (by omega)]
      exact ih j h
    · subst h
      cases j with
      | zero => simp
      | succ i =>
        rw [hsum (i + 1) (le_refl _), hstab 0 (Nat.succ_pos i)]
        rw [forLoop_succ (i + 1)]
        rw [(stateRow_next mt s e o (i + 1) _ (Or.inl (Nat.succ_pos i))).1]
        have hp : prevRow mt o (i + 1) = (o, i) := by unfold prevRow; simp
        rw [hp]
        simp only []
        rw [ih i (Nat.lt_succ_self i), Finset.sum_range_succ]
        ring

theorem stateInit_other (mt : mtsynth) (cs : StateTable) (o1 j1 : Nat)
    (h : ¬ (o1 = 0 ∧ j1 = 0)) : (stateInit mt cs).get o1 j1 = cs.get o1 j1 := by
  have hl : ∀ n, (forLoop n (stateInitChannel mt) cs).get o1 j1 = cs.get o1 j1 := by
    intro n
    induction n with
    | zero => rfl
    | succ n ih =>
      rw [forLoop_succ]
      unfold stateInitChannel
      rw [setVol_other _ _ _ _ _ _ _ h, setPan_other _ _ _ _ _ _ _ h]
      exact ih
  unfold stateInit
  rw [setTime_other _ _ _ _ _ _ h, setTempo_other _ _ _ _ _ _ h]
  exact hl FM_ch

theorem stateInit_first (mt : mtsynth) (cs : StateTable) :
    ((stateInit mt cs).get 0 0).time = 0 ∧ ((stateInit mt cs).get 0 0).tempo = mt.initial_tempo := by
  unfold stateInit
  rw [setTime_time, setTime_tempo, setTempo_tempo]
  exact ⟨rfl, rfl⟩

theorem stateOrder_other (mt : mtsynth) (s e o : Nat) (cs : StateTable) (o1 j1 : Nat)
    (h : o1 ≠ o) : stateOrder mt s e o cs o1 j1 = cs o1 j1 := by
  unfold stateOrder
  rw [rowLoop_other _ _ _ _ _ _ _ _ (Or.inl h)]
  split_ifs with h0
  · exact stateInit_other mt cs o1 j1 (by omega)
  · rfl

theorem stateOrder_time (mt : mtsynth) (s e o : Nat) (cs : StateTable) (j : Nat)
    (hj : j < mt.patternSize o) :
    (stateOrder mt s e o cs o j).time =
      orderBase mt cs o + ∑ k in Finset.range j, rowDuration mt (stateOrder mt s e o cs) o k := by
  have h1 := rowLoop_time mt s e o (mt.patternSize o) (if o = 0 then stateInit mt cs else cs) j hj
  have h2 := rowLoop_stable mt s e o 1 (mt.patternSize o) (if o = 0 then stateInit mt cs else cs) 0
    (by omega) (by omega)
  unfold stateOrder
  rw [h1, h2]
  congr 1
  rw [forLoop_succ]
  unfold orderBase
  by_cases h0 : o = 0
  · subst h0
    simp only [if_true, forLoop]
    rw [(stateRow_first mt s e _).1, (stateInit_first mt cs).1]
  · simp only [h0, if_false, forLoop]
    rw [(stateRow_next mt s e o 0 _ (Or.inr (by omega))).1]
    have hp : prevRow mt o 0 = (o - 1, mt.patternSize (o - 1) - 1) := by unfold prevRow; simp
    rw [hp]

theorem elapsedOrders_congr (mt : mtsynth) (a b : StateTable) (o : Nat)
    (h : ∀ o1 j1, o1 < o → a o1 j1 = b o1 j1) :
    elapsedOrders mt a o = elapsedOrders mt b o := by
  unfold elapsedOrders
  apply Finset.sum_congr rfl
  intro x hx
  apply Finset.sum_congr rfl
  intro k _
  exact rowDuration_congr mt a b x k (h x k (Finset.mem_range.mp hx))

theorem elapsedBefore_congr (mt : mtsynth) (a b : StateTable) (o j : Nat)
    (h : ∀ o1 j1, o1 ≤ o → a o1 j1 = b o1 j1) :
    elapsedBefore mt a o j = elapsedBefore mt b o j := by
  unfold elapsedBefore
  rw [elapsedOrders_congr mt a b o (fun o1 j1 h1 => h o1 j1 (Nat.le_of_lt h1))]
  congr 1
  apply Finset.sum_congr rfl
  intro k _
  exact rowDuration_congr mt a b o k (h o k (le_refl o))

theorem elapsedOrders_succ (mt : mtsynth) (cs : StateTable) (o : Nat) :
    elapsedOrders mt cs (o + 1) = elapsedBefore mt cs o (mt.patternSize o) := by
  unfold elapsedBefore elapsedOrders
  rw [Finset.sum_range_succ]

theorem orderLoop_time (mt : mtsynth) (s e m : Nat) (cs : StateTable)
    (hsize : ∀ o, o < m → 1 ≤ mt.patternSize o) :
    ∀ o j, o < m → j < mt.patternSize o →
      (forLoop m (stateOrder mt s e) cs o j).time
        = elapsedBefore mt (forLoop m (stateOrder mt s e) cs) o j := by
  induction m with
  | zero => intro o j ho; omega
  | succ m ih =>
    intro o j ho hj
    have ih' := ih (fun o h => hsize o (Nat.lt_succ_of_lt h))
    have hstab : ∀ o1 j1, o1 < m → forLoop (m + 1) (stateOrder mt s e) cs o1 j1
        = forLoop m (stateOrder mt s e) cs o1 j1 := by
      intro o1 j1 h1
      rw [forLoop_succ, stateOrder_other _ _ _ _ _ _ _ (by omega)]
    rcases Nat.lt_succ_iff_lt_or_eq.mp ho with h | h
    · rw [hstab o j h,
        elapsedBefore_congr mt _ (forLoop m (stateOrder mt s e) cs) o j
          (fun o1 j1 h1 => hstab o1 j1 (by omega))]
      exact ih' o j h hj
    · subst h
      rw [forLoop_succ, stateOrder_time mt s e o _ j hj]
      unfold elapsedBefore
      congr 1
      rw [← forLoop_succ o (stateOrder mt s e) cs,
        elapsedOrders_congr mt _ (forLoop o (stateOrder mt s e) cs) o hstab]
      unfold orderBase
      cases o with
      | zero => simp [elapsedOrders]
      | succ p =>
        have hp := hsize p (by omega)
        simp only [Nat.succ_ne_zero, if_false, Nat.add_sub_cancel]
        rw [ih' p (mt.patternSize p - 1) (by omega) (by omega), elapsedOrders_succ]
        unfold elapsedBefore
        have hps : mt.patternSize p = (mt.patternSize p - 1) + 1 := by omega
        conv_rhs => rw [hps, Finset.sum_range_succ]
        ring

theorem rowLoop_tempo (mt : mtsynth) (s e o n : Nat) (cs : StateTable) (j : Nat) (hj : j < n) :
    (forLoop n (stateRow mt s e o) cs o j).tempo =
      rowTempo mt o j s (e - s)
        (if j > 0 then (forLoop n (stateRow mt s e o) cs o (j - 1)).tempo
         else if o > 0 then (cs (o - 1) (mt.patternSize (o - 1) - 1)).tempo
         else (cs 0 0).tempo) := by
  rw [rowLoop_stable mt s e o (j + 1) n cs j (Nat.lt_succ_self j) hj, forLoop_succ]
  by_cases h0 : j > 0
  · rw [(stateRow_next mt s e o j _ (Or.inl h0)).2, if_pos h0]
    have hp : prevRow mt o j = (o, j - 1) := by unfold prevRow; simp [h0]
    rw [hp, rowLoop_stable mt s e o j n cs (j - 1) (by omega) (by omega)]
  · have hj0 : j = 0 := by omega
    subst hj0
    simp only [forLoop, lt_irrefl, if_false]
    by_cases ho : o > 0
    · rw [(stateRow_next mt s e o 0 _ (Or.inr ho)).2, if_pos ho]
      have hp : prevRow mt o 0 = (o - 1, mt.patternSize (o - 1) - 1) := by unfold prevRow; simp
      rw [hp]
    · have ho0 : o = 0 := by omega
      subst ho0
      rw [(stateRow_first mt s e _).2]
      simp

theorem stateOrder_tempo (mt : mtsynth) (s e o : Nat) (cs : StateTable) (j : Nat)
    (hj : j < mt.patternSize o) :
    (stateOrder mt s e o cs o j).tempo =
      rowTempo mt o j s (e - s)
        (if j > 0 then (stateOrder mt s e o cs o (j - 1)).tempo
         else if o > 0 then (cs (o - 1) (mt.patternSize (o - 1) - 1)).tempo
         else mt.initial_tempo) := by
  unfold stateOrder
  rw [rowLoop_tempo mt s e o _ _ j hj]
  by_cases h0 : o = 0
  · subst h0
    simp only [if_true, lt_irrefl, if_false, (stateInit_first mt cs).2]
  · have : o > 0 := by omega
    simp only [h0, if_false, this, if_true]

theorem orderLoop_stable (mt : mtsynth) (s e n m : Nat) (cs : StateTable) (o j : Nat)
    (ho : o < n) (hnm : n ≤ m) :
    forLoop m (stateOrder mt s e) cs o j = forLoop n (stateOrder mt s e) cs o j := by
  induction m with
  | zero => omega
  | succ m ih =>
    rcases Nat.lt_or_ge n (m + 1) with h | h
    · rw [forLoop_succ, stateOrder_other _ _ _ _ _ _ _ (by omega), ih (by omega)]
    · have : n = m + 1 := by omega
      rw [this]

theorem orderLoop_tempo (mt : mtsynth) (s e m : Nat) (cs : StateTable) (o j : Nat)
    (ho : o < m) (hj : j < mt.patternSize o) :
    (forLoop m (stateOrder mt s e) cs o j).tempo =
      rowTempo mt o j s (e - s)
        (if j > 0 ∨ o > 0 then
          (forLoop m (stateOrder mt s e) cs (prevRow mt o j).1 (prevRow mt o j).2).tempo
         else mt.initial_tempo) := by
  have h1 : ∀ j1, forLoop m (stateOrder mt s e) cs o j1
      = stateOrder mt s e o (forLoop o (stateOrder mt s e) cs) o j1 := by
    intro j1
    rw [orderLoop_stable mt s e (o + 1) m cs o j1 (Nat.lt_succ_self o) ho, forLoop_succ]
  rw [h1 j, stateOrder_tempo mt s e o _ j hj]
  congr 1
  unfold prevRow
  by_cases hj0 : j > 0
  · simp only [hj0, true_or, if_true]
    rw [h1 (j - 1)]
  · by_cases ho0 : o > 0
    · simp only [hj0, ho0, or_true, if_true, if_false]
      rw [orderLoop_stable mt s e o m cs (o - 1) _ (by omega) (by omega)]
    · simp only [hj0, ho0, or_self, if_false]

theorem cellTempo_pos (c : Cell) (t : Nat) (ht : 1 ≤ t) : 1 ≤ cellTempo c t := by
  unfold cellTempo
  split_ifs <;> omega

theorem rowTempo_pos (mt : mtsynth) (o j s n t : Nat) (ht : 1 ≤ t) : 1 ≤ rowTempo mt o j s n t := by
  unfold rowTempo
  induction n with
  | zero => exact ht
  | succ n ih => rw [forLoop_succ]; exact cellTempo_pos _ _ ih

theorem buildStateTable_full (mt : mtsynth) (cs : StateTable) :
    mt_buildStateTable mt cs 0 mt.patternCount 0 FM_ch
      = forLoop mt.patternCount (stateOrder mt 0 FM_ch) cs := by
  unfold mt_buildStateTable
  have h1 : clampN 0 0 mt.patternCount = 0 := by unfold clampN; simp
  have h2 : clampN mt.patternCount 0 mt.patternCount = mt.patternCount := by unfold clampN; simp
  have h3 : clampN 0 0 FM_ch = 0 := by unfold clampN; simp
  have h4 : clampN FM_ch 0 FM_ch = FM_ch := by unfold clampN; simp
  simp only [h1, h2, h3, h4, Nat.sub_zero, Nat.zero_add]

theorem orderLoop_tempo_pos (mt : mtsynth) (s e m : Nat) (cs : StateTable)
    (hT : 1 ≤ mt.initial_tempo) (hsize : ∀ o, o < m → 1 ≤ mt.patternSize o) :
    ∀ o, o < m → ∀ j, j < mt.patternSize o →
      1 ≤ (forLoop m (stateOrder mt s e) cs o j).tempo := by
  intro o
  induction o with
  | zero =>
    intro ho j
    induction j with
    | zero =>
      intro hj
      rw [orderLoop_tempo mt s e m cs 0 0 ho hj]
      apply rowTempo_pos
      simpa using hT
    | succ j ih =>
      intro hj
      rw [orderLoop_tempo mt s e m cs 0 (j + 1) ho hj]
      apply rowTempo_pos
      have hp : prevRow mt 0 (j + 1) = (0, j) := by unfold prevRow; simp
      simp only [Nat.succ_pos, true_or, if_true, hp]
      exact ih (by omega)
  | succ o iho =>
    intro ho j
    induction j with
    | zero =>
      intro hj
      rw [orderLoop_tempo mt s e m cs (o + 1) 0 ho hj]
      apply rowTempo_pos
      have hp : prevRow mt (o + 1) 0 = (o, mt.patternSize o - 1) := by unfold prevRow; simp
      simp only [Nat.succ_pos, or_true, if_true, hp]
      have := hsize o (by omega)
      exact iho (by omega) _ (by omega)
    | succ j ih =>
      intro hj
      rw [orderLoop_tempo mt s e m cs (o + 1) (j + 1) ho hj]
      apply rowTempo_pos
      have hp : prevRow mt (o + 1) (j + 1) = (o + 1, j) := by unfold prevRow; simp
      simp only [Nat.succ_pos, true_or, if_true, hp]
      exact ih (by omega)

/-- C9: after `mt_buildStateTable` over all orders and all 24 channels of a song
with initial tempo >= 1, divisor >= 1 and patterns of at least one row, the time
at order 0 row 0 is 0, and for every row `(o, j)` of the song the time equals the
sum of `60 / (tempo_r * diviseur)` over all rows `r` that precede it in playback
order, `tempo_r` being the tempo the table holds for row `r`: the tempo of the
preceding row (the initial tempo at order 0 row 0) with the `T` effects of the
cells of row `r` applied (`fxdata`, or 1 when `fxdata` is 0); every such
denominator is at least 1. -/
theorem buildStateTable_time (mt : mtsynth) (cs : StateTable)
    (hT : 1 ≤ mt.initial_tempo) (hD : 1 ≤ mt.diviseur)
    (hsize : ∀ o, o < mt.patternCount → 1 ≤ mt.patternSize o)
    (o j : Nat) (ho : o < mt.patternCount) (hj : j < mt.patternSize o) :
    (mt_buildStateTable mt cs 0 mt.patternCount 0 FM_ch 0 0).time = 0 ∧
    (mt_buildStateTable mt cs 0 mt.patternCount 0 FM_ch o j).time
      = elapsedBefore mt (mt_buildStateTable mt cs 0 mt.patternCount 0 FM_ch) o j ∧
    (mt_buildStateTable mt cs 0 mt.patternCount 0 FM_ch o j).tempo
      = rowTempo mt o j 0 FM_ch
          (if j > 0 ∨ o > 0 then
            (mt_buildStateTable mt cs 0 mt.patternCount 0 FM_ch
              (prevRow mt o j).1 (prevRow mt o j).2).tempo
           else mt.initial_tempo) ∧
    1 ≤ (mt_buildStateTable mt cs 0 mt.patternCount 0 FM_ch o j).tempo * mt.diviseur := by
  rw [buildStateTable_full]
  have h0 : 0 < mt.patternCount := by omega
  refine ⟨?_, orderLoop_time mt 0 FM_ch _ cs hsize o j ho hj, ?_, ?_⟩
  · rw [orderLoop_time mt 0 FM_ch _ cs hsize 0 0 h0 (hsize 0 h0)]
    simp [elapsedBefore, elapsedOrders]
  · have := orderLoop_tempo mt 0 FM_ch _ cs o j ho hj
    simpa using this
  · exact Nat.one_le_iff_ne_zero.mpr (Nat.mul_ne_zero
      (Nat.one_le_iff_ne_zero.mp (orderLoop_tempo_pos mt 0 FM_ch _ cs hT hsize o ho j hj))
      (Nat.one_le_iff_ne_zero.mp hD))

/-- Witness for C9 at row 0 of order 1 of the demo song. -/
theorem buildStateTable_time_witness :
    (1 ≤ demoSong.initial_tempo ∧ 1 ≤ demoSong.diviseur ∧
      (∀ o, o < demoSong.patternCount → 1 ≤ demoSong.patternSize o) ∧
      1 < demoSong.patternCount ∧ 0 < demoSong.patternSize 1) ∧
    (mt_buildStateTable demoSong zeroTable 0 demoSong.patternCount 0 FM_ch 1 0).time
      = elapsedBefore demoSong
          (mt_buildStateTable demoSong zeroTable 0 demoSong.patternCount 0 FM_ch) 1 0 :=
  ⟨⟨by decide, by decide, by decide, by decide, by decide⟩,
    (buildStateTable_time demoSong zeroTable (by decide) (by decide) (by decide) 1 0
      (by decide) (by decide)).2.1⟩

theorem elapsedOrders_last (mt : mtsynth) (T : StateTable) (c : Nat) (hc : 1 ≤ c)
    (hs : 1 ≤ mt.patternSize (c - 1)) :
    elapsedOrders mt T c
      = elapsedBefore mt T (c - 1) (mt.patternSize (c - 1) - 1)
        + rowDuration mt T (c - 1) (mt.patternSize (c - 1) - 1) := by
  obtain ⟨p, rfl⟩ : ∃ p, c = p + 1 := ⟨c - 1, by omega⟩
  rw [elapsedOrders_succ]
  simp only [Nat.add_sub_cancel] at hs ⊢
  obtain ⟨q, hq⟩ : ∃ q, mt.patternSize p = q + 1 := ⟨mt.patternSize p - 1, by omega⟩
  rw [hq]
  unfold elapsedBefore
  simp only [Nat.add_sub_cancel]
  rw [Finset.sum_range_succ]
  ring

/-- C10: `mt_getSongLength` returns 0 for a song with 0 patterns. For a song
with at least one pattern (each of at least one row), initial tempo and divisor
at least 1, whose state table is rebuilt by the call or, when
`channelStatesDone` is set, already agrees with its rebuild, it returns the sum
over every row `j` of every pattern `o` of `60 / (tempo * diviseur)`, `tempo`
being the tempo that `mt_buildStateTable` gives row `(o, j)`; every such
`tempo * diviseur` is at least 1, and the length is positive. -/
theorem getSongLength_sum (mt : mtsynth) (cs : StateTable) :
    (mt.patternCount = 0 → mt_getSongLength mt cs = 0) ∧
    (1 ≤ mt.patternCount → 1 ≤ mt.initial_tempo → 1 ≤ mt.diviseur →
      (∀ o, o < mt.patternCount → 1 ≤ mt.patternSize o) →
      (mt.channelStatesDone = true → ∀ o j, o < mt.patternCount → j < mt.patternSize o →
        cs o j = mt_buildStateTable mt cs 0 mt.patternCount 0 FM_ch o j) →
      mt_getSongLength mt cs
        = ∑ o in Finset.range mt.patternCount, ∑ j in Finset.range (mt.patternSize o),
            60 / ((((mt_buildStateTable mt cs 0 mt.patternCount 0 FM_ch o j).tempo
              * mt.diviseur : Nat)) : ℚ) ∧
      (∀ o j, o < mt.patternCount → j < mt.patternSize o →
        1 ≤ (mt_buildStateTable mt cs 0 mt.patternCount 0 FM_ch o j).tempo * mt.diviseur) ∧
      0 < mt_getSongLength mt cs) := by
  constructor
  · intro h
    unfold mt_getSongLength
    rw [if_pos h]
  · intro hc hT hD hsize hdone
    have hne : ¬ mt.patternCount = 0 := by omega
    have hlast : mt.patternCount - 1 < mt.patternCount := by omega
    have hs := hsize _ hlast
    have hrow : mt.patternSize (mt.patternCount - 1) - 1 < mt.patternSize (mt.patternCount - 1) := by
      omega
    have key : (if ¬ mt.channelStatesDone = true
          then mt_buildStateTable mt cs 0 mt.patternCount 0 FM_ch else cs)
          (mt.patternCount - 1) (mt.patternSize (mt.patternCount - 1) - 1)
        = mt_buildStateTable mt cs 0 mt.patternCount 0 FM_ch
          (mt.patternCount - 1) (mt.patternSize (mt.patternCount - 1) - 1) := by
      cases hd : mt.channelStatesDone with
      | true =>
        simp only [not_true_eq_false, if_false]
        exact hdone hd _ _ hlast hrow
      | false => simp
    have hpos : ∀ o j, o < mt.patternCount → j < mt.patternSize o →
        1 ≤ (mt_buildStateTable mt cs 0 mt.patternCount 0 FM_ch o j).tempo * mt.diviseur := by
      intro o j ho hj
      rw [buildStateTable_full]
      exact Nat.one_le_iff_ne_zero.mpr (Nat.mul_ne_zero
        (Nat.one_le_iff_ne_zero.mp (orderLoop_tempo_pos mt 0 FM_ch _ cs hT hsize o ho j hj))
        (Nat.one_le_iff_ne_zero.mp hD))
    have hsum : mt_getSongLength mt cs
        = ∑ o in Finset.range mt.patternCount, ∑ j in Finset.range (mt.patternSize o),
            60 / ((((mt_buildStateTable mt cs 0 mt.patternCount 0 FM_ch o j).tempo
              * mt.diviseur : Nat)) : ℚ) := by
      unfold mt_getSongLength
      rw [if_neg hne]
      simp only []
      rw [key]
      have e := elapsedOrders_last mt (mt_buildStateTable mt cs 0 mt.patternCount 0 FM_ch)
        mt.patternCount hc hs
      unfold elapsedOrders at e
      unfold rowDuration at e
      rw [e]
      have ht := orderLoop_time mt 0 FM_ch _ cs hsize _ _ hlast hrow
      rw [← buildStateTable_full] at ht
      rw [ht]
      unfold elapsedBefore elapsedOrders rowDuration
      congr 1
      rw [div_mul_div_comm, one_mul]
      push_cast
      ring
    refine ⟨hsum, hpos, ?_⟩
    rw [hsum]
    apply Finset.sum_pos
    · intro o ho
      have ho' : o < mt.patternCount := Finset.mem_range.mp ho
      apply Finset.sum_pos
      · intro j hj
        have hj' : j < mt.patternSize o := Finset.mem_range.mp hj
        apply div_pos (by norm_num)
        exact_mod_cast hpos o j ho' hj'
      · exact ⟨0, Finset.mem_range.mpr (hsize o ho')⟩
    · exact ⟨0, Finset.mem_range.mpr (by omega)⟩

/-- Witness for C10: the freshly created engine has no pattern and length 0; the
demo song (rows at tempo 120, 240 and 240, divisor 4), whose table is not built
yet, has the length 1/8 + 1/16 + 1/16 = 1/4 seconds, whatever the table held
before the call. -/
theorem getSongLength_sum_witness :
    (createdEngine.patternCount = 0 ∧ mt_getSongLength createdEngine zeroTable = 0) ∧
    (1 ≤ demoSong.patternCount ∧ 1 ≤ demoSong.initial_tempo ∧ 1 ≤ demoSong.diviseur ∧
      (∀ o, o < demoSong.patternCount → 1 ≤ demoSong.patternSize o) ∧
      demoSong.channelStatesDone = false) ∧
    0 < mt_getSongLength demoSong staleTable ∧
    mt_getSongLength demoSong staleTable = 1 / 4 ∧
    mt_getSongLength demoSong zeroTable = 1 / 4 :=
  ⟨⟨by decide, (getSongLength_sum createdEngine zeroTable).1 (by decide)⟩,
   ⟨by decide, by decide, by decide, by decide, by decide⟩,
    ((getSongLength_sum demoSong staleTable).2 (by decide) (by decide) (by decide) (by decide)
      (fun h => absurd h (by decide))).2.2,
    by decide!, by decide!⟩

theorem nextRow_timing (mt : mtsynth) : timing (nextRow mt) = timing mt := by
  unfold nextRow; split_ifs <;> rfl

theorem jumpOrder_timing (mt : mtsynth) : timing (jumpOrder mt) = timing mt := by
  unfold jumpOrder; split_ifs <;> rfl

theorem jumpRow_timing (mt : mtsynth) : timing (jumpRow mt) = timing mt := by
  unfold jumpRow; split_ifs <;> rfl

theorem applyJump_timing (mt : mtsynth) : timing (applyJump mt) = timing mt := by
  unfold applyJump
  split_ifs
  · show timing (jumpRow (jumpOrder { mt with loopCount := mt.loopCount + 1 })) = timing mt
    rw [jumpRow_timing, jumpOrder_timing]
    rfl
  · rfl

theorem wrapSong_timing (mt : mtsynth) : timing (wrapSong mt) = timing mt := by
  unfold wrapSong; split_ifs <;> rfl

theorem checkLoop_timing (mt : mtsynth) : timing (checkLoop mt) = timing mt := by
  unfold checkLoop; split_ifs <;> rfl

theorem rowAdvance_timing (mt : mtsynth) : timing (rowAdvance mt) = timing mt := by
  unfold rowAdvance
  rw [checkLoop_timing, wrapSong_timing, applyJump_timing, nextRow_timing]

theorem rowAdvance_frame (mt : mtsynth) :
    (rowAdvance mt).frameTimer = mt.frameTimer ∧ (rowAdvance mt).tempo = mt.tempo ∧
    (rowAdvance mt).diviseur = mt.diviseur ∧ (rowAdvance mt).sampleRate = mt.sampleRate := by
  have h := rowAdvance_timing mt
  unfold timing at h
  simp only [Prod.mk.injEq] at h
  exact h

theorem rowLength_pos (mt : mtsynth) (hT : 1 ≤ mt.tempo) (hD : 1 ≤ mt.diviseur)
    (hSR : 1 ≤ mt.sampleRate) : 0 < rowLength mt := by
  unfold rowLength
  have h1 : (0 : ℚ) < mt.tempo := by exact_mod_cast hT
  have h2 : (0 : ℚ) < mt.diviseur := by exact_mod_cast hD
  have h3 : (0 : ℚ) < mt.sampleRate := by exact_mod_cast hSR
  positivity

theorem rowLength_playing441 : rowLength playing441 = 5292 := by
  unfold rowLength playing441 demoSong createdEngine
  norm_num

theorem memBytes_length (mem : Nat → Nat) (p n : Nat) : (memBytes mem p n).length = n := by
  simp [memBytes]

theorem memBytes_eq (mem : Nat → Nat) (p : Nat) (l : List Nat)
    (h : ∀ k, k < l.length → mem (p + k) = l.getD k 0) : memBytes mem p l.length = l := by
  apply List.ext_getElem
  · simp [memBytes]
  · intro k h1 h2
    simp only [memBytes, List.getElem_map, List.getElem_range]
    rw [h k h2, List.getD_eq_getElem _ _ h2]

theorem Tail.congr {mem : Nat → Nat} {mt mt1 : mtsynth} {rest : List Nat}
    (h : Tail mem mt rest) (h1 : mt1.readSeek = mt.readSeek)
    (h2 : mt1.totalFileSize = mt.totalFileSize) : Tail mem mt1 rest := by
  unfold Tail at *
  rw [h1, h2]
  exact h

theorem Tail.canRead {mem : Nat → Nat} {mt : mtsynth} {rest : List Nat}
    (h : Tail mem mt rest) (hne : rest ≠ []) : ¬ mt.readSeek ≥ mt.totalFileSize := by
  have : 0 < rest.length := List.length_pos.mpr hne
  rw [h.2]
  omega

theorem Tail.bytes {mem : Nat → Nat} {mt : mtsynth} {a b : List Nat}
    (h : Tail mem mt (a ++ b)) : memBytes mem mt.readSeek a.length = a := by
  apply memBytes_eq
  intro k hk
  rw [h.1 k (by rw [List.length_append]; omega)]
  simp [List.getD_eq_getElem?_getD, List.getElem?_append_left hk]

theorem Tail.head {mem : Nat → Nat} {mt : mtsynth} {x : Nat} {b : List Nat}
    (h : Tail mem mt (x :: b)) : mem mt.readSeek = x := by
  have := h.1 0 (by simp)
  simpa using this

theorem Tail.drop {mem : Nat → Nat} {mt : mtsynth} {a b : List Nat}
    (h : Tail mem mt (a ++ b)) : Tail mem (advance mt a.length) b := by
  constructor
  · intro k hk
    have := h.1 (a.length + k) (by rw [List.length_append]; omega)
    show mem (mt.readSeek + a.length + k) = _
    rw [Nat.add_assoc, this]
    simp [List.getD_eq_getElem?_getD, List.getElem?_append_right]
  · show mt.totalFileSize = mt.readSeek + a.length + b.length
    rw [h.2, List.length_append]
    omega

theorem Tail.tail {mem : Nat → Nat} {mt : mtsynth} {x : Nat} {b : List Nat}
    (h : Tail mem mt (x :: b)) : Tail mem (advance mt 1) b := by
  have : Tail mem mt ([x] ++ b) := h
  exact this.drop

theorem Tail.get {mem : Nat → Nat} {mt : mtsynth} {rest : List Nat}
    (h : Tail mem mt rest) (k : Nat) (hk : k < rest.length) :
    mem (mt.readSeek + k) = rest.getD k 0 := h.1 k hk

theorem tail_toMem (pre rest : List Nat) (mt : mtsynth) (h1 : mt.readSeek = pre.length)
    (h2 : mt.totalFileSize = (pre ++ rest).length) : Tail (toMem (pre ++ rest)) mt rest := by
  constructor
  · intro k hk
    rw [h1]
    simp [toMem, List.getD_eq_getElem?_getD, List.getElem?_append_right]
  · rw [h2, h1, List.length_append]

theorem Inert.preserves {f : mtsynth → mtsynth} (hf : Inert f) {mem : Nat → Nat} {m : mtsynth}
    {rest : List Nat} (h : Tail mem m rest) : Tail mem (f m) rest :=
  h.congr (hf m).1 (hf m).2.1

theorem Inert.kept {f : mtsynth → mtsynth} (hf : Inert f) (m : mtsynth) : kept (f m) = kept m := by
  unfold MtLib.kept
  rw [(hf m).2.1, (hf m).2.2.1, (hf m).2.2.2]

theorem inert_setSongName (t : List Nat) : Inert (setSongName t) := fun _ => ⟨rfl, rfl, rfl, rfl⟩
theorem inert_setAuthor (t : List Nat) : Inert (setAuthor t) := fun _ => ⟨rfl, rfl, rfl, rfl⟩
theorem inert_setComments (t : List Nat) : Inert (setComments t) := fun _ => ⟨rfl, rfl, rfl, rfl⟩
theorem inert_setInitialTempo (b : Nat) : Inert (setInitialTempo b) := fun _ => ⟨rfl, rfl, rfl, rfl⟩
theorem inert_setDiviseur (b : Nat) : Inert (setDiviseur b) := fun _ => ⟨rfl, rfl, rfl, rfl⟩
theorem inert_setGlobalVolume (b : Nat) : Inert (setGlobalVolume b) := fun _ => ⟨rfl, rfl, rfl, rfl⟩
theorem inert_setTranspose (b : Nat) : Inert (setTranspose b) := fun _ => ⟨rfl, rfl, rfl, rfl⟩
theorem inert_setReverbLength (x : ℚ) : Inert (setReverbLength x) := fun _ => ⟨rfl, rfl, rfl, rfl⟩
theorem inert_setReverbRoomSize (x : ℚ) : Inert (setReverbRoomSize x) := fun _ => ⟨rfl, rfl, rfl, rfl⟩
theorem inert_setInitialPan (ch b : Nat) : Inert (setInitialPan ch b) := fun _ => ⟨rfl, rfl, rfl, rfl⟩
theorem inert_setInitialVol (ch b : Nat) : Inert (setInitialVol ch b) := fun _ => ⟨rfl, rfl, rfl, rfl⟩
theorem inert_setInitialReverb (ch b : Nat) : Inert (setInitialReverb ch b) :=
  fun _ => ⟨rfl, rfl, rfl, rfl⟩
theorem inert_setVolume (v : Nat) : Inert (fun m => mt_setVolume m v) := fun _ => ⟨rfl, rfl, rfl, rfl⟩

theorem readTemp_spec {mem : Nat → Nat} {s : Loader} {x : Nat} {b : List Nat}
    (h : Tail mem s.mt (x :: b)) :
    readTemp mem s = { s with temp := x, mt := advance s.mt 1 } := by
  unfold readTemp
  rw [if_neg (h.canRead (by simp)), h.head]

theorem readTemp_tail {mem : Nat → Nat} {s : Loader} {x : Nat} {b : List Nat}
    (h : Tail mem s.mt (x :: b)) : Tail mem (readTemp mem s).mt b := by
  rw [readTemp_spec h]
  exact h.tail

theorem readTemp_kept (mem : Nat → Nat) (s : Loader) : kept (readTemp mem s).mt = kept s.mt := by
  unfold readTemp
  split_ifs <;> rfl

theorem readText_spec {mem : Nat → Nat} {s : Loader} {a b : List Nat} (old : List Nat)
    (h : Tail mem s.mt (a ++ b)) (hb : b ≠ []) (ht : s.temp = a.length) :
    readText mem s old = (cString a, advance s.mt a.length) := by
  unfold readText
  rw [if_neg (h.canRead (by simp [hb])), ht, h.bytes]

theorem readText_kept (mem : Nat → Nat) (s : Loader) (old : List Nat) :
    kept (readText mem s old).2 = kept s.mt := by
  unfold readText
  split_ifs <;> rfl

theorem textBytes_eq (t : List Nat) :
    textBytes t = (t.length % 256) :: t.take (t.length % 256) ∧
    (t.take (t.length % 256)).length = t.length % 256 := by
  constructor
  · rfl
  · rw [List.length_take]
    exact Nat.min_eq_left (Nat.mod_le _ _)

theorem loadText_tail {mem : Nat → Nat} {s : Loader} (get : mtsynth → List Nat)
    (set : List Nat → mtsynth → mtsynth) (t rest : List Nat)
    (hset : ∀ x, Inert (set x))
    (h : Tail mem s.mt (textBytes t ++ rest)) (hr : rest ≠ []) :
    Tail mem (loadText mem get set s).mt rest := by
  obtain ⟨e1, e2⟩ := textBytes_eq t
  rw [e1] at h
  have h' : Tail mem s.mt ((t.length % 256) :: (t.take (t.length % 256) ++ rest)) := h
  unfold loadText
  simp only []
  rw [readTemp_spec h']
  have h2 : Tail mem (advance s.mt 1) (t.take (t.length % 256) ++ rest) := h'.tail
  rw [readText_spec (s := { s with temp := t.length % 256, mt := advance s.mt 1 }) _ h2 hr e2.symm]
  exact (hset _).preserves h2.drop

theorem loadText_kept (mem : Nat → Nat) (get : mtsynth → List Nat)
    (set : List Nat → mtsynth → mtsynth) (s : Loader) (hset : ∀ x, Inert (set x)) :
    kept (loadText mem get set s).mt = kept s.mt := by
  unfold loadText
  simp only []
  rw [(hset _).kept, readText_kept, readTemp_kept]

theorem loadTexts_tail {mem : Nat → Nat} {s : Loader} (t1 t2 t3 rest : List Nat)
    (h : Tail mem s.mt (textBytes t1 ++ (textBytes t2 ++ (textBytes t3 ++ rest))))
    (hr : rest ≠ []) : Tail mem (loadTexts mem s).mt rest := by
  unfold loadTexts
  simp only []
  have h1 := loadText_tail (s := s) (fun m => m.songName) setSongName
    t1 _ inert_setSongName h (by simp [hr])
  have h2 := loadText_tail (fun m => m.author) setAuthor t2 _ inert_setAuthor h1 (by simp [hr])
  exact loadText_tail (fun m => m.comments) setComments t3 _ inert_setComments h2 hr

theorem loadTexts_kept (mem : Nat → Nat) (s : Loader) :
    kept (loadTexts mem s).mt = kept s.mt := by
  unfold loadTexts
  simp only []
  rw [loadText_kept _ _ _ _ inert_setComments, loadText_kept _ _ _ _ inert_setAuthor,
    loadText_kept _ _ _ _ inert_setSongName]

theorem readField_spec {mem : Nat → Nat} {mt : mtsynth} {x : Nat} {b : List Nat}
    (set : Nat → mtsynth → mtsynth) (h : Tail mem mt (x :: b)) :
    readField mem set mt = set x (advance mt 1) := by
  unfold readField
  rw [if_neg (h.canRead (by simp)), h.head]

theorem readField_tail {mem : Nat → Nat} {mt : mtsynth} {x : Nat} {b : List Nat}
    (set : Nat → mtsynth → mtsynth) (hset : ∀ x, Inert (set x)) (h : Tail mem mt (x :: b)) :
    Tail mem (readField mem set mt) b := by
  rw [readField_spec set h]
  exact (hset x).preserves h.tail

theorem readField_kept (mem : Nat → Nat) (set : Nat → mtsynth → mtsynth) (mt : mtsynth)
    (hset : ∀ x, Inert (set x)) : kept (readField mem set mt) = kept mt := by
  unfold readField
  split_ifs
  · rfl
  · rw [(hset _).kept]; rfl

theorem loadGlobals_tail {mem : Nat → Nat} {s : Loader} (a b c d e f : Nat) (rest : List Nat)
    (h : Tail mem s.mt (a :: b :: c :: d :: e :: f :: rest)) :
    Tail mem (loadGlobals mem s).mt rest := by
  unfold loadGlobals
  simp only []
  refine Inert.preserves (inert_setReverbRoomSize _) ?_
  refine readTemp_tail (x := f) ?_
  refine Inert.preserves (inert_setReverbLength _) ?_
  refine readTemp_tail (x := e) ?_
  refine readField_tail setTranspose inert_setTranspose (x := d) ?_
  refine Inert.preserves (inert_setVolume _) ?_
  refine readField_tail setGlobalVolume inert_setGlobalVolume (x := c) ?_
  refine Inert.preserves (inert_setDiviseur _) ?_
  refine readField_tail setDiviseur inert_setDiviseur (x := b) ?_
  refine Inert.preserves (inert_setInitialTempo _) ?_
  exact readField_tail setInitialTempo inert_setInitialTempo h

theorem loadGlobals_kept (mem : Nat → Nat) (s : Loader) :
    kept (loadGlobals mem s).mt = kept s.mt := by
  unfold loadGlobals
  simp only []
  rw [(inert_setReverbRoomSize _).kept, readTemp_kept]
  simp only []
  rw [(inert_setReverbLength _).kept, readTemp_kept]
  simp only []
  rw [readField_kept _ _ _ inert_setTranspose]
  rw [(inert_setVolume _).kept, readField_kept _ _ _ inert_setGlobalVolume,
    (inert_setDiviseur _).kept, readField_kept _ _ _ inert_setDiviseur,
    (inert_setInitialTempo _).kept, readField_kept _ _ _ inert_setInitialTempo]

theorem loadChannel_tail {mem : Nat → Nat} {mt : mtsynth} (ch a b c : Nat) (rest : List Nat)
    (h : Tail mem mt (a :: b :: c :: rest)) : Tail mem (loadChannel mem ch mt) rest := by
  unfold loadChannel
  simp only []
  refine Inert.preserves (inert_setInitialReverb ch _) ?_
  refine readField_tail (setInitialReverb ch) (inert_setInitialReverb ch) (x := c) ?_
  refine Inert.preserves (inert_setInitialVol ch _) ?_
  refine readField_tail (setInitialVol ch) (inert_setInitialVol ch) (x := b) ?_
  exact readField_tail (setInitialPan ch) (inert_setInitialPan ch) h

theorem loadChannel_kept (mem : Nat → Nat) (ch : Nat) (mt : mtsynth) :
    kept (loadChannel mem ch mt) = kept mt := by
  unfold loadChannel
  simp only []
  rw [(inert_setInitialReverb ch _).kept, readField_kept _ _ _ (inert_setInitialReverb ch),
    (inert_setInitialVol ch _).kept, readField_kept _ _ _ (inert_setInitialVol ch),
    readField_kept _ _ _ (inert_setInitialPan ch)]

theorem loadChannels_kept (mem : Nat → Nat) (n : Nat) (mt : mtsynth) :
    kept (forLoop n (loadChannel mem) mt) = kept mt := by
  induction n with
  | zero => rfl
  | succ n ih => rw [forLoop_succ, loadChannel_kept, ih]

theorem loadChannels_tail {mem : Nat → Nat} (f : Nat → List Nat)
    (hf : ∀ ch, ∃ a b c, f ch = [a, b, c]) (n : Nat) :
    ∀ {mt : mtsynth} (rest : List Nat),
      Tail mem mt ((List.range n).flatMap f ++ rest) →
      Tail mem (forLoop n (loadChannel mem) mt) rest := by
  induction n with
  | zero =>
    intro mt rest h
    simpa using h
  | succ n ih =>
    intro mt rest h
    rw [List.range_succ, List.flatMap_append, List.append_assoc] at h
    have h1 := ih _ h
    obtain ⟨a, b, c, e⟩ := hf n
    simp only [List.flatMap_cons, List.flatMap_nil, List.append_nil, e] at h1
    rw [forLoop_succ]
    exact loadChannel_tail n a b c rest h1

theorem mt_clearPattern_fixed (mt : mtsynth) (p r c : Nat) :
    fixedPart (mt_clearPattern mt p r c) = fixedPart mt ∧
    (mt_clearPattern mt p r c).patternCount = mt.patternCount ∧
    (mt_clearPattern mt p r c).patternSize = mt.patternSize ∧
    (∀ o, o ≠ p → (mt_clearPattern mt p r c).pattern o = mt.pattern o) := by
  unfold mt_clearPattern
  split_ifs
  · exact ⟨rfl, rfl, rfl, fun _ _ => rfl⟩
  · refine ⟨rfl, rfl, rfl, ?_⟩
    intro o ho
    funext j ch
    simp [ho]

theorem growClear_fixed (mt : mtsynth) (p size : Nat) :
    fixedPart (growClear mt p size) = fixedPart mt ∧
    (growClear mt p size).patternCount = mt.patternCount ∧
    (growClear mt p size).patternSize = mt.patternSize ∧
    (∀ o, o ≠ p → (growClear mt p size).pattern o = mt.pattern o) := by
  unfold growClear
  split_ifs
  · exact mt_clearPattern_fixed mt p _ _
  · exact ⟨rfl, rfl, rfl, fun _ _ => rfl⟩

theorem mt_resizePattern_fixed (mt : mtsynth) (i size : Nat) :
    fixedPart (mt_resizePattern mt i size) = fixedPart mt ∧
    (mt_resizePattern mt i size).patternCount = mt.patternCount ∧
    (∀ o, o ≠ i → (mt_resizePattern mt i size).pattern o = mt.pattern o) ∧
    (∀ o, o ≠ i → (mt_resizePattern mt i size).patternSize o = mt.patternSize o) := by
  unfold mt_resizePattern
  split_ifs with h1
  · exact ⟨rfl, rfl, fun _ _ => rfl, fun _ _ => rfl⟩
  · obtain ⟨a, b, c, d⟩ := growClear_fixed mt i (clampN size 1 256)
    refine ⟨a, b, d, ?_⟩
    intro o ho
    show Function.update (growClear mt i (clampN size 1 256)).patternSize i _ o = _
    rw [Function.update_noteq ho, c]

theorem mt_resizePattern_size (mt : mtsynth) (i size : Nat) (hi : i < mt.patternCount)
    (h1 : 1 ≤ size) (h2 : size ≤ 256) : (mt_resizePattern mt i size).patternSize i = size := by
  have hc : clampN size 1 256 = size := by
    unfold clampN
    split_ifs <;> omega
  unfold mt_resizePattern
  rw [if_neg (by omega), hc]
  show Function.update (growClear mt i size).patternSize i size i = size
  rw [Function.update_same]

theorem newPattern_fixed (i : Nat) (mt : mtsynth) :
    fixedPart (newPattern i mt) = fixedPart mt ∧
    (newPattern i mt).patternCount = mt.patternCount := by
  unfold newPattern
  obtain ⟨a, b, c, d⟩ := mt_resizePattern_fixed (setPatternSize i 0 mt) i 1
  exact ⟨a, b⟩

theorem newPatterns_fixed (n k : Nat) (mt : mtsynth) :
    fixedPart (forLoop n (fun t => newPattern (k + t)) mt) = fixedPart mt ∧
    (forLoop n (fun t => newPattern (k + t)) mt).patternCount = mt.patternCount := by
  induction n with
  | zero => exact ⟨rfl, rfl⟩
  | succ n ih =>
    rw [forLoop_succ]
    obtain ⟨a, b⟩ := newPattern_fixed (k + n) (forLoop n (fun t => newPattern (k + t)) mt)
    exact ⟨a.trans ih.1, b.trans ih.2⟩

theorem dropOrder_fixed (mt : mtsynth) (count : Nat) :
    fixedPart (dropOrder mt count) = fixedPart mt ∧
    (dropOrder mt count).patternCount = mt.patternCount := by
  unfold dropOrder
  split_ifs <;> exact ⟨rfl, rfl⟩

theorem mt_resizePatterns_fixed (mt : mtsynth) (count : Nat) :
    fixedPart (mt_resizePatterns mt count) = fixedPart mt := by
  unfold mt_resizePatterns
  split_ifs
  · rfl
  · rfl
  · show fixedPart (forLoop _ _ _) = _
    rw [(newPatterns_fixed _ _ _).1]
    exact (dropOrder_fixed mt count).1

theorem mt_resizePatterns_count (mt : mtsynth) (count : Nat) (hc : count ≤ 256) :
    (mt_resizePatterns mt count).patternCount = count := by
  unfold mt_resizePatterns
  rw [if_neg (by omega)]
  split_ifs with h
  · exact h.2.symm
  · show mtsynth.patternCount (forLoop _ _ _) = _
    rw [(newPatterns_fixed _ _ _).2]
    rfl

theorem fixedPart_tail {mem : Nat → Nat} {m m1 : mtsynth} {rest : List Nat}
    (h : Tail mem m rest) (e : fixedPart m1 = fixedPart m) : Tail mem m1 rest := by
  unfold fixedPart at e
  simp only [Prod.mk.injEq] at e
  exact h.congr e.1 e.2.1

theorem flatMap_range_length (g : Nat → List Nat) (c n : Nat) (hg : ∀ k, (g k).length = c) :
    ((List.range n).flatMap g).length = c * n := by
  induction n with
  | zero => simp
  | succ n ih =>
    rw [List.range_succ, List.flatMap_append, List.length_append, ih, List.flatMap_singleton, hg]
    ring

theorem flatMap_range_getD (g : Nat → List Nat) (c : Nat) (hg : ∀ k, (g k).length = c)
    (n : Nat) : ∀ (rest : List Nat) (k r : Nat), k < n → r < c →
      ((List.range n).flatMap g ++ rest).getD (c * k + r) 0 = (g k).getD r 0 := by
  induction n with
  | zero => intro rest k r hk; omega
  | succ n ih =>
    intro rest k r hk hr
    rw [List.range_succ, List.flatMap_append, List.flatMap_singleton, List.append_assoc]
    rcases Nat.lt_succ_iff_lt_or_eq.mp hk with h | h
    · exact ih _ k r h hr
    · subst h
      have hl := flatMap_range_length g c k hg
      rw [List.getD_append_right _ _ _ _ (by rw [hl]; omega), hl]
      have : c * k + r - c * k = r := by omega
      rw [this, List.getD_append _ _ _ _ (by rw [hg]; exact hr)]

theorem rowBytes_length (mt : mtsynth) (i j : Nat) :
    ((List.range FM_ch).flatMap (fun ch => cellBytes (mt.pattern i j ch))).length = 120 := by
  rw [flatMap_range_length (fun ch => cellBytes (mt.pattern i j ch)) 5 FM_ch (fun _ => rfl)]
  rfl

theorem patternBytes_length (mt : mtsynth) (i : Nat) :
    (patternBytes mt i).length = 120 * mt.patternSize i := by
  unfold patternBytes
  exact flatMap_range_length _ 120 _ (fun j => rowBytes_length mt i j)

theorem patternBytes_getD (mt : mtsynth) (i : Nat) (rest : List Nat) (j ch f : Nat)
    (hj : j < mt.patternSize i) (hch : ch < FM_ch) (hf : f < 5) :
    (patternBytes mt i ++ rest).getD (5 * (FM_ch * j + ch) + f) 0
      = (cellBytes (mt.pattern i j ch)).getD f 0 := by
  unfold patternBytes
  have e : 5 * (FM_ch * j + ch) + f = 120 * j + (5 * ch + f) := by unfold FM_ch; ring
  have hr : 5 * ch + f < 120 := by unfold FM_ch at hch; omega
  rw [e, flatMap_range_getD _ 120 (fun j => rowBytes_length mt i j) _ rest j _ hj hr]
  have := flatMap_range_getD (fun ch => cellBytes (mt.pattern i j ch)) 5 (fun _ => rfl)
    FM_ch [] ch f hch hf
  rw [List.append_nil] at this
  exact this

theorem readCell_eq (mem : Nat → Nat) (p : Nat) (c : Cell)
    (h : ∀ f, f < 5 → mem (p + f) = (cellBytes c).getD f 0) : readCell mem p = c := by
  unfold readCell
  have h0 := h 0 (by omega)
  have h1 := h 1 (by omega)
  have h2 := h 2 (by omega)
  have h3 := h 3 (by omega)
  have h4 := h 4 (by omega)
  simp only [cellBytes, Nat.add_zero] at h0 h1 h2 h3 h4
  cases c
  simp_all

theorem readPattern_spec {mem : Nat → Nat} {m : mtsynth} (src : mtsynth) (i : Nat)
    (rest : List Nat) (h : Tail mem m (patternBytes src i ++ rest)) (hr : rest ≠ [])
    (hs : m.patternSize i = src.patternSize i) :
    Tail mem (readPattern mem i m) rest ∧
    (readPattern mem i m).patternCount = m.patternCount ∧
    (readPattern mem i m).patternSize = m.patternSize ∧
    (∀ j ch, j < src.patternSize i → ch < FM_ch →
      (readPattern mem i m).pattern i j ch = src.pattern i j ch) ∧
    (∀ o, o ≠ i → (readPattern mem i m).pattern o = m.pattern o) := by
  unfold readPattern
  rw [if_neg (h.canRead (by simp [hr]))]
  refine ⟨?_, rfl, rfl, ?_, ?_⟩
  · have h1 := h.drop
    rw [patternBytes_length, ← hs] at h1
    refine h1.congr ?_ rfl
    show m.readSeek + 5 * m.patternSize i * FM_ch = m.readSeek + 120 * m.patternSize i
    unfold FM_ch
    ring
  · intro j ch hj hch
    show (if i = i ∧ j < m.patternSize i ∧ ch < FM_ch then
        readCell mem (m.readSeek + 5 * (FM_ch * j + ch)) else m.pattern i j ch) = _
    rw [if_pos ⟨rfl, by rw [hs]; exact hj, hch⟩]
    apply readCell_eq
    intro f hf
    rw [Nat.add_assoc, h.get _ (by
      rw [List.length_append, patternBytes_length]
      unfold FM_ch at hch ⊢
      have : 0 < rest.length := List.length_pos.mpr hr
      nlinarith)]
    exact patternBytes_getD src i rest j ch f hj hch hf
  · intro o ho
    funext j ch
    show (if o = i ∧ j < m.patternSize i ∧ ch < FM_ch then _ else m.pattern o j ch) = _
    rw [if_neg (fun hh => ho hh.1)]

theorem readNbRow_spec {mem : Nat → Nat} {s : Loader} {x : Nat} {b : List Nat}
    (h : Tail mem s.mt (x :: b)) :
    readNbRow mem s = { s with nbRow := x, mt := advance s.mt 1 } := by
  unfold readNbRow
  rw [if_neg (h.canRead (by simp)), h.head]

theorem readNbOrd_spec {mem : Nat → Nat} {s : Loader} {x : Nat} {b : List Nat}
    (h : Tail mem s.mt (x :: b)) :
    readNbOrd mem s = { s with nbOrd := x, mt := advance s.mt 1 } := by
  unfold readNbOrd
  rw [if_neg (h.canRead (by simp)), h.head]

theorem loadPattern_spec {mem : Nat → Nat} {s : Loader} (src : mtsynth) (i : Nat)
    (rest : List Nat)
    (h : Tail mem s.mt ((src.patternSize i % 256) :: (patternBytes src i ++ rest)))
    (hr : rest ≠ []) (h1 : 1 ≤ src.patternSize i) (h2 : src.patternSize i ≤ 255)
    (hi : i < s.mt.patternCount) :
    Tail mem (loadPattern mem i s).mt rest ∧
    (loadPattern mem i s).nbOrd = s.nbOrd ∧
    (loadPattern mem i s).mt.patternCount = s.mt.patternCount ∧
    (loadPattern mem i s).mt.patternSize i = src.patternSize i ∧
    (∀ o, o ≠ i → (loadPattern mem i s).mt.patternSize o = s.mt.patternSize o) ∧
    (∀ j ch, j < src.patternSize i → ch < FM_ch →
      (loadPattern mem i s).mt.pattern i j ch = src.pattern i j ch) ∧
    (∀ o, o ≠ i → (loadPattern mem i s).mt.pattern o = s.mt.pattern o) := by
  unfold loadPattern
  simp only []
  rw [readNbRow_spec h]
  simp only []
  have hm : src.patternSize i % 256 = src.patternSize i := Nat.mod_eq_of_lt (by omega)
  have hmax : max 1 (src.patternSize i % 256) = src.patternSize i := by rw [hm]; omega
  rw [hmax]
  obtain ⟨f1, f2, f3, f4⟩ := mt_resizePattern_fixed (advance s.mt 1) i (src.patternSize i)
  have hsz := mt_resizePattern_size (advance s.mt 1) i (src.patternSize i) hi h1 (by omega)
  have ht : Tail mem (mt_resizePattern (advance s.mt 1) i (src.patternSize i))
      (patternBytes src i ++ rest) := fixedPart_tail h.tail f1
  obtain ⟨r1, r2, r3, r4, r5⟩ := readPattern_spec src i rest ht hr hsz
  refine ⟨r1, trivial, ?_, ?_, ?_, r4, ?_⟩
  · rw [r2, f2]; rfl
  · rw [r3, hsz]
  · intro o ho
    rw [r3, f4 o ho]; rfl
  · intro o ho
    rw [r5 o ho, f3 o ho]; rfl

theorem patternLoop_spec {mem : Nat → Nat} (src : mtsynth) (n : Nat) :
    ∀ (s : Loader) (rest : List Nat),
      Tail mem s.mt
        ((List.range n).flatMap (fun i => [src.patternSize i % 256] ++ patternBytes src i) ++ rest) →
      rest ≠ [] → n ≤ s.mt.patternCount →
      (∀ i, i < n → 1 ≤ src.patternSize i ∧ src.patternSize i ≤ 255) →
      Tail mem (forLoop n (loadPattern mem) s).mt rest ∧
      (forLoop n (loadPattern mem) s).mt.patternCount = s.mt.patternCount ∧
      (∀ i, i < n → (forLoop n (loadPattern mem) s).mt.patternSize i = src.patternSize i ∧
        ∀ j ch, j < src.patternSize i → ch < FM_ch →
          (forLoop n (loadPattern mem) s).mt.pattern i j ch = src.pattern i j ch) := by
  induction n with
  | zero =>
    intro s rest h hr hn hs
    refine ⟨by simpa using h, rfl, ?_⟩
    intro i hi
    omega
  | succ n ih =>
    intro s rest h hr hn hs
    rw [List.range_succ, List.flatMap_append, List.flatMap_singleton, List.append_assoc] at h
    obtain ⟨t1, t2, t3⟩ := ih s _ h (by simp) (by omega) (fun i hi => hs i (by omega))
    rw [forLoop_succ]
    have hsn := hs n (Nat.lt_succ_self n)
    have t1' : Tail mem (forLoop n (loadPattern mem) s).mt
        ((src.patternSize n % 256) :: (patternBytes src n ++ rest)) := t1
    obtain ⟨p1, p2, p3, p4, p5, p6, p7⟩ :=
      loadPattern_spec src n rest t1' hr hsn.1 hsn.2 (by rw [t2]; omega)
    refine ⟨p1, p3.trans t2, ?_⟩
    intro i hi
    rcases Nat.lt_succ_iff_lt_or_eq.mp hi with h1 | h1
    · have hne : i ≠ n := by omega
      refine ⟨(p5 i hne).trans (t3 i h1).1, ?_⟩
      intro j ch hj hch
      rw [p7 i hne]
      exact (t3 i h1).2 j ch hj hch
    · subst h1
      exact ⟨p4, p6⟩

theorem loadPatterns_spec {mem : Nat → Nat} {s : Loader} (src : mtsynth) (rest : List Nat)
    (h : Tail mem s.mt ((src.patternCount % 256) ::
      ((List.range src.patternCount).flatMap
        (fun i => [src.patternSize i % 256] ++ patternBytes src i) ++ rest)))
    (hr : rest ≠ []) (hc : src.patternCount ≤ 255)
    (hs : ∀ i, i < src.patternCount → 1 ≤ src.patternSize i ∧ src.patternSize i ≤ 255) :
    Tail mem (loadPatterns mem s).mt rest ∧
    (loadPatterns mem s).mt.patternCount = src.patternCount ∧
    (∀ i, i < src.patternCount →
      (loadPatterns mem s).mt.patternSize i = src.patternSize i ∧
      ∀ j ch, j < src.patternSize i → ch < FM_ch →
        (loadPatterns mem s).mt.pattern i j ch = src.pattern i j ch) := by
  unfold loadPatterns
  simp only []
  rw [readNbOrd_spec h]
  simp only []
  have hm : src.patternCount % 256 = src.patternCount := Nat.mod_eq_of_lt (by omega)
  rw [hm]
  have hcount := mt_resizePatterns_count (advance s.mt 1) src.patternCount (by omega)
  have ht : Tail mem (mt_resizePatterns (advance s.mt 1) src.patternCount) _ :=
    fixedPart_tail h.tail (mt_resizePatterns_fixed _ _)
  obtain ⟨a, b, c⟩ := patternLoop_spec src src.patternCount
    { s with nbOrd := src.patternCount, mt := mt_resizePatterns (advance s.mt 1) src.patternCount,
             temp := s.temp, nbRow := s.nbRow } rest ht hr (by rw [hcount]) hs
  exact ⟨a, b.trans hcount, c⟩

theorem cursor_tail {mem : Nat → Nat} {m m1 : mtsynth} {rest : List Nat}
    (h : Tail mem m rest) (e : cursor m1 = cursor m) : Tail mem m1 rest := by
  unfold cursor at e
  simp only [Prod.mk.injEq] at e
  exact h.congr e.1 e.2

theorem mt_resizeInstrumentList_frame (L : InstrLayout) (heap : Nat → Nat → Nat) (alloc : Nat)
    (mt : mtsynth) (size : Nat) :
    cursor (mt_resizeInstrumentList L heap alloc mt size) = cursor mt ∧
    patternPart (mt_resizeInstrumentList L heap alloc mt size) = patternPart mt := by
  unfold mt_resizeInstrumentList
  split_ifs <;> exact ⟨rfl, rfl⟩

theorem mt_resizeInstrumentList_count (L : InstrLayout) (heap : Nat → Nat → Nat) (alloc : Nat)
    (mt : mtsynth) (size : Nat) (h1 : 1 ≤ size) (h2 : size ≤ 255) :
    (mt_resizeInstrumentList L heap alloc mt size).instrumentCount = size := by
  unfold mt_resizeInstrumentList
  rw [if_neg (by omega), if_neg (by omega)]

theorem ensureInstrument_id (L : InstrLayout) (heap : Nat → Nat → Nat) (mt : mtsynth)
    (h1 : 1 ≤ mt.instrumentCount) (h2 : mt.instrumentCount ≤ 255) :
    ensureInstrument L heap mt = mt := by
  unfold ensureInstrument
  rw [if_neg (by omega)]

theorem ensurePattern_id (mt : mtsynth) (h : mt.patternCount ≠ 0) : ensurePattern mt = mt := by
  unfold ensurePattern
  rw [if_neg h]

theorem slotBytes_length (L : InstrLayout) (mt : mtsynth) (k : Nat) :
    (slotBytes L mt k).length = L.size := by
  simp [slotBytes]

theorem slotBytes_getD (L : InstrLayout) (mt : mtsynth) (k b : Nat) (hb : b < L.size) :
    (slotBytes L mt k).getD b 0 = mt.instrument k b := by
  rw [List.getD_eq_getElem _ _ (by rw [slotBytes_length]; exact hb)]
  simp [slotBytes]

theorem readInstruments_spec {mem : Nat → Nat} {m : mtsynth} (L : InstrLayout) (src : mtsynth)
    (rest : List Nat)
    (h : Tail mem m ((List.range m.instrumentCount).flatMap (slotBytes L src) ++ rest))
    (hr : rest ≠ []) :
    Tail mem (readInstruments L mem m) rest ∧
    patternPart (readInstruments L mem m) = patternPart m ∧
    (readInstruments L mem m).instrumentCount = m.instrumentCount ∧
    (∀ k b, k < m.instrumentCount → b < L.size →
      (readInstruments L mem m).instrument k b = src.instrument k b) := by
  unfold readInstruments
  rw [if_neg (h.canRead (by simp [hr]))]
  refine ⟨?_, rfl, rfl, ?_⟩
  · have h1 := h.drop
    rw [flatMap_range_length _ L.size _ (slotBytes_length L src)] at h1
    exact h1.congr rfl rfl
  · intro k b hk hb
    show (if k < m.instrumentCount ∧ b < L.size then mem (m.readSeek + L.size * k + b)
      else m.instrument k b) = _
    rw [if_pos ⟨hk, hb⟩, Nat.add_assoc, h.get _ (by
      rw [List.length_append, flatMap_range_length _ L.size _ (slotBytes_length L src)]
      have : L.size * k + L.size ≤ L.size * m.instrumentCount := by
        have := Nat.mul_le_mul_left L.size (Nat.succ_le_of_lt hk)
        rw [Nat.mul_succ] at this
        exact this
      omega),
      flatMap_range_getD _ L.size (slotBytes_length L src) _ rest k b hk hb]
    exact slotBytes_getD L src k b hb

theorem loadInstruments_spec {mem : Nat → Nat} {m : mtsynth} (L : InstrLayout)
    (g : Indeterminate) (src : mtsynth) (ic : Nat) (rest : List Nat)
    (h : Tail mem m ((ic % 256) :: ((List.range ic).flatMap (slotBytes L src) ++ rest)))
    (hr : rest ≠ []) (h1 : 1 ≤ ic) (h2 : ic ≤ 255) (hp : m.patternCount ≠ 0)
    (h0 : m.instrumentCount ≤ 255) :
    Tail mem (loadInstruments L g mem m) rest ∧
    patternPart (loadInstruments L g mem m) = patternPart m ∧
    (loadInstruments L g mem m).instrumentCount = ic ∧
    (∀ k b, k < ic → b < L.size →
      (loadInstruments L g mem m).instrument k b = src.instrument k b) := by
  have hm : ic % 256 = ic := Nat.mod_eq_of_lt (by omega)
  rw [hm] at h
  unfold loadInstruments
  simp only []
  rw [readField_spec setInstrumentCount h]
  have e1 : (setInstrumentCount ic (advance m 1)).instrumentCount = ic := by
    show m.instrumentCount / 256 * 256 + ic = ic
    rw [Nat.div_eq_of_lt (by omega)]
    omega
  rw [e1]
  obtain ⟨f1, f2⟩ := mt_resizeInstrumentList_frame L g.heap m.instrumentCount
    (setInstrumentCount ic (advance m 1)) ic
  have hcnt := mt_resizeInstrumentList_count L g.heap m.instrumentCount
    (setInstrumentCount ic (advance m 1)) ic h1 h2
  rw [ensureInstrument_id L g.heap _ (by rw [hcnt]; exact h1) (by rw [hcnt]; exact h2)]
  have hpc : (mt_resizeInstrumentList L g.heap m.instrumentCount
      (setInstrumentCount ic (advance m 1)) ic).patternCount ≠ 0 := by
    have := congrArg Prod.fst f2
    unfold patternPart at this
    simp only at this
    rw [this]
    exact hp
  rw [ensurePattern_id _ hpc]
  have ht : Tail mem (mt_resizeInstrumentList L g.heap m.instrumentCount
      (setInstrumentCount ic (advance m 1)) ic)
      ((List.range (mt_resizeInstrumentList L g.heap m.instrumentCount
        (setInstrumentCount ic (advance m 1)) ic).instrumentCount).flatMap (slotBytes L src)
        ++ rest) := by
    rw [hcnt]
    exact cursor_tail h.tail f1
  obtain ⟨r1, r2, r3, r4⟩ := readInstruments_spec L src rest ht hr
  refine ⟨r1, r2.trans f2, r3.trans hcnt, ?_⟩
  intro k b hk hb
  exact r4 k b (by rw [hcnt]; exact hk) hb

theorem fixedPart_total {m m1 : mtsynth} (e : fixedPart m1 = fixedPart m) :
    m1.totalFileSize = m.totalFileSize := by
  unfold fixedPart at e
  simp only [Prod.mk.injEq] at e
  exact e.2.1

theorem kept_total {m m1 : mtsynth} (e : kept m1 = kept m) :
    m1.totalFileSize = m.totalFileSize := by
  unfold kept at e
  simp only [Prod.mk.injEq] at e
  exact e.1

theorem readPattern_total (mem : Nat → Nat) (i : Nat) (m : mtsynth) :
    (readPattern mem i m).totalFileSize = m.totalFileSize := by
  unfold readPattern
  split_ifs <;> rfl

theorem readNbRow_total (mem : Nat → Nat) (s : Loader) :
    (readNbRow mem s).mt.totalFileSize = s.mt.totalFileSize := by
  unfold readNbRow
  split_ifs <;> rfl

theorem readNbOrd_total (mem : Nat → Nat) (s : Loader) :
    (readNbOrd mem s).mt.totalFileSize = s.mt.totalFileSize := by
  unfold readNbOrd
  split_ifs <;> rfl

theorem loadPattern_total (mem : Nat → Nat) (i : Nat) (s : Loader) :
    (loadPattern mem i s).mt.totalFileSize = s.mt.totalFileSize := by
  unfold loadPattern
  simp only []
  rw [readPattern_total, fixedPart_total (mt_resizePattern_fixed _ _ _).1, readNbRow_total]

theorem patternLoop_total (mem : Nat → Nat) (n : Nat) (s : Loader) :
    (forLoop n (loadPattern mem) s).mt.totalFileSize = s.mt.totalFileSize := by
  induction n with
  | zero => rfl
  | succ n ih => rw [forLoop_succ, loadPattern_total, ih]

theorem loadPatterns_total (mem : Nat → Nat) (s : Loader) :
    (loadPatterns mem s).mt.totalFileSize = s.mt.totalFileSize := by
  unfold loadPatterns
  simp only []
  rw [patternLoop_total]
  simp only []
  rw [fixedPart_total (mt_resizePatterns_fixed _ _), readNbOrd_total]

theorem cursor_total {m m1 : mtsynth} (e : cursor m1 = cursor m) :
    m1.totalFileSize = m.totalFileSize := by
  unfold cursor at e
  simp only [Prod.mk.injEq] at e
  exact e.2

theorem readInstruments_total (L : InstrLayout) (mem : Nat → Nat) (m : mtsynth) :
    (readInstruments L mem m).totalFileSize = m.totalFileSize := by
  unfold readInstruments
  split_ifs <;> rfl

theorem ensureInstrument_total (L : InstrLayout) (heap : Nat → Nat → Nat) (m : mtsynth) :
    (ensureInstrument L heap m).totalFileSize = m.totalFileSize := by
  unfold ensureInstrument
  split_ifs
  · exact cursor_total (mt_resizeInstrumentList_frame L heap _ m 1).1
  · rfl

theorem ensurePattern_total (m : mtsynth) :
    (ensurePattern m).totalFileSize = m.totalFileSize := by
  unfold ensurePattern
  split_ifs
  · exact fixedPart_total (mt_resizePatterns_fixed m 1)
  · rfl

theorem readCount_total (mem : Nat → Nat) (m : mtsynth) :
    (readField mem setInstrumentCount m).totalFileSize = m.totalFileSize := by
  unfold readField
  split_ifs <;> rfl

theorem loadInstruments_total (L : InstrLayout) (g : Indeterminate) (mem : Nat → Nat)
    (m : mtsynth) : (loadInstruments L g mem m).totalFileSize = m.totalFileSize := by
  unfold loadInstruments
  simp only []
  rw [readInstruments_total, ensurePattern_total, ensureInstrument_total,
    cursor_total (mt_resizeInstrumentList_frame L g.heap _ _ _).1,
    readCount_total]

theorem mt_patternClear_cursor (m : mtsynth) : cursor (mt_patternClear m) = cursor m := by
  unfold mt_patternClear
  split_ifs <;> rfl

theorem loadHead_kept (mem : Nat → Nat) (s : Loader) :
    kept (loadHead mem s).mt = kept (mt_patternClear { s.mt with order := 0, row := 0 }) := by
  unfold loadHead loadChannels
  show kept (forLoop FM_ch (loadChannel mem) _) = _
  rw [loadChannels_kept, loadGlobals_kept, loadTexts_kept]
  rfl

theorem fixedPart_count {m m1 : mtsynth} (e : fixedPart m1 = fixedPart m) :
    m1.instrumentCount = m.instrumentCount := by
  unfold fixedPart at e
  simp only [Prod.mk.injEq] at e
  exact e.2.2.1

theorem kept_count {m m1 : mtsynth} (e : kept m1 = kept m) :
    m1.instrumentCount = m.instrumentCount := by
  unfold kept at e
  simp only [Prod.mk.injEq] at e
  exact e.2.2

theorem readPattern_count (mem : Nat → Nat) (i : Nat) (m : mtsynth) :
    (readPattern mem i m).instrumentCount = m.instrumentCount := by
  unfold readPattern
  split_ifs <;> rfl

theorem readNbRow_count (mem : Nat → Nat) (s : Loader) :
    (readNbRow mem s).mt.instrumentCount = s.mt.instrumentCount := by
  unfold readNbRow
  split_ifs <;> rfl

theorem readNbOrd_count (mem : Nat → Nat) (s : Loader) :
    (readNbOrd mem s).mt.instrumentCount = s.mt.instrumentCount := by
  unfold readNbOrd
  split_ifs <;> rfl

theorem loadPattern_count (mem : Nat → Nat) (i : Nat) (s : Loader) :
    (loadPattern mem i s).mt.instrumentCount = s.mt.instrumentCount := by
  unfold loadPattern
  simp only []
  rw [readPattern_count, fixedPart_count (mt_resizePattern_fixed _ _ _).1, readNbRow_count]

theorem patternLoop_count (mem : Nat → Nat) (n : Nat) (s : Loader) :
    (forLoop n (loadPattern mem) s).mt.instrumentCount = s.mt.instrumentCount := by
  induction n with
  | zero => rfl
  | succ n ih => rw [forLoop_succ, loadPattern_count, ih]

theorem loadPatterns_count (mem : Nat → Nat) (s : Loader) :
    (loadPatterns mem s).mt.instrumentCount = s.mt.instrumentCount := by
  unfold loadPatterns
  simp only []
  rw [patternLoop_count]
  simp only []
  rw [fixedPart_count (mt_resizePatterns_fixed _ _), readNbOrd_count]

theorem mt_patternClear_count (m : mtsynth) :
    (mt_patternClear m).instrumentCount = m.instrumentCount := by
  unfold mt_patternClear
  split_ifs <;> rfl

theorem loadHead_count (mem : Nat → Nat) (s : Loader) :
    (loadHead mem s).mt.instrumentCount = s.mt.instrumentCount := by
  rw [kept_count (loadHead_kept mem s), mt_patternClear_count]

theorem loadBody_total (L : InstrLayout) (g : Indeterminate) (mem : Nat → Nat) (s : Loader) :
    (loadBody L g mem s).totalFileSize = s.mt.totalFileSize := by
  unfold loadBody
  rw [loadInstruments_total, loadPatterns_total, kept_total (loadHead_kept mem s),
    cursor_total (mt_patternClear_cursor _)]

theorem adler32_lt (l : List Nat) : adler32 l < 4294967296 := by
  unfold adler32
  simp only []
  have h1 : (l.foldl adlerStep (1, 0)).1 < 4294967296 := by
    have : ∀ (l : List Nat) (s : Nat × Nat), s.1 < 65521 → (l.foldl adlerStep s).1 < 65521 := by
      intro l
      induction l with
      | nil => intro s hs; exact hs
      | cons b t ih =>
        intro s hs
        rw [List.foldl_cons]
        apply ih
        unfold adlerStep
        exact Nat.mod_lt _ (by norm_num)
    have := this l (1, 0) (by norm_num)
    omega
  have h2 : ((l.foldl adlerStep (1, 0)).2 <<< 16) % 4294967296 < 2 ^ 32 :=
    Nat.mod_lt _ (by norm_num)
  have h3 : (l.foldl adlerStep (1, 0)).1 < 2 ^ 32 := by norm_num; exact h1
  have := Nat.or_lt_two_pow h2 h3
  norm_num at this
  exact this

theorem readLe32_le32 {mem : Nat → Nat} {m : mtsynth} (c : Nat) (rest : List Nat)
    (h : Tail mem m (le32 c ++ rest)) (hc : c < 4294967296) : readLe32 mem m.readSeek = c := by
  unfold readLe32
  have h0 := h.get 0 (by simp [le32])
  have h1 := h.get 1 (by simp [le32])
  have h2 := h.get 2 (by simp [le32])
  have h3 := h.get 3 (by simp [le32])
  simp only [le32, Nat.add_zero, List.cons_append, List.getD_cons_zero, List.getD_cons_succ] at h0 h1 h2 h3
  rw [h0, h1, h2, h3]
  omega

theorem memBytes_toMem (body rest : List Nat) :
    memBytes (toMem (body ++ rest)) 0 body.length = body := by
  apply memBytes_eq
  intro k hk
  simp only [toMem, Nat.zero_add]
  rw [List.getD_append _ _ _ _ hk]

theorem songBytes_eq (L : InstrLayout) (magic : List Nat) (mt : mtsynth) (rest : List Nat) :
    songBytes L magic mt ++ rest = (magic ++ [0]) ++ (MUDTRACKER_VERSION :: songTail L mt rest) := by
  unfold songBytes songTail
  simp only [List.append_assoc, List.cons_append, List.nil_append]

theorem songTail_length (L : InstrLayout) (mt : mtsynth) (rest : List Nat) :
    81 ≤ (songTail L mt rest).length := by
  unfold songTail
  have h : ((List.range FM_ch).flatMap (channelBytes mt)).length = 72 := by
    rw [flatMap_range_length (channelBytes mt) 3 FM_ch (fun _ => rfl)]
    rfl
  simp only [List.length_append, List.length_cons, h, textBytes]
  omega

theorem patternPart_eq {a b : mtsynth} (e : patternPart a = patternPart b) :
    a.patternCount = b.patternCount ∧ a.patternSize = b.patternSize ∧ a.pattern = b.pattern := by
  unfold patternPart at e
  simp only [Prod.mk.injEq] at e
  exact e

theorem loadHead_tail {mem : Nat → Nat} {s : Loader} (src : mtsynth) (rest : List Nat)
    (h : Tail mem s.mt (textBytes src.songName ++ (textBytes src.author ++
      (textBytes src.comments ++
        (src.initial_tempo :: src.diviseur :: src._globalVolume :: src.transpose ::
          roundByte (src.initialReverbLength * 160) ::
          roundByte (src.initialReverbRoomSize * 160) ::
          ((List.range FM_ch).flatMap (channelBytes src) ++ rest))))))
    (hr : rest ≠ []) : Tail mem (loadHead mem s).mt rest := by
  unfold loadHead loadChannels
  have h0 : Tail mem (clearStage s).mt _ := cursor_tail h (mt_patternClear_cursor _)
  have h1 := loadTexts_tail _ _ _ _ h0 (by simp)
  have h2 := loadGlobals_tail _ _ _ _ _ _ _ h1
  exact loadChannels_tail (channelBytes src) (fun ch => ⟨_, _, _, rfl⟩) FM_ch _ h2

theorem loadBody_spec {mem : Nat → Nat} {s : Loader} (L : InstrLayout) (g : Indeterminate)
    (src : mtsynth) (rest : List Nat) (h : Tail mem s.mt (songTail L src rest)) (hr : rest ≠ [])
    (hc1 : 1 ≤ src.patternCount) (hc2 : src.patternCount ≤ 255)
    (hs : ∀ i, i < src.patternCount → 1 ≤ src.patternSize i ∧ src.patternSize i ≤ 255)
    (hi1 : 1 ≤ src.instrumentCount) (hi2 : src.instrumentCount ≤ 255)
    (h0 : s.mt.instrumentCount ≤ 255) :
    Tail mem (loadBody L g mem s) rest ∧
    (loadBody L g mem s).patternCount = src.patternCount ∧
    (∀ i, i < src.patternCount →
      (loadBody L g mem s).patternSize i = src.patternSize i ∧
      ∀ j ch, j < src.patternSize i → ch < FM_ch →
        (loadBody L g mem s).pattern i j ch = src.pattern i j ch) ∧
    (loadBody L g mem s).instrumentCount = src.instrumentCount ∧
    (∀ k b, k < src.instrumentCount → b < L.size →
      (loadBody L g mem s).instrument k b = (stampVersion src).instrument k b) := by
  unfold loadBody
  unfold songTail at h
  have h3 := loadHead_tail src _ h (by simp)
  have h4 : (loadPatterns mem (loadHead mem s)).mt.instrumentCount ≤ 255 := by
    rw [loadPatterns_count, loadHead_count]
    exact h0
  generalize loadHead mem s = s3 at h3 h4 ⊢
  obtain ⟨p1, p2, p3⟩ := loadPatterns_spec src _ h3 (by simp) hc2 hs
  generalize (loadPatterns mem s3).mt = m4 at p1 p2 p3 h4 ⊢
  obtain ⟨q1, q2, q3, q4⟩ := loadInstruments_spec L g (stampVersion src) src.instrumentCount rest
    p1 hr hi1 hi2 (by rw [p2]; omega) h4
  obtain ⟨e1, e2, e3⟩ := patternPart_eq q2
  refine ⟨q1, e1.trans p2, ?_, q3, q4⟩
  intro i hi
  rw [e2, e3]
  exact p3 i hi

theorem load_accepted (L : InstrLayout) (g : Indeterminate) (mt : mtsynth) (mem : Nat → Nat)
    (len : Nat) (hlen : 3 * FM_ch + 6 ≤ len) (hv : mem 5 = MUDTRACKER_VERSION) :
    mt_loadSongFromMemory L g mt mem len =
      if checksumFails mem (loadBody L g mem (afterVersion g mt len)) then
        (LoadCode.MT_ERR_FILECORRUPTED,
          recoverInstruments L (skipChecksum (loadBody L g mem (afterVersion g mt len))))
      else
        (LoadCode.ok,
          { skipChecksum (loadBody L g mem (afterVersion g mt len)) with
            channelStatesDone := true }) := by
  have h5 : ¬ (5 ≥ len) := by unfold FM_ch at hlen; omega
  have hs : readTemp mem ⟨{ ({ mt with totalFileSize := len } : mtsynth) with readSeek := 5 },
      g.temp, g.nbOrd, g.nbRow⟩ = afterVersion g mt len := by
    unfold readTemp afterVersion
    simp only []
    rw [if_neg h5, hv]
    rfl
  unfold mt_loadSongFromMemory
  simp only []
  rw [if_neg (by omega), hs]
  have : ¬ (afterVersion g mt len).temp ≠ MUDTRACKER_VERSION := by
    unfold afterVersion
    simp
  rw [if_neg this]

theorem checksum_ok {mem : Nat → Nat} {m : mtsynth} (body : List Nat)
    (h : Tail mem m (le32 (adler32 body)))
    (hmem : memBytes mem 0 (m.totalFileSize - 4) = body) : checksumFails mem m = false := by
  unfold checksumFails
  rw [if_neg (h.canRead (by simp [le32]))]
  have h' : Tail mem m (le32 (adler32 body) ++ []) := by rw [List.append_nil]; exact h
  rw [readLe32_le32 _ [] h' (adler32_lt body), hmem]
  simp

theorem skipChecksum_patterns (m : mtsynth) : patternPart (skipChecksum m) = patternPart m := by
  unfold skipChecksum
  split_ifs <;> rfl

theorem skipChecksum_instruments (m : mtsynth) :
    (skipChecksum m).instrumentCount = m.instrumentCount ∧
    (skipChecksum m).instrument = m.instrument := by
  unfold skipChecksum
  split_ifs <;> exact ⟨rfl, rfl⟩

theorem le32_length (c : Nat) : (le32 c).length = 4 := rfl

theorem songFile_split (L : InstrLayout) (magic : List Nat) (src : mtsynth) :
    songFile L magic src = (magic ++ [0, MUDTRACKER_VERSION]) ++
      songTail L src (le32 (adler32 (songBytes L magic src))) := by
  unfold songFile
  rw [songBytes_eq]
  simp only [List.append_assoc, List.cons_append, List.nil_append]

theorem songFile_length (L : InstrLayout) (magic : List Nat) (src : mtsynth)
    (hm : magic.length = 4) : 3 * FM_ch + 6 ≤ (songFile L magic src).length := by
  rw [songFile_split]
  have := songTail_length L src (le32 (adler32 (songBytes L magic src)))
  simp only [List.length_append, List.length_cons, List.length_nil, hm]
  unfold FM_ch
  omega

theorem songFile_version (L : InstrLayout) (magic : List Nat) (src : mtsynth)
    (hm : magic.length = 4) : toMem (songFile L magic src) 5 = MUDTRACKER_VERSION := by
  rw [songFile_split]
  unfold toMem
  rw [List.getD_append _ _ _ _ (by simp [hm]), List.getD_append_right _ _ _ _ (by omega), hm]
  rfl

theorem songFile_checksum (L : InstrLayout) (magic : List Nat) (src : mtsynth) :
    memBytes (toMem (songFile L magic src)) 0 ((songFile L magic src).length - 4) =
      songBytes L magic src := by
  have h : (songFile L magic src).length - 4 = (songBytes L magic src).length := by
    unfold songFile
    rw [List.length_append, le32_length]
    omega
  rw [h]
  exact memBytes_toMem _ _

theorem load_songFile (L : InstrLayout) (g : Indeterminate) (mt0 src : mtsynth)
    (magic : List Nat) (hm : magic.length = 4)
    (hc1 : 1 ≤ src.patternCount) (hc2 : src.patternCount ≤ 255)
    (hs : ∀ i, i < src.patternCount → 1 ≤ src.patternSize i ∧ src.patternSize i ≤ 255)
    (hi1 : 1 ≤ src.instrumentCount) (hi2 : src.instrumentCount ≤ 255)
    (h0 : mt0.instrumentCount ≤ 255) :
    ∃ m : mtsynth,
      mt_loadSongFromMemory L g mt0 (toMem (songFile L magic src))
        (songFile L magic src).length = (LoadCode.ok, m) ∧
      m.patternCount = src.patternCount ∧
      (∀ i, i < src.patternCount → m.patternSize i = src.patternSize i ∧
        ∀ j ch, j < src.patternSize i → ch < FM_ch → m.pattern i j ch = src.pattern i j ch) ∧
      m.instrumentCount = src.instrumentCount ∧
      (∀ k b, k < src.instrumentCount → b < L.size →
        m.instrument k b = (stampVersion src).instrument k b) := by
  rw [load_accepted L g mt0 _ _ (songFile_length L magic src hm) (songFile_version L magic src hm)]
  have ht : Tail (toMem (songFile L magic src))
      (afterVersion g mt0 (songFile L magic src).length).mt
      (songTail L src (le32 (adler32 (songBytes L magic src)))) := by
    rw [songFile_split]
    refine tail_toMem _ _ _ ?_ rfl
    show 6 = _
    simp [hm]
  obtain ⟨t1, t2, t3, t4, t5⟩ := loadBody_spec L g src _ ht (by simp [le32]) hc1 hc2 hs hi1 hi2 h0
  have hck := checksum_ok (songBytes L magic src) t1
    (by rw [loadBody_total]; exact songFile_checksum L magic src)
  rw [hck]
  generalize loadBody L g (toMem (songFile L magic src))
    (afterVersion g mt0 (songFile L magic src).length) = m at t1 t2 t3 t4 t5
  obtain ⟨e1, e2, e3⟩ := patternPart_eq (skipChecksum_patterns m)
  obtain ⟨e4, e5⟩ := skipChecksum_instruments m
  refine ⟨{ skipChecksum m with channelStatesDone := true },
    by simp only [Bool.false_eq_true, if_false], ?_, ?_, ?_, ?_⟩
  · exact e1.trans t2
  · intro i hi
    show (skipChecksum m).patternSize i = _ ∧ ∀ j ch, _ → _ → (skipChecksum m).pattern i j ch = _
    rw [e2, e3]
    exact t3 i hi
  · exact e4.trans t4
  · intro k b hk hb
    show (skipChecksum m).instrument k b = _
    rw [e5]
    exact t5 k b hk hb

theorem stampVersion_byte (src : mtsynth) (k b : Nat) (hk : k < src.instrumentCount) :
    (stampVersion src).instrument k b =
      if b = 5 then MUDTRACKER_VERSION else src.instrument k b := by
  show (if k < src.instrumentCount then Function.update (src.instrument k) 5 MUDTRACKER_VERSION
    else src.instrument k) b = _
  rw [if_pos hk]
  by_cases h : b = 5
  · rw [if_pos h, h, Function.update_same]
  · rw [if_neg h, Function.update_noteq h]

theorem readLe32_append (body : List Nat) (c : Nat) (hc : c < 4294967296) :
    readLe32 (toMem (body ++ le32 c)) body.length = c := by
  have ht : Tail (toMem (body ++ (le32 c ++ [])))
      { createdEngine with readSeek := body.length,
                           totalFileSize := (body ++ (le32 c ++ [])).length }
      (le32 c ++ []) := tail_toMem body (le32 c ++ []) _ rfl rfl
  have h := readLe32_le32 c [] ht hc
  rw [List.append_nil] at h
  exact h

theorem songFile_stored_checksum (L : InstrLayout) (magic : List Nat) (src : mtsynth) :
    readLe32 (toMem (songFile L magic src)) ((songFile L magic src).length - 4) =
      adler32 (memBytes (toMem (songFile L magic src)) 0 ((songFile L magic src).length - 4)) := by
  rw [songFile_checksum]
  have hl : (songFile L magic src).length - 4 = (songBytes L magic src).length := by
    unfold songFile
    rw [List.length_append, le32_length]
    omega
  rw [hl]
  unfold songFile
  exact readLe32_append _ _ (adler32_lt _)

theorem recoverInstruments_code (L : InstrLayout) (m : mtsynth) (k : Nat)
    (hk : k < m.instrumentCount) :
    (recoverInstruments L m).instrument k =
      L.store (mt_instrumentRecovery (L.view (m.instrument k))) (m.instrument k) := by
  show (if k < m.instrumentCount then
    L.store (mt_instrumentRecovery (L.view (m.instrument k))) (m.instrument k)
    else m.instrument k) = _
  rw [if_pos hk]

theorem checksumFails_iff (mem : Nat → Nat) (m : mtsynth) :
    checksumFails mem m = true ↔
      (m.readSeek ≥ m.totalFileSize ∨
        readLe32 mem m.readSeek ≠ adler32 (memBytes mem 0 (m.totalFileSize - 4))) := by
  unfold checksumFails
  by_cases h : m.readSeek ≥ m.totalFileSize
  · rw [if_pos h]
    exact ⟨fun _ => Or.inl h, fun _ => rfl⟩
  · rw [if_neg h, decide_eq_true_iff]
    exact ⟨Or.inr, fun o => o.resolve_left h⟩

/-- C1, amended: for every song with 1..255 patterns, each of 1..255 rows, and
1..255 instruments, `mt_loadSongFromMemory` on the bytes that `mt_saveSong`
writes returns 0 and yields the same pattern count, the same size and the same
cells for every pattern, the same instrument count and the instrument bytes of
the song with the version byte (offset 5) of each instrument set to 1, as
`mt_saveSong` leaves them; the four bytes that end the file are the Adler-32
checksum of the bytes before them. -/
theorem saveSong_loadSong_roundtrip (L : InstrLayout) (g : Indeterminate) (mt0 src : mtsynth)
    (hc1 : 1 ≤ src.patternCount) (hc2 : src.patternCount ≤ 255)
    (hs : ∀ i, i < src.patternCount → 1 ≤ src.patternSize i ∧ src.patternSize i ≤ 255)
    (hi1 : 1 ≤ src.instrumentCount) (hi2 : src.instrumentCount ≤ 255)
    (h0 : mt0.instrumentCount ≤ 255) :
    (∃ m : mtsynth,
      mt_loadSongFromMemory L g mt0 (toMem (mt_saveSong L src).2)
        (mt_saveSong L src).2.length = (LoadCode.ok, m) ∧
      m.patternCount = src.patternCount ∧
      (∀ i, i < src.patternCount → m.patternSize i = src.patternSize i ∧
        ∀ j ch, j < src.patternSize i → ch < FM_ch → m.pattern i j ch = src.pattern i j ch) ∧
      m.instrumentCount = src.instrumentCount ∧
      (∀ k b, k < src.instrumentCount → b < L.size →
        m.instrument k b = (mt_saveSong L src).1.instrument k b ∧
        m.instrument k b = if b = 5 then MUDTRACKER_VERSION else src.instrument k b)) ∧
    readLe32 (toMem (mt_saveSong L src).2) ((mt_saveSong L src).2.length - 4) =
      adler32 (memBytes (toMem (mt_saveSong L src).2) 0 ((mt_saveSong L src).2.length - 4)) := by
  refine ⟨?_, songFile_stored_checksum L _ src⟩
  obtain ⟨m, r1, r2, r3, r4, r5⟩ :=
    load_songFile L g mt0 src [77, 68, 84, 83] rfl hc1 hc2 hs hi1 hi2 h0
  refine ⟨m, r1, r2, r3, r4, ?_⟩
  intro k b hk hb
  refine ⟨r5 k b hk hb, ?_⟩
  rw [r5 k b hk hb]
  exact stampVersion_byte src k b hk

/-- Witness for the amended C1 at the song `savedSong` (two patterns of two rows
and one row, one default instrument). -/
theorem saveSong_loadSong_roundtrip_witness :
    (1 ≤ savedSong.patternCount ∧ savedSong.patternCount ≤ 255 ∧
      (∀ i, i < savedSong.patternCount →
        1 ≤ savedSong.patternSize i ∧ savedSong.patternSize i ≤ 255) ∧
      1 ≤ savedSong.instrumentCount ∧ savedSong.instrumentCount ≤ 255 ∧
      createdEngine.instrumentCount ≤ 255) ∧
    ∃ m : mtsynth,
      mt_loadSongFromMemory demoLayout zeroGarbage createdEngine
        (toMem (mt_saveSong demoLayout savedSong).2)
        (mt_saveSong demoLayout savedSong).2.length = (LoadCode.ok, m) ∧
      m.patternCount = savedSong.patternCount :=
  ⟨⟨by decide, by decide, by decide, by decide, by decide, by decide⟩,
    (saveSong_loadSong_roundtrip demoLayout zeroGarbage createdEngine savedSong
      (by decide) (by decide) (by decide) (by decide) (by decide) (by decide)).1.imp
      (fun m h => ⟨h.1, h.2.1⟩)⟩

/-- C2, counterexample: the buffer `trailingFile` has 496 bytes and the version
byte 1, its last four bytes differ from the Adler-32 checksum of the 492 bytes
before them, and `mt_loadSongFromMemory` returns 0 on it. -/
theorem loadSong_checksum_counterexample :
    3 * FM_ch + 6 ≤ trailingFile.length ∧
    toMem trailingFile 5 = 1 ∧
    readLe32 (toMem trailingFile) (trailingFile.length - 4) ≠
      adler32 (memBytes (toMem trailingFile) 0 (trailingFile.length - 4)) ∧
    (mt_loadSongFromMemory demoLayout zeroGarbage createdEngine (toMem trailingFile)
      trailingFile.length).1 = LoadCode.ok := by
  decide!

/-- C2, amended: on a buffer of at least 3*24+6 bytes whose version byte is 1,
`mt_loadSongFromMemory` returns `MT_ERR_FILECORRUPTED` exactly when the parse of
the song ends at or past the end of the buffer, or the four bytes at the
position where the parse ends (little-endian) differ from `adler32` of the
first `len - 4` bytes; it has then applied `mt_instrumentRecovery` to every
loaded instrument; otherwise it returns 0. -/
theorem loadSong_checksum_rule (L : InstrLayout) (g : Indeterminate) (mt : mtsynth)
    (mem : Nat → Nat) (len : Nat) (hlen : 3 * FM_ch + 6 ≤ len)
    (hv : mem 5 = MUDTRACKER_VERSION) :
    ((mt_loadSongFromMemory L g mt mem len).1 = LoadCode.MT_ERR_FILECORRUPTED ↔
      ((loadBody L g mem (afterVersion g mt len)).readSeek ≥ len ∨
        readLe32 mem (loadBody L g mem (afterVersion g mt len)).readSeek ≠
          adler32 (memBytes mem 0 (len - 4)))) ∧
    ((mt_loadSongFromMemory L g mt mem len).1 = LoadCode.MT_ERR_FILECORRUPTED →
      (mt_loadSongFromMemory L g mt mem len).2.instrumentCount =
        (loadBody L g mem (afterVersion g mt len)).instrumentCount ∧
      ∀ k, k < (loadBody L g mem (afterVersion g mt len)).instrumentCount →
        (mt_loadSongFromMemory L g mt mem len).2.instrument k =
          L.store
            (mt_instrumentRecovery (L.view ((loadBody L g mem (afterVersion g mt len)).instrument k)))
            ((loadBody L g mem (afterVersion g mt len)).instrument k)) ∧
    ((mt_loadSongFromMemory L g mt mem len).1 ≠ LoadCode.MT_ERR_FILECORRUPTED →
      (mt_loadSongFromMemory L g mt mem len).1 = LoadCode.ok) := by
  rw [load_accepted L g mt mem len hlen hv]
  have ht := loadBody_total L g mem (afterVersion g mt len)
  have hi := checksumFails_iff mem (loadBody L g mem (afterVersion g mt len))
  rw [ht] at hi
  have ht2 : (afterVersion g mt len).mt.totalFileSize = len := rfl
  rw [ht2] at hi
  generalize loadBody L g mem (afterVersion g mt len) = m at hi
  obtain ⟨e4, e5⟩ := skipChecksum_instruments m
  cases hc : checksumFails mem m
  · have hn : ¬ (m.readSeek ≥ len ∨ readLe32 mem m.readSeek ≠ adler32 (memBytes mem 0 (len - 4))) :=
      fun o => by rw [hi.mpr o] at hc; exact Bool.noConfusion hc
    simp only [Bool.false_eq_true, if_false]
    refine ⟨⟨fun h => LoadCode.noConfusion h, fun o => absurd o hn⟩,
      fun h => LoadCode.noConfusion h, fun _ => trivial⟩
  · simp only [if_true]
    refine ⟨⟨fun _ => hi.mp hc, fun _ => trivial⟩, fun _ => ⟨e4, ?_⟩, fun h => absurd rfl h⟩
    intro k hk
    rw [recoverInstruments_code L (skipChecksum m) k (by rw [e4]; exact hk), e5]

/-- Witness for the amended C2 at the buffer `shortFile` of 78 bytes with the
version byte 1. -/
theorem loadSong_checksum_rule_witness :
    (3 * FM_ch + 6 ≤ 78 ∧ toMem shortFile 5 = MUDTRACKER_VERSION) ∧
    ((mt_loadSongFromMemory demoLayout zeroGarbage createdEngine (toMem shortFile) 78).1
        ≠ LoadCode.MT_ERR_FILECORRUPTED →
      (mt_loadSongFromMemory demoLayout zeroGarbage createdEngine (toMem shortFile) 78).1
        = LoadCode.ok) :=
  ⟨⟨by decide, by decide⟩,
    (loadSong_checksum_rule demoLayout zeroGarbage createdEngine (toMem shortFile) 78
      (by decide) (by decide)).2.2⟩

/-- C3: the song loader never looks at the first four bytes: whatever the four
bytes `magic` are, the file made of `magic`, a zero byte, the version byte 1,
the song data of a song with 1..255 patterns of 1..255 rows and 1..255
instruments, and the Adler-32 checksum of all of it, starts with `magic`, has
the version byte 1 and a matching trailing checksum, and
`mt_loadSongFromMemory` returns 0 on it, not `MT_ERR_FILECORRUPTED`. -/
theorem loadSong_ignores_magic (L : InstrLayout) (g : Indeterminate) (mt0 src : mtsynth)
    (magic : List Nat) (hm : magic.length = 4)
    (hc1 : 1 ≤ src.patternCount) (hc2 : src.patternCount ≤ 255)
    (hs : ∀ i, i < src.patternCount → 1 ≤ src.patternSize i ∧ src.patternSize i ≤ 255)
    (hi1 : 1 ≤ src.instrumentCount) (hi2 : src.instrumentCount ≤ 255)
    (h0 : mt0.instrumentCount ≤ 255) :
    (songFile L magic src).take 4 = magic ∧
    toMem (songFile L magic src) 5 = MUDTRACKER_VERSION ∧
    readLe32 (toMem (songFile L magic src)) ((songFile L magic src).length - 4) =
      adler32 (memBytes (toMem (songFile L magic src)) 0 ((songFile L magic src).length - 4)) ∧
    (mt_loadSongFromMemory L g mt0 (toMem (songFile L magic src))
      (songFile L magic src).length).1 = LoadCode.ok := by
  refine ⟨?_, songFile_version L magic src hm, songFile_stored_checksum L magic src, ?_⟩
  · rw [songFile_split, List.append_assoc, ← hm, List.take_left]
  · obtain ⟨m, r1, _⟩ := load_songFile L g mt0 src magic hm hc1 hc2 hs hi1 hi2 h0
    rw [r1]

/-- Witness for C3: the file of `savedSong` with the magic `XXXX` loads with
return value 0. -/
theorem loadSong_ignores_magic_witness :
    ([88, 88, 88, 88].length = 4 ∧ [88, 88, 88, 88] ≠ [77, 68, 84, 83] ∧
      1 ≤ savedSong.patternCount ∧ savedSong.patternCount ≤ 255 ∧
      (∀ i, i < savedSong.patternCount →
        1 ≤ savedSong.patternSize i ∧ savedSong.patternSize i ≤ 255) ∧
      1 ≤ savedSong.instrumentCount ∧ savedSong.instrumentCount ≤ 255 ∧
      createdEngine.instrumentCount ≤ 255) ∧
    (songFile demoLayout [88, 88, 88, 88] savedSong).take 4 = [88, 88, 88, 88] ∧
    (mt_loadSongFromMemory demoLayout zeroGarbage createdEngine
      (toMem (songFile demoLayout [88, 88, 88, 88] savedSong))
      (songFile demoLayout [88, 88, 88, 88] savedSong).length).1 = LoadCode.ok :=
  ⟨⟨by decide, by decide, by decide, by decide, by decide, by decide, by decide, by decide⟩,
    (loadSong_ignores_magic demoLayout zeroGarbage createdEngine savedSong [88, 88, 88, 88]
      (by decide) (by decide) (by decide) (by decide) (by decide) (by decide) (by decide)).1,
    (loadSong_ignores_magic demoLayout zeroGarbage createdEngine savedSong [88, 88, 88, 88]
      (by decide) (by decide) (by decide) (by decide) (by decide) (by decide) (by decide)).2.2.2⟩

/-- C4: on a buffer of at least 3*24+6 bytes whose version byte (offset 5) is
not 1, `mt_loadSongFromMemory` returns `MT_ERR_FILEVERSION`, and the engine is
the one before the call but for `totalFileSize = len` and `readSeek = 6`:
patterns, pattern sizes, instruments, song metadata and per-channel defaults
are unchanged. -/
theorem loadSong_version_mismatch (L : InstrLayout) (g : Indeterminate) (mt : mtsynth)
    (mem : Nat → Nat) (len : Nat) (hlen : 3 * FM_ch + 6 ≤ len)
    (hv : mem 5 ≠ MUDTRACKER_VERSION) :
    mt_loadSongFromMemory L g mt mem len =
      (LoadCode.MT_ERR_FILEVERSION, { mt with totalFileSize := len, readSeek := 6 }) ∧
    patternPart (mt_loadSongFromMemory L g mt mem len).2 = patternPart mt ∧
    (mt_loadSongFromMemory L g mt mem len).2.instrumentCount = mt.instrumentCount ∧
    (mt_loadSongFromMemory L g mt mem len).2.instrument = mt.instrument := by
  have h5 : ¬ (5 ≥ len) := by unfold FM_ch at hlen; omega
  have hs : readTemp mem ⟨{ ({ mt with totalFileSize := len } : mtsynth) with readSeek := 5 },
      g.temp, g.nbOrd, g.nbRow⟩ =
      ⟨{ mt with totalFileSize := len, readSeek := 6 }, mem 5, g.nbOrd, g.nbRow⟩ := by
    unfold readTemp
    simp only []
    rw [if_neg h5]
    rfl
  have he : mt_loadSongFromMemory L g mt mem len =
      (LoadCode.MT_ERR_FILEVERSION, { mt with totalFileSize := len, readSeek := 6 }) := by
    unfold mt_loadSongFromMemory
    simp only []
    rw [if_neg (by omega), hs]
    simp only []
    rw [if_pos hv]
  rw [he]
  exact ⟨rfl, rfl, rfl, rfl⟩

/-- Witness for C4 at a buffer of 78 zero bytes and the engine `savedSong`. -/
theorem loadSong_version_mismatch_witness :
    (3 * FM_ch + 6 ≤ 78 ∧ toMem zeroFile 5 ≠ MUDTRACKER_VERSION) ∧
    mt_loadSongFromMemory demoLayout zeroGarbage savedSong (toMem zeroFile) 78 =
      (LoadCode.MT_ERR_FILEVERSION, { savedSong with totalFileSize := 78, readSeek := 6 }) :=
  ⟨⟨by decide, by decide⟩,
    (loadSong_version_mismatch demoLayout zeroGarbage savedSong (toMem zeroFile) 78
      (by decide) (by decide)).1⟩

/-- C11: `mt_write` returns 0 and leaves the engine as it is when the pattern,
the row or the channel is out of range; otherwise it returns 1, each of the five
fields of the addressed cell becomes the field of `data` when that is not 255
and keeps its value when it is 255, and every other cell is unchanged. -/
theorem mt_write_spec (mt : mtsynth) (pattern row channel : Nat) (data : Cell) :
    ((pattern ≥ mt.patternCount ∨ row ≥ mt.patternSize pattern ∨ channel ≥ FM_ch) →
      mt_write mt pattern row channel data = (0, mt)) ∧
    (pattern < mt.patternCount → row < mt.patternSize pattern → channel < FM_ch →
      (mt_write mt pattern row channel data).1 = 1 ∧
      ((mt_write mt pattern row channel data).2.pattern pattern row channel).note
        = (if data.note = 255 then (mt.pattern pattern row channel).note else data.note) ∧
      ((mt_write mt pattern row channel data).2.pattern pattern row channel).instr
        = (if data.instr = 255 then (mt.pattern pattern row channel).instr else data.instr) ∧
      ((mt_write mt pattern row channel data).2.pattern pattern row channel).vol
        = (if data.vol = 255 then (mt.pattern pattern row channel).vol else data.vol) ∧
      ((mt_write mt pattern row channel data).2.pattern pattern row channel).fx
        = (if data.fx = 255 then (mt.pattern pattern row channel).fx else data.fx) ∧
      ((mt_write mt pattern row channel data).2.pattern pattern row channel).fxdata
        = (if data.fxdata = 255 then (mt.pattern pattern row channel).fxdata else data.fxdata) ∧
      (∀ o j c, ¬ (o = pattern ∧ j = row ∧ c = channel) →
        (mt_write mt pattern row channel data).2.pattern o j c = mt.pattern o j c) ∧
      (mt_write mt pattern row channel data).2.patternCount = mt.patternCount ∧
      (mt_write mt pattern row channel data).2.patternSize = mt.patternSize) := by
  constructor
  · intro h
    unfold mt_write
    rw [if_pos h]
  · intro h1 h2 h3
    have hn : ¬ (pattern ≥ mt.patternCount ∨ row ≥ mt.patternSize pattern ∨ channel ≥ FM_ch) := by
      omega
    unfold mt_write
    rw [if_neg hn]
    refine ⟨rfl, ?_, ?_, ?_, ?_, ?_, ?_, rfl, rfl⟩
    · show (if pattern = pattern ∧ row = row ∧ channel = channel then
        writeCell (mt.pattern pattern row channel) data else mt.pattern pattern row channel).note = _
      rw [if_pos ⟨rfl, rfl, rfl⟩]
      unfold writeCell
      by_cases h : data.note = 255 <;> simp [h]
    · show (if pattern = pattern ∧ row = row ∧ channel = channel then
        writeCell (mt.pattern pattern row channel) data else mt.pattern pattern row channel).instr = _
      rw [if_pos ⟨rfl, rfl, rfl⟩]
      unfold writeCell
      by_cases h : data.instr = 255 <;> simp [h]
    · show (if pattern = pattern ∧ row = row ∧ channel = channel then
        writeCell (mt.pattern pattern row channel) data else mt.pattern pattern row channel).vol = _
      rw [if_pos ⟨rfl, rfl, rfl⟩]
      unfold writeCell
      by_cases h : data.vol = 255 <;> simp [h]
    · show (if pattern = pattern ∧ row = row ∧ channel = channel then
        writeCell (mt.pattern pattern row channel) data else mt.pattern pattern row channel).fx = _
      rw [if_pos ⟨rfl, rfl, rfl⟩]
      unfold writeCell
      by_cases h : data.fx = 255 <;> simp [h]
    · show (if pattern = pattern ∧ row = row ∧ channel = channel then
        writeCell (mt.pattern pattern row channel) data else mt.pattern pattern row channel).fxdata = _
      rw [if_pos ⟨rfl, rfl, rfl⟩]
      unfold writeCell
      by_cases h : data.fxdata = 255 <;> simp [h]
    · intro o j c hne
      show (if o = pattern ∧ j = row ∧ c = channel then
        writeCell (mt.pattern o j c) data else mt.pattern o j c) = _
      rw [if_neg hne]

/-- Witness for C11: a write outside the demo song is refused; a write of the
note 60 with the other fields 255 into row 1 of pattern 0, channel 0, keeps the
effect `T` of that cell. -/
theorem mt_write_spec_witness :
    ((2 ≥ demoSong.patternCount ∨ 0 ≥ demoSong.patternSize 2 ∨ 0 ≥ FM_ch) ∧
      mt_write demoSong 2 0 0 ⟨60, 0, 0, 0, 0⟩ = (0, demoSong)) ∧
    ((0 < demoSong.patternCount ∧ 1 < demoSong.patternSize 0 ∧ 0 < FM_ch) ∧
      (mt_write demoSong 0 1 0 ⟨60, 255, 255, 255, 255⟩).1 = 1 ∧
      ((mt_write demoSong 0 1 0 ⟨60, 255, 255, 255, 255⟩).2.pattern 0 1 0).note = 60) :=
  ⟨⟨by decide, (mt_write_spec demoSong 2 0 0 ⟨60, 0, 0, 0, 0⟩).1 (by decide)⟩,
    ⟨by decide, by decide, by decide⟩,
    ((mt_write_spec demoSong 0 1 0 ⟨60, 255, 255, 255, 255⟩).2
      (by decide) (by decide) (by decide)).1,
    ((mt_write_spec demoSong 0 1 0 ⟨60, 255, 255, 255, 255⟩).2
      (by decide) (by decide) (by decide)).2.1⟩

theorem clampOrder_range (u : Bool) (order : Int) (count : Nat) (hc : 1 ≤ count)
    (hm : count ≤ 2147483648) (hi : -2147483648 ≤ order ∧ order ≤ 2147483647) :
    0 ≤ clampOrder u order count ∧ clampOrder u order count < count ∧
    (0 ≤ order → order < count → clampOrder u order count = order) := by
  unfold clampOrder clamp
  cases u
  · simp only [Bool.false_eq_true, if_false]
    split_ifs <;> omega
  · simp only [if_true]
    split_ifs <;> omega

theorem sizeRead_inside (mt : mtsynth) (outside : Int → Int) (i : Int) (h0 : 0 ≤ i)
    (h1 : i < mt.patternCount) : sizeRead mt outside i = (mt.patternSize i.toNat : Int) := by
  unfold sizeRead
  rw [if_pos ⟨h0, h1⟩]

theorem setPosition_fields (u : Bool) (outside : Int → Int) (cs : StateTable) (mt : mtsynth)
    (order row : Int) :
    (mt_setPosition u outside cs mt order row).1.order
      = ((clampOrder u order mt.patternCount) % 4294967296).toNat ∧
    (mt_setPosition u outside cs mt order row).1.row
      = ((clamp row 0 (sizeRead mt outside order - 1)) % 4294967296).toNat ∧
    (mt_setPosition u outside cs mt order row).1.patternCount = mt.patternCount ∧
    (mt_setPosition u outside cs mt order row).1.patternSize = mt.patternSize ∧
    order ∈ (mt_setPosition u outside cs mt order row).2 ∧
    (∀ i, i ∈ (mt_setPosition u outside cs mt order row).2 → i ≠ order →
      i = ((((clampOrder u order mt.patternCount) % 4294967296).toNat : Nat) : Int) ∧
      ((clampOrder u order mt.patternCount) % 4294967296).toNat < mt.patternCount) := by
  unfold mt_setPosition
  simp only []
  split_ifs with hp hq
  · unfold mt_initChannels
    split_ifs <;> simp
  · unfold mt_initChannels
    refine ⟨?_, ?_, ?_, ?_, by simp, ?_⟩
    · split_ifs <;> rfl
    · split_ifs <;> rfl
    · split_ifs <;> rfl
    · split_ifs <;> rfl
    · intro i hi hne
      simp only [List.mem_cons, List.mem_singleton, List.not_mem_nil, or_false] at hi
      rcases hi with h | h
      · exact absurd h hne
      · exact ⟨h, Nat.lt_of_not_ge hq⟩
  · simp

/-- C12: what `mt_setPosition` does on a song with at least one pattern (each of
at least one row) for `int` arguments: the engine order ends inside the song, but the row is
clamped against `patternSize[order]` read at the argument `order`, not at the
engine order: when `order` is outside `0..patternCount-1` the array is read out
of bounds; only when `order` is inside does the engine row end below
`patternSize[engine order]` with every read inside the array. -/
theorem setPosition_reads_argument (u : Bool) (outside : Int → Int) (cs : StateTable)
    (mt : mtsynth) (order row : Int) (hc : 1 ≤ mt.patternCount)
    (hm : mt.patternCount ≤ 256)
    (hs : ∀ i, i < mt.patternCount → 1 ≤ mt.patternSize i)
    (hi : -2147483648 ≤ order ∧ order ≤ 2147483647) :
    (mt_setPosition u outside cs mt order row).1.order < mt.patternCount ∧
    order ∈ (mt_setPosition u outside cs mt order row).2 ∧
    (mt_setPosition u outside cs mt order row).1.row
      = ((clamp row 0 (sizeRead mt outside order - 1)) % 4294967296).toNat ∧
    (0 ≤ order → order < mt.patternCount →
      (mt_setPosition u outside cs mt order row).1.order = order.toNat ∧
      (mt_setPosition u outside cs mt order row).1.row
        < mt.patternSize (mt_setPosition u outside cs mt order row).1.order ∧
      ∀ i, i ∈ (mt_setPosition u outside cs mt order row).2 → 0 ≤ i ∧ i < mt.patternCount) := by
  obtain ⟨f1, f2, f3, f4, f5, f6⟩ := setPosition_fields u outside cs mt order row
  obtain ⟨c1, c2, c3⟩ := clampOrder_range u order mt.patternCount hc (by omega) hi
  refine ⟨?_, f5, f2, ?_⟩
  · rw [f1]
    omega
  · intro h0 h1
    have ho : (mt_setPosition u outside cs mt order row).1.order = order.toNat := by
      rw [f1, c3 h0 h1]
      omega
    refine ⟨ho, ?_, ?_⟩
    · rw [f2, ho, sizeRead_inside mt outside order h0 h1]
      have := hs order.toNat (by omega)
      unfold clamp
      split_ifs <;> omega
    · intro i hi
      by_cases hio : i = order
      · rw [hio]
        exact ⟨h0, h1⟩
      · obtain ⟨e, hlt⟩ := f6 i hi hio
        rw [e]
        omega

/-- Witness for C12, the failing input: on the demo song (patterns of 2 and 1
rows) `mt_setPosition(mt, 5, 1, 0)` reads `patternSize[5]`, outside the array of
2 entries; when the memory there holds 7 the engine ends at order 1, row 1,
although pattern 1 has a single row. -/
theorem setPosition_reads_argument_witness :
    (1 ≤ demoSong.patternCount ∧ demoSong.patternCount ≤ 256 ∧
      (∀ i, i < demoSong.patternCount → 1 ≤ demoSong.patternSize i) ∧
      (-2147483648 : Int) ≤ 5 ∧ (5 : Int) ≤ 2147483647) ∧
    (5 : Int) ∈ (mt_setPosition true (fun _ => 7) zeroTable demoSong 5 1).2 ∧
    ¬ ((5 : Int) < demoSong.patternCount) ∧
    (mt_setPosition true (fun _ => 7) zeroTable demoSong 5 1).1.order = 1 ∧
    (mt_setPosition true (fun _ => 7) zeroTable demoSong 5 1).1.row = 1 ∧
    ¬ ((mt_setPosition true (fun _ => 7) zeroTable demoSong 5 1).1.row
        < demoSong.patternSize (mt_setPosition true (fun _ => 7) zeroTable demoSong 5 1).1.order) :=
  ⟨⟨by decide, by decide, by decide, by decide, by decide⟩,
    (setPosition_reads_argument true (fun _ => 7) zeroTable demoSong 5 1
      (by decide) (by decide) (by decide) ⟨by decide, by decide⟩).2.1,
    by decide, by decide, by decide, by decide⟩

theorem shiftRight_and (x y i : Nat) : (x &&& y) >>> i = (x >>> i) &&& (y >>> i) := by
  apply Nat.eq_of_testBit_eq
  intro j
  simp only [Nat.testBit_shiftRight, Nat.testBit_and]

theorem byte0_eq (val : Int) : byte0 val = u32 val % 256 := by
  unfold byte0
  rw [show (255 : Nat) = 2 ^ 8 - 1 from rfl, Nat.and_pow_two_sub_one_eq_mod]
  omega

theorem byte1_eq (val : Int) : byte1 val = u32 val / 256 % 256 := by
  unfold byte1
  rw [shiftRight_and, show (65280 : Nat) >>> 8 = 2 ^ 8 - 1 from rfl,
    Nat.and_pow_two_sub_one_eq_mod, Nat.shiftRight_eq_div_pow]
  omega

theorem byte2_eq (val : Int) : byte2 val = u32 val / 65536 % 256 := by
  unfold byte2
  rw [shiftRight_and, show (16711680 : Nat) >>> 16 = 2 ^ 8 - 1 from rfl,
    Nat.and_pow_two_sub_one_eq_mod, Nat.shiftRight_eq_div_pow]
  omega

theorem u32_eq (val : Int) (h1 : -8388608 ≤ val) (h2 : val ≤ 8388607) :
    (u32 val : Int) = if val < 0 then val + 4294967296 else val := by
  unfold u32
  split_ifs <;> omega

theorem truncate_range (x : ℚ) (h1 : -8388608 ≤ x) (h2 : x ≤ 8388607) :
    -8388608 ≤ truncate x ∧ truncate x ≤ 8388607 := by
  unfold truncate
  split_ifs
  · constructor
    · exact Int.le_floor.mpr (by push_cast; exact h1)
    · have h := Int.floor_le x
      have h3 : ((⌊x⌋ : Int) : ℚ) ≤ ((8388607 : Int) : ℚ) := by push_cast; linarith
      exact_mod_cast h3
  · constructor
    · have h := Int.le_ceil x
      have h3 : (((-8388608 : Int)) : ℚ) ≤ ((⌈x⌉ : Int) : ℚ) := by push_cast; linarith
      exact_mod_cast h3
    · exact Int.ceil_le.mpr (by push_cast; exact h2)

theorem sample24_range (r : ℚ) : -8388608 ≤ sample24 r ∧ sample24 r ≤ 8388607 := by
  unfold sample24
  apply truncate_range
  · split_ifs with h1 h2
    · norm_num
    · norm_num
    · linarith
  · split_ifs with h1 h2
    · norm_num
    · norm_num
    · linarith

/-- C20: for every `val` in -8388608..8388607 the 24-bit branch of `mt_render`
writes three bytes that are the little-endian two's-complement encoding of
`val` in 24 bits; with `MT_RENDER_PAD32` it writes the same three bytes and a
fourth byte that is 255 when `val < 0` and 0 otherwise, and the four bytes are
the little-endian two's-complement encoding of `val` in 32 bits. -/
theorem write24_encodes (val : Int) (h1 : -8388608 ≤ val) (h2 : val ≤ 8388607) :
    write24 false val = [byte0 val, byte1 val, byte2 val] ∧
    (byte0 val < 256 ∧ byte1 val < 256 ∧ byte2 val < 256) ∧
    ((byte0 val : Int) + 256 * (byte1 val : Int) + 65536 * (byte2 val : Int) = val % 16777216) ∧
    decodeLe (write24 false val) = val ∧
    write24 true val = write24 false val ++ [if val < 0 then 255 else 0] ∧
    decodeLe (write24 true val) = val := by
  have e0 := byte0_eq val
  have e1 := byte1_eq val
  have e2 := byte2_eq val
  have eu := u32_eq val h1 h2
  refine ⟨rfl, by omega, ?_, ?_, rfl, ?_⟩
  · split_ifs at eu <;> omega
  · unfold decodeLe write24
    simp only [Bool.false_eq_true, if_false, List.foldr_cons, List.foldr_nil, List.length_cons,
      List.length_nil]
    split_ifs at eu <;> split_ifs <;> omega
  · unfold decodeLe write24
    simp only [if_true, List.foldr_cons, List.foldr_nil, List.length_cons,
      List.length_nil]
    split_ifs at eu <;> split_ifs <;> omega

/-- Witness for C20 at the sample value -2. -/
theorem write24_encodes_witness :
    ((-8388608 : Int) ≤ -2 ∧ (-2 : Int) ≤ 8388607) ∧
    write24 true (-2) = write24 false (-2) ++ [if (-2 : Int) < 0 then 255 else 0] ∧
    decodeLe (write24 true (-2)) = -2 :=
  ⟨⟨by decide, by decide⟩,
    (write24_encodes (-2) (by decide) (by decide)).2.2.2.2.1,
    (write24_encodes (-2) (by decide) (by decide)).2.2.2.2.2⟩

theorem setChannel_same (p : Player) (ch : Nat) (c : fm_channel) :
    (setChannel p ch c).ch ch = c := by
  show Function.update p.ch ch c ch = c
  rw [Function.update_same]

theorem setChannel_other (p : Player) (ch k : Nat) (c : fm_channel) (h : k ≠ ch) :
    (setChannel p ch c).ch k = p.ch k := by
  show Function.update p.ch ch c k = _
  rw [Function.update_noteq h]

theorem noteAction_frame (ch : Nat) (row : Cell) (p : Player) :
    (noteAction ch row p).mt = p.mt ∧ (noteAction ch row p).rv = p.rv ∧
    (noteAction ch row p).volReads = p.volReads ∧
    (noteAction ch row p).frameTimerFx = p.frameTimerFx := by
  unfold noteAction
  split_ifs <;> exact ⟨rfl, rfl, rfl, rfl⟩

theorem noteAction_delay (ch : Nat) (row : Cell) (p : Player) (h : row.fx = 68) :
    noteAction ch row p = p := by
  unfold noteAction
  rw [if_neg (by simp [h])]
  split_ifs with h1 h2
  · exact absurd h h2.1
  · rfl
  · rfl

/-- The cell of channel `ch` on the current row of the player. -/
theorem rowEffect_position (ch : Nat) (row : Cell) (p : Player) :
    (rowEffect ch row p).mt.order = p.mt.order ∧ (rowEffect ch row p).mt.row = p.mt.row ∧
    (rowEffect ch row p).mt.pattern = p.mt.pattern := by
  unfold rowEffect armRetrigger
  split_ifs <;> exact ⟨rfl, rfl, rfl⟩

theorem rowEffect_tempo (ch : Nat) (row : Cell) (p : Player) :
    (rowEffect ch row p).mt.tempo
      = if row.fx = 84 then max 1 (p.ch ch).fxData else p.mt.tempo := by
  unfold rowEffect armRetrigger
  split_ifs <;> first | rfl | omega

theorem rowEffect_tempOrder (ch : Nat) (row : Cell) (p : Player) :
    (rowEffect ch row p).mt.tempOrder
      = if row.fx = 66 then ((p.ch ch).fxData : Int) else p.mt.tempOrder := by
  unfold rowEffect armRetrigger
  split_ifs <;> rfl

theorem rowEffect_tempRow (ch : Nat) (row : Cell) (p : Player) :
    (rowEffect ch row p).mt.tempRow
      = if row.fx = 67 then ((p.ch ch).fxData : Int) else p.mt.tempRow := by
  unfold rowEffect armRetrigger
  split_ifs <;> first | rfl | omega

theorem rowEffect_rv (ch : Nat) (row : Cell) (p : Player) :
    (rowEffect ch row p).rv = if row.fx = 83 then effectS (p.ch ch).fxData p.rv else p.rv := by
  unfold rowEffect armRetrigger
  split_ifs <;> first | rfl | omega

theorem rowEffect_volReads (ch : Nat) (row : Cell) (p : Player) :
    (rowEffect ch row p).volReads
      = if row.fx = 77 ∨ row.fx = 82 then p.volReads ++ [(p.ch ch).fxData] else p.volReads := by
  unfold rowEffect armRetrigger
  split_ifs <;> first | rfl | omega

/-- The state of the player in the row event of channel `ch` when the effect
switch is reached. -/
theorem rowChannel_eq (ch : Nat) (p : Player) :
    ∃ q : Player, rowChannel ch p = rowEffect ch (p.mt.pattern p.mt.order p.mt.row ch) q ∧
      q.mt = p.mt ∧ q.rv = p.rv ∧ q.volReads = p.volReads ∧
      (q.ch ch).fxData = (p.mt.pattern p.mt.order p.mt.row ch).fxdata := by
  unfold rowChannel
  refine ⟨_, rfl, ?_, ?_, ?_, ?_⟩
  · exact (noteAction_frame ch _ _).1
  · exact (noteAction_frame ch _ _).2.1
  · exact (noteAction_frame ch _ _).2.2.1
  · unfold loadFxData
    rw [setChannel_same]

theorem rowChannel_position (ch : Nat) (p : Player) :
    (rowChannel ch p).mt.order = p.mt.order ∧ (rowChannel ch p).mt.row = p.mt.row ∧
    (rowChannel ch p).mt.pattern = p.mt.pattern := by
  obtain ⟨q, e, h1, _⟩ := rowChannel_eq ch p
  rw [e]
  obtain ⟨a, b, c⟩ := rowEffect_position ch (p.mt.pattern p.mt.order p.mt.row ch) q
  rw [a, b, c, h1]
  exact ⟨rfl, rfl, rfl⟩

theorem rowLoop_position (n : Nat) (p : Player) :
    (forLoop n rowChannel p).mt.order = p.mt.order ∧
    (forLoop n rowChannel p).mt.row = p.mt.row ∧
    (forLoop n rowChannel p).mt.pattern = p.mt.pattern := by
  induction n with
  | zero => exact ⟨rfl, rfl, rfl⟩
  | succ n ih =>
    rw [forLoop_succ]
    obtain ⟨a, b, c⟩ := rowChannel_position n (forLoop n rowChannel p)
    rw [a, b, c]
    exact ih

/-- A value of the player that the row event of a channel sets to `val` of the
cell when the cell carries the effect `k`, and leaves alone otherwise, holds
after the channel loop the value given by the last channel carrying `k`. -/
theorem rowLoop_last {α : Type} (get : Player → α) (val : Cell → α) (k : Nat)
    (hstep : ∀ ch p, get (rowChannel ch p)
      = if (p.mt.pattern p.mt.order p.mt.row ch).fx = k
        then val (p.mt.pattern p.mt.order p.mt.row ch) else get p)
    (p : Player) (b : Nat) (hfx : (p.mt.pattern p.mt.order p.mt.row b).fx = k) :
    ∀ n, b < n → (∀ c, b < c → c < n → (p.mt.pattern p.mt.order p.mt.row c).fx ≠ k) →
      get (forLoop n rowChannel p) = val (p.mt.pattern p.mt.order p.mt.row b) := by
  intro n
  induction n with
  | zero => intro h; omega
  | succ n ih =>
    intro hb hlast
    rw [forLoop_succ, hstep]
    obtain ⟨a1, a2, a3⟩ := rowLoop_position n p
    rw [a1, a2, a3]
    by_cases hbn : b = n
    · rw [← hbn, if_pos hfx]
    · rw [if_neg (hlast n (by omega) (by omega))]
      exact ih (by omega) (fun c h1 h2 => hlast c h1 (by omega))

theorem rowChannel_tempo (ch : Nat) (p : Player) :
    (rowChannel ch p).mt.tempo
      = if (p.mt.pattern p.mt.order p.mt.row ch).fx = 84
        then max 1 (p.mt.pattern p.mt.order p.mt.row ch).fxdata else p.mt.tempo := by
  obtain ⟨q, e, h1, _, _, h4⟩ := rowChannel_eq ch p
  rw [e, rowEffect_tempo, h4, h1]

theorem rowChannel_tempOrder (ch : Nat) (p : Player) :
    (rowChannel ch p).mt.tempOrder
      = if (p.mt.pattern p.mt.order p.mt.row ch).fx = 66
        then ((p.mt.pattern p.mt.order p.mt.row ch).fxdata : Int) else p.mt.tempOrder := by
  obtain ⟨q, e, h1, _, _, h4⟩ := rowChannel_eq ch p
  rw [e, rowEffect_tempOrder, h4, h1]

theorem rowChannel_tempRow (ch : Nat) (p : Player) :
    (rowChannel ch p).mt.tempRow
      = if (p.mt.pattern p.mt.order p.mt.row ch).fx = 67
        then ((p.mt.pattern p.mt.order p.mt.row ch).fxdata : Int) else p.mt.tempRow := by
  obtain ⟨q, e, h1, _, _, h4⟩ := rowChannel_eq ch p
  rw [e, rowEffect_tempRow, h4, h1]

theorem rowChannel_rv (ch : Nat) (p : Player) :
    (rowChannel ch p).rv
      = if (p.mt.pattern p.mt.order p.mt.row ch).fx = 83
        then effectS (p.mt.pattern p.mt.order p.mt.row ch).fxdata p.rv else p.rv := by
  obtain ⟨q, e, _, h2, _, h4⟩ := rowChannel_eq ch p
  rw [e, rowEffect_rv, h4, h2]

theorem rowChannel_volReads (ch : Nat) (p : Player) :
    (rowChannel ch p).volReads
      = if (p.mt.pattern p.mt.order p.mt.row ch).fx = 77 ∨
          (p.mt.pattern p.mt.order p.mt.row ch).fx = 82
        then p.volReads ++ [(p.mt.pattern p.mt.order p.mt.row ch).fxdata] else p.volReads := by
  obtain ⟨q, e, _, _, h3, h4⟩ := rowChannel_eq ch p
  rw [e, rowEffect_volReads, h4, h3]

theorem effectS_short (d : Nat) (rv : Reverb) (h : d ≤ 40) :
    effectS d rv = { rv with reverbLength := 1 / 2 + (d : ℚ) * (1 / 80) } := by
  unfold effectS
  rw [if_pos h]

theorem effectS_long (d : Nat) (rv : Reverb) (h : 40 < d) :
    effectS d rv = mt_initReverb rv (((clamp ((d : Int) - 40) 1 40 : Int) : ℚ) * (1 / 40)) := by
  unfold effectS
  rw [if_neg (by omega)]

/-- C13: the row-entry action of effect `S` on channel `ch`, `d` being the
`fxdata` byte of the cell: for `d <= 40` the reverb length becomes
`0.5 + d * 0.0125`, which lies in [0.5, 1.0] (0.5 for 0, 1.0 for 40), and the
rest of the reverb, the room size included, is unchanged; for `d > 40` the
reverb is re-initialised by `mt_initReverb` with the room size
`r = clamp(d - 40, 1, 40) * 0.025`, which lies in [0.025, 1.0] (0.025 for 41),
and the reverb length is unchanged: the six delay lengths are the integer parts
of `r * 1.6 * 4096`, `r * 1.5 * 2485`, `r * 1.6 * 3801`, `r * 1.5 * 2333`,
`r * 1.5 * 2508` and `r * 1.5 * 1170`, each divided by `sampleRateRatio`; the
buffer has the size of the four comb lines plus twice the two allpass lines and
is zeroed, the offsets are the running sums of the delay lengths, and the eight
phase counters are 0. -/
theorem effectS_spec (ch : Nat) (p : Player)
    (hfx : (p.mt.pattern p.mt.order p.mt.row ch).fx = 83) :
    ((p.mt.pattern p.mt.order p.mt.row ch).fxdata ≤ 40 →
      (rowChannel ch p).rv = { p.rv with reverbLength :=
        1 / 2 + ((p.mt.pattern p.mt.order p.mt.row ch).fxdata : ℚ) * (1 / 80) } ∧
      (1 / 2 : ℚ) ≤ (rowChannel ch p).rv.reverbLength ∧
      (rowChannel ch p).rv.reverbLength ≤ 1 ∧
      (rowChannel ch p).rv.reverbRoomSize = p.rv.reverbRoomSize ∧
      ((p.mt.pattern p.mt.order p.mt.row ch).fxdata = 0 →
        (rowChannel ch p).rv.reverbLength = 1 / 2) ∧
      ((p.mt.pattern p.mt.order p.mt.row ch).fxdata = 40 →
        (rowChannel ch p).rv.reverbLength = 1)) ∧
    (40 < (p.mt.pattern p.mt.order p.mt.row ch).fxdata →
      (rowChannel ch p).rv = mt_initReverb p.rv
        (((clamp (((p.mt.pattern p.mt.order p.mt.row ch).fxdata : Int) - 40) 1 40 : Int) : ℚ)
          * (1 / 40)) ∧
      (rowChannel ch p).rv.reverbRoomSize
        = ((clamp (((p.mt.pattern p.mt.order p.mt.row ch).fxdata : Int) - 40) 1 40 : Int) : ℚ)
          * (1 / 40) ∧
      (1 / 40 : ℚ) ≤ (rowChannel ch p).rv.reverbRoomSize ∧
      (rowChannel ch p).rv.reverbRoomSize ≤ 1 ∧
      (rowChannel ch p).rv.reverbLength = p.rv.reverbLength ∧
      ((p.mt.pattern p.mt.order p.mt.row ch).fxdata = 41 →
        (rowChannel ch p).rv.reverbRoomSize = 1 / 40) ∧
      (rowChannel ch p).rv.sampleRateRatio = p.rv.sampleRateRatio ∧
      ((rowChannel ch p).rv.reverbMod1
          = ⌊(rowChannel ch p).rv.reverbRoomSize * (8 / 5) * 4096 / p.rv.sampleRateRatio⌋.toNat ∧
        (rowChannel ch p).rv.reverbMod2
          = ⌊(rowChannel ch p).rv.reverbRoomSize * (3 / 2) * 2485 / p.rv.sampleRateRatio⌋.toNat ∧
        (rowChannel ch p).rv.reverbMod3
          = ⌊(rowChannel ch p).rv.reverbRoomSize * (8 / 5) * 3801 / p.rv.sampleRateRatio⌋.toNat ∧
        (rowChannel ch p).rv.reverbMod4
          = ⌊(rowChannel ch p).rv.reverbRoomSize * (3 / 2) * 2333 / p.rv.sampleRateRatio⌋.toNat ∧
        (rowChannel ch p).rv.allpassMod
          = ⌊(rowChannel ch p).rv.reverbRoomSize * ((3 / 2) * 2508)
              / p.rv.sampleRateRatio⌋.toNat ∧
        (rowChannel ch p).rv.allpassMod2
          = ⌊(rowChannel ch p).rv.reverbRoomSize * ((3 / 2) * 1170)
              / p.rv.sampleRateRatio⌋.toNat) ∧
      ((rowChannel ch p).rv.revBufSize
          = (rowChannel ch p).rv.reverbMod1 + (rowChannel ch p).rv.reverbMod2
            + (rowChannel ch p).rv.reverbMod3 + (rowChannel ch p).rv.reverbMod4
            + 2 * ((rowChannel ch p).rv.allpassMod + (rowChannel ch p).rv.allpassMod2) ∧
        ∀ i, (rowChannel ch p).rv.revBuf i = 0) ∧
      ((rowChannel ch p).rv.revOffset2
          = (rowChannel ch p).rv.reverbMod1 + (rowChannel ch p).rv.reverbMod2 ∧
        (rowChannel ch p).rv.revOffset3
          = (rowChannel ch p).rv.revOffset2 + (rowChannel ch p).rv.reverbMod3 ∧
        (rowChannel ch p).rv.revOffset4
          = (rowChannel ch p).rv.revOffset3 + (rowChannel ch p).rv.reverbMod4 ∧
        (rowChannel ch p).rv.revOffset5
          = (rowChannel ch p).rv.revOffset4 + (rowChannel ch p).rv.allpassMod ∧
        (rowChannel ch p).rv.revOffset6
          = (rowChannel ch p).rv.revOffset5 + (rowChannel ch p).rv.allpassMod ∧
        (rowChannel ch p).rv.revOffset7
          = (rowChannel ch p).rv.revOffset6 + (rowChannel ch p).rv.allpassMod2) ∧
      ((rowChannel ch p).rv.reverbPhaseL = 0 ∧ (rowChannel ch p).rv.reverbPhaseL2 = 0 ∧
        (rowChannel ch p).rv.reverbPhaseR = 0 ∧ (rowChannel ch p).rv.reverbPhaseR2 = 0 ∧
        (rowChannel ch p).rv.allpassPhaseL = 0 ∧ (rowChannel ch p).rv.allpassPhaseR = 0 ∧
        (rowChannel ch p).rv.allpassPhaseL2 = 0 ∧ (rowChannel ch p).rv.allpassPhaseR2 = 0)) := by
  rw [rowChannel_rv, if_pos hfx]
  generalize (p.mt.pattern p.mt.order p.mt.row ch).fxdata = d
  constructor
  · intro h
    rw [effectS_short d p.rv h]
    have h1 : (0 : ℚ) ≤ (d : ℚ) := by exact_mod_cast Nat.zero_le d
    have h2 : (d : ℚ) ≤ 40 := by exact_mod_cast h
    refine ⟨rfl, ?_, ?_, rfl, ?_, ?_⟩
    · show (1 / 2 : ℚ) ≤ 1 / 2 + (d : ℚ) * (1 / 80)
      linarith
    · show (1 / 2 : ℚ) + (d : ℚ) * (1 / 80) ≤ 1
      linarith
    · intro h0
      show (1 / 2 : ℚ) + (d : ℚ) * (1 / 80) = 1 / 2
      rw [h0]
      norm_num
    · intro h0
      show (1 / 2 : ℚ) + (d : ℚ) * (1 / 80) = 1
      rw [h0]
      norm_num
  · intro h
    rw [effectS_long d p.rv h]
    have hc : 1 ≤ clamp ((d : Int) - 40) 1 40 ∧ clamp ((d : Int) - 40) 1 40 ≤ 40 := by
      unfold clamp
      split_ifs <;> omega
    have h1 : (1 : ℚ) ≤ ((clamp ((d : Int) - 40) 1 40 : Int) : ℚ) := by exact_mod_cast hc.1
    have h2 : ((clamp ((d : Int) - 40) 1 40 : Int) : ℚ) ≤ 40 := by exact_mod_cast hc.2
    refine ⟨rfl, rfl, ?_, ?_, rfl, ?_, rfl, ⟨rfl, rfl, rfl, rfl, rfl, rfl⟩, ⟨rfl, fun _ => rfl⟩,
      ⟨rfl, rfl, rfl, rfl, rfl, rfl⟩, ⟨rfl, rfl, rfl, rfl, rfl, rfl, rfl, rfl⟩⟩
    · show (1 / 40 : ℚ) ≤ ((clamp ((d : Int) - 40) 1 40 : Int) : ℚ) * (1 / 40)
      linarith
    · show ((clamp ((d : Int) - 40) 1 40 : Int) : ℚ) * (1 / 40) ≤ 1
      linarith
    · intro h0
      show ((clamp ((d : Int) - 40) 1 40 : Int) : ℚ) * (1 / 40) = 1 / 40
      rw [h0]
      have : clamp (((41 : Nat) : Int) - 40) 1 40 = 1 := by decide
      rw [this]
      norm_num

/-- Witness for C13: channel 7 of `tieSong` carries `S` with parameter 41; the
row event of that channel leaves the room size 0.025, and at sample rate 48000
the delay lengths 163, 93, 152, 87, 94 and 43, a zeroed buffer of 769 samples
and phase counters on 0. -/
theorem effectS_spec_witness :
    (((startPlayer tieSong).mt.pattern (startPlayer tieSong).mt.order
        (startPlayer tieSong).mt.row 7).fx = 83 ∧
      40 < ((startPlayer tieSong).mt.pattern (startPlayer tieSong).mt.order
        (startPlayer tieSong).mt.row 7).fxdata ∧
      ((startPlayer tieSong).mt.pattern (startPlayer tieSong).mt.order
        (startPlayer tieSong).mt.row 7).fxdata = 41) ∧
    (rowChannel 7 (startPlayer tieSong)).rv.reverbRoomSize = 1 / 40 ∧
    reverbDelays (rowChannel 7 (startPlayer tieSong)).rv = [163, 93, 152, 87, 94, 43] ∧
    (rowChannel 7 (startPlayer tieSong)).rv.revBufSize = 769 ∧
    (rowChannel 7 (startPlayer tieSong)).rv.revOffset7 = 726 ∧
    (rowChannel 7 (startPlayer tieSong)).rv.revBuf 5 = 0 ∧
    (rowChannel 7 (startPlayer tieSong)).rv.allpassPhaseR2 = 0 :=
  have T := (effectS_spec 7 (startPlayer tieSong) (by decide)).2 (by decide)
  ⟨⟨by decide, by decide, by decide⟩, T.2.2.2.2.2.1 (by decide), by decide!, by decide!,
    by decide!, T.2.2.2.2.2.2.2.2.1.2 5, T.2.2.2.2.2.2.2.2.2.2.2.2.2.2.2.2.2⟩

/-- C14, counterexample: on the row of `tieSong` channels 0 and 1 carry `T` with
100 and 200, channels 2 and 3 carry `B` with 3 and 5, channels 4 and 5 carry `C`
with 1 and 2; after the row event the tempo is 200, the pending jump order 5
and the pending jump row 2: the values of the higher channels, not those of the
lower ones. -/
theorem rowEvent_tie_counterexample :
    (rowEvent (startPlayer tieSong)).mt.tempo = 200 ∧
    (rowEvent (startPlayer tieSong)).mt.tempo ≠ max 1 100 ∧
    (rowEvent (startPlayer tieSong)).mt.tempOrder = 5 ∧
    (rowEvent (startPlayer tieSong)).mt.tempOrder ≠ 3 ∧
    (rowEvent (startPlayer tieSong)).mt.tempRow = 2 ∧
    (rowEvent (startPlayer tieSong)).mt.tempRow ≠ 1 := by
  decide!

/-- C14, amended: if channel b carries a global effect on the current row (`T`,
`B` or `C`) and no channel above b carries the same effect, then whatever the
channels below b carry, after the row event the global value is the one given
by b: `tempo = max(1, fxdata_b)`, `tempOrder = fxdata_b`, `tempRow = fxdata_b`:
of two channels a < b with the same effect the higher one, b, wins. -/
theorem rowEvent_last_channel_wins (p : Player) (b : Nat) (hb : b < FM_ch)
    (hlast : ∀ c, c < FM_ch → b < c →
      (p.mt.pattern p.mt.order p.mt.row c).fx ≠ (p.mt.pattern p.mt.order p.mt.row b).fx) :
    ((p.mt.pattern p.mt.order p.mt.row b).fx = 84 →
      (rowEvent p).mt.tempo = max 1 (p.mt.pattern p.mt.order p.mt.row b).fxdata) ∧
    ((p.mt.pattern p.mt.order p.mt.row b).fx = 66 →
      (rowEvent p).mt.tempOrder = ((p.mt.pattern p.mt.order p.mt.row b).fxdata : Int)) ∧
    ((p.mt.pattern p.mt.order p.mt.row b).fx = 67 →
      (rowEvent p).mt.tempRow = ((p.mt.pattern p.mt.order p.mt.row b).fxdata : Int)) := by
  unfold rowEvent
  refine ⟨?_, ?_, ?_⟩
  · intro h
    exact rowLoop_last (fun q => q.mt.tempo) (fun c => max 1 c.fxdata) 84 rowChannel_tempo p b h
      FM_ch hb (fun c h1 h2 => by rw [← h]; exact hlast c h2 h1)
  · intro h
    exact rowLoop_last (fun q => q.mt.tempOrder) (fun c => (c.fxdata : Int)) 66
      rowChannel_tempOrder p b h FM_ch hb (fun c h1 h2 => by rw [← h]; exact hlast c h2 h1)
  · intro h
    exact rowLoop_last (fun q => q.mt.tempRow) (fun c => (c.fxdata : Int)) 67
      rowChannel_tempRow p b h FM_ch hb (fun c h1 h2 => by rw [← h]; exact hlast c h2 h1)

/-- Witness for the amended C14: channel 1 is the highest channel of `tieSong`
that carries `T`, and the tempo after the row event is its parameter 200. -/
theorem rowEvent_last_channel_wins_witness :
    (1 < FM_ch ∧
      (∀ c, c < FM_ch → 1 < c →
        ((startPlayer tieSong).mt.pattern (startPlayer tieSong).mt.order
          (startPlayer tieSong).mt.row c).fx ≠
        ((startPlayer tieSong).mt.pattern (startPlayer tieSong).mt.order
          (startPlayer tieSong).mt.row 1).fx) ∧
      ((startPlayer tieSong).mt.pattern (startPlayer tieSong).mt.order
        (startPlayer tieSong).mt.row 1).fx = 84) ∧
    (rowEvent (startPlayer tieSong)).mt.tempo
      = max 1 ((startPlayer tieSong).mt.pattern (startPlayer tieSong).mt.order
          (startPlayer tieSong).mt.row 1).fxdata :=
  ⟨⟨by decide, by decide, by decide⟩,
    (rowEvent_last_channel_wins (startPlayer tieSong) 1 (by decide) (by decide)).1 (by decide)⟩

theorem call_calls (p : Player) (v : VoiceCall) : (call p v).calls = p.calls ++ [v] := rfl

theorem setChannel_calls (p : Player) (ch : Nat) (c : fm_channel) :
    (setChannel p ch c).calls = p.calls := rfl

theorem fxChannel_arpeggio (ch : Nat) (p : Player) (h : (p.ch ch).fxActive = 65) :
    fxChannel ch p = fxArpeggio ch p := by
  unfold fxChannel
  rw [if_pos h]

theorem fxChannel_delay (ch : Nat) (p : Player) (h : (p.ch ch).fxActive = 68) :
    fxChannel ch p = fxDelay ch p := by
  unfold fxChannel
  rw [if_neg (by omega), if_neg (by omega), if_pos h]

/-- C16, counterexample: channel 0 holds an armed arpeggio on the base note 60
with parameter 0x47 (high nibble 4, low nibble 7); the sub-tick that makes the
first step sets `arpIter = 1` and calls `mt_playNote` with the note 67, the base
note plus the low nibble, not 64, the base note plus the high nibble. -/
theorem arpeggio_order_counterexample :
    ((fxChannel 0 (setChannel (startPlayer tieSong) 0 arpChannel)).ch 0).arpIter = 1 ∧
    (fxChannel 0 (setChannel (startPlayer tieSong) 0 arpChannel)).calls
      = [VoiceCall.mt_playNote 255 67 0 255] ∧
    (67 : Nat) = 60 + 71 % 16 ∧ (67 : Nat) ≠ 60 + 71 / 16 := by
  decide!

/-- C16, amended: on a channel with an active arpeggio (effect `A`, parameter
`fxData`, base note b) a sub-tick that finds `arpTimer + 1 < 8` only counts; a
sub-tick that finds `arpTimer + 1 >= 8` takes 8 off the timer, advances
`arpIter` to `(arpIter + 1) % 3` and calls `mt_playNote(mt, 255, n, ch, 255)`
where n is b for the new `arpIter = 0`, b + (fxData & 15), the low nibble, for
`arpIter = 1`, and b + (fxData >> 4), the high nibble, for `arpIter = 2`: after
arming the retriggered notes cycle through b + low, b + high, b. -/
theorem arpeggio_step (ch : Nat) (p : Player) (hA : (p.ch ch).fxActive = 65) :
    ((p.ch ch).arpTimer + 1 < 8 →
      (fxChannel ch p).calls = p.calls ∧
      ((fxChannel ch p).ch ch).arpIter = (p.ch ch).arpIter ∧
      ((fxChannel ch p).ch ch).arpTimer = (p.ch ch).arpTimer + 1) ∧
    ((p.ch ch).arpTimer + 1 ≥ 8 →
      ((fxChannel ch p).ch ch).arpIter = ((p.ch ch).arpIter + 1) % 3 ∧
      ((fxChannel ch p).ch ch).arpTimer = (p.ch ch).arpTimer + 1 - 8 ∧
      (fxChannel ch p).calls = p.calls ++ [VoiceCall.mt_playNote 255
        (if ((p.ch ch).arpIter + 1) % 3 = 0 then (p.ch ch).baseArpeggioNote
          else if ((p.ch ch).arpIter + 1) % 3 = 1
            then (p.ch ch).baseArpeggioNote + (p.ch ch).fxData % 16
          else (p.ch ch).baseArpeggioNote + (p.ch ch).fxData / 16) ch 255]) := by
  rw [fxChannel_arpeggio ch p hA]
  unfold fxArpeggio
  simp only []
  constructor
  · intro h
    rw [if_neg (by omega), setChannel_same]
    exact ⟨rfl, rfl, rfl⟩
  · intro h
    rw [if_pos h, setChannel_same]
    exact ⟨rfl, rfl, rfl⟩

/-- Witness for the amended C16 at the armed arpeggio `arpChannel`. -/
theorem arpeggio_step_witness :
    (((setChannel (startPlayer tieSong) 0 arpChannel).ch 0).fxActive = 65 ∧
      ((setChannel (startPlayer tieSong) 0 arpChannel).ch 0).arpTimer + 1 ≥ 8) ∧
    ((fxChannel 0 (setChannel (startPlayer tieSong) 0 arpChannel)).ch 0).arpIter
      = (((setChannel (startPlayer tieSong) 0 arpChannel).ch 0).arpIter + 1) % 3 :=
  ⟨⟨by decide, by decide⟩,
    ((arpeggio_step 0 (setChannel (startPlayer tieSong) 0 arpChannel) (by decide)).2
      (by decide)).1⟩

theorem armEffect_channel (ch fx : Nat) (p : Player) :
    (armEffect ch fx p).calls = p.calls ∧
    ((armEffect ch fx p).ch ch).fxActive = fx ∧
    ((armEffect ch fx p).ch ch).fxData = (p.ch ch).fxData := by
  unfold armEffect
  rw [setChannel_same]
  exact ⟨rfl, rfl, rfl⟩

theorem loadFxData_channel (ch d : Nat) (p : Player) :
    (loadFxData ch d p).calls = p.calls ∧ ((loadFxData ch d p).ch ch).fxData = d := by
  unfold loadFxData
  rw [setChannel_same]
  exact ⟨rfl, rfl⟩

theorem rowChannel_armDelay (ch : Nat) (p : Player)
    (h : (p.mt.pattern p.mt.order p.mt.row ch).fx = 68) :
    (rowChannel ch p).calls = p.calls ∧
    ((rowChannel ch p).ch ch).fxActive = 68 ∧
    ((rowChannel ch p).ch ch).fxData = (p.mt.pattern p.mt.order p.mt.row ch).fxdata := by
  unfold rowChannel
  rw [noteAction_delay ch _ _ h]
  unfold rowEffect
  rw [if_neg (by omega), if_neg (by omega), if_pos (by omega)]
  obtain ⟨a1, a2, a3⟩ := armEffect_channel ch (p.mt.pattern p.mt.order p.mt.row ch).fx
    (loadFxData ch (p.mt.pattern p.mt.order p.mt.row ch).fxdata (clearFx ch p))
  obtain ⟨b1, b2⟩ := loadFxData_channel ch (p.mt.pattern p.mt.order p.mt.row ch).fxdata
    (clearFx ch p)
  rw [a1, a2, a3, b1, b2]
  exact ⟨rfl, h, rfl⟩

/-- C17: what the player does with a delayed note. At row entry a cell with
effect `D` makes no call and arms the effect with `fxData` of the cell. A
sub-tick of an armed `D` does nothing while
`(int)(frameTimer / (rowSamples/8)) < fxData`; at the first sub-tick that finds
it `>= fxData` the effect is disarmed, and with n the note of the current cell:
for n < 127 `mt_playNote` is called with the instrument, n and the volume of
the cell; for n = 128 `mt_stopNote` is called; for n = 127 (and for n > 128)
nothing is called: the test is `note < 127`, so the note 127 is never played. -/
theorem noteDelay_step (ch : Nat) (p : Player) :
    ((p.mt.pattern p.mt.order p.mt.row ch).fx = 68 →
      (rowChannel ch p).calls = p.calls ∧
      ((rowChannel ch p).ch ch).fxActive = 68 ∧
      ((rowChannel ch p).ch ch).fxData = (p.mt.pattern p.mt.order p.mt.row ch).fxdata) ∧
    ((p.ch ch).fxActive = 68 →
      (delaySteps p.mt < ((p.ch ch).fxData : Int) → fxChannel ch p = p) ∧
      (delaySteps p.mt ≥ ((p.ch ch).fxData : Int) →
        ((fxChannel ch p).ch ch).fxActive = 0 ∧
        ((p.mt.pattern p.mt.order p.mt.row ch).note < 127 →
          (fxChannel ch p).calls = p.calls ++
            [VoiceCall.mt_playNote (p.mt.pattern p.mt.order p.mt.row ch).instr
              (p.mt.pattern p.mt.order p.mt.row ch).note ch
              (p.mt.pattern p.mt.order p.mt.row ch).vol]) ∧
        ((p.mt.pattern p.mt.order p.mt.row ch).note = 128 →
          (fxChannel ch p).calls = p.calls ++ [VoiceCall.mt_stopNote ch]) ∧
        ((p.mt.pattern p.mt.order p.mt.row ch).note = 127 ∨
            128 < (p.mt.pattern p.mt.order p.mt.row ch).note →
          (fxChannel ch p).calls = p.calls))) := by
  refine ⟨rowChannel_armDelay ch p, ?_⟩
  intro hD
  rw [fxChannel_delay ch p hD]
  unfold fxDelay
  constructor
  · intro h
    rw [if_neg (by omega)]
  · intro h
    rw [if_pos h]
    simp only []
    rw [setChannel_same]
    refine ⟨rfl, ?_, ?_, ?_⟩
    · intro hn
      rw [setChannel_calls, if_pos hn, call_calls]
    · intro hn
      rw [setChannel_calls, if_neg (by omega), if_pos hn, call_calls]
    · intro hn
      rw [setChannel_calls, if_neg (by omega), if_neg (by omega)]

/-- Witness for C17, the failing input: channel 0 of `delaySong` carries the
note 127 with effect `D` and parameter 0; the row event arms the effect, the
sub-tick disarms it and no call is made, while on channel 1, with the note 60,
`mt_playNote` is called. -/
theorem noteDelay_step_witness :
    (((rowEvent (startPlayer delaySong)).ch 0).fxActive = 68 ∧
      delaySteps (rowEvent (startPlayer delaySong)).mt
        ≥ (((rowEvent (startPlayer delaySong)).ch 0).fxData : Int) ∧
      ((rowEvent (startPlayer delaySong)).mt.pattern (rowEvent (startPlayer delaySong)).mt.order
        (rowEvent (startPlayer delaySong)).mt.row 0).note = 127) ∧
    (fxChannel 0 (rowEvent (startPlayer delaySong))).calls = (rowEvent (startPlayer delaySong)).calls ∧
    (rowEvent (startPlayer delaySong)).calls = [] ∧
    (fxChannel 1 (rowEvent (startPlayer delaySong))).calls = [VoiceCall.mt_playNote 0 60 1 99] :=
  ⟨⟨by decide!, by decide!, by decide!⟩,
    (((noteDelay_step 0 (rowEvent (startPlayer delaySong))).2 (by decide!)).2 (by decide!)).2.2.2
      (Or.inl (by decide!)),
    by decide!, by decide!⟩

theorem rowLoop_volReads (p : Player) (ch : Nat)
    (hfx : (p.mt.pattern p.mt.order p.mt.row ch).fx = 77 ∨
      (p.mt.pattern p.mt.order p.mt.row ch).fx = 82) :
    ∀ n, ch < n →
      (p.mt.pattern p.mt.order p.mt.row ch).fxdata ∈ (forLoop n rowChannel p).volReads := by
  intro n
  induction n with
  | zero => intro h; omega
  | succ n ih =>
    intro hch
    rw [forLoop_succ, rowChannel_volReads]
    obtain ⟨a1, a2, a3⟩ := rowLoop_position n p
    rw [a1, a2, a3]
    by_cases hcn : ch = n
    · rw [← hcn, if_pos hfx]
      exact List.mem_append_right _ (List.mem_singleton.mpr rfl)
    · have h := ih (by omega)
      split_ifs
      · exact List.mem_append_left _ h
      · exact h

/-- C18: in the row event, the effects `M` and `R` read the table `expVol` at
the index `fxdata` of the cell as it is, without clamping: the byte is among
the indices read, so the read is inside the 100-entry table only when
`fxdata <= 99`. -/
theorem rowEvent_volume_index (p : Player) (ch : Nat) (hch : ch < FM_ch)
    (hfx : (p.mt.pattern p.mt.order p.mt.row ch).fx = 77 ∨
      (p.mt.pattern p.mt.order p.mt.row ch).fx = 82) :
    (p.mt.pattern p.mt.order p.mt.row ch).fxdata ∈ (rowEvent p).volReads ∧
    (expVolSize ≤ (p.mt.pattern p.mt.order p.mt.row ch).fxdata →
      ∃ i, i ∈ (rowEvent p).volReads ∧ ¬ i < expVolSize) := by
  have h := rowLoop_volReads p ch hfx FM_ch hch
  exact ⟨h, fun hge => ⟨_, h, by omega⟩⟩

/-- Witness for C18, the failing input: channel 6 of `tieSong` carries `M` with
parameter 200, and the row event reads `expVol[200]`, outside the table of 100
entries. -/
theorem rowEvent_volume_index_witness :
    (6 < FM_ch ∧
      (((startPlayer tieSong).mt.pattern (startPlayer tieSong).mt.order
          (startPlayer tieSong).mt.row 6).fx = 77 ∨
        ((startPlayer tieSong).mt.pattern (startPlayer tieSong).mt.order
          (startPlayer tieSong).mt.row 6).fx = 82)) ∧
    ((startPlayer tieSong).mt.pattern (startPlayer tieSong).mt.order
      (startPlayer tieSong).mt.row 6).fxdata = 200 ∧
    ¬ (200 < expVolSize) ∧
    ((startPlayer tieSong).mt.pattern (startPlayer tieSong).mt.order
      (startPlayer tieSong).mt.row 6).fxdata ∈ (rowEvent (startPlayer tieSong)).volReads :=
  ⟨⟨by decide, by decide⟩, by decide, by decide,
    (rowEvent_volume_index (startPlayer tieSong) 6 (by decide) (by decide)).1⟩

theorem fxArpeggio_frame (ch : Nat) (p : Player) :
    (fxArpeggio ch p).mt = p.mt ∧ (fxArpeggio ch p).frameTimerFx = p.frameTimerFx := by
  unfold fxArpeggio
  simp only []
  split_ifs <;> exact ⟨rfl, rfl⟩

theorem fxRetrigger_frame (ch : Nat) (p : Player) :
    (fxRetrigger ch p).mt = p.mt ∧ (fxRetrigger ch p).frameTimerFx = p.frameTimerFx := by
  unfold fxRetrigger
  simp only []
  split_ifs <;> exact ⟨rfl, rfl⟩

theorem fxDelay_frame (ch : Nat) (p : Player) :
    (fxDelay ch p).mt = p.mt ∧ (fxDelay ch p).frameTimerFx = p.frameTimerFx := by
  unfold fxDelay
  simp only []
  split_ifs <;> exact ⟨rfl, rfl⟩

theorem fxChannel_frame (ch : Nat) (p : Player) :
    (fxChannel ch p).mt = p.mt ∧ (fxChannel ch p).frameTimerFx = p.frameTimerFx := by
  unfold fxChannel
  split_ifs
  · exact fxArpeggio_frame ch p
  · exact fxRetrigger_frame ch p
  · exact fxDelay_frame ch p
  · exact ⟨rfl, rfl⟩

theorem fxLoop_frame (n : Nat) (p : Player) :
    (forLoop n fxChannel p).mt = p.mt ∧
    (forLoop n fxChannel p).frameTimerFx = p.frameTimerFx := by
  induction n with
  | zero => exact ⟨rfl, rfl⟩
  | succ n ih =>
    rw [forLoop_succ]
    obtain ⟨a, b⟩ := fxChannel_frame n (forLoop n fxChannel p)
    rw [a, b]
    exact ih

theorem fxTick_frame (p : Player) :
    (fxTick p).mt = p.mt ∧
    (fxTick p).frameTimerFx
      = (if p.frameTimerFx ≥ fxThreshold p.mt then p.frameTimerFx - fxThreshold p.mt
          else p.frameTimerFx) + 1 := by
  unfold fxTick
  simp only []
  by_cases h : p.frameTimerFx ≥ fxThreshold p.mt
  · rw [if_pos h, if_pos h]
    obtain ⟨l1, l2⟩ := fxLoop_frame FM_ch p
    generalize forLoop FM_ch fxChannel p = X at l1 l2 ⊢
    exact ⟨l1, rfl⟩
  · rw [if_neg h, if_neg h]
    exact ⟨rfl, rfl⟩

theorem fxTick_iterate_mt (p : Player) (n : Nat) : (fxTick^[n] p).mt = p.mt := by
  induction n with
  | zero => rfl
  | succ n ih => rw [Function.iterate_succ_apply', (fxTick_frame _).1, ih]

theorem tickOperator_spec (k : Nat) (v : Voice) :
    (tickOperator k v).active = v.active ∧
    (tickOperator k v).envReset = v.envReset ∧
    (tickOperator k v).op = Function.update v.op k (envelope v.envReset (v.op k)) ∧
    (tickOperator k v).opOutUsed
      = v.opOutUsed + (if (v.op k).connected then (v.op (v.op k).id.toNat).state else 0) := by
  unfold tickOperator
  simp only []
  split_ifs <;> exact ⟨rfl, rfl, rfl, rfl⟩

theorem tickLoop_spec (v : Voice) (n : Nat) :
    (forLoop n tickOperator { v with opOutUsed := 0, currentEnvLevel := 0 }).active = v.active ∧
    (forLoop n tickOperator { v with opOutUsed := 0, currentEnvLevel := 0 }).envReset
      = v.envReset ∧
    (∀ j, (forLoop n tickOperator { v with opOutUsed := 0, currentEnvLevel := 0 }).op j
      = if j < n then envelope v.envReset (v.op j) else v.op j) ∧
    (forLoop n tickOperator { v with opOutUsed := 0, currentEnvLevel := 0 }).opOutUsed
      = ((List.range n).map (sampledState v)).sum := by
  induction n with
  | zero =>
    refine ⟨rfl, rfl, ?_, rfl⟩
    intro j
    rw [if_neg (by omega)]
    rfl
  | succ n ih =>
    obtain ⟨i1, i2, i3, i4⟩ := ih
    rw [forLoop_succ]
    obtain ⟨t1, t2, t3, t4⟩ := tickOperator_spec n
      (forLoop n tickOperator { v with opOutUsed := 0, currentEnvLevel := 0 })
    rw [t1, t2, t3, t4]
    generalize forLoop n tickOperator { v with opOutUsed := 0, currentEnvLevel := 0 } = w
      at i1 i2 i3 i4
    have hn : w.op n = v.op n := by rw [i3 n, if_neg (by omega)]
    refine ⟨i1, i2, ?_, ?_⟩
    · intro j
      by_cases hj : j = n
      · rw [hj, Function.update_same, if_pos (by omega), hn, i2]
      · rw [Function.update_noteq hj, i3 j]
        by_cases hlt : j < n
        · rw [if_pos hlt, if_pos (by omega)]
        · rw [if_neg hlt, if_neg (by omega)]
    · rw [List.range_succ, List.map_append, List.sum_append, i4, hn]
      congr 1
      unfold sampledState
      simp only [List.map_cons, List.map_nil, List.sum_cons, List.sum_nil, Nat.add_zero]
      by_cases hc : (v.op n).connected = true
      · rw [if_pos hc, if_pos hc, i3]
        split_ifs <;> rfl
      · rw [if_neg hc, if_neg hc]

theorem sum_range_zero (f : Nat → Nat) (n : Nat) :
    ((List.range n).map f).sum = 0 ↔ ∀ k, k < n → f k = 0 := by
  induction n with
  | zero => simp
  | succ n ih =>
    rw [List.range_succ, List.map_append, List.sum_append]
    simp only [List.map_cons, List.map_nil, List.sum_cons, List.sum_nil, Nat.add_zero]
    constructor
    · intro h k hk
      have h1 : ((List.range n).map f).sum = 0 := by omega
      have h2 : f n = 0 := by omega
      by_cases hkn : k = n
      · rw [hkn]; exact h2
      · exact ih.mp h1 k (by omega)
    · intro h
      have h1 := ih.mpr (fun k hk => h k (by omega))
      have h2 := h n (by omega)
      omega

/-- C19, counterexample: in `crossVoice` the only slot with `connectOut >= 0` is
slot 0, routed to operator 1; after a control tick operator 0 is in state 0 but
the channel stays active with `active = 5`, the state of operator 1. In
`fadingVoice` operator 0, routed to itself, reaches state 0 during the tick, so
after the tick every operator is in state 0, but `active` is 6, the state it
had before the tick. -/
theorem controlTick_active_counterexample :
    ((controlTick crossVoice).active = 5 ∧
      (∀ k, k < 6 → ((controlTick crossVoice).op k).id ≥ 0 →
        ((controlTick crossVoice).op k).state = 0)) ∧
    ((controlTick fadingVoice).active = 6 ∧
      (∀ k, k < 6 → ((controlTick fadingVoice).op k).state = 0)) := by
  decide!

/-- C19, amended: an inactive channel is skipped by the control tick. On an
active channel every operator makes its envelope step, and `active` becomes the
sum, over the slots k whose output is connected (`connectOut >= 0`), of the
state of the operator `op[connectOut_k]` that slot k is routed to, taken when
slot k is visited: after the envelope step of that operator when it comes
before k, before it otherwise. So `active` is zero after the tick if and only
if each of these sampled states is 0; with `connectOut_k = k` the sampled state
is the state of operator k before the tick. -/
theorem controlTick_active (v : Voice) :
    (v.active = 0 → controlTick v = v) ∧
    (v.active ≠ 0 →
      (controlTick v).active = ((List.range 6).map (sampledState v)).sum ∧
      ((controlTick v).active = 0 ↔ ∀ k, k < 6 → sampledState v k = 0) ∧
      (∀ k, k < 6 → (controlTick v).op k = envelope v.envReset (v.op k)) ∧
      (∀ k, (v.op k).connected = true → (v.op k).id = (k : Int) →
        sampledState v k = (v.op k).state)) := by
  constructor
  · intro h
    unfold controlTick
    rw [if_pos h]
  · intro h
    obtain ⟨i1, i2, i3, i4⟩ := tickLoop_spec v 6
    have ha : (controlTick v).active = ((List.range 6).map (sampledState v)).sum := by
      unfold controlTick
      rw [if_neg h]
      exact i4
    refine ⟨ha, ?_, ?_, ?_⟩
    · rw [ha]
      exact sum_range_zero (sampledState v) 6
    · intro k hk
      unfold controlTick
      rw [if_neg h]
      show (forLoop 6 tickOperator { v with opOutUsed := 0, currentEnvLevel := 0 }).op k = _
      rw [i3 k, if_pos hk]
    · intro k hc hid
      unfold sampledState
      rw [if_pos hc, hid, Int.toNat_ofNat, if_neg (by omega)]

/-- Witness for the amended C19 at the voice `crossVoice`. -/
theorem controlTick_active_witness :
    crossVoice.active ≠ 0 ∧
    (controlTick crossVoice).active = ((List.range 6).map (sampledState crossVoice)).sum :=
  ⟨by decide, ((controlTick_active crossVoice).2 (by decide)).1⟩

theorem readCount_patterns (mem : Nat → Nat) (m : mtsynth) :
    patternPart (readField mem setInstrumentCount m) = patternPart m := by
  unfold readField
  split_ifs <;> rfl

theorem ensureInstrument_patterns (L : InstrLayout) (heap : Nat → Nat → Nat) (m : mtsynth) :
    patternPart (ensureInstrument L heap m) = patternPart m := by
  unfold ensureInstrument
  split_ifs
  · exact (mt_resizeInstrumentList_frame L heap _ m 1).2
  · rfl

theorem readInstruments_patterns (L : InstrLayout) (mem : Nat → Nat) (m : mtsynth) :
    patternPart (readInstruments L mem m) = patternPart m := by
  unfold readInstruments
  split_ifs <;> rfl

theorem beforePattern_patterns (L : InstrLayout) (g : Indeterminate) (mem : Nat → Nat)
    (m : mtsynth) :
    patternPart (ensureInstrument L g.heap
      (mt_resizeInstrumentList L g.heap m.instrumentCount (readField mem setInstrumentCount m)
        (readField mem setInstrumentCount m).instrumentCount)) = patternPart m := by
  rw [ensureInstrument_patterns, (mt_resizeInstrumentList_frame L g.heap _ _ _).2,
    readCount_patterns]

theorem loadInstruments_patterns (L : InstrLayout) (g : Indeterminate) (mem : Nat → Nat)
    (m : mtsynth) (hp : m.patternCount ≠ 0) :
    patternPart (loadInstruments L g mem m) = patternPart m := by
  unfold loadInstruments
  simp only []
  have e := beforePattern_patterns L g mem m
  rw [readInstruments_patterns, ensurePattern_id _ (by rw [(patternPart_eq e).1]; exact hp)]
  exact e

theorem loadInstruments_count_one (L : InstrLayout) (g : Indeterminate) (mem : Nat → Nat)
    (m : mtsynth) (hp : m.patternCount = 0) :
    (loadInstruments L g mem m).patternCount = 1 := by
  unfold loadInstruments
  simp only []
  have e := beforePattern_patterns L g mem m
  rw [(patternPart_eq (readInstruments_patterns L mem _)).1]
  unfold ensurePattern
  rw [if_pos (by rw [(patternPart_eq e).1]; exact hp)]
  exact mt_resizePatterns_count _ 1 (by omega)

theorem load_patternPart (L : InstrLayout) (g : Indeterminate) (mt : mtsynth) (mem : Nat → Nat)
    (len : Nat) (hlen : 3 * FM_ch + 6 ≤ len) (hv : mem 5 = MUDTRACKER_VERSION) :
    patternPart (mt_loadSongFromMemory L g mt mem len).2
      = patternPart (loadBody L g mem (afterVersion g mt len)) := by
  rw [load_accepted L g mt mem len hlen hv]
  generalize loadBody L g mem (afterVersion g mt len) = m
  cases checksumFails mem m
  · simp only [Bool.false_eq_true, if_false]
    exact skipChecksum_patterns m
  · simp only [if_true]
    exact skipChecksum_patterns m

theorem songFile_tail (L : InstrLayout) (g : Indeterminate) (mt0 src : mtsynth)
    (magic : List Nat) (hm : magic.length = 4) :
    Tail (toMem (songFile L magic src))
      (afterVersion g mt0 (songFile L magic src).length).mt
      (songTail L src (le32 (adler32 (songBytes L magic src)))) := by
  rw [songFile_split]
  refine tail_toMem _ _ _ ?_ rfl
  show 6 = _
  simp [hm]

theorem loadPatterns_none {mem : Nat → Nat} {s : Loader} {b : List Nat}
    (h : Tail mem s.mt (0 :: b)) : (loadPatterns mem s).mt.patternCount = 0 := by
  unfold loadPatterns
  simp only []
  rw [readNbOrd_spec h]
  exact mt_resizePatterns_count _ 0 (by omega)

/-- A song whose pattern count is a multiple of 256 (0 or 256) is stored with
the count byte 0 and loads with one pattern. -/
theorem load_count_wrap (L : InstrLayout) (g : Indeterminate) (mt0 src : mtsynth)
    (magic : List Nat) (hm : magic.length = 4) (hw : src.patternCount % 256 = 0) :
    (mt_loadSongFromMemory L g mt0 (toMem (songFile L magic src))
      (songFile L magic src).length).2.patternCount = 1 := by
  rw [(patternPart_eq (load_patternPart L g mt0 _ _ (songFile_length L magic src hm)
    (songFile_version L magic src hm))).1]
  have ht := songFile_tail L g mt0 src magic hm
  unfold songTail at ht
  have h3 := loadHead_tail src _ ht (by simp)
  rw [hw] at h3
  unfold loadBody
  exact loadInstruments_count_one L g _ _ (loadPatterns_none h3)

theorem readPattern_frame (mem : Nat → Nat) (i : Nat) (m : mtsynth) :
    (readPattern mem i m).patternCount = m.patternCount ∧
    (readPattern mem i m).patternSize = m.patternSize := by
  unfold readPattern
  split_ifs <;> exact ⟨rfl, rfl⟩

theorem readNbRow_frame (mem : Nat → Nat) (s : Loader) :
    (readNbRow mem s).mt.patternCount = s.mt.patternCount ∧
    (readNbRow mem s).mt.patternSize = s.mt.patternSize := by
  unfold readNbRow
  split_ifs <;> exact ⟨rfl, rfl⟩

theorem loadPattern_frame (mem : Nat → Nat) (i : Nat) (s : Loader) :
    (loadPattern mem i s).mt.patternCount = s.mt.patternCount ∧
    (∀ o, o ≠ i → (loadPattern mem i s).mt.patternSize o = s.mt.patternSize o) := by
  unfold loadPattern
  simp only []
  obtain ⟨r1, r2⟩ := readPattern_frame mem i
    (mt_resizePattern (readNbRow mem s).mt i (max 1 (readNbRow mem s).nbRow))
  obtain ⟨f1, f2, f3, f4⟩ :=
    mt_resizePattern_fixed (readNbRow mem s).mt i (max 1 (readNbRow mem s).nbRow)
  obtain ⟨n1, n2⟩ := readNbRow_frame mem s
  refine ⟨by rw [r1, f2, n1], ?_⟩
  intro o ho
  rw [r2, f4 o ho, n2]

theorem loadPattern_first {mem : Nat → Nat} {s : Loader} {b : List Nat}
    (h : Tail mem s.mt (0 :: b)) (hc : 0 < s.mt.patternCount) :
    (loadPattern mem 0 s).mt.patternSize 0 = 1 := by
  unfold loadPattern
  simp only []
  rw [readNbRow_spec h]
  simp only []
  rw [(readPattern_frame mem 0 _).2]
  exact mt_resizePattern_size (advance s.mt 1) 0 1 hc (by omega) (by omega)

theorem patternLoop_first {mem : Nat → Nat} {s : Loader} {b : List Nat}
    (h : Tail mem s.mt (0 :: b)) (hc : 0 < s.mt.patternCount) (n : Nat) :
    (forLoop (n + 1) (loadPattern mem) s).mt.patternSize 0 = 1 ∧
    (forLoop (n + 1) (loadPattern mem) s).mt.patternCount = s.mt.patternCount := by
  induction n with
  | zero =>
    rw [forLoop_succ]
    exact ⟨loadPattern_first h hc, (loadPattern_frame mem 0 s).1⟩
  | succ n ih =>
    rw [forLoop_succ]
    obtain ⟨f1, f2⟩ := loadPattern_frame mem (n + 1) (forLoop (n + 1) (loadPattern mem) s)
    rw [f1, f2 0 (by omega)]
    exact ih

theorem loadPatterns_first {mem : Nat → Nat} {s : Loader} (src : mtsynth) (rest : List Nat)
    (h : Tail mem s.mt ((src.patternCount % 256) ::
      ((List.range src.patternCount).flatMap (patternRecord src) ++ rest)))
    (hc1 : 1 ≤ src.patternCount) (hc2 : src.patternCount ≤ 255)
    (hw : src.patternSize 0 % 256 = 0) :
    (loadPatterns mem s).mt.patternSize 0 = 1 ∧
    (loadPatterns mem s).mt.patternCount = src.patternCount := by
  unfold loadPatterns
  simp only []
  rw [readNbOrd_spec h]
  simp only []
  have hm : src.patternCount % 256 = src.patternCount := Nat.mod_eq_of_lt (by omega)
  rw [hm]
  have hcount := mt_resizePatterns_count (advance s.mt 1) src.patternCount (by omega)
  obtain ⟨k, hk⟩ : ∃ k, src.patternCount = k + 1 := ⟨src.patternCount - 1, by omega⟩
  have ht : Tail mem (mt_resizePatterns (advance s.mt 1) src.patternCount)
      (0 :: (patternBytes src 0 ++
        (((List.range k).map Nat.succ).flatMap (patternRecord src) ++ rest))) := by
    have h1 := fixedPart_tail h.tail (mt_resizePatterns_fixed (advance s.mt 1) src.patternCount)
    rw [hk, List.range_succ_eq_map, List.flatMap_cons] at h1
    unfold patternRecord at h1
    rw [hw] at h1
    rw [hk]
    simpa [List.append_assoc] using h1
  have hpos : 0 < (mt_resizePatterns (advance s.mt 1) src.patternCount).patternCount := by
    rw [hcount]
    omega
  have hp := @patternLoop_first mem
    ⟨mt_resizePatterns (advance s.mt 1) src.patternCount, s.temp, src.patternCount, s.nbRow⟩ _
    ht hpos k
  rw [hk] at hp ⊢
  exact ⟨hp.1, hp.2.trans (by rw [← hk]; exact hcount)⟩

/-- A song with 1..255 patterns whose pattern 0 has a multiple of 256 rows (256
rows) is stored with the size byte 0, and pattern 0 loads with one row. -/
theorem load_rows_wrap (L : InstrLayout) (g : Indeterminate) (mt0 src : mtsynth)
    (magic : List Nat) (hm : magic.length = 4)
    (hc1 : 1 ≤ src.patternCount) (hc2 : src.patternCount ≤ 255)
    (hw : src.patternSize 0 % 256 = 0) :
    (mt_loadSongFromMemory L g mt0 (toMem (songFile L magic src))
      (songFile L magic src).length).2.patternSize 0 = 1 := by
  rw [(patternPart_eq (load_patternPart L g mt0 _ _ (songFile_length L magic src hm)
    (songFile_version L magic src hm))).2.1]
  have ht := songFile_tail L g mt0 src magic hm
  unfold songTail at ht
  have h3 := loadHead_tail src _ ht (by simp)
  obtain ⟨p1, p2⟩ := loadPatterns_first src _ h3 hc1 hc2 hw
  unfold loadBody
  rw [(patternPart_eq (loadInstruments_patterns L g _ _ (by rw [p2]; omega))).2.1]
  exact p1

theorem saveSong_file (L : InstrLayout) (src : mtsynth) :
    (mt_saveSong L src).2 = songFile L [77, 68, 84, 83] src := rfl

/-- C1, counterexample: the file that `mt_saveSong` writes for `emptySong`, a
song of 0 patterns, loads without error as a song of 1 pattern; the one written
for `wideSong`, a song of 256 patterns, loads as a song of 1 pattern; the one
written for `tallSong`, whose pattern 0 has 256 rows, loads with 1 row in
pattern 0; loading the one written for `demoSong`, a song of 0 instruments,
returns `MT_ERR_FILECORRUPTED`; and the one written for `staleSong`, whose
instrument has the version byte 0, loads with the version byte 1. -/
theorem saveSong_loadSong_counterexample :
    (emptySong.patternCount = 0 ∧
      (mt_loadSongFromMemory demoLayout zeroGarbage createdEngine
        (toMem (mt_saveSong demoLayout emptySong).2)
        (mt_saveSong demoLayout emptySong).2.length).1 = LoadCode.ok ∧
      (mt_loadSongFromMemory demoLayout zeroGarbage createdEngine
        (toMem (mt_saveSong demoLayout emptySong).2)
        (mt_saveSong demoLayout emptySong).2.length).2.patternCount = 1) ∧
    (wideSong.patternCount = 256 ∧
      (mt_loadSongFromMemory demoLayout zeroGarbage createdEngine
        (toMem (mt_saveSong demoLayout wideSong).2)
        (mt_saveSong demoLayout wideSong).2.length).2.patternCount = 1) ∧
    (tallSong.patternSize 0 = 256 ∧
      (mt_loadSongFromMemory demoLayout zeroGarbage createdEngine
        (toMem (mt_saveSong demoLayout tallSong).2)
        (mt_saveSong demoLayout tallSong).2.length).2.patternSize 0 = 1) ∧
    (demoSong.instrumentCount = 0 ∧
      (mt_loadSongFromMemory demoLayout zeroGarbage createdEngine
        (toMem (mt_saveSong demoLayout demoSong).2)
        (mt_saveSong demoLayout demoSong).2.length).1 = LoadCode.MT_ERR_FILECORRUPTED) ∧
    (staleSong.instrument 0 5 = 0 ∧
      (mt_loadSongFromMemory demoLayout zeroGarbage createdEngine
        (toMem (mt_saveSong demoLayout staleSong).2)
        (mt_saveSong demoLayout staleSong).2.length).2.instrument 0 5 = 1) := by
  refine ⟨by decide!, ⟨by decide, ?_⟩, ⟨by decide, ?_⟩, by decide!, ⟨by decide, ?_⟩⟩
  · rw [saveSong_file]
    exact load_count_wrap demoLayout zeroGarbage createdEngine wideSong [77, 68, 84, 83] rfl
      (by decide)
  · rw [saveSong_file]
    exact load_rows_wrap demoLayout zeroGarbage createdEngine tallSong [77, 68, 84, 83] rfl
      (by decide) (by decide) (by decide)
  · rw [saveSong_file]
    obtain ⟨m, r1, r2, r3, r4, r5⟩ := load_songFile demoLayout zeroGarbage createdEngine
      staleSong [77, 68, 84, 83] rfl (by decide) (by decide) (by decide) (by decide) (by decide)
      (by decide)
    rw [r1]
    show m.instrument 0 5 = 1
    rw [r5 0 5 (by decide) (by decide), stampVersion_byte staleSong 0 5 (by decide)]
    rfl

theorem prefixSums_concat (q : List Nat) (x : Nat) :
    prefixSums (q ++ [x]) = prefixSums q + (1 + (q ++ [x]).sum) := by
  unfold prefixSums
  rw [List.length_append, List.length_singleton, List.range_succ, List.map_append,
    List.sum_append, List.map_singleton, List.sum_singleton]
  congr 1
  · congr 1
    apply List.map_congr_left
    intro k hk
    rw [List.mem_range] at hk
    rw [List.take_append_of_le_length (by omega)]
  · rw [List.take_of_length_le (by simp)]

theorem adler_fold (p : List Nat) :
    p.foldl adlerStep (1, 0) = ((1 + p.sum) % 65521, prefixSums p % 65521) := by
  induction p using List.reverseRecOn with
  | nil => rfl
  | append_singleton q x ih =>
    rw [List.foldl_append, ih, prefixSums_concat]
    simp only [List.foldl_cons, List.foldl_nil, adlerStep, List.sum_append, List.sum_singleton]
    refine Prod.ext ?_ ?_
    · simp only []
      omega
    · simp only []
      omega

theorem pack_eq (a b : Nat) (ha : a < 65521) (hb : b < 65521) :
    ((b <<< 16) % 4294967296) ||| a = b * 65536 + a := by
  rw [Nat.shiftLeft_eq, Nat.mod_eq_of_lt (by omega)]
  have h := Nat.mul_add_lt_is_or (show a < 2 ^ 16 by omega) b
  rw [Nat.mul_comm b, ← h]

theorem adler32_eq (p : List Nat) :
    adler32 p = prefixSums p % 65521 * 65536 + (1 + p.sum) % 65521 := by
  unfold adler32
  simp only []
  rw [adler_fold]
  exact pack_eq _ _ (Nat.mod_lt _ (by decide)) (Nat.mod_lt _ (by decide))

theorem adler32_low (p : List Nat) : adler32 p % 65536 = (1 + p.sum) % 65521 := by
  rw [adler32_eq]
  have h := Nat.mod_lt (1 + p.sum) (show 0 < 65521 by decide)
  omega

theorem adler32_change (l1 l2 : List Nat) (x y : Nat) (hx : x < 256) (hy : y < 256)
    (hne : y ≠ x) : adler32 (l1 ++ y :: l2) ≠ adler32 (l1 ++ x :: l2) := by
  intro h
  have h1 := adler32_low (l1 ++ y :: l2)
  have h2 := adler32_low (l1 ++ x :: l2)
  rw [h, h2] at h1
  simp only [List.sum_append, List.sum_cons] at h1
  omega

theorem set_split (p : List Nat) (i v : Nat) (hi : i < p.length) :
    p.set i v = p.take i ++ v :: p.drop (i + 1) ∧
      p = p.take i ++ p.getD i 0 :: p.drop (i + 1) := by
  constructor
  · rw [List.set_eq_take_append_cons_drop, if_pos hi]
  · rw [List.getD_eq_getElem p 0 hi, ← List.drop_eq_getElem_cons hi, List.take_append_drop]

theorem adler32_set (p : List Nat) (i v : Nat) (hi : i < p.length) (hv : v < 256)
    (hp : p.getD i 0 < 256) (hne : v ≠ p.getD i 0) : adler32 (p.set i v) ≠ adler32 p := by
  obtain ⟨e1, e2⟩ := set_split p i v hi
  rw [e1]
  intro h
  have h3 := adler32_change (p.take i) (p.drop (i + 1)) (p.getD i 0) v hp hv hne
  rw [← e2] at h3
  exact h3 h

theorem load_corrupted (L : InstrLayout) (g : Indeterminate) (mt : mtsynth) (mem : Nat → Nat)
    (len : Nat) (hlen : 3 * FM_ch + 6 ≤ len) (hv : mem 5 = MUDTRACKER_VERSION)
    (h : (loadBody L g mem (afterVersion g mt len)).readSeek ≥ len ∨
        readLe32 mem (loadBody L g mem (afterVersion g mt len)).readSeek ≠
          adler32 (memBytes mem 0 (len - 4))) :
    (mt_loadSongFromMemory L g mt mem len).1 = LoadCode.MT_ERR_FILECORRUPTED := by
  rw [load_accepted L g mt mem len hlen hv]
  have ht := loadBody_total L g mem (afterVersion g mt len)
  have hi := checksumFails_iff mem (loadBody L g mem (afterVersion g mt len))
  rw [ht] at hi
  have ht2 : (afterVersion g mt len).mt.totalFileSize = len := rfl
  rw [ht2] at hi
  rw [if_pos (hi.mpr h)]

theorem load_changed_payload (L : InstrLayout) (g : Indeterminate) (mt : mtsynth)
    (q : List Nat) (c : Nat) (hc : c < 4294967296) (hne : c ≠ adler32 q)
    (hlen : 3 * FM_ch + 6 ≤ q.length + 4) (hv : q.getD 5 0 = MUDTRACKER_VERSION)
    (hparse : (loadBody L g (toMem (q ++ le32 c)) (afterVersion g mt (q.length + 4))).readSeek
        = q.length ∨
      (loadBody L g (toMem (q ++ le32 c)) (afterVersion g mt (q.length + 4))).readSeek
        ≥ q.length + 4) :
    (mt_loadSongFromMemory L g mt (toMem (q ++ le32 c)) (q.length + 4)).1
      = LoadCode.MT_ERR_FILECORRUPTED := by
  have h5 : 5 < q.length := by unfold FM_ch at hlen; omega
  have hv2 : toMem (q ++ le32 c) 5 = MUDTRACKER_VERSION := by
    unfold toMem
    rw [List.getD_append _ _ _ _ h5]
    exact hv
  apply load_corrupted L g mt _ _ hlen hv2
  rcases hparse with e | e
  · right
    rw [e, readLe32_append q c hc, Nat.add_sub_cancel, memBytes_toMem]
    exact hne
  · left
    exact e

/-- C21: for every byte sequence `p`, `adler32 p` is the reference Adler-32:
with `a = (1 + sum of all bytes) mod 65521` and `b` the sum over every prefix
length k = 1..n of (1 + sum of the first k bytes), taken mod 65521, the result
is `b * 65536 + a`; the checksum of the empty sequence is 1. -/
theorem adler32_reference (p : List Nat) :
    adler32 p = adler32Reference p ∧
    adler32Reference p =
      ((List.range p.length).map (fun k => 1 + (p.take (k + 1)).sum)).sum % 65521 * 65536
        + (1 + p.sum) % 65521 ∧
    adler32 [] = 1 :=
  ⟨adler32_eq p, rfl, rfl⟩

/-- C22, counterexample: in the file saved from `twoSong` (531 song bytes and
their checksum), changing the version byte (offset 5) from 1 to 0 makes
`mt_loadSongFromMemory` return `MT_ERR_FILEVERSION` before any checksum is
compared; changing the instrument count byte (offset 450) from 2 to 1 makes the
parse end 40 bytes early, on four bytes that equal the checksum of the changed
payload, and the loader returns 0. The unchanged file loads with 0. -/
theorem loadSong_single_byte_counterexample :
    (songBytes demoLayout [77, 68, 84, 83] twoSong).length = 531 ∧
    (songBytes demoLayout [77, 68, 84, 83] twoSong).getD 5 0 = 1 ∧
    (songBytes demoLayout [77, 68, 84, 83] twoSong).getD 450 0 = 2 ∧
    (mt_loadSongFromMemory demoLayout zeroGarbage createdEngine
      (toMem (songBytes demoLayout [77, 68, 84, 83] twoSong ++
        le32 (adler32 (songBytes demoLayout [77, 68, 84, 83] twoSong)))) 535).1
      = LoadCode.ok ∧
    (mt_loadSongFromMemory demoLayout zeroGarbage createdEngine
      (toMem ((songBytes demoLayout [77, 68, 84, 83] twoSong).set 5 0 ++
        le32 (adler32 (songBytes demoLayout [77, 68, 84, 83] twoSong)))) 535).1
      = LoadCode.MT_ERR_FILEVERSION ∧
    (mt_loadSongFromMemory demoLayout zeroGarbage createdEngine
      (toMem ((songBytes demoLayout [77, 68, 84, 83] twoSong).set 450 1 ++
        le32 (adler32 (songBytes demoLayout [77, 68, 84, 83] twoSong)))) 535).1
      = LoadCode.ok := by
  refine ⟨by decide!, by decide!, by decide!, by decide!, by decide!, by decide!⟩

/-- C22, amended: changing the value of exactly one byte of a byte sequence `p`
(old and new value below 256) changes `adler32`; and when the changed sequence,
followed by the four checksum bytes of `p`, is a buffer of at least 3*24+6
bytes whose version byte is still 1, `mt_loadSongFromMemory` returns
`MT_ERR_FILECORRUPTED` provided the parse of the changed buffer ends where the
stored checksum begins, or at or past the end of the buffer. -/
theorem loadSong_single_byte (L : InstrLayout) (g : Indeterminate) (mt : mtsynth)
    (p : List Nat) (i v : Nat) (hi : i < p.length) (hv : v < 256) (hp : p.getD i 0 < 256)
    (hne : v ≠ p.getD i 0) :
    adler32 (p.set i v) ≠ adler32 p ∧
    (3 * FM_ch + 6 ≤ p.length + 4 → (p.set i v).getD 5 0 = MUDTRACKER_VERSION →
      ((loadBody L g (toMem (p.set i v ++ le32 (adler32 p)))
          (afterVersion g mt (p.length + 4))).readSeek = p.length ∨
        (loadBody L g (toMem (p.set i v ++ le32 (adler32 p)))
          (afterVersion g mt (p.length + 4))).readSeek ≥ p.length + 4) →
      (mt_loadSongFromMemory L g mt (toMem (p.set i v ++ le32 (adler32 p))) (p.length + 4)).1
        = LoadCode.MT_ERR_FILECORRUPTED) := by
  have hd := adler32_set p i v hi hv hp hne
  refine ⟨hd, fun hlen hver hparse => ?_⟩
  have h := load_changed_payload L g mt (p.set i v) (adler32 p) (adler32_lt p) (Ne.symm hd)
  rw [List.length_set] at h
  exact h hlen hver hparse

/-- Witness for the amended C22: in the file saved from `savedSong` the tempo
byte (offset 9) is changed from 120 to 121; the parse still ends at the stored
checksum and the loader returns `MT_ERR_FILECORRUPTED`. -/
theorem loadSong_single_byte_witness :
    (9 < (songBytes demoLayout [77, 68, 84, 83] savedSong).length ∧ 121 < 256 ∧
      (songBytes demoLayout [77, 68, 84, 83] savedSong).getD 9 0 = 120) ∧
    (mt_loadSongFromMemory demoLayout zeroGarbage createdEngine
      (toMem ((songBytes demoLayout [77, 68, 84, 83] savedSong).set 9 121 ++
        le32 (adler32 (songBytes demoLayout [77, 68, 84, 83] savedSong))))
      ((songBytes demoLayout [77, 68, 84, 83] savedSong).length + 4)).1
      = LoadCode.MT_ERR_FILECORRUPTED :=
  ⟨⟨by decide!, by decide, by decide!⟩,
    (loadSong_single_byte demoLayout zeroGarbage createdEngine
      (songBytes demoLayout [77, 68, 84, 83] savedSong) 9 121 (by decide!) (by decide)
      (by decide!) (by decide!)).2 (by decide!) (by decide!) (Or.inl (by decide!))⟩

theorem breakMutual_indices (op op2 : Nat) (i : fm_instrument) (k : Nat) :
    opIndices ((breakMutual op op2 i).op k) = opIndices (i.op k) := by
  unfold breakMutual
  by_cases hk : k = op2
  · subst hk
    split_ifs <;> simp [setOp_op, opIndices] <;> split_ifs <;> simp [setOp_op]
  · split_ifs <;> simp [setOp_op, hk, opIndices] <;> split_ifs <;> simp [setOp_op, hk]

theorem breakMutual_head (op op2 : Nat) (i : fm_instrument) :
    headIndices (breakMutual op op2 i) = headIndices i := by
  unfold breakMutual
  simp only []
  split_ifs <;> rfl

theorem inner_indices (op : Nat) (i : fm_instrument) (n k : Nat) :
    opIndices ((forLoop n (breakMutual op) i).op k) = opIndices (i.op k) := by
  induction n with
  | zero => simp [forLoop]
  | succ n ih => rw [forLoop_succ, breakMutual_indices, ih]

theorem inner_head (op : Nat) (i : fm_instrument) (n : Nat) :
    headIndices (forLoop n (breakMutual op) i) = headIndices i := by
  induction n with
  | zero => simp [forLoop]
  | succ n ih => rw [forLoop_succ, breakMutual_head, ih]

theorem recoverOp_indices (op : Nat) (st : fm_instrument × Nat) (k : Nat) :
    opIndices ((recoverOp op st).1.op k) =
      if k = op then opIndices (recoverOpFields (st.1.op op)) else opIndices (st.1.op k) := by
  unfold recoverOp
  simp only [inner_indices]
  by_cases hk : k = op
  · subst hk
    split_ifs <;> simp_all [setOp_op, opIndices]
  · split_ifs <;> simp_all [setOp_op, opIndices]

theorem recoverOp_head (op : Nat) (st : fm_instrument × Nat) :
    headIndices (recoverOp op st).1 = headIndices st.1 := by
  unfold recoverOp
  simp only [inner_head]
  split_ifs <;> rfl

theorem outer_indices (n : Nat) (st : fm_instrument × Nat) (k : Nat) :
    opIndices ((forLoop n recoverOp st).1.op k) =
      if k < n then opIndices (recoverOpFields (st.1.op k)) else opIndices (st.1.op k) := by
  induction n generalizing k with
  | zero => simp [forLoop]
  | succ n ih =>
    rw [forLoop_succ, recoverOp_indices, ih k]
    by_cases hk : k = n
    · subst hk
      have e : opIndices (recoverOpFields ((forLoop k recoverOp st).1.op k)) =
          opIndices (recoverOpFields (st.1.op k)) := by
        have h := ih k
        rw [if_neg (lt_irrefl k)] at h
        unfold opIndices recoverOpFields at *
        simp only [Prod.mk.injEq] at h ⊢
        obtain ⟨h1, h2, h3, h4, h5, h6, h7, h8⟩ := h
        simp only [h1, h2, h3, h4, h5, h6, h7, h8, and_self]
      simp [e]
    · have : k < n + 1 ↔ k < n := by omega
      simp [hk, this]

theorem outer_head (n : Nat) (st : fm_instrument × Nat) :
    headIndices (forLoop n recoverOp st).1 = headIndices st.1 := by
  induction n with
  | zero => simp [forLoop]
  | succ n ih => rw [forLoop_succ, recoverOp_head, ih]

theorem recoverToMix_head (i : fm_instrument) : headIndices (recoverToMix i) = headIndices i := by
  have h : ∀ n, headIndices (forLoop n (fun j x =>
      ({ x with toMix := Function.update x.toMix j (clamp (x.toMix j) (-1) 5) } : fm_instrument)) i)
      = headIndices i := by
    intro n
    induction n with
    | zero => rfl
    | succ n ih => rw [forLoop_succ]; exact ih
  exact h 4

theorem identityOut_head (i : fm_instrument) : headIndices (identityOut i) = headIndices i := by
  have h : ∀ n, headIndices (forLoop n
      (fun k x => setOp x k { x.op k with connectOut := (k : Int) }) i) = headIndices i := by
    intro n
    induction n with
    | zero => rfl
    | succ n ih => rw [forLoop_succ]; exact ih
  exact h 6

theorem recovery_head (i : fm_instrument) :
    headIndices (mt_instrumentRecovery i) = headIndices (recoverHeader i) := by
  unfold mt_instrumentRecovery
  simp only []
  split_ifs with h
  · rw [identityOut_head, outer_head, recoverToMix_head]
  · rw [outer_head, recoverToMix_head]

theorem recovery_indices (i : fm_instrument) (k : Nat) (hk : k < 6) :
    opIndices ((mt_instrumentRecovery i).op k) = opIndices (recoverOpFields (i.op k)) := by
  unfold mt_instrumentRecovery
  simp only []
  split_ifs with h
  · rw [identityOut_op, if_pos hk]
    have e := outer_indices 6 (recoverToMix (recoverHeader i), 0) k
    rw [if_pos hk] at e
    simp only [recoverToMix_op, recoverHeader_op] at e
    rw [← e]
    rfl
  · have e := outer_indices 6 (recoverToMix (recoverHeader i), 0) k
    rw [if_pos hk] at e
    simp only [recoverToMix_op, recoverHeader_op] at e
    exact e

theorem clamp_range (x lo hi : Int) (h : lo ≤ hi) : lo ≤ clamp x lo hi ∧ clamp x lo hi ≤ hi := by
  unfold clamp
  split_ifs <;> omega

theorem recovery_head_fields (i : fm_instrument) :
    (mt_instrumentRecovery i).volume = clamp i.volume 0 99 ∧
    (mt_instrumentRecovery i).lfoWaveform = clamp i.lfoWaveform 0 19 ∧
    (mt_instrumentRecovery i).feedback = i.feedback ∧
    (mt_instrumentRecovery i).lfoA = i.lfoA ∧
    (mt_instrumentRecovery i).lfoSpeed = i.lfoSpeed ∧
    (mt_instrumentRecovery i).lfoDelay = i.lfoDelay := by
  have h := recovery_head i
  unfold headIndices recoverHeader at h
  simp only [Prod.mk.injEq] at h
  exact h

theorem recovery_op_fields (i : fm_instrument) (k : Nat) (hk : k < 6) :
    ((mt_instrumentRecovery i).op k).waveform = clamp (i.op k).waveform 0 7 ∧
    ((mt_instrumentRecovery i).op k).lfoFM = (i.op k).lfoFM ∧
    ((mt_instrumentRecovery i).op k).lfoAM = (i.op k).lfoAM ∧
    ((mt_instrumentRecovery i).op k).delay = clamp (i.op k).delay 0 70 ∧
    ((mt_instrumentRecovery i).op k).i = (i.op k).i ∧
    ((mt_instrumentRecovery i).op k).h = clamp (i.op k).h 0 80 ∧
    ((mt_instrumentRecovery i).op k).s = clamp (i.op k).s 0 99 ∧
    ((mt_instrumentRecovery i).op k).r = clamp (i.op k).r (-99) 99 := by
  have h := recovery_indices i k hk
  unfold opIndices recoverOpFields at h
  simp only [Prod.mk.injEq] at h
  exact h

/-- C23: `mt_instrumentRecovery` clamps the instrument volume, the LFO waveform
and, per operator, the waveform, delay, hold, sustain and release into the
range of the tables that `mt_playNote` indexes with them, but it returns the
fields `feedback`, `lfoSpeed`, `lfoDelay`, `lfoA` and, per operator, `i`,
`lfoFM`, `lfoAM` as they came in; so when the feedback of the instrument is
outside 0..99, a table lookup of `mt_playNote` on the recovered instrument is
out of bounds. -/
theorem recovery_index_fields (i : fm_instrument) :
    ((mt_instrumentRecovery i).feedback = i.feedback ∧
      (mt_instrumentRecovery i).lfoSpeed = i.lfoSpeed ∧
      (mt_instrumentRecovery i).lfoDelay = i.lfoDelay ∧
      (mt_instrumentRecovery i).lfoA = i.lfoA) ∧
    (∀ k, k < 6 →
      ((mt_instrumentRecovery i).op k).i = (i.op k).i ∧
      ((mt_instrumentRecovery i).op k).lfoFM = (i.op k).lfoFM ∧
      ((mt_instrumentRecovery i).op k).lfoAM = (i.op k).lfoAM) ∧
    (0 ≤ (mt_instrumentRecovery i).volume ∧ (mt_instrumentRecovery i).volume ≤ 99 ∧
      0 ≤ (mt_instrumentRecovery i).lfoWaveform ∧ (mt_instrumentRecovery i).lfoWaveform ≤ 19) ∧
    (∀ k, k < 6 →
      (0 ≤ ((mt_instrumentRecovery i).op k).waveform ∧ ((mt_instrumentRecovery i).op k).waveform ≤ 7) ∧
      (0 ≤ ((mt_instrumentRecovery i).op k).delay ∧ ((mt_instrumentRecovery i).op k).delay ≤ 70) ∧
      (0 ≤ ((mt_instrumentRecovery i).op k).h ∧ ((mt_instrumentRecovery i).op k).h ≤ 80) ∧
      (0 ≤ ((mt_instrumentRecovery i).op k).s ∧ ((mt_instrumentRecovery i).op k).s ≤ 99) ∧
      (-99 ≤ ((mt_instrumentRecovery i).op k).r ∧ ((mt_instrumentRecovery i).op k).r ≤ 99)) ∧
    (¬ (0 ≤ i.feedback ∧ i.feedback < 100) →
      ∃ l, l ∈ playNoteLookups (mt_instrumentRecovery i) ∧ ¬ inBounds l) := by
  obtain ⟨h1, h2, h3, h4, h5, h6⟩ := recovery_head_fields i
  refine ⟨⟨h3, h5, h6, h4⟩, ?_, ?_, ?_, ?_⟩
  · intro k hk
    obtain ⟨_, o2, o3, _, o5, _⟩ := recovery_op_fields i k hk
    exact ⟨o5, o2, o3⟩
  · rw [h1, h2]
    have a := clamp_range i.volume 0 99 (by decide)
    have b := clamp_range i.lfoWaveform 0 19 (by decide)
    exact ⟨a.1, a.2, b.1, b.2⟩
  · intro k hk
    obtain ⟨o1, _, _, o4, _, o6, o7, o8⟩ := recovery_op_fields i k hk
    rw [o1, o4, o6, o7, o8]
    exact ⟨clamp_range _ 0 7 (by decide), clamp_range _ 0 70 (by decide),
      clamp_range _ 0 80 (by decide), clamp_range _ 0 99 (by decide),
      clamp_range _ (-99) 99 (by decide)⟩
  · intro hf
    refine ⟨⟨100, i.feedback⟩, ?_, ?_⟩
    · unfold playNoteLookups
      rw [h3]
      simp
    · unfold inBounds
      exact hf

/-- Witness for C23: the default instrument with the feedback byte 200 keeps
this byte through `mt_instrumentRecovery`, and `mt_playNote` then reads
`expVol[200]`. -/
theorem recovery_index_fields_witness :
    ¬ (0 ≤ loudInstrument.feedback ∧ loudInstrument.feedback < 100) ∧
    (mt_instrumentRecovery loudInstrument).feedback = 200 ∧
    ∃ l, l ∈ playNoteLookups (mt_instrumentRecovery loudInstrument) ∧ ¬ inBounds l :=
  ⟨by decide, (recovery_index_fields loudInstrument).1.1,
    (recovery_index_fields loudInstrument).2.2.2.2 (by decide)⟩

theorem tableLoop_spec {K : Type} [Field K] (pow : K → K → K) (log : K → K) (n : Nat) :
    (forLoop n (fun k t => tableStep pow log (k + 1) t) (zeroTables K)).ini
        = 1 / 100000 * (11 / 10) ^ n ∧
    ∀ i,
      (forLoop n (fun k t => tableStep pow log (k + 1) t) (zeroTables K)).expVol i
        = (if 1 ≤ i ∧ i ≤ n then volEntry pow log i else 0) ∧
      (forLoop n (fun k t => tableStep pow log (k + 1) t) (zeroTables K)).expEnv i
        = (if 1 ≤ i ∧ i ≤ n then envEntry i else 0) ∧
      (forLoop n (fun k t => tableStep pow log (k + 1) t) (zeroTables K)).expVolOp i
        = (if 1 ≤ i ∧ i ≤ n then volEntry pow log i * ((i : K) * (1 / 100)) else 0) := by
  induction n with
  | zero =>
    refine ⟨by simp [forLoop, zeroTables], fun i => ?_⟩
    have h : ¬ (1 ≤ i ∧ i ≤ 0) := by omega
    simp only [forLoop, zeroTables, if_neg h, and_self]
  | succ n ih =>
    obtain ⟨h0, hi⟩ := ih
    rw [forLoop_succ]
    generalize forLoop n (fun k t => tableStep pow log (k + 1) t) (zeroTables K) = t at h0 hi
    refine ⟨?_, fun i => ?_⟩
    · show t.ini * (11 / 10) = _
      rw [h0, pow_succ, mul_assoc]
    · obtain ⟨a, b, c⟩ := hi i
      by_cases e : i = n + 1
      · subst e
        have h : 1 ≤ n + 1 ∧ n + 1 ≤ n + 1 := by omega
        simp only [tableStep, Function.update_same, if_pos h]
        refine ⟨rfl, ?_, rfl⟩
        rw [h0]
        unfold envEntry
        rw [Nat.add_sub_cancel]
      · have h : (1 ≤ i ∧ i ≤ n + 1) ↔ (1 ≤ i ∧ i ≤ n) := by omega
        simp only [tableStep, Function.update_noteq e, h]
        exact ⟨a, b, c⟩

theorem createTables_expVol {K : Type} [Field K] (pow : K → K → K) (log : K → K) (i : Nat) :
    (mt_createTables pow log).expVol i =
      if i = 99 then 1 else if 1 ≤ i ∧ i ≤ 98 then volEntry pow log i else 0 := by
  unfold mt_createTables handSet
  simp only [Function.update_apply]
  split_ifs with h1 h2
  · rfl
  · rw [((tableLoop_spec pow log 98).2 i).1, if_pos h2]
  · rw [((tableLoop_spec pow log 98).2 i).1, if_neg h2]

theorem createTables_expVolOp {K : Type} [Field K] (pow : K → K → K) (log : K → K) (i : Nat) :
    (mt_createTables pow log).expVolOp i =
      if i = 99 then 1
      else if 1 ≤ i ∧ i ≤ 98 then volEntry pow log i * ((i : K) * (1 / 100)) else 0 := by
  unfold mt_createTables handSet
  simp only [Function.update_apply]
  split_ifs with h1 h2
  · rfl
  · rw [((tableLoop_spec pow log 98).2 i).2.2, if_pos h2]
  · rw [((tableLoop_spec pow log 98).2 i).2.2, if_neg h2]

theorem createTables_expEnv {K : Type} [Field K] (pow : K → K → K) (log : K → K) (i : Nat) :
    (mt_createTables pow log).expEnv i =
      if i = 99 then 1 else if i = 98 then 1 / 2 else if i = 97 then 1 / 5
      else if i = 96 then 1 / 10 else if 1 ≤ i ∧ i ≤ 98 then envEntry i else 0 := by
  unfold mt_createTables handSet
  simp only [Function.update_apply]
  split_ifs with h1 h2 h3 h4 h5
  · rfl
  · rfl
  · rfl
  · rfl
  · rw [((tableLoop_spec pow log 98).2 i).2.1, if_pos h5]
  · rw [((tableLoop_spec pow log 98).2 i).2.1, if_neg h5]

theorem volEntry_lt (i : Nat) :
    volEntry (fun x y : ℝ => x ^ y) Real.log i < volEntry (fun x y : ℝ => x ^ y) Real.log (i + 1) := by
  unfold volEntry
  simp only []
  apply Real.rpow_lt_rpow_of_exponent_lt (by norm_num)
  have hp : (0 : ℝ) < (i : ℝ) + 1 := by positivity
  have hq : (0 : ℝ) < ((i + 1 : Nat) : ℝ) + 1 := by positivity
  have hl : Real.log (100 / (((i + 1 : Nat) : ℝ) + 1)) < Real.log (100 / ((i : ℝ) + 1)) := by
    apply Real.log_lt_log (by positivity)
    apply div_lt_div_of_pos_left (by norm_num) hp
    push_cast
    linarith
  linarith

theorem volEntry_lt_one (i : Nat) (hi : i < 99) :
    volEntry (fun x y : ℝ => x ^ y) Real.log i < 1 := by
  unfold volEntry
  simp only []
  apply Real.rpow_lt_one_of_one_lt_of_neg (by norm_num)
  have hp : (0 : ℝ) < (i : ℝ) + 1 := by positivity
  have hi2 : (i : ℝ) + 1 < 100 := by
    have : (i : ℝ) < 99 := by exact_mod_cast hi
    linarith
  have hl : 0 < Real.log (100 / ((i : ℝ) + 1)) := by
    apply Real.log_pos
    rw [lt_div_iff₀ hp]
    linarith
  linarith

theorem envEntry_lt {K : Type} [LinearOrderedField K] (i : Nat) (hi : 1 ≤ i) :
    (envEntry i : K) < envEntry (i + 1) := by
  unfold envEntry
  have e : i + 1 - 1 = (i - 1) + 1 := by omega
  rw [e, pow_succ]
  have hp : (0 : K) < (11 / 10) ^ (i - 1) := by positivity
  nlinarith

theorem envEntry_95 {K : Type} [LinearOrderedField K] : (envEntry 95 : K) < 1 / 10 := by
  unfold envEntry
  norm_num

/-- C24: in the tables built by `mt_create`, taken in exact real arithmetic
(`pow` and `log` the real power and natural logarithm), `expVol[i] <
expVol[i+1]` and `expEnv[i] < expEnv[i+1]` for every `i` in 1..98, the hand-set
entries `expEnv[96..99]` and `expVol[99] = 1` included. -/
theorem scaleTables_increasing (i : Nat) (h1 : 1 ≤ i) (h2 : i ≤ 98) :
    (mt_createTables (fun x y : ℝ => x ^ y) Real.log).expVol i
        < (mt_createTables (fun x y : ℝ => x ^ y) Real.log).expVol (i + 1) ∧
    (mt_createTables (fun x y : ℝ => x ^ y) Real.log).expEnv i
        < (mt_createTables (fun x y : ℝ => x ^ y) Real.log).expEnv (i + 1) := by
  constructor
  · rw [createTables_expVol, createTables_expVol, if_neg (by omega), if_pos ⟨h1, h2⟩]
    by_cases h : i = 98
    · subst h
      rw [if_pos rfl]
      exact volEntry_lt_one 98 (by decide)
    · rw [if_neg (by omega), if_pos (by omega)]
      exact volEntry_lt i
  · rw [createTables_expEnv, createTables_expEnv]
    by_cases a : i = 98
    · subst a
      norm_num
    by_cases b : i = 97
    · subst b
      norm_num
    by_cases c : i = 96
    · subst c
      norm_num
    by_cases d : i = 95
    · subst d
      have := @envEntry_95 ℝ _
      norm_num
      linarith
    · rw [if_neg (by omega), if_neg a, if_neg b, if_neg c, if_pos ⟨h1, h2⟩, if_neg (by omega),
        if_neg (by omega), if_neg (by omega), if_neg (by omega), if_pos (by omega)]
      exact envEntry_lt i h1

/-- Witness for C24 at `i = 95`, the step onto the first hand-set entry of
`expEnv`. -/
theorem scaleTables_increasing_witness :
    (1 ≤ 95 ∧ 95 ≤ 98) ∧
    (mt_createTables (fun x y : ℝ => x ^ y) Real.log).expVol 95
        < (mt_createTables (fun x y : ℝ => x ^ y) Real.log).expVol 96 ∧
    (mt_createTables (fun x y : ℝ => x ^ y) Real.log).expEnv 95
        < (mt_createTables (fun x y : ℝ => x ^ y) Real.log).expEnv 96 :=
  ⟨⟨by decide, by decide⟩, scaleTables_increasing 95 (by decide) (by decide)⟩

/-- C25, counterexample: the hand-set entry `expVolOp[99]` is 1, as is
`expVol[99]`, so `expVolOp[99]` is not `expVol[99] * 99/100`. -/
theorem scaleTables_volOp_counterexample :
    (mt_createTables (fun x y : ℝ => x ^ y) Real.log).expVolOp 99 = 1 ∧
    (mt_createTables (fun x y : ℝ => x ^ y) Real.log).expVol 99 = 1 ∧
    (mt_createTables (fun x y : ℝ => x ^ y) Real.log).expVolOp 99
      ≠ (mt_createTables (fun x y : ℝ => x ^ y) Real.log).expVol 99 * 99 / 100 := by
  rw [createTables_expVolOp, createTables_expVol, if_pos rfl, if_pos rfl]
  norm_num

/-- C25, amended: in the tables built by `mt_create`, whatever the number field
and the functions `pow` and `log`, `expVolOp[i] = expVol[i] * i/100` for every
index `i` in 0..98. -/
theorem scaleTables_volOp {K : Type} [Field K] (pow : K → K → K) (log : K → K) (i : Nat)
    (hi : i ≤ 98) :
    (mt_createTables pow log).expVolOp i = (mt_createTables pow log).expVol i * (i : K) / 100 := by
  have hn : ¬ i = 99 := by omega
  simp only [createTables_expVolOp, createTables_expVol, if_neg hn]
  by_cases h : 1 ≤ i ∧ i ≤ 98
  · simp only [if_pos h]
    ring
  · simp only [if_neg h]
    ring

/-- Witness for the amended C25 at `i = 50` in real arithmetic. -/
theorem scaleTables_volOp_witness :
    50 ≤ 98 ∧
    (mt_createTables (fun x y : ℝ => x ^ y) Real.log).expVolOp 50
      = (mt_createTables (fun x y : ℝ => x ^ y) Real.log).expVol 50 * ((50 : Nat) : ℝ) / 100 :=
  ⟨by decide, scaleTables_volOp (fun x y : ℝ => x ^ y) Real.log 50 (by decide)⟩

theorem toUnsigned_le (pan : ℚ) (h0 : 0 ≤ pan) (h1 : pan ≤ 255) : toUnsigned pan ≤ 255 := by
  unfold toUnsigned
  have h : ⌊pan⌋ ≤ 255 := by
    have := Int.floor_le pan
    have h2 : ((⌊pan⌋ : Int) : ℚ) ≤ 255 := le_trans this h1
    exact_mod_cast h2
  omega

theorem sineTable_quarter (k : Nat) :
    sineTable Real.sin Real.pi (2048 / 4 + k) ^ 2 + sineTable Real.sin Real.pi k ^ 2 = 1 := by
  unfold sineTable
  have e : (((2048 / 4 + k : Nat) : ℝ)) * 2 * Real.pi / 2048
      = (k : ℝ) * 2 * Real.pi / 2048 + Real.pi / 2 := by
    push_cast
    ring
  rw [e, Real.sin_add_pi_div_two, add_comm]
  exact Real.sin_sq_add_cos_sq _

theorem panSlide_range (pan : ℚ) (fxData : Nat) :
    0 ≤ panSlide pan fxData ∧ panSlide pan fxData ≤ 255 := by
  unfold panSlide
  split_ifs with a b
  · norm_num
  · norm_num
  · exact ⟨not_lt.mp b, not_lt.mp a⟩

/-- C26: for every pan value in [0, 255] (the range the panning slide keeps
the pan in), the two indices into the sine table
used for the stereo split are below 2048 and a quarter period (512 entries)
apart, and with the table holding the exact sine the left and right gains
satisfy `gainL^2 + gainR^2 = 1`; at pan 0 the right gain is 0 and the left gain
is 1. -/
theorem pan_equal_power (pan : ℚ) (h0 : 0 ≤ pan) (h1 : pan ≤ 255) :
    panIndexL pan < 2048 ∧ panIndexR pan < 2048 ∧
    panIndexL pan = panIndexR pan + 2048 / 4 ∧
    sineTable Real.sin Real.pi (panIndexL pan) ^ 2
      + sineTable Real.sin Real.pi (panIndexR pan) ^ 2 = 1 ∧
    sineTable Real.sin Real.pi (panIndexR 0) = 0 ∧
    sineTable Real.sin Real.pi (panIndexL 0) = 1 ∧
    ∀ fxData : Nat, 0 ≤ panSlide pan fxData ∧ panSlide pan fxData ≤ 255 := by
  have h := toUnsigned_le pan h0 h1
  refine ⟨?_, ?_, ?_, ?_, ?_, ?_, panSlide_range pan⟩
  · unfold panIndexL
    omega
  · unfold panIndexR
    omega
  · unfold panIndexL panIndexR
    omega
  · unfold panIndexL panIndexR
    exact sineTable_quarter _
  · have e : panIndexR 0 = 0 := by decide
    rw [e]
    unfold sineTable
    simp
  · have e : panIndexL 0 = 512 := by decide
    rw [e]
    unfold sineTable
    have e2 : ((512 : Nat) : ℝ) * 2 * Real.pi / 2048 = Real.pi / 2 := by
      push_cast
      ring
    rw [e2, Real.sin_pi_div_two]

/-- Witness for C26 at the centre pan 128: the indices are 768 and 256. -/
theorem pan_equal_power_witness :
    ((0 : ℚ) ≤ 128 ∧ (128 : ℚ) ≤ 255) ∧ panIndexL 128 = 768 ∧ panIndexR 128 = 256 ∧
    sineTable Real.sin Real.pi (panIndexL 128) ^ 2
      + sineTable Real.sin Real.pi (panIndexR 128) ^ 2 = 1 :=
  ⟨⟨by norm_num, by norm_num⟩, by decide, by decide,
    (pan_equal_power 128 (by norm_num) (by norm_num)).2.2.2.1⟩

theorem envelope_hold (envReset : Bool) (o : fm_operator) (hs : o.state = 3) :
    envelope envReset o =
      if (o.envCount : ℚ) ≥ o.h then { o with envCount := o.envCount + 1, state := 4 }
      else { o with envCount := o.envCount + 1 } := by
  unfold envelope
  rw [if_neg (by omega), if_neg (by omega), if_pos hs]

theorem hold_iterate (envReset : Bool) (o : fm_operator) (hs : o.state = 3) (j : Nat)
    (hlt : ∀ i, i < j → ((o.envCount + i : Nat) : ℚ) < o.h) :
    (envelope envReset)^[j] o = { o with envCount := o.envCount + j } := by
  induction j with
  | zero => rfl
  | succ j ih =>
    rw [Function.iterate_succ_apply', ih (fun i hi => hlt i (Nat.lt_succ_of_lt hi)),
      envelope_hold envReset { o with envCount := o.envCount + j } hs]
    have h := hlt j (Nat.lt_succ_self j)
    simp only []
    rw [if_neg (not_le.mpr h)]
    rfl

theorem envelope_release (envReset : Bool) (o : fm_operator) (hs : o.state = 6)
    (hr : o.r ≤ 1) :
    envelope envReset o =
      if o.env * o.r < 1 / 1000 then { o with env := 0, amp := 0, state := 0 }
      else { o with env := o.env * o.r } := by
  unfold envelope
  rw [if_neg (by omega), if_neg (by omega), if_neg (by omega), if_neg (by omega), if_pos hs,
    if_pos hr]

theorem release_iterate (envReset : Bool) (o : fm_operator) (hs : o.state = 6) (hr : o.r ≤ 1)
    (n : Nat) (hn : ∀ k, k < n → ¬ (o.env * o.r ^ (k + 1) < 1 / 1000)) :
    (envelope envReset)^[n] o = { o with env := o.env * o.r ^ n } := by
  induction n with
  | zero =>
    rw [Function.iterate_zero, id, pow_zero, mul_one]
  | succ n ih =>
    rw [Function.iterate_succ_apply', ih (fun k hk => hn k (Nat.lt_succ_of_lt hk)),
      envelope_release envReset { o with env := o.env * o.r ^ n } hs hr]
    have h := hn n (Nat.lt_succ_self n)
    rw [pow_succ, ← mul_assoc] at h
    simp only []
    rw [if_neg h, pow_succ, ← mul_assoc]

theorem release_reaches_zero (envReset : Bool) (o : fm_operator) (hs : o.state = 6)
    (hr0 : 0 ≤ o.r) (hr1 : o.r < 1) (he0 : 0 ≤ o.env) (he1 : o.env ≤ 1) :
    ∃ n, ((envelope envReset)^[n] o).state = 0 := by
  obtain ⟨N, hN⟩ := exists_pow_lt_of_lt_one (show (0 : ℚ) < 1 / 1000 by norm_num) hr1
  have hex : ∃ n, o.env * o.r ^ (n + 1) < 1 / 1000 := by
    refine ⟨N, ?_⟩
    have h1 : o.r ^ (N + 1) ≤ o.r ^ N := by
      rw [pow_succ]
      have : 0 ≤ o.r ^ N := pow_nonneg hr0 N
      nlinarith
    have h2 : 0 ≤ o.r ^ (N + 1) := pow_nonneg hr0 _
    nlinarith
  classical
  have hmin : ∀ k, k < Nat.find hex → ¬ (o.env * o.r ^ (k + 1) < 1 / 1000) :=
    fun k hk => Nat.find_min hex hk
  have hfind := Nat.find_spec hex
  generalize Nat.find hex = n at hmin hfind
  refine ⟨n + 1, ?_⟩
  rw [Function.iterate_succ_apply',
    release_iterate envReset o hs (le_of_lt hr1) n hmin,
    envelope_release envReset { o with env := o.env * o.r ^ n } hs (le_of_lt hr1)]
  simp only []
  rw [pow_succ, ← mul_assoc] at hfind
  rw [if_pos hfind]

theorem expEnv_pos (p : Nat) (h1 : 1 ≤ p) (h2 : p ≤ 99) :
    0 < (mt_createTables (fun x y : ℝ => x ^ y) Real.log).expEnv p := by
  rw [createTables_expEnv]
  split_ifs with a b c d e
  · norm_num
  · norm_num
  · norm_num
  · norm_num
  · unfold envEntry
    positivity
  · omega

theorem releaseRate_range (p : Nat) (ratio : ℝ) (h1 : 1 ≤ p) (h2 : p ≤ 99) (hr : 0 < ratio) :
    0 < releaseRate Real.exp (mt_createTables (fun x y : ℝ => x ^ y) Real.log).expEnv ratio p ∧
    releaseRate Real.exp (mt_createTables (fun x y : ℝ => x ^ y) Real.log).expEnv ratio p < 1 := by
  unfold releaseRate
  rw [if_pos (by omega), Int.toNat_ofNat]
  have hp := expEnv_pos p h1 h2
  refine ⟨Real.exp_pos _, ?_⟩
  rw [Real.exp_lt_one_iff]
  nlinarith

/-- C27, counterexample: two operators that differ in their delay only (0 and 3
ticks), both with hold `h = 5` and an attack of one tick, started by note-on
(`envCount = 0`, state 1). The states after 0..6 control ticks show 5 ticks in
hold for the first and 2 ticks in hold for the second. -/
theorem hold_delay_counterexample :
    (List.range 7).map (fun n => ((envelope false)^[n] (noteOnOperator 0 5)).state)
      = [1, 3, 3, 3, 3, 3, 4] ∧
    (List.range 7).map (fun n => ((envelope false)^[n] (noteOnOperator 3 5)).state)
      = [1, 1, 1, 1, 3, 3, 4] := by
  constructor <;> decide!

/-- C27, amended: an operator in the hold state (3) moves to state 4 at the
first control tick that finds `envCount >= h`: if `envCount + i < h` for every
`i < j` and `envCount + j >= h`, it is in state 3 with the counter
`envCount + i` after `i` ticks for every `i <= j`, and in state 4 after `j + 1`
ticks. The counter is the one the delay state has advanced since note-on, so
the time in hold is `h` less the ticks counted before. -/
theorem hold_until (envReset : Bool) (o : fm_operator) (j : Nat) (hs : o.state = 3)
    (hlt : ∀ i, i < j → ((o.envCount + i : Nat) : ℚ) < o.h)
    (hge : ((o.envCount + j : Nat) : ℚ) ≥ o.h) :
    (∀ i, i ≤ j → ((envelope envReset)^[i] o).state = 3 ∧
      ((envelope envReset)^[i] o).envCount = o.envCount + i) ∧
    ((envelope envReset)^[j + 1] o).state = 4 := by
  constructor
  · intro i hi
    rw [hold_iterate envReset o hs i (fun k hk => hlt k (by omega))]
    exact ⟨hs, rfl⟩
  · rw [Function.iterate_succ_apply', hold_iterate envReset o hs j hlt,
      envelope_hold envReset { o with envCount := o.envCount + j } hs]
    simp only []
    rw [if_pos hge]

/-- Witness for the amended C27: the operator with delay 3 and hold 5, one tick
after it entered hold with `envCount = 4`, leaves hold after `j = 1` more
tick. -/
theorem hold_until_witness :
    ((envelope false)^[4] (noteOnOperator 3 5)).state = 3 ∧
    ((envelope false)^[4] (noteOnOperator 3 5)).envCount = 4 ∧
    ((envelope false)^[1 + 1] ((envelope false)^[4] (noteOnOperator 3 5))).state = 4 :=
  ⟨by decide!, by decide!,
    (hold_until false ((envelope false)^[4] (noteOnOperator 3 5)) 1 (by decide!)
      (by decide!) (by decide!)).2⟩

/-- C28, counterexample: for the release parameter 0 `mt_playNote` derives the
multiplier `exp(-expEnv[0] * sampleRateRatio) = exp(0) = 1`, and an operator in
the release state with `r = 1` and `env = 1/2` is left unchanged by the control
tick: it never reaches state 0. -/
theorem release_counterexample :
    releaseRate Real.exp (mt_createTables (fun x y : ℝ => x ^ y) Real.log).expEnv 1 0 = 1 ∧
    heldRelease.state = 6 ∧ heldRelease.r ≤ 1 ∧ 0 ≤ heldRelease.env ∧ heldRelease.env ≤ 1 ∧
    envelope false heldRelease = heldRelease ∧
    ¬ ∃ n, ((envelope false)^[n] heldRelease).state = 0 := by
  have hfix : envelope false heldRelease = heldRelease := by decide!
  refine ⟨?_, rfl, by decide!, by decide!, by decide!, hfix, ?_⟩
  · unfold releaseRate
    rw [if_pos (le_refl _), createTables_expEnv]
    simp
  · rintro ⟨n, hn⟩
    rw [Function.iterate_fixed hfix n] at hn
    exact absurd hn (by decide)

/-- C28, amended: an operator in the release state (6) with multiplier
`0 <= r < 1` and starting `env` in [0, 1] reaches the envelope state 0 after
finitely many control ticks; and the multiplier that `mt_playNote` derives from
a release parameter `p` in 1..99 (at a positive `sampleRateRatio`, in exact real
arithmetic) lies strictly between 0 and 1. -/
theorem release_terminates (envReset : Bool) (o : fm_operator) (hs : o.state = 6)
    (hr0 : 0 ≤ o.r) (hr1 : o.r < 1) (he0 : 0 ≤ o.env) (he1 : o.env ≤ 1)
    (p : Nat) (ratio : ℝ) (h1 : 1 ≤ p) (h2 : p ≤ 99) (hr : 0 < ratio) :
    (∃ n, ((envelope envReset)^[n] o).state = 0) ∧
    0 < releaseRate Real.exp (mt_createTables (fun x y : ℝ => x ^ y) Real.log).expEnv ratio p ∧
    releaseRate Real.exp (mt_createTables (fun x y : ℝ => x ^ y) Real.log).expEnv ratio p < 1 :=
  ⟨release_reaches_zero envReset o hs hr0 hr1 he0 he1, releaseRate_range p ratio h1 h2 hr⟩

/-- Witness for the amended C28: an operator in release with `r = 1/2` and
`env = 1`, and the release parameter 50 at `sampleRateRatio = 1`. -/
theorem release_terminates_witness :
    ({ heldRelease with r := 1 / 2, env := 1 } : fm_operator).state = 6 ∧
    ∃ n, ((envelope false)^[n] { heldRelease with r := 1 / 2, env := 1 }).state = 0 :=
  ⟨rfl, (release_terminates false { heldRelease with r := 1 / 2, env := 1 } rfl (by decide!)
    (by decide!) (by decide!) (by decide!) 50 1 (by decide) (by decide) (by norm_num)).1⟩

theorem calcPitch_op (T : Nat) (mt : PitchEngine) (c : PitchChannel) (n : Int) (k : Nat)
    (hk : k < 6) :
    (mt_calcPitch T mt c n).op k =
      pitchOperator mt c.tuning (frequency mt c.instr (mt_calcPitch T mt c n).note) (c.op k) := by
  unfold mt_calcPitch
  simp only []
  rw [if_pos hk]

theorem pitchOperator_incr (mt : PitchEngine) (tuning freq : ℚ) (o : PitchOp) :
    (pitchOperator mt tuning freq o).incr = (pitchOperator mt 0 freq o).incr * (1 + tuning) := by
  unfold pitchOperator
  simp only []
  ring

theorem calcPitch_tuning (T : Nat) (mt : PitchEngine) (c : PitchChannel) (n : Int) (k : Nat)
    (hk : k < 6) (t : ℚ) :
    ((mt_calcPitch T mt { c with tuning := t } n).op k).incr =
      ((mt_calcPitch T mt { c with tuning := 0 } n).op k).incr * (1 + t) := by
  rw [calcPitch_op T mt _ n k hk, calcPitch_op T mt _ n k hk, pitchOperator_incr]
  rfl

theorem portaDest_op (mt : PitchEngine) (c : PitchChannel) (n : Nat) (hn : n ≠ 255) (k : Nat)
    (hk : k < 6) :
    ((portaDest mt c n).op k).portaDestIncr = portaTarget mt c.instr n k (c.op k) := by
  unfold portaDest
  rw [if_pos hn]
  simp only []
  rw [if_pos hk]

theorem pitchOperator_ratio (mt : PitchEngine) (tuning freq : ℚ) (o : PitchOp)
    (h : o.fixedFreq = 0) :
    (pitchOperator mt tuning freq o).incr = freq * ratioFactor o * (1 + tuning) := by
  unfold pitchOperator
  simp only []
  rw [if_pos h]
  ring

theorem pitchOperator_fixed (mt : PitchEngine) (tuning freq : ℚ) (o : PitchOp)
    (h : o.fixedFreq ≠ 0) :
    (pitchOperator mt tuning freq o).incr =
      (((o.mult * o.mult : Int) : ℚ) + (o.mult : ℚ) * (o.finetune : ℚ) * 1 / 24) * 2
        * mt.sampleRateRatio * (1 + tuning) := by
  unfold pitchOperator
  simp only []
  rw [if_neg h]
  ring

theorem setPitchOp_same (c : PitchChannel) (k : Nat) (o : PitchOp) :
    (setPitchOp c k o).op k = o := by
  unfold setPitchOp
  simp only [Function.update_same]

theorem calcPitch_note (T : Nat) (mt : PitchEngine) (c : PitchChannel) (k : Nat) (o : PitchOp)
    (n : Int) : (mt_calcPitch T mt (setPitchOp c k o) n).note = (mt_calcPitch T mt c n).note :=
  rfl

theorem calcPitch_edited (T : Nat) (mt : PitchEngine) (c : PitchChannel) (o : PitchOp)
    (n : Int) (hk : kfxOperator c < 6) :
    ((mt_calcPitch T mt (setPitchOp c (kfxOperator c) o) n).op (kfxOperator c)).incr =
      (pitchOperator mt c.tuning (frequency mt c.instr (mt_calcPitch T mt c n).note) o).incr := by
  rw [calcPitch_op T mt _ n _ hk, setPitchOp_same, calcPitch_note]
  rfl

theorem kEdit_ratio (T : Nat) (mt : PitchEngine) (c : PitchChannel) (n : Int) (o : PitchOp)
    (hk : kfxOperator c < 6) (hf : o.fixedFreq = 0)
    (hn : (mt_calcPitch T mt c n).note = c.note) :
    ((setPitchOp c (kfxOperator c)
        { o with incr := frequency mt c.instr c.note * ratioFactor o * (1 + c.tuning) }).op
        (kfxOperator c)).incr =
      ((mt_calcPitch T mt (setPitchOp c (kfxOperator c)
        { o with incr := frequency mt c.instr c.note * ratioFactor o * (1 + c.tuning) }) n).op
        (kfxOperator c)).incr := by
  rw [calcPitch_edited T mt c _ n hk,
    pitchOperator_ratio mt _ _
      { o with incr := frequency mt c.instr c.note * ratioFactor o * (1 + c.tuning) } hf,
    hn, setPitchOp_same]
  rfl

/-- C29: the value that effect G stores in `portaDestIncr` does not depend on
the transpose and the tuning of the channel, whereas the `incr` that
`mt_calcPitch` assigns for the same note is proportional to `1 + tuning`; so for
an operator whose untuned `incr` is not 0, `portaDestIncr` cannot equal the
`incr` of `mt_calcPitch` for two different tunings of the channel. -/
theorem portaDest_ignores_tuning (T : Nat) (mt : PitchEngine) (c : PitchChannel) (n k : Nat)
    (hk : k < 6) (hn : n ≠ 255) (t1 t2 : ℚ) (hne : t1 ≠ t2)
    (hnz : ((mt_calcPitch T mt { c with tuning := 0 } n).op k).incr ≠ 0) :
    (∀ (tr : Int) (t : ℚ),
      ((portaDest mt { c with transpose := tr, tuning := t } n).op k).portaDestIncr
        = ((portaDest mt c n).op k).portaDestIncr) ∧
    ((mt_calcPitch T mt { c with tuning := t1 } n).op k).incr
      ≠ ((mt_calcPitch T mt { c with tuning := t2 } n).op k).incr ∧
    ¬ (((portaDest mt { c with tuning := t1 } n).op k).portaDestIncr
          = ((mt_calcPitch T mt { c with tuning := t1 } n).op k).incr ∧
        ((portaDest mt { c with tuning := t2 } n).op k).portaDestIncr
          = ((mt_calcPitch T mt { c with tuning := t2 } n).op k).incr) := by
  have hd : ((mt_calcPitch T mt { c with tuning := t1 } n).op k).incr
      ≠ ((mt_calcPitch T mt { c with tuning := t2 } n).op k).incr := by
    rw [calcPitch_tuning T mt c n k hk t1, calcPitch_tuning T mt c n k hk t2]
    intro h
    have h2 := mul_left_cancel₀ hnz h
    exact hne (by linarith)
  refine ⟨fun tr t => ?_, hd, ?_⟩
  · rw [portaDest_op mt _ n hn k hk, portaDest_op mt c n hn k hk]
  · rintro ⟨a, b⟩
    apply hd
    rw [← a, ← b, portaDest_op mt _ n hn k hk, portaDest_op mt _ n hn k hk]

/-- Witness for C29: a channel playing the default instrument at 44100 Hz,
operator 0 with multiplier 1 in ratio mode, note 69; with the tuning 0.06 of an
instrument tuned 100 cents up, effect G stores `noteIncr[69]` while
`mt_calcPitch` assigns `noteIncr[69] * 1.06`. -/
theorem portaDest_ignores_tuning_witness :
    ((portaDest pitchEngine tunedChannel 69).op 0).portaDestIncr = 46238720 / 2205 ∧
    ((mt_calcPitch 4 pitchEngine tunedChannel 69).op 0).incr = 46238720 / 2205 * (106 / 100) ∧
    ¬ (((portaDest pitchEngine { tunedChannel with tuning := 6 / 100 } 69).op 0).portaDestIncr
          = ((mt_calcPitch 4 pitchEngine { tunedChannel with tuning := 6 / 100 } 69).op 0).incr ∧
        ((portaDest pitchEngine { tunedChannel with tuning := 0 } 69).op 0).portaDestIncr
          = ((mt_calcPitch 4 pitchEngine { tunedChannel with tuning := 0 } 69).op 0).incr) :=
  ⟨by decide!, by decide!,
    (portaDest_ignores_tuning 4 pitchEngine tunedChannel 69 0 (by decide) (by decide)
      (6 / 100) 0 (by decide!) (by decide!)).2.2⟩

/-- C30: for the K edits of the ratio multiplier, the finetune and the detune
(`kfx % 32` = 3, 5, 6) of an operator in ratio mode, the `incr` the edit leaves
is the one `mt_calcPitch` computes from the edited values for the note the
channel plays; but the K edit of the fixed multiplier (`kfx % 32 = 4`) weights
the finetune with 1/2400 where `mt_calcPitch` weights it with 1/24, so for an
operator in fixed-frequency mode with a finetune other than 0, an edited
multiplier other than 0 and nonzero `sampleRateRatio` and `1 + tuning`, the
`incr` after the edit differs from the one of `mt_calcPitch`. -/
theorem kEdit_fixed_differs (T : Nat) (mt : PitchEngine) (c : PitchChannel) (fxData : Nat)
    (n : Int) (hk : kfxOperator c < 6) :
    ((c.instr.kfx.toNat % 32 = 3 ∨ c.instr.kfx.toNat % 32 = 5 ∨ c.instr.kfx.toNat % 32 = 6) →
      (c.op (kfxOperator c)).fixedFreq = 0 → (mt_calcPitch T mt c n).note = c.note →
      ((kOperatorEdit mt c fxData).op (kfxOperator c)).incr =
        ((mt_calcPitch T mt (kOperatorEdit mt c fxData) n).op (kfxOperator c)).incr) ∧
    (c.instr.kfx.toNat % 32 = 4 → (c.op (kfxOperator c)).fixedFreq ≠ 0 →
      clamp (fxData : Int) 0 255 ≠ 0 → (c.op (kfxOperator c)).finetune ≠ 0 →
      mt.sampleRateRatio ≠ 0 → 1 + c.tuning ≠ 0 →
      ((kOperatorEdit mt c fxData).op (kfxOperator c)).incr ≠
        ((mt_calcPitch T mt (kOperatorEdit mt c fxData) n).op (kfxOperator c)).incr) := by
  constructor
  · intro h hf hn
    unfold kOperatorEdit
    rcases h with h | h | h
    · rw [if_pos h]
      exact kEdit_ratio T mt c n { c.op (kfxOperator c) with mult := clamp fxData 0 40 } hk hf hn
    · rw [if_neg (by omega), if_neg (by omega), if_pos h]
      exact kEdit_ratio T mt c n { c.op (kfxOperator c) with finetune := clamp fxData 0 24 } hk hf hn
    · rw [if_neg (by omega), if_neg (by omega), if_neg (by omega), if_pos h]
      exact kEdit_ratio T mt c n
        { c.op (kfxOperator c) with detune := clamp (toChar fxData) (-100) 100 } hk hf hn
  · intro h hf hm hft hr ht
    unfold kOperatorEdit
    rw [if_neg (by omega), if_pos h]
    unfold kEditFixed
    rw [calcPitch_edited T mt c _ n hk, setPitchOp_same]
    simp only []
    rw [pitchOperator_fixed mt _ _
      { c.op (kfxOperator c) with
        mult := clamp fxData 0 255
        incr := (((clamp fxData 0 255 * clamp fxData 0 255 : Int) : ℚ)
            + ((clamp fxData 0 255 : Int) : ℚ) * ((c.op (kfxOperator c)).finetune : ℚ) * 1 / 2400)
          * 2 * mt.sampleRateRatio * (1 + c.tuning) } hf]
    simp only []
    intro he
    have hm2 : ((clamp (fxData : Int) 0 255 : Int) : ℚ) ≠ 0 := by exact_mod_cast hm
    have hft2 : (((c.op (kfxOperator c)).finetune : Int) : ℚ) ≠ 0 := by exact_mod_cast hft
    have hz : ((clamp (fxData : Int) 0 255 : Int) : ℚ) * ((c.op (kfxOperator c)).finetune : ℚ)
        * mt.sampleRateRatio * (1 + c.tuning) = 0 := by
      linear_combination (-400 / 33 : ℚ) * he
    rcases mul_eq_zero.mp hz with hz | hz
    · rcases mul_eq_zero.mp hz with hz | hz
      · rcases mul_eq_zero.mp hz with hz | hz
        · exact hm2 hz
        · exact hft2 hz
      · exact hr hz
    · exact ht hz

/-- Witness for C30: operator 0 in fixed-frequency mode with finetune 12, the
instrument selecting its fixed multiplier (`kfx = 36`), at 44100 Hz; effect K
with data 10 leaves `incr = (100 + 10*12/2400) * 2 * sampleRateRatio`, whereas
`mt_calcPitch` gives `(100 + 10*12/24) * 2 * sampleRateRatio` from the edited
values. -/
theorem kEdit_fixed_differs_witness :
    ((kOperatorEdit pitchEngine fixedChannel 10).op 0).mult = 10 ∧
    ((kOperatorEdit pitchEngine fixedChannel 10).op 0).incr
      = (100 + 10 * 12 / 2400) * 2 * (48000 / 44100) ∧
    ((mt_calcPitch 4 pitchEngine (kOperatorEdit pitchEngine fixedChannel 10) 69).op 0).incr
      = (100 + 10 * 12 / 24) * 2 * (48000 / 44100) ∧
    ((kOperatorEdit pitchEngine fixedChannel 10).op (kfxOperator fixedChannel)).incr ≠
      ((mt_calcPitch 4 pitchEngine (kOperatorEdit pitchEngine fixedChannel 10) 69).op
        (kfxOperator fixedChannel)).incr :=
  ⟨by decide!, by decide!, by decide!,
    (kEdit_fixed_differs 4 pitchEngine fixedChannel 10 69 (by decide)).2 (by decide) (by decide)
      (by decide) (by decide) (by decide!) (by decide!)⟩

theorem noteAction_fxActive (ch : Nat) (row : Cell) (p : Player) (k : Nat) :
    ((noteAction ch row p).ch k).fxActive = (p.ch k).fxActive := by
  unfold noteAction
  split_ifs
  · rfl
  · by_cases hk : k = ch
    · subst hk
      rw [setChannel_same]
    · rw [setChannel_other _ _ _ _ hk]
      rfl
  · rfl
  · rfl

theorem rowEffect_other (ch : Nat) (row : Cell) (p : Player) (k : Nat) (hk : k ≠ ch) :
    (rowEffect ch row p).ch k = p.ch k := by
  unfold rowEffect armEffect armRetrigger
  split_ifs <;> first | rfl | exact setChannel_other _ _ _ _ hk

theorem rowChannel_other (ch : Nat) (p : Player) (k : Nat) (hk : k ≠ ch) :
    ((rowChannel ch p).ch k).fxActive = (p.ch k).fxActive := by
  unfold rowChannel
  rw [rowEffect_other _ _ _ _ hk]
  unfold loadFxData
  rw [setChannel_other _ _ _ _ hk, noteAction_fxActive]
  unfold clearFx
  rw [setChannel_other _ _ _ _ hk]

theorem rowChannel_slide (ch : Nat) (p : Player)
    (h : (p.mt.pattern p.mt.order p.mt.row ch).fx = 78) :
    ((rowChannel ch p).ch ch).fxActive = 0 := by
  unfold rowChannel rowEffect
  iterate 9 rw [if_neg (by omega)]
  unfold loadFxData
  rw [setChannel_same]
  show ((noteAction ch _ (clearFx ch p)).ch ch).fxActive = 0
  rw [noteAction_fxActive]
  unfold clearFx
  rw [setChannel_same]

theorem rowLoop_slide (p : Player) (ch : Nat)
    (h : (p.mt.pattern p.mt.order p.mt.row ch).fx = 78) :
    ∀ n, ch < n → ((forLoop n rowChannel p).ch ch).fxActive = 0 := by
  intro n
  induction n with
  | zero => intro h0; omega
  | succ n ih =>
    intro hch
    rw [forLoop_succ]
    by_cases e : ch = n
    · subst e
      apply rowChannel_slide
      obtain ⟨a, b, c⟩ := rowLoop_position ch p
      rw [a, b, c]
      exact h
    · rw [rowChannel_other _ _ _ e]
      exact ih (by omega)

theorem fxChannel_idle (ch : Nat) (p : Player) (k : Nat) (h : (p.ch k).fxActive = 0) :
    ((fxChannel ch p).ch k).fxActive = 0 := by
  by_cases hk : k = ch
  · subst hk
    unfold fxChannel
    rw [if_neg (by omega), if_neg (by omega), if_neg (by omega)]
    exact h
  · unfold fxChannel fxArpeggio fxRetrigger fxDelay
    simp only []
    split_ifs <;> first | exact h | (rw [setChannel_other _ _ _ _ hk]; exact h)

theorem fxLoop_idle (n : Nat) (p : Player) (k : Nat) (h : (p.ch k).fxActive = 0) :
    ((forLoop n fxChannel p).ch k).fxActive = 0 := by
  induction n with
  | zero => exact h
  | succ n ih =>
    rw [forLoop_succ]
    exact fxChannel_idle n _ k ih

theorem fxTick_idle (p : Player) (k : Nat) (h : (p.ch k).fxActive = 0) :
    ((fxTick p).ch k).fxActive = 0 := by
  have h2 := fxLoop_idle FM_ch p k h
  unfold fxTick
  simp only []
  by_cases hc : p.frameTimerFx ≥ fxThreshold p.mt
  · rw [if_pos hc]
    generalize forLoop FM_ch fxChannel p = X at h2 ⊢
    exact h2
  · rw [if_neg hc]
    exact h

theorem fxTick_iterate_idle (n : Nat) (p : Player) (k : Nat) (h : (p.ch k).fxActive = 0) :
    (((fxTick)^[n] p).ch k).fxActive = 0 := by
  induction n with
  | zero => exact h
  | succ n ih =>
    rw [Function.iterate_succ_apply']
    exact fxTick_idle _ k ih

theorem fxVolume_idle {K : Type} [LinearOrderedField K] (c : fm_channel) (ch : Nat)
    (v : Volumes K) (h : c.fxActive = 0) : fxVolume c ch v = v := by
  unfold fxVolume
  rw [if_neg (by omega), if_neg (by omega)]

theorem slideStep_zero {K : Type} [LinearOrderedField K] (g : K) :
    slideStep g 127 = clampF g 0 1 := by
  unfold slideStep
  have e : (((127 : Nat) : Int) - 127 : Int) = 0 := by decide
  rw [e]
  simp

theorem expVol_nonneg (v : Nat) :
    0 ≤ (mt_createTables (fun x y : ℝ => x ^ y) Real.log).expVol v := by
  rw [createTables_expVol]
  split_ifs
  · norm_num
  · unfold volEntry
    exact Real.rpow_nonneg (by norm_num) _
  · exact le_refl 0

/-- C31: a cell with the effect `N` (78) does not arm the effect: the
`switch (row->fx)` of the row event has no case `N`, so after the row event the
channel has `fxActive = 0`, it keeps `fxActive = 0` through every following
sub-tick, and the case `N` of the sub-tick handler, which would slide the
channel volume, is never taken: the volumes are left as they are. -/
theorem volumeSlide_unarmed (p : Player) (ch : Nat) (hch : ch < FM_ch)
    (hfx : (p.mt.pattern p.mt.order p.mt.row ch).fx = 78) :
    ((rowEvent p).ch ch).fxActive = 0 ∧
    ∀ (n : Nat) (v : Volumes ℚ),
      (((fxTick)^[n] (rowEvent p)).ch ch).fxActive = 0 ∧
      fxVolume (((fxTick)^[n] (rowEvent p)).ch ch) ch v = v := by
  have h0 : ((rowEvent p).ch ch).fxActive = 0 := by
    have h := rowLoop_slide p ch hfx FM_ch hch
    unfold rowEvent
    exact h
  refine ⟨h0, fun n v => ?_⟩
  have h1 := fxTick_iterate_idle n (rowEvent p) ch h0
  exact ⟨h1, fxVolume_idle _ ch v h1⟩

/-- Witness for C31, the failing input: channel 0 of `slideSong` carries `N`
with parameter 200. After the row event and one sub-tick pass the channel
volume 1/2 is still 1/2, where the slide step would give 1/2 + 73 * 0.0001;
the effect `W` of channel 1 is armed by the same row event. -/
theorem volumeSlide_unarmed_witness :
    (0 < FM_ch ∧
      ((startPlayer slideSong).mt.pattern (startPlayer slideSong).mt.order
        (startPlayer slideSong).mt.row 0).fx = 78 ∧
      ((startPlayer slideSong).mt.pattern (startPlayer slideSong).mt.order
        (startPlayer slideSong).mt.row 0).fxdata = 200) ∧
    slideStep (1 / 2 : ℚ) 200 = 1 / 2 + 73 / 10000 ∧
    ((rowEvent (startPlayer slideSong)).ch 1).fxActive = 87 ∧
    (fxVolume (((fxTick)^[1] (rowEvent (startPlayer slideSong))).ch 0) 0
      (⟨fun _ => 1 / 2, 1⟩ : Volumes ℚ)).vol 0 = 1 / 2 :=
  ⟨⟨by decide, by decide, by decide⟩, by decide!, by decide!,
    congrArg (fun w : Volumes ℚ => w.vol 0)
      ((volumeSlide_unarmed (startPlayer slideSong) 0 (by decide) (by decide)).2 1
        ⟨fun _ => 1 / 2, 1⟩).2⟩

/-- C35: a sub-tick of the global volume slide `W` with parameter 127 (zero
slide) sets `globalVolume` to `clamp(globalVolume, 0, 1)`. For the value
`expVol[v] * 4096 / 2048` that `mt_setVolume` and `mt_initChannels` assign
(`v` in 0..99) it leaves `globalVolume` unchanged exactly when that value is at
most 1, and cuts it to 1 otherwise; for `v = 99` the value is 2 and the zero
slide makes it 1. -/
theorem globalSlide_zero (v : Nat) (hv : v ≤ 99) :
    (slideStep (globalVolumeOf (mt_createTables (fun x y : ℝ => x ^ y) Real.log).expVol v) 127
        = globalVolumeOf (mt_createTables (fun x y : ℝ => x ^ y) Real.log).expVol v ↔
      globalVolumeOf (mt_createTables (fun x y : ℝ => x ^ y) Real.log).expVol v ≤ 1) ∧
    (1 < globalVolumeOf (mt_createTables (fun x y : ℝ => x ^ y) Real.log).expVol v →
      slideStep (globalVolumeOf (mt_createTables (fun x y : ℝ => x ^ y) Real.log).expVol v) 127
        = 1) ∧
    globalVolumeOf (mt_createTables (fun x y : ℝ => x ^ y) Real.log).expVol 99 = 2 ∧
    slideStep (globalVolumeOf (mt_createTables (fun x y : ℝ => x ^ y) Real.log).expVol 99) 127
      = 1 := by
  have hg : 0 ≤ globalVolumeOf (mt_createTables (fun x y : ℝ => x ^ y) Real.log).expVol v := by
    unfold globalVolumeOf
    have := expVol_nonneg v
    linarith
  have h99 : globalVolumeOf (mt_createTables (fun x y : ℝ => x ^ y) Real.log).expVol 99 = 2 := by
    unfold globalVolumeOf
    rw [createTables_expVol, if_pos rfl]
    norm_num
  refine ⟨?_, ?_, h99, ?_⟩
  · rw [slideStep_zero]
    generalize globalVolumeOf (mt_createTables (fun x y : ℝ => x ^ y) Real.log).expVol v = g at hg
    unfold clampF
    constructor
    · intro h
      by_contra hc
      rw [if_pos (lt_of_not_le hc)] at h
      exact hc (le_of_eq h.symm)
    · intro h
      rw [if_neg (not_lt.mpr h), if_neg (not_lt.mpr hg)]
  · intro h
    rw [slideStep_zero]
    unfold clampF
    rw [if_pos h]
  · rw [slideStep_zero, h99]
    unfold clampF
    rw [if_pos (by norm_num)]

/-- Witness for C35, the failing input: with the global volume byte 99,
`globalVolume` is 2, and the zero slide leaves 1. -/
theorem globalSlide_zero_witness :
    99 ≤ 99 ∧
    globalVolumeOf (mt_createTables (fun x y : ℝ => x ^ y) Real.log).expVol 99 = 2 ∧
    slideStep (globalVolumeOf (mt_createTables (fun x y : ℝ => x ^ y) Real.log).expVol 99) 127
      = 1 :=
  ⟨by decide, (globalSlide_zero 99 (by decide)).2.2⟩

theorem nextRow_place (mt : mtsynth) :
    (nextRow mt).order = (if mt.row + 1 ≥ mt.patternSize mt.order then mt.order + 1 else mt.order) ∧
    (nextRow mt).row = (if mt.row + 1 ≥ mt.patternSize mt.order then 0 else mt.row + 1) ∧
    (nextRow mt).tempOrder = mt.tempOrder ∧ (nextRow mt).tempRow = mt.tempRow ∧
    (nextRow mt).patternCount = mt.patternCount ∧ (nextRow mt).patternSize = mt.patternSize := by
  unfold nextRow
  by_cases h : mt.row + 1 ≥ mt.patternSize mt.order
  · rw [if_pos h, if_pos h, if_pos h]
    exact ⟨rfl, rfl, rfl, rfl, rfl, rfl⟩
  · rw [if_neg h, if_neg h, if_neg h]
    exact ⟨rfl, rfl, rfl, rfl, rfl, rfl⟩

theorem jumpOrder_place (m : mtsynth) :
    (jumpOrder m).order
      = (if m.tempOrder ≠ -1 then min m.tempOrder.toNat (m.patternCount - 1) else m.order) ∧
    (jumpOrder m).row = m.row ∧ (jumpOrder m).tempRow = m.tempRow ∧
    (jumpOrder m).patternCount = m.patternCount ∧ (jumpOrder m).patternSize = m.patternSize := by
  unfold jumpOrder
  by_cases h : m.tempOrder ≠ -1
  · rw [if_pos h, if_pos h]
    exact ⟨rfl, rfl, rfl, rfl, rfl⟩
  · rw [if_neg h, if_neg h]
    exact ⟨rfl, rfl, rfl, rfl, rfl⟩

theorem jumpRow_place (m : mtsynth) :
    (jumpRow m).order = m.order ∧
    (jumpRow m).row
      = (if m.tempRow ≠ -1 then min m.tempRow.toNat (m.patternSize m.order - 1) else m.row) ∧
    (jumpRow m).patternCount = m.patternCount ∧ (jumpRow m).patternSize = m.patternSize := by
  unfold jumpRow
  by_cases h : m.tempRow ≠ -1
  · rw [if_pos h, if_pos h]
    exact ⟨rfl, rfl, rfl, rfl⟩
  · rw [if_neg h, if_neg h]
    exact ⟨rfl, rfl, rfl, rfl⟩

theorem applyJump_place (m : mtsynth) :
    (applyJump m).order
      = (if m.tempOrder ≠ -1 then min m.tempOrder.toNat (m.patternCount - 1) else m.order) ∧
    (applyJump m).row
      = (if m.tempRow ≠ -1 then
          min m.tempRow.toNat
            (m.patternSize
              (if m.tempOrder ≠ -1 then min m.tempOrder.toNat (m.patternCount - 1) else m.order) - 1)
         else m.row) ∧
    (applyJump m).patternCount = m.patternCount ∧ (applyJump m).patternSize = m.patternSize := by
  unfold applyJump
  by_cases h : m.tempOrder ≠ -1 ∨ m.tempRow ≠ -1
  · rw [if_pos h]
    obtain ⟨a1, a2, a3, a4, a5⟩ := jumpOrder_place { m with loopCount := m.loopCount + 1 }
    obtain ⟨b1, b2, b3, b4⟩ := jumpRow_place (jumpOrder { m with loopCount := m.loopCount + 1 })
    refine ⟨?_, ?_, ?_, ?_⟩
    · show (jumpRow (jumpOrder { m with loopCount := m.loopCount + 1 })).order = _
      rw [b1, a1]
    · show (jumpRow (jumpOrder { m with loopCount := m.loopCount + 1 })).row = _
      rw [b2, a3, a5, a1, a2]
    · show (jumpRow (jumpOrder { m with loopCount := m.loopCount + 1 })).patternCount = _
      rw [b3, a4]
    · show (jumpRow (jumpOrder { m with loopCount := m.loopCount + 1 })).patternSize = _
      rw [b4, a5]
  · rw [if_neg h]
    have h1 : ¬ m.tempOrder ≠ -1 := fun x => h (Or.inl x)
    have h2 : ¬ m.tempRow ≠ -1 := fun x => h (Or.inr x)
    rw [if_neg h1, if_neg h2]
    exact ⟨rfl, rfl, rfl, rfl⟩

theorem wrapSong_place (m : mtsynth) :
    (wrapSong m).order = (if m.order ≥ m.patternCount then 0 else m.order) ∧
    (wrapSong m).row = m.row ∧
    (wrapSong m).patternCount = m.patternCount ∧ (wrapSong m).patternSize = m.patternSize := by
  unfold wrapSong
  by_cases h : m.order ≥ m.patternCount
  · rw [if_pos h, if_pos h]
    exact ⟨rfl, rfl, rfl, rfl⟩
  · rw [if_neg h, if_neg h]
    exact ⟨rfl, rfl, rfl, rfl⟩

theorem checkLoop_place (m : mtsynth) :
    (checkLoop m).order = m.order ∧ (checkLoop m).row = m.row ∧
    (checkLoop m).patternCount = m.patternCount ∧ (checkLoop m).patternSize = m.patternSize := by
  unfold checkLoop
  split_ifs <;> exact ⟨rfl, rfl, rfl, rfl⟩

theorem rowAdvance_place (mt : mtsynth) :
    (rowAdvance mt).order =
      (if (if mt.tempOrder ≠ -1 then min mt.tempOrder.toNat (mt.patternCount - 1)
            else (nextRow mt).order) ≥ mt.patternCount then 0
        else (if mt.tempOrder ≠ -1 then min mt.tempOrder.toNat (mt.patternCount - 1)
            else (nextRow mt).order)) ∧
    (rowAdvance mt).row =
      (if mt.tempRow ≠ -1 then
        min mt.tempRow.toNat
          (mt.patternSize
            (if mt.tempOrder ≠ -1 then min mt.tempOrder.toNat (mt.patternCount - 1)
              else (nextRow mt).order) - 1)
       else (nextRow mt).row) ∧
    (rowAdvance mt).patternCount = mt.patternCount ∧
    (rowAdvance mt).patternSize = mt.patternSize := by
  obtain ⟨_, _, n3, n4, n5, n6⟩ := nextRow_place mt
  obtain ⟨a1, a2, a3, a4⟩ := applyJump_place (nextRow mt)
  obtain ⟨w1, w2, w3, w4⟩ := wrapSong_place (applyJump (nextRow mt))
  obtain ⟨c1, c2, c3, c4⟩ := checkLoop_place (wrapSong (applyJump (nextRow mt)))
  unfold rowAdvance
  rw [c1, c2, c3, c4, w1, w2, w3, w4, a1, a2, a3, a4, n3, n4, n5, n6]
  exact ⟨rfl, rfl, rfl, rfl⟩

theorem advanceReads_eq (mt : mtsynth) :
    advanceReads mt =
      [mt.order] ++
        (if mt.tempRow ≠ -1 then
          [if mt.tempOrder ≠ -1 then min mt.tempOrder.toNat (mt.patternCount - 1)
            else (nextRow mt).order]
         else []) := by
  obtain ⟨_, _, n3, n4, n5, _⟩ := nextRow_place mt
  obtain ⟨a1, _⟩ := jumpOrder_place { nextRow mt with loopCount := (nextRow mt).loopCount + 1 }
  unfold advanceReads
  rw [a1, n4]
  show _ = [mt.order] ++ _
  simp only [n3, n5]

/-- C32: the row advance of the render loop from a position inside the song
(every pattern of at least one row), with each pending jump either absent (-1)
or a byte. With no pending jump, with both jumps pending, or with a row jump
alone that does not fall on the last row of the last pattern, the new position
is inside the song and `patternSize` is read inside its bounds. With a pattern
jump alone, the row reached is the next row number (or 0 at the end of the
pattern), not adapted to the size of the pattern jumped to. With a row jump
alone on the last row of the last pattern, `patternSize` is read at the index
`patternCount`. -/
theorem rowAdvance_position (mt : mtsynth)
    (hs : ∀ o, o < mt.patternCount → 1 ≤ mt.patternSize o)
    (ho : mt.order < mt.patternCount) (hr : mt.row < mt.patternSize mt.order)
    (hO : mt.tempOrder = -1 ∨ (0 ≤ mt.tempOrder ∧ mt.tempOrder ≤ 255))
    (hR : mt.tempRow = -1 ∨ (0 ≤ mt.tempRow ∧ mt.tempRow ≤ 255)) :
    ((mt.tempRow ≠ -1 ∨ mt.tempOrder = -1) →
      ¬ (mt.tempOrder = -1 ∧ mt.tempRow ≠ -1 ∧ mt.order + 1 = mt.patternCount ∧
          mt.row + 1 = mt.patternSize mt.order) →
      (rowAdvance mt).order < mt.patternCount ∧
      (rowAdvance mt).row < mt.patternSize (rowAdvance mt).order ∧
      ∀ i, i ∈ advanceReads mt → i < mt.patternCount) ∧
    (mt.tempOrder ≠ -1 → mt.tempRow = -1 →
      (rowAdvance mt).order = min mt.tempOrder.toNat (mt.patternCount - 1) ∧
      (rowAdvance mt).row = (if mt.row + 1 ≥ mt.patternSize mt.order then 0 else mt.row + 1) ∧
      ∀ i, i ∈ advanceReads mt → i < mt.patternCount) ∧
    (mt.tempOrder = -1 → mt.tempRow ≠ -1 → mt.order + 1 = mt.patternCount →
      mt.row + 1 = mt.patternSize mt.order →
      mt.patternCount ∈ advanceReads mt ∧ (rowAdvance mt).order = 0) := by
  obtain ⟨n1, n2, _⟩ := nextRow_place mt
  obtain ⟨p1, p2, _, _⟩ := rowAdvance_place mt
  have hmin : min mt.tempOrder.toNat (mt.patternCount - 1) < mt.patternCount := by
    have := Nat.min_le_right mt.tempOrder.toNat (mt.patternCount - 1)
    omega
  refine ⟨?_, ?_, ?_⟩
  · intro hx hy
    by_cases hB : mt.tempOrder ≠ -1
    · have hC : mt.tempRow ≠ -1 := by
        rcases hx with h | h
        · exact h
        · exact absurd h hB
      rw [p1, p2, advanceReads_eq, if_pos hB, if_pos hC, if_pos hC, if_neg (by omega)]
      refine ⟨hmin, ?_, ?_⟩
      · have h1 := hs _ hmin
        have h2 := Nat.min_le_right mt.tempRow.toNat
          (mt.patternSize (min mt.tempOrder.toNat (mt.patternCount - 1)) - 1)
        omega
      · intro i hi
        simp only [List.mem_append, List.mem_singleton] at hi
        rcases hi with h | h
        · omega
        · omega
    · rw [p1, p2, advanceReads_eq, if_neg hB, n1, n2]
      by_cases hC : mt.tempRow ≠ -1
      · have hlast : ¬ (mt.order + 1 = mt.patternCount ∧ mt.row + 1 = mt.patternSize mt.order) :=
          fun h => hy ⟨not_not.mp hB, hC, h.1, h.2⟩
        rw [if_pos hC, if_pos hC]
        by_cases hw : mt.row + 1 ≥ mt.patternSize mt.order
        · have ho2 : mt.order + 1 < mt.patternCount := by omega
          rw [if_pos hw, if_neg (by omega)]
          refine ⟨ho2, ?_, ?_⟩
          · have h1 := hs _ ho2
            have h2 := Nat.min_le_right mt.tempRow.toNat (mt.patternSize (mt.order + 1) - 1)
            omega
          · intro i hi
            simp only [List.mem_append, List.mem_singleton] at hi
            rcases hi with h | h
            · omega
            · omega
        · rw [if_neg hw, if_neg (by omega)]
          refine ⟨ho, ?_, ?_⟩
          · have h1 := hs _ ho
            have h2 := Nat.min_le_right mt.tempRow.toNat (mt.patternSize mt.order - 1)
            omega
          · intro i hi
            simp only [List.mem_append, List.mem_singleton] at hi
            rcases hi with h | h
            · omega
            · omega
      · rw [if_neg hC, if_neg hC]
        by_cases hw : mt.row + 1 ≥ mt.patternSize mt.order
        · rw [if_pos hw, if_pos hw]
          by_cases hl : mt.order + 1 ≥ mt.patternCount
          · rw [if_pos hl]
            have h0 : 0 < mt.patternCount := by omega
            refine ⟨h0, hs 0 h0, ?_⟩
            intro i hi
            simp only [List.append_nil, List.mem_singleton] at hi
            omega
          · rw [if_neg hl]
            have ho2 : mt.order + 1 < mt.patternCount := by omega
            refine ⟨ho2, hs _ ho2, ?_⟩
            intro i hi
            simp only [List.append_nil, List.mem_singleton] at hi
            omega
        · rw [if_neg hw, if_neg hw, if_neg (by omega)]
          refine ⟨ho, by omega, ?_⟩
          intro i hi
          simp only [List.append_nil, List.mem_singleton] at hi
          omega
  · intro hB hC
    rw [p1, p2, advanceReads_eq, if_pos hB, if_neg (not_not.mpr hC), if_neg (not_not.mpr hC),
      if_neg (by omega), n2]
    refine ⟨rfl, rfl, ?_⟩
    intro i hi
    simp only [List.append_nil, List.mem_singleton] at hi
    omega
  · intro hB hC h1 h2
    rw [p1, advanceReads_eq, if_neg (not_not.mpr hB), if_pos hC, n1, if_pos (by omega),
      if_pos (by omega)]
    refine ⟨?_, rfl⟩
    rw [h1]
    simp

/-- Witness for C32, the failing inputs. In `jumpSong` (patterns of 2 rows and
1 row, position (0, 0), pending jump to pattern 1 alone) the row advance yields
the position (1, 1), outside pattern 1, which has one row. In `edgeSong` (last
row of the last pattern, pending jump to row 5 alone) the row advance reads
`patternSize[2]` of a song of two patterns. -/
theorem rowAdvance_position_witness :
    (jumpSong.order < jumpSong.patternCount ∧ jumpSong.row < jumpSong.patternSize jumpSong.order ∧
      jumpSong.tempOrder = 1 ∧ jumpSong.tempRow = -1) ∧
    ((rowAdvance jumpSong).order = 1 ∧ (rowAdvance jumpSong).row = 1 ∧
      jumpSong.patternSize 1 = 1 ∧
      ¬ (rowAdvance jumpSong).row < jumpSong.patternSize (rowAdvance jumpSong).order) ∧
    (edgeSong.order < edgeSong.patternCount ∧ edgeSong.row < edgeSong.patternSize edgeSong.order ∧
      edgeSong.tempOrder = -1 ∧ edgeSong.tempRow = 5 ∧ edgeSong.patternCount = 2) ∧
    (edgeSong.patternCount ∈ advanceReads edgeSong ∧ (rowAdvance edgeSong).order = 0) ∧
    (rowAdvance edgeSong).row = 5 ∧ edgeSong.patternSize 0 = 2 :=
  ⟨⟨by decide, by decide, by decide, by decide⟩,
    ⟨by decide, by decide, by decide, by decide⟩,
    ⟨by decide, by decide, by decide, by decide, by decide⟩,
    (rowAdvance_position edgeSong (by decide) (by decide) (by decide) (by decide)
      (by decide)).2.2 (by decide) (by decide) (by decide) (by decide),
    by decide, by decide⟩

theorem attack_bounds (o : fm_operator) (env : ℚ) (stay : Nat) (hst : stay ≤ 6)
    (ha : 0 ≤ o.a) (he0 : 0 ≤ env) (he1 : env ≤ 1) :
    0 ≤ (attack o env stay).env ∧ (attack o env stay).env ≤ 1 ∧ (attack o env stay).state ≤ 6 ∧
    (attack o env stay).s = o.s ∧ (attack o env stay).i = o.i ∧ (attack o env stay).a = o.a ∧
    (attack o env stay).d = o.d ∧ (attack o env stay).r = o.r := by
  unfold attack
  by_cases h : env + (7 / 5 - env) * o.a ≥ 1
  · rw [if_pos h]
    refine ⟨by norm_num, le_refl 1, ?_, rfl, rfl, rfl, rfl, rfl⟩
    show (if o.h > 0 then 3 else 4) ≤ 6
    split_ifs <;> omega
  · rw [if_neg h]
    refine ⟨?_, ?_, hst, rfl, rfl, rfl, rfl, rfl⟩
    · show 0 ≤ env + (7 / 5 - env) * o.a
      have : 0 ≤ (7 / 5 - env) * o.a := mul_nonneg (by linarith) ha
      linarith
    · show env + (7 / 5 - env) * o.a ≤ 1
      linarith

theorem sustain_bounds (o : fm_operator) (hs0 : 0 ≤ o.s) (hs1 : o.s ≤ 1) :
    0 ≤ (sustain o).env ∧ (sustain o).env ≤ 1 ∧ (sustain o).state ≤ 6 ∧
    (sustain o).s = o.s ∧ (sustain o).i = o.i ∧ (sustain o).a = o.a ∧
    (sustain o).d = o.d ∧ (sustain o).r = o.r := by
  unfold sustain
  split_ifs
  · exact ⟨hs0, hs1, by show 1 ≤ 6; omega, rfl, rfl, rfl, rfl, rfl⟩
  · exact ⟨le_refl 0, by norm_num, by show 0 ≤ 6; omega, rfl, rfl, rfl, rfl, rfl⟩
  · exact ⟨hs0, hs1, by show 1 ≤ 6; omega, rfl, rfl, rfl, rfl, rfl⟩
  · exact ⟨hs0, hs1, by show 5 ≤ 6; omega, rfl, rfl, rfl, rfl, rfl⟩

theorem envelope_bounds (envReset : Bool) (o : fm_operator)
    (hs0 : 0 ≤ o.s) (hs1 : o.s ≤ 1) (hi0 : 0 ≤ o.i) (hi1 : o.i ≤ 1) (ha : 0 ≤ o.a)
    (hd0 : 0 ≤ o.d) (hd1 : o.d ≤ 1) (hr : 0 < o.r) (he0 : 0 ≤ o.env) (he1 : o.env ≤ 1)
    (hst : o.state ≤ 6) :
    0 ≤ (envelope envReset o).env ∧ (envelope envReset o).env ≤ 1 ∧
    (envelope envReset o).state ≤ 6 ∧
    (envelope envReset o).s = o.s ∧ (envelope envReset o).i = o.i ∧
    (envelope envReset o).a = o.a ∧ (envelope envReset o).d = o.d ∧
    (envelope envReset o).r = o.r := by
  unfold envelope
  by_cases c1 : o.state = 1
  · rw [if_pos c1]
    by_cases c : (o.envCount : ℚ) ≥ o.delay
    · rw [if_pos c]
      apply attack_bounds { o with envCount := o.envCount + 1 } _ 2 (by omega) ha
      · split_ifs
        · exact hs0
        · exact hi0
        · exact he0
      · split_ifs
        · exact hs1
        · exact hi1
        · exact he1
    · rw [if_neg c]
      exact ⟨he0, he1, hst, rfl, rfl, rfl, rfl, rfl⟩
  rw [if_neg c1]
  by_cases c2 : o.state = 2
  · rw [if_pos c2]
    exact attack_bounds o o.env 2 (by omega) ha he0 he1
  rw [if_neg c2]
  by_cases c3 : o.state = 3
  · rw [if_pos c3]
    split_ifs
    · exact ⟨he0, he1, by show 4 ≤ 6; omega, rfl, rfl, rfl, rfl, rfl⟩
    · exact ⟨he0, he1, hst, rfl, rfl, rfl, rfl, rfl⟩
  rw [if_neg c3]
  by_cases c4 : o.state = 4
  · rw [if_pos c4]
    by_cases c : o.env - (o.env - o.s) * o.d - o.s < 1 / 1000
    · rw [if_pos c]
      exact sustain_bounds o hs0 hs1
    · rw [if_neg c]
      refine ⟨?_, ?_, hst, rfl, rfl, rfl, rfl, rfl⟩
      · show 0 ≤ o.env - (o.env - o.s) * o.d
        nlinarith
      · show o.env - (o.env - o.s) * o.d ≤ 1
        nlinarith
  rw [if_neg c4]
  by_cases c6 : o.state = 6
  · rw [if_pos c6]
    by_cases cr : o.r ≤ 1
    · rw [if_pos cr]
      by_cases c : o.env * o.r < 1 / 1000
      · rw [if_pos c]
        exact ⟨le_refl 0, by norm_num, by show 0 ≤ 6; omega, rfl, rfl, rfl, rfl, rfl⟩
      · rw [if_neg c]
        refine ⟨?_, ?_, hst, rfl, rfl, rfl, rfl, rfl⟩
        · show 0 ≤ o.env * o.r
          exact mul_nonneg he0 (le_of_lt hr)
        · show o.env * o.r ≤ 1
          nlinarith
    · rw [if_neg cr]
      by_cases c : o.env * o.r ≥ 1
      · rw [if_pos c]
        exact ⟨by norm_num, le_refl 1, by show 5 ≤ 6; omega, rfl, rfl, rfl, rfl, rfl⟩
      · rw [if_neg c]
        refine ⟨?_, ?_, hst, rfl, rfl, rfl, rfl, rfl⟩
        · show 0 ≤ o.env * o.r
          exact mul_nonneg he0 (le_of_lt hr)
        · show o.env * o.r ≤ 1
          linarith
  rw [if_neg c6]
  exact ⟨he0, he1, hst, rfl, rfl, rfl, rfl, rfl⟩

/-- C34: for an operator with `0 <= s <= 1`, `0 <= i <= 1`, `a >= 0`,
`0 <= d <= 1` and `r > 0`, starting from `env` in [0, 1] and a state in 0..6,
the envelope update of a control tick, in exact arithmetic, leaves `env` in
[0, 1] and the state in 0..6; the same holds after any number of control
ticks. -/
theorem envelope_invariant (envReset : Bool) (o : fm_operator)
    (hs0 : 0 ≤ o.s) (hs1 : o.s ≤ 1) (hi0 : 0 ≤ o.i) (hi1 : o.i ≤ 1) (ha : 0 ≤ o.a)
    (hd0 : 0 ≤ o.d) (hd1 : o.d ≤ 1) (hr : 0 < o.r) (he0 : 0 ≤ o.env) (he1 : o.env ≤ 1)
    (hst : o.state ≤ 6) :
    (0 ≤ (envelope envReset o).env ∧ (envelope envReset o).env ≤ 1 ∧
      (envelope envReset o).state ≤ 6) ∧
    ∀ n, 0 ≤ ((envelope envReset)^[n] o).env ∧ ((envelope envReset)^[n] o).env ≤ 1 ∧
      ((envelope envReset)^[n] o).state ≤ 6 := by
  obtain ⟨a1, a2, a3, _⟩ := envelope_bounds envReset o hs0 hs1 hi0 hi1 ha hd0 hd1 hr he0 he1 hst
  refine ⟨⟨a1, a2, a3⟩, ?_⟩
  have key : ∀ n, 0 ≤ ((envelope envReset)^[n] o).env ∧ ((envelope envReset)^[n] o).env ≤ 1 ∧
      ((envelope envReset)^[n] o).state ≤ 6 ∧
      ((envelope envReset)^[n] o).s = o.s ∧ ((envelope envReset)^[n] o).i = o.i ∧
      ((envelope envReset)^[n] o).a = o.a ∧ ((envelope envReset)^[n] o).d = o.d ∧
      ((envelope envReset)^[n] o).r = o.r := by
    intro n
    induction n with
    | zero => exact ⟨he0, he1, hst, rfl, rfl, rfl, rfl, rfl⟩
    | succ n ih =>
      obtain ⟨b1, b2, b3, b4, b5, b6, b7, b8⟩ := ih
      rw [Function.iterate_succ_apply']
      obtain ⟨c1, c2, c3, c4, c5, c6, c7, c8⟩ :=
        envelope_bounds envReset ((envelope envReset)^[n] o) (by rw [b4]; exact hs0)
          (by rw [b4]; exact hs1) (by rw [b5]; exact hi0) (by rw [b5]; exact hi1)
          (by rw [b6]; exact ha) (by rw [b7]; exact hd0) (by rw [b7]; exact hd1)
          (by rw [b8]; exact hr) b1 b2 b3
      exact ⟨c1, c2, c3, c4.trans b4, c5.trans b5, c6.trans b6, c7.trans b7, c8.trans b8⟩
  intro n
  exact ⟨(key n).1, (key n).2.1, (key n).2.2.1⟩

/-- Witness for C34: the operator of `noteOnOperator` with delay 3 and hold 5,
followed over four control ticks. -/
theorem envelope_invariant_witness :
    (0 ≤ (noteOnOperator 3 5).s ∧ (noteOnOperator 3 5).s ≤ 1 ∧ 0 < (noteOnOperator 3 5).r ∧
      (noteOnOperator 3 5).state ≤ 6) ∧
    0 ≤ ((envelope false)^[4] (noteOnOperator 3 5)).env ∧
    ((envelope false)^[4] (noteOnOperator 3 5)).env ≤ 1 ∧
    ((envelope false)^[4] (noteOnOperator 3 5)).state ≤ 6 :=
  ⟨⟨by decide!, by decide!, by decide!, by decide⟩,
    (envelope_invariant false (noteOnOperator 3 5) (by decide!) (by decide!) (by decide!)
      (by decide!) (by decide!) (by decide!) (by decide!) (by decide!) (by decide!) (by decide!)
      (by decide)).2 4⟩

theorem clamp_idem (x lo hi : Int) (h : lo ≤ hi) : clamp (clamp x lo hi) lo hi = clamp x lo hi := by
  unfold clamp
  split_ifs <;> omega

theorem clamp_fixed (x lo hi : Int) (h1 : lo ≤ x) (h2 : x ≤ hi) : clamp x lo hi = x := by
  unfold clamp
  split_ifs <;> omega

theorem slotHead_range (hi : Int) (op : Nat) (g : Nat → Int) (h : -1 ≤ hi) :
    -1 ≤ slotHead hi op g ∧ slotHead hi op g ≤ hi := by
  unfold slotHead
  have := clamp_range (g op) (-1) hi h
  split_ifs <;> omega

theorem slot_range (hi : Int) (h : -1 ≤ hi) (g : Nat → Int) (n : Nat) :
    ∀ a, a < n → -1 ≤ forLoop n (slotStep hi) g a ∧ forLoop n (slotStep hi) g a ≤ hi := by
  induction n with
  | zero => intro a ha; omega
  | succ n ih =>
    intro a ha
    rw [forLoop_succ]
    generalize forLoop n (slotStep hi) g = s at ih
    unfold slotStep
    by_cases han : a = n
    · subst han
      rw [if_pos rfl]
      exact slotHead_range hi a s h
    · rw [if_neg han]
      split_ifs
      · omega
      · exact ih a (by omega)

theorem slotStep_far (hi : Int) (op : Nat) (g : Nat → Int) (k : Nat) (h6 : 6 ≤ k)
    (hop : op < 6) : slotStep hi op g k = g k := by
  unfold slotStep
  rw [if_neg (by omega), if_neg (by omega)]

theorem slotLoop_far (hi : Int) (g : Nat → Int) (n : Nat) (hn : n ≤ 6) (k : Nat) (h6 : 6 ≤ k) :
    forLoop n (slotStep hi) g k = g k := by
  induction n with
  | zero => rfl
  | succ n ih =>
    rw [forLoop_succ, slotStep_far hi n _ k h6 (by omega)]
    exact ih (by omega)

theorem slotStep_clean (hi : Int) (op : Nat) (hop : op < 6) (s : Nat → Int)
    (hr : ∀ a, a < 6 → -1 ≤ s a ∧ s a ≤ hi)
    (hself : ∀ a, a < 6 → s a ≠ (a : Int))
    (hmut : ∀ a b, a < 6 → b < 6 → a ≠ b → ¬ (s a = (b : Int) ∧ s b = (a : Int))) :
    slotStep hi op s = s := by
  have hh : slotHead hi op s = s op := by
    unfold slotHead
    rw [clamp_fixed _ _ _ (hr op hop).1 (hr op hop).2, if_neg (hself op hop)]
  funext k
  unfold slotStep
  rw [hh]
  by_cases hk : k = op
  · rw [if_pos hk, hk]
  · rw [if_neg hk]
    by_cases hc : k < 6 ∧ s op = (k : Int) ∧ s k = (op : Int)
    · exact absurd ⟨hc.2.1, hc.2.2⟩ (hmut op k hop hc.1 (fun e => hk e.symm))
    · rw [if_neg hc]

theorem slotLoop_clean (hi : Int) (s : Nat → Int)
    (hr : ∀ a, a < 6 → -1 ≤ s a ∧ s a ≤ hi)
    (hself : ∀ a, a < 6 → s a ≠ (a : Int))
    (hmut : ∀ a b, a < 6 → b < 6 → a ≠ b → ¬ (s a = (b : Int) ∧ s b = (a : Int)))
    (n : Nat) (hn : n ≤ 6) : forLoop n (slotStep hi) s = s := by
  induction n with
  | zero => rfl
  | succ n ih =>
    rw [forLoop_succ, ih (by omega)]
    exact slotStep_clean hi n (by omega) s hr hself hmut

theorem slotLoop_idem (hi : Int) (h : -1 ≤ hi) (g : Nat → Int) :
    forLoop 6 (slotStep hi) (forLoop 6 (slotStep hi) g) = forLoop 6 (slotStep hi) g :=
  slotLoop_clean hi _ (slot_range hi h g 6) (slot_noSelf hi g 6)
    (slot_noMutual hi g 6 (le_refl 6)) 6 (le_refl 6)

theorem op_ext (a b : fm_instrument_operator) (h : opCore a = opCore b)
    (h1 : a.connect = b.connect) (h2 : a.connect2 = b.connect2)
    (h3 : a.connectOut = b.connectOut) : a = b := by
  cases a
  cases b
  unfold opCore at h
  simp only [fm_instrument_operator.mk.injEq] at h ⊢
  simp only [] at h1 h2 h3
  obtain ⟨e1, e2, e3, e4, _, _, _, e8⟩ := h
  exact ⟨e1, e2, e3, e4, h3, h1, h2, e8⟩

theorem instr_ext (x y : fm_instrument) (h : headCore x = headCore y) (ho : x.op = y.op) :
    x = y := by
  cases x
  cases y
  unfold headCore at h
  simp only [fm_instrument.mk.injEq] at h ⊢
  simp only [] at ho
  obtain ⟨e1, e2, e3, e4, e5, e6, e7, e8, e9, e10, e11, e12, e13, e14, e15, e16, e17, e18, e19,
    e20, _⟩ := h
  exact ⟨e1, e2, e3, e4, e5, e6, e7, e8, e9, e10, e11, e12, e13, e14, e15, e16, e17, e18, e19,
    e20, ho⟩

theorem breakMutual_core (op op2 : Nat) (i : fm_instrument) (k : Nat) :
    opCore ((breakMutual op op2 i).op k) = opCore (i.op k) := by
  unfold breakMutual
  by_cases hk : k = op2
  · subst hk
    split_ifs <;> simp [setOp_op, opCore] <;> split_ifs <;> simp [setOp_op]
  · split_ifs <;> simp [setOp_op, hk, opCore] <;> split_ifs <;> simp [setOp_op, hk]

theorem breakMutual_far (op op2 : Nat) (i : fm_instrument) (k : Nat) (hk : k ≠ op2) :
    (breakMutual op op2 i).op k = i.op k := by
  unfold breakMutual
  split_ifs <;> simp [setOp_op, hk] <;> split_ifs <;> simp [setOp_op, hk]

theorem breakMutual_headCore (op op2 : Nat) (i : fm_instrument) :
    headCore (breakMutual op op2 i) = headCore i := by
  unfold breakMutual
  simp only []
  split_ifs <;> rfl

theorem inner_core (op : Nat) (i : fm_instrument) (n k : Nat) :
    opCore ((forLoop n (breakMutual op) i).op k) = opCore (i.op k) := by
  induction n with
  | zero => simp [forLoop]
  | succ n ih => rw [forLoop_succ, breakMutual_core, ih]

theorem inner_far (op : Nat) (i : fm_instrument) (n k : Nat) (hk : n ≤ k) :
    (forLoop n (breakMutual op) i).op k = i.op k := by
  induction n with
  | zero => simp [forLoop]
  | succ n ih => rw [forLoop_succ, breakMutual_far _ _ _ _ (by omega), ih (by omega)]

theorem inner_headCore (op : Nat) (i : fm_instrument) (n : Nat) :
    headCore (forLoop n (breakMutual op) i) = headCore i := by
  induction n with
  | zero => simp [forLoop]
  | succ n ih => rw [forLoop_succ, breakMutual_headCore, ih]

theorem recoverOp_core (op : Nat) (st : fm_instrument × Nat) (k : Nat) :
    opCore ((recoverOp op st).1.op k) =
      if k = op then opCore (recoverOpFields (st.1.op op)) else opCore (st.1.op k) := by
  unfold recoverOp
  simp only [inner_core]
  by_cases hk : k = op
  · subst hk
    split_ifs <;> simp_all [setOp_op, opCore]
  · split_ifs <;> simp_all [setOp_op, opCore]

theorem recoverOp_far (op : Nat) (st : fm_instrument × Nat) (k : Nat) (h6 : 6 ≤ k)
    (hop : op < 6) : (recoverOp op st).1.op k = st.1.op k := by
  unfold recoverOp
  simp only [inner_far _ _ 6 k h6]
  have hk : k ≠ op := by omega
  split_ifs <;> simp_all [setOp_op]

theorem recoverOp_headCore (op : Nat) (st : fm_instrument × Nat) :
    headCore (recoverOp op st).1 = headCore st.1 := by
  unfold recoverOp
  simp only [inner_headCore]
  split_ifs <;> rfl

theorem recoverOpFields_core (o o2 : fm_instrument_operator) (h : opCore o = opCore o2) :
    opCore (recoverOpFields o) = opCore (recoverOpFields o2) := by
  cases o
  cases o2
  unfold opCore at h
  simp only [fm_instrument_operator.mk.injEq] at h
  unfold opCore recoverOpFields
  simp only [fm_instrument_operator.mk.injEq]
  simp_all

theorem recoverOpFields_idem (o : fm_instrument_operator) :
    recoverOpFields (recoverOpFields o) = recoverOpFields o := by
  unfold recoverOpFields
  simp only [fm_instrument_operator.mk.injEq]
  have hm : (if o.fixedFreq ≠ 0 then
        clamp (if o.fixedFreq ≠ 0 then clamp o.mult 0 255 else clamp o.mult 0 40) 0 255
      else clamp (if o.fixedFreq ≠ 0 then clamp o.mult 0 255 else clamp o.mult 0 40) 0 40)
      = (if o.fixedFreq ≠ 0 then clamp o.mult 0 255 else clamp o.mult 0 40) := by
    split_ifs
    · exact clamp_idem _ _ _ (by decide)
    · exact clamp_idem _ _ _ (by decide)
  refine ⟨hm, ?_⟩
  simp only [clamp_idem _ _ _ (show (0 : Int) ≤ 24 by decide),
    clamp_idem _ _ _ (show (-100 : Int) ≤ 100 by decide),
    clamp_idem _ _ _ (show (0 : Int) ≤ 99 by decide),
    clamp_idem _ _ _ (show (-1 : Int) ≤ 5 by decide),
    clamp_idem _ _ _ (show (-1 : Int) ≤ 6 by decide),
    clamp_idem _ _ _ (show (0 : Int) ≤ 70 by decide),
    clamp_idem _ _ _ (show (0 : Int) ≤ 80 by decide),
    clamp_idem _ _ _ (show (-99 : Int) ≤ 99 by decide),
    clamp_idem _ _ _ (show (0 : Int) ≤ 7 by decide),
    clamp_idem _ _ _ (show (0 : Int) ≤ 31 by decide), and_self]

theorem outer_core (n : Nat) (st : fm_instrument × Nat) (k : Nat) :
    opCore ((forLoop n recoverOp st).1.op k) =
      if k < n then opCore (recoverOpFields (st.1.op k)) else opCore (st.1.op k) := by
  induction n generalizing k with
  | zero => simp [forLoop]
  | succ n ih =>
    rw [forLoop_succ, recoverOp_core, ih k]
    by_cases hk : k = n
    · subst hk
      have h := ih k
      rw [if_neg (lt_irrefl k)] at h
      rw [if_pos rfl, if_pos (Nat.lt_succ_self k)]
      exact recoverOpFields_core _ _ h
    · have : k < n + 1 ↔ k < n := by omega
      simp [hk, this]

theorem outer_far (n : Nat) (hn : n ≤ 6) (st : fm_instrument × Nat) (k : Nat) (h6 : 6 ≤ k) :
    (forLoop n recoverOp st).1.op k = st.1.op k := by
  induction n with
  | zero => rfl
  | succ n ih => rw [forLoop_succ, recoverOp_far n _ k h6 (by omega), ih (by omega)]

theorem outer_headCore (n : Nat) (st : fm_instrument × Nat) :
    headCore (forLoop n recoverOp st).1 = headCore st.1 := by
  induction n with
  | zero => simp [forLoop]
  | succ n ih => rw [forLoop_succ, recoverOp_headCore, ih]

theorem identityOut_headCore (i : fm_instrument) : headCore (identityOut i) = headCore i := by
  have h : ∀ n, headCore (forLoop n
      (fun k x => setOp x k { x.op k with connectOut := (k : Int) }) i) = headCore i := by
    intro n
    induction n with
    | zero => rfl
    | succ n ih => rw [forLoop_succ]; exact ih
  exact h 6

theorem recoverToMix_eq (i : fm_instrument) :
    recoverToMix i =
      { i with toMix := fun j => if j < 4 then clamp (i.toMix j) (-1) 5 else i.toMix j } := by
  have h : ∀ n, forLoop n (fun j x =>
      ({ x with toMix := Function.update x.toMix j (clamp (x.toMix j) (-1) 5) } : fm_instrument)) i
      = { i with toMix := fun j => if j < n then clamp (i.toMix j) (-1) 5 else i.toMix j } := by
    intro n
    induction n with
    | zero => simp [forLoop]
    | succ n ih =>
      rw [forLoop_succ, ih]
      simp only [fm_instrument.mk.injEq, true_and, and_true, lt_irrefl, if_false]
      funext j
      by_cases hj : j = n
      · subst hj
        simp
      · have : j < n + 1 ↔ j < n := by omega
        simp [Function.update_noteq hj, this]
  exact h 4

theorem recovery_headCore (i : fm_instrument) :
    headCore (mt_instrumentRecovery i) = headClamped i := by
  have e : headCore (recoverToMix (recoverHeader i)) = headClamped i := by
    rw [recoverToMix_eq]
    rfl
  unfold mt_instrumentRecovery
  simp only []
  split_ifs with h
  · rw [identityOut_headCore, outer_headCore, e]
  · rw [outer_headCore, e]

theorem recovery_core (i : fm_instrument) (k : Nat) (hk : k < 6) :
    opCore ((mt_instrumentRecovery i).op k) = opCore (recoverOpFields (i.op k)) := by
  have e := outer_core 6 (recoverToMix (recoverHeader i), 0) k
  rw [if_pos hk] at e
  simp only [recoverToMix_op, recoverHeader_op] at e
  unfold mt_instrumentRecovery
  simp only []
  split_ifs with h
  · rw [identityOut_op, if_pos hk, ← e]
    rfl
  · exact e

theorem recovery_far (i : fm_instrument) (k : Nat) (h6 : 6 ≤ k) :
    (mt_instrumentRecovery i).op k = i.op k := by
  have e := outer_far 6 (le_refl 6) (recoverToMix (recoverHeader i), 0) k h6
  simp only [recoverToMix_op, recoverHeader_op] at e
  unfold mt_instrumentRecovery
  simp only []
  split_ifs with h
  · rw [identityOut_op, if_neg (by omega), e]
  · exact e

theorem headClamped_core (i : fm_instrument) : headClamped i = headClamped (headCore i) := rfl

theorem headClamped_idem (i : fm_instrument) : headClamped (headClamped i) = headClamped i := by
  unfold headClamped
  simp only [fm_instrument.mk.injEq, true_and, and_true,
    clamp_idem _ _ _ (show (0 : Int) ≤ 19 by decide),
    clamp_idem _ _ _ (show (0 : Int) ≤ 99 by decide),
    clamp_idem _ _ _ (show (0 : Int) ≤ 5 by decide),
    clamp_idem _ _ _ (show (-12 : Int) ≤ 12 by decide),
    clamp_idem _ _ _ (show (-100 : Int) ≤ 100 by decide)]
  funext j
  split_ifs
  · exact clamp_idem _ _ _ (by decide)
  · rfl

theorem recovery_connectOut_again (x : fm_instrument) (k : Nat) (hk : k < 6) :
    ((mt_instrumentRecovery (mt_instrumentRecovery x)).op k).connectOut
      = ((mt_instrumentRecovery x).op k).connectOut := by
  rw [recovery_connectOut (mt_instrumentRecovery x) k hk]
  have hnot : ¬ ∀ j, j < 6 → ((mt_instrumentRecovery x).op j).connectOut < 0 := by
    intro hall
    by_cases hx : ∀ j, j < 6 → (x.op j).connectOut < 0
    · have h0 := hall 0 (by decide)
      rw [recovery_connectOut x 0 (by decide), if_pos hx] at h0
      omega
    · obtain ⟨j, hj⟩ := not_forall.mp hx
      obtain ⟨hj6, hjn⟩ := Classical.not_imp.mp hj
      have h1 := hall j hj6
      rw [recovery_connectOut x j hj6, if_neg hx] at h1
      have h2 := (clamp_nonneg_iff (x.op j).connectOut 5 (by decide)).mpr (by omega)
      omega
  rw [if_neg hnot]
  apply clamp_fixed
  · rw [recovery_connectOut x k hk]
    split_ifs
    · omega
    · exact (clamp_range _ (-1) 5 (by decide)).1
  · rw [recovery_connectOut x k hk]
    split_ifs
    · omega
    · exact (clamp_range _ (-1) 5 (by decide)).2

/-- C33: `mt_instrumentRecovery` is idempotent: for every instrument `x`,
whatever its field values, applying the recovery to the recovered instrument
gives the recovered instrument again. -/
theorem recovery_idempotent (x : fm_instrument) :
    mt_instrumentRecovery (mt_instrumentRecovery x) = mt_instrumentRecovery x := by
  apply instr_ext
  · rw [recovery_headCore (mt_instrumentRecovery x), recovery_headCore x]
    rw [headClamped_core (mt_instrumentRecovery x), recovery_headCore x, headClamped_idem]
  · funext k
    by_cases hk : k < 6
    · apply op_ext
      · rw [recovery_core (mt_instrumentRecovery x) k hk]
        have c := recovery_core x k hk
        rw [recoverOpFields_core _ _ c, recoverOpFields_idem, c]
      · rw [recovery_connect (mt_instrumentRecovery x) k]
        have e : (fun j => ((mt_instrumentRecovery x).op j).connect)
            = forLoop 6 (slotStep 5) (fun j => (x.op j).connect) := by
          funext j
          exact recovery_connect x j
        rw [e, slotLoop_idem 5 (by decide), recovery_connect x k]
      · rw [recovery_connect2 (mt_instrumentRecovery x) k]
        have e : (fun j => ((mt_instrumentRecovery x).op j).connect2)
            = forLoop 6 (slotStep 6) (fun j => (x.op j).connect2) := by
          funext j
          exact recovery_connect2 x j
        rw [e, slotLoop_idem 6 (by decide), recovery_connect2 x k]
      · exact recovery_connectOut_again x k hk
    · exact recovery_far (mt_instrumentRecovery x) k (by omega)

theorem rowSum_lt (f : Nat → ℚ) (n : Nat) (hf : ∀ k, k < n → 0 < f k) :
    ∀ a b, a < b → b ≤ n → ∑ k in Finset.range a, f k < ∑ k in Finset.range b, f k := by
  intro a b
  induction b with
  | zero => intro h; omega
  | succ b ih =>
    intro hab hb
    rw [Finset.sum_range_succ]
    have hp := hf b (by omega)
    by_cases e : a = b
    · subst e
      linarith
    · have := ih (by omega) (by omega)
      linarith

theorem rowSum_nonneg (f : Nat → ℚ) (n : Nat) (hf : ∀ k, k < n → 0 < f k) :
    ∀ a, a ≤ n → 0 ≤ ∑ k in Finset.range a, f k := by
  intro a ha
  apply Finset.sum_nonneg
  intro k hk
  rw [Finset.mem_range] at hk
  exact le_of_lt (hf k (by omega))

theorem elapsedOrders_mono (mt : mtsynth) (T : StateTable)
    (hd : ∀ o j, o < mt.patternCount → j < mt.patternSize o → 0 < rowDuration mt T o j) :
    ∀ a b, a ≤ b → b ≤ mt.patternCount → elapsedOrders mt T a ≤ elapsedOrders mt T b := by
  intro a b
  induction b with
  | zero =>
    intro h _
    have : a = 0 := by omega
    rw [this]
  | succ b ih =>
    intro hab hb
    by_cases e : a = b + 1
    · rw [e]
    · have h1 := ih (by omega) (by omega)
      rw [elapsedOrders_succ]
      unfold elapsedBefore
      have h2 := rowSum_nonneg (rowDuration mt T b) (mt.patternSize b)
        (fun k hk => hd b k (by omega) hk) (mt.patternSize b) (le_refl _)
      linarith

theorem elapsedBefore_lt (mt : mtsynth) (T : StateTable)
    (hd : ∀ o j, o < mt.patternCount → j < mt.patternSize o → 0 < rowDuration mt T o j)
    (o1 j1 o2 j2 : Nat) (ho1 : o1 < mt.patternCount) (hj1 : j1 < mt.patternSize o1)
    (ho2 : o2 < mt.patternCount) (hj2 : j2 < mt.patternSize o2)
    (hb : rowBefore o1 j1 o2 j2) :
    elapsedBefore mt T o1 j1 < elapsedBefore mt T o2 j2 := by
  rcases hb with h | ⟨h, hj⟩
  · have s1 := rowSum_lt (rowDuration mt T o1) (mt.patternSize o1)
      (fun k hk => hd o1 k ho1 hk) j1 (mt.patternSize o1) hj1 (le_refl _)
    have s2 := elapsedOrders_mono mt T hd (o1 + 1) o2 (by omega) (by omega)
    rw [elapsedOrders_succ] at s2
    have s3 := rowSum_nonneg (rowDuration mt T o2) (mt.patternSize o2)
      (fun k hk => hd o2 k ho2 hk) j2 (by omega)
    unfold elapsedBefore at s2 ⊢
    linarith
  · subst h
    have s1 := rowSum_lt (rowDuration mt T o1) (mt.patternSize o1)
      (fun k hk => hd o1 k ho1 hk) j1 j2 hj (by omega)
    unfold elapsedBefore
    linarith

theorem builtTable_time_lt (mt : mtsynth) (cs : StateTable)
    (hT : 1 ≤ mt.initial_tempo) (hD : 1 ≤ mt.diviseur)
    (hsize : ∀ o, o < mt.patternCount → 1 ≤ mt.patternSize o)
    (o1 j1 o2 j2 : Nat) (ho1 : o1 < mt.patternCount) (hj1 : j1 < mt.patternSize o1)
    (ho2 : o2 < mt.patternCount) (hj2 : j2 < mt.patternSize o2)
    (hb : rowBefore o1 j1 o2 j2) :
    (mt_buildStateTable mt cs 0 mt.patternCount 0 FM_ch o1 j1).time
      < (mt_buildStateTable mt cs 0 mt.patternCount 0 FM_ch o2 j2).time := by
  rw [buildStateTable_full, orderLoop_time mt 0 FM_ch _ cs hsize o1 j1 ho1 hj1,
    orderLoop_time mt 0 FM_ch _ cs hsize o2 j2 ho2 hj2]
  apply elapsedBefore_lt mt _ _ o1 j1 o2 j2 ho1 hj1 ho2 hj2 hb
  intro o j ho hj
  unfold rowDuration
  have hp := orderLoop_tempo_pos mt 0 FM_ch mt.patternCount cs hT hsize o ho j hj
  apply div_pos (by norm_num)
  have : 1 ≤ (forLoop mt.patternCount (stateOrder mt 0 FM_ch) cs o j).tempo * mt.diviseur :=
    Nat.one_le_iff_ne_zero.mpr (Nat.mul_ne_zero (by omega) (by omega))
  exact_mod_cast this

theorem scanRows_some (cs : StateTable) (t : Int) (i n : Nat) (x : Nat × Nat) :
    forLoop n (scanStep cs t i) (some x) = some x := by
  induction n with
  | zero => rfl
  | succ n ih =>
    rw [forLoop_succ, ih]
    rfl

theorem scanRows_none (cs : StateTable) (t : Int) (i n : Nat) :
    (forLoop n (scanStep cs t i) none = none ∧ ∀ j, j < n → (cs i j).time < (t : ℚ)) ∨
    (∃ j, j < n ∧ forLoop n (scanStep cs t i) none = some (i, j) ∧ (cs i j).time ≥ (t : ℚ) ∧
      ∀ k, k < j → (cs i k).time < (t : ℚ)) := by
  induction n with
  | zero => exact Or.inl ⟨rfl, fun j hj => absurd hj (Nat.not_lt_zero j)⟩
  | succ n ih =>
    rw [forLoop_succ]
    rcases ih with ⟨e, hall⟩ | ⟨j, hj, e, hge, hlt⟩
    · rw [e]
      by_cases hc : (cs i n).time ≥ (t : ℚ)
      · right
        refine ⟨n, Nat.lt_succ_self n, ?_, hc, hall⟩
        show (if (cs i n).time ≥ (t : ℚ) then some (i, n) else none) = _
        rw [if_pos hc]
      · left
        refine ⟨?_, ?_⟩
        · show (if (cs i n).time ≥ (t : ℚ) then some (i, n) else none) = _
          rw [if_neg hc]
        · intro k hk
          by_cases e2 : k = n
          · rw [e2]
            exact not_le.mp hc
          · exact hall k (by omega)
    · right
      refine ⟨j, by omega, ?_, hge, hlt⟩
      rw [e]
      rfl

theorem seek_spec (mt : mtsynth) (cs : StateTable) (t : Int) (m : Nat) :
    (forLoop m (scanOrder mt cs t) none = none ∧
      ∀ i j, i < m → j < mt.patternSize i → (cs i j).time < (t : ℚ)) ∨
    (∃ i j, i < m ∧ j < mt.patternSize i ∧ forLoop m (scanOrder mt cs t) none = some (i, j) ∧
      (cs i j).time ≥ (t : ℚ) ∧
      ∀ a b, b < mt.patternSize a → rowBefore a b i j → (cs a b).time < (t : ℚ)) := by
  induction m with
  | zero => exact Or.inl ⟨rfl, fun i j hi => absurd hi (Nat.not_lt_zero i)⟩
  | succ m ih =>
    rw [forLoop_succ]
    rcases ih with ⟨e, hall⟩ | ⟨i, j, hi, hj, e, hge, hlt⟩
    · rw [e]
      unfold scanOrder
      rcases scanRows_none cs t m (mt.patternSize m) with ⟨e2, h2⟩ | ⟨j, hj, e2, hge, hlt⟩
      · left
        refine ⟨e2, ?_⟩
        intro a b ha hb
        by_cases ea : a = m
        · subst ea
          exact h2 b hb
        · exact hall a b (by omega) hb
      · right
        refine ⟨m, j, Nat.lt_succ_self m, hj, e2, hge, ?_⟩
        intro a b hb hbef
        rcases hbef with h | ⟨h, hjb⟩
        · exact hall a b h hb
        · subst h
          exact hlt b hjb
    · right
      refine ⟨i, j, by omega, hj, ?_, hge, hlt⟩
      rw [e]
      unfold scanOrder
      exact scanRows_some cs t m _ _

theorem setPosition_inside (u : Bool) (outside : Int → Int) (cs : StateTable) (mt : mtsynth)
    (i j : Nat) (hc : mt.patternCount ≤ 2147483647) (hi : i < mt.patternCount)
    (hj : j < mt.patternSize i) (hm : mt.patternSize i ≤ 2147483647) :
    (mt_setPosition u outside cs mt (i : Int) (j : Int)).1.order = i ∧
    (mt_setPosition u outside cs mt (i : Int) (j : Int)).1.row = j := by
  obtain ⟨a, b, _⟩ := setPosition_fields u outside cs mt (i : Int) (j : Int)
  have h1 := (clampOrder_range u (i : Int) mt.patternCount (by omega) (by omega)
    ⟨by omega, by omega⟩).2.2 (by omega) (by omega)
  have h2 : sizeRead mt outside (i : Int) = (mt.patternSize i : Int) := by
    rw [sizeRead_inside mt outside (i : Int) (by omega) (by omega)]
    simp
  rw [a, b, h1, h2, clamp_fixed _ _ _ (by omega) (by omega)]
  constructor <;> omega

/-- C36: after a full `mt_buildStateTable` of a song with at least one pattern,
every pattern of at least one row, initial tempo and divisor at least 1 (the
counts within the range of an `int`), the time entries are strictly increasing
along playback order; `mt_setTime(t)` then sets the position to a row whose
start time is at least `t` and not above the start time of any other such row,
every row before it in playback order starting before `t`; and when no row
starts at or after `t`, to the last row of the last pattern. -/
theorem setTime_seeks (u : Bool) (outside : Int → Int) (cs : StateTable) (mt : mtsynth)
    (t : Int) (hc : 1 ≤ mt.patternCount) (hcm : mt.patternCount ≤ 2147483647)
    (hT : 1 ≤ mt.initial_tempo) (hD : 1 ≤ mt.diviseur)
    (hsize : ∀ o, o < mt.patternCount → 1 ≤ mt.patternSize o)
    (hmax : ∀ o, o < mt.patternCount → mt.patternSize o ≤ 2147483647) :
    (∀ o1 j1 o2 j2, o1 < mt.patternCount → j1 < mt.patternSize o1 → o2 < mt.patternCount →
      j2 < mt.patternSize o2 → rowBefore o1 j1 o2 j2 →
      (mt_buildStateTable mt cs 0 mt.patternCount 0 FM_ch o1 j1).time
        < (mt_buildStateTable mt cs 0 mt.patternCount 0 FM_ch o2 j2).time) ∧
    (∀ i j, seekTarget mt (mt_buildStateTable mt cs 0 mt.patternCount 0 FM_ch) t = some (i, j) →
      i < mt.patternCount ∧ j < mt.patternSize i ∧
      (mt_buildStateTable mt cs 0 mt.patternCount 0 FM_ch i j).time ≥ (t : ℚ) ∧
      (∀ a b, a < mt.patternCount → b < mt.patternSize a →
        (mt_buildStateTable mt cs 0 mt.patternCount 0 FM_ch a b).time ≥ (t : ℚ) →
        (mt_buildStateTable mt cs 0 mt.patternCount 0 FM_ch i j).time
          ≤ (mt_buildStateTable mt cs 0 mt.patternCount 0 FM_ch a b).time) ∧
      (∀ a b, b < mt.patternSize a → rowBefore a b i j →
        (mt_buildStateTable mt cs 0 mt.patternCount 0 FM_ch a b).time < (t : ℚ)) ∧
      (mt_setTime u outside (mt_buildStateTable mt cs 0 mt.patternCount 0 FM_ch) mt t).1.order = i ∧
      (mt_setTime u outside (mt_buildStateTable mt cs 0 mt.patternCount 0 FM_ch) mt t).1.row = j) ∧
    (seekTarget mt (mt_buildStateTable mt cs 0 mt.patternCount 0 FM_ch) t = none →
      (∀ a b, a < mt.patternCount → b < mt.patternSize a →
        (mt_buildStateTable mt cs 0 mt.patternCount 0 FM_ch a b).time < (t : ℚ)) ∧
      (mt_setTime u outside (mt_buildStateTable mt cs 0 mt.patternCount 0 FM_ch) mt t).1.order
        = mt.patternCount - 1 ∧
      (mt_setTime u outside (mt_buildStateTable mt cs 0 mt.patternCount 0 FM_ch) mt t).1.row
        = mt.patternSize (mt.patternCount - 1) - 1) := by
  have hmono := builtTable_time_lt mt cs hT hD hsize
  generalize mt_buildStateTable mt cs 0 mt.patternCount 0 FM_ch = T at hmono ⊢
  have hspec := seek_spec mt T t mt.patternCount
  refine ⟨hmono, ?_, ?_⟩
  · intro i j hsome
    have hs2 : forLoop mt.patternCount (scanOrder mt T t) none = some (i, j) := hsome
    rcases hspec with ⟨e, _⟩ | ⟨i2, j2, hi, hj, e, hge, hlt⟩
    · rw [e] at hs2
      exact Option.noConfusion hs2
    · rw [e] at hs2
      have hp : (i2, j2) = (i, j) := Option.some.inj hs2
      obtain ⟨rfl, rfl⟩ := Prod.mk.inj hp
      refine ⟨hi, hj, hge, ?_, hlt, ?_⟩
      · intro a b ha hb hab
        by_cases hbef : rowBefore a b i2 j2
        · exact absurd hab (not_le.mpr (hlt a b hb hbef))
        · by_cases heq : a = i2 ∧ b = j2
          · rw [heq.1, heq.2]
          · have h3 : rowBefore i2 j2 a b := by
              unfold rowBefore at hbef ⊢
              omega
            exact le_of_lt (hmono i2 j2 a b hi hj ha hb h3)
      · unfold mt_setTime
        rw [hsome]
        exact setPosition_inside u outside T mt i2 j2 hcm hi hj (hmax i2 hi)
  · intro hnone
    have hs2 : forLoop mt.patternCount (scanOrder mt T t) none = none := hnone
    rcases hspec with ⟨_, hall⟩ | ⟨i2, j2, _, _, e, _, _⟩
    · refine ⟨hall, ?_⟩
      unfold mt_setTime
      rw [hnone]
      have hl : mt.patternCount - 1 < mt.patternCount := by omega
      have h1 := hsize _ hl
      have h := setPosition_inside u outside T mt (mt.patternCount - 1)
        (mt.patternSize (mt.patternCount - 1) - 1) hcm hl (by omega) (hmax _ hl)
      have c1 : (((mt.patternCount - 1 : Nat)) : Int) = (mt.patternCount : Int) - 1 := by omega
      have c2 : (((mt.patternSize (mt.patternCount - 1) - 1 : Nat)) : Int)
          = (mt.patternSize (mt.patternCount - 1) : Int) - 1 := by omega
      rw [c1, c2] at h
      exact h
    · rw [e] at hs2
      exact Option.noConfusion hs2

/-- Witness for C36 on the demo song: a seek to time 0 in its state table
finds row (0, 0), and the engine is positioned there. -/
theorem setTime_seeks_witness :
    (1 ≤ demoSong.patternCount ∧ 1 ≤ demoSong.initial_tempo ∧ 1 ≤ demoSong.diviseur ∧
      seekTarget demoSong
        (mt_buildStateTable demoSong zeroTable 0 demoSong.patternCount 0 FM_ch) 0 = some (0, 0)) ∧
    (mt_setTime false (fun _ => 0)
      (mt_buildStateTable demoSong zeroTable 0 demoSong.patternCount 0 FM_ch) demoSong 0).1.order
      = 0 ∧
    (mt_setTime false (fun _ => 0)
      (mt_buildStateTable demoSong zeroTable 0 demoSong.patternCount 0 FM_ch) demoSong 0).1.row
      = 0 :=
  ⟨⟨by decide, by decide, by decide, by decide!⟩,
    ((setTime_seeks false (fun _ => 0) zeroTable demoSong 0 (by decide) (by decide) (by decide)
      (by decide) (by decide) (by decide)).2.1 0 0 (by decide!)).2.2.2.2.2⟩

theorem srcRow_ge (i count : Nat) (h : count ≤ i) (hi : i < 4294967296) :
    srcRow i count = i - count := by
  unfold srcRow
  omega

theorem srcRow_lt (i count : Nat) (h : i < count) (hc : count ≤ 4294967296) :
    srcRow i count = 4294967296 + i - count := by
  unfold srcRow
  omega

theorem shiftCell_place (count i ch : Nat) (m : mtsynth) :
    (shiftCell count i ch m).order = m.order ∧
    (shiftCell count i ch m).patternCount = m.patternCount ∧
    (shiftCell count i ch m).patternSize = m.patternSize ∧
    ∀ o j c, (shiftCell count i ch m).pattern o j c =
      if o = m.order ∧ j = i ∧ c = ch then m.pattern m.order (srcRow i count) ch
      else m.pattern o j c :=
  ⟨rfl, rfl, rfl, fun _ _ _ => rfl⟩

theorem shiftCells_spec (count i n : Nat) (m : mtsynth) :
    (forLoop n (shiftCell count i) m).order = m.order ∧
    (forLoop n (shiftCell count i) m).patternCount = m.patternCount ∧
    (forLoop n (shiftCell count i) m).patternSize = m.patternSize ∧
    ∀ o j c, (forLoop n (shiftCell count i) m).pattern o j c =
      if o = m.order ∧ j = i ∧ c < n then m.pattern m.order (srcRow i count) c
      else m.pattern o j c := by
  induction n with
  | zero =>
    refine ⟨rfl, rfl, rfl, fun o j c => ?_⟩
    rw [if_neg (by omega)]
    rfl
  | succ n ih =>
    obtain ⟨a1, a2, a3, a4⟩ := ih
    rw [forLoop_succ]
    obtain ⟨b1, b2, b3, b4⟩ := shiftCell_place count i n (forLoop n (shiftCell count i) m)
    refine ⟨b1.trans a1, b2.trans a2, b3.trans a3, fun o j c => ?_⟩
    rw [b4, a1]
    by_cases h : o = m.order ∧ j = i ∧ c = n
    · rw [if_pos h, a4, if_neg (by omega)]
      obtain ⟨h1, h2, h3⟩ := h
      rw [if_pos ⟨h1, h2, by omega⟩, h3]
    · rw [if_neg h, a4]
      by_cases h2 : o = m.order ∧ j = i ∧ c < n
      · rw [if_pos h2, if_pos ⟨h2.1, h2.2.1, by omega⟩]
      · rw [if_neg h2, if_neg (by omega)]

theorem shiftLoop_spec (count top : Nat) (hw : top + count < 4294967296) (m : mtsynth)
    (t : Nat) (ht : t ≤ top + 1) :
    (forLoop t (fun s x => shiftRow count (top - s) x) m).order = m.order ∧
    (forLoop t (fun s x => shiftRow count (top - s) x) m).patternCount = m.patternCount ∧
    (forLoop t (fun s x => shiftRow count (top - s) x) m).patternSize = m.patternSize ∧
    ∀ o j c, (forLoop t (fun s x => shiftRow count (top - s) x) m).pattern o j c =
      if o = m.order ∧ top + 1 - t ≤ j ∧ j ≤ top ∧ c < FM_ch then
        m.pattern m.order (srcRow j count) c
      else m.pattern o j c := by
  induction t with
  | zero =>
    refine ⟨rfl, rfl, rfl, fun o j c => ?_⟩
    rw [if_neg (by omega)]
    rfl
  | succ t ih =>
    obtain ⟨a1, a2, a3, a4⟩ := ih (by omega)
    rw [forLoop_succ]
    generalize forLoop t (fun s x => shiftRow count (top - s) x) m = r at a1 a2 a3 a4
    obtain ⟨b1, b2, b3, b4⟩ := shiftCells_spec count (top - t) FM_ch r
    refine ⟨b1.trans a1, b2.trans a2, b3.trans a3, fun o j c => ?_⟩
    show (forLoop FM_ch (shiftCell count (top - t)) r).pattern o j c = _
    rw [b4, a1]
    by_cases h : o = m.order ∧ j = top - t ∧ c < FM_ch
    · obtain ⟨h1, h2, h3⟩ := h
      rw [if_pos ⟨h1, h2, h3⟩, if_pos ⟨h1, by omega, by omega, h3⟩, h2, a4]
      by_cases hc : count ≤ top - t
      · rw [srcRow_ge _ _ hc (by omega), if_neg (by omega)]
      · rw [srcRow_lt _ _ (by omega) (by omega), if_neg (by omega)]
    · rw [if_neg h, a4]
      by_cases h2 : o = m.order ∧ top + 1 - t ≤ j ∧ j ≤ top ∧ c < FM_ch
      · rw [if_pos h2, if_pos ⟨h2.1, by omega, h2.2.2.1, h2.2.2.2⟩]
      · rw [if_neg h2, if_neg (by omega)]

theorem shiftRows_spec (count top row : Nat) (hw : top + count < 4294967296) (m : mtsynth) :
    (shiftRows count top row m).order = m.order ∧
    (shiftRows count top row m).patternCount = m.patternCount ∧
    (shiftRows count top row m).patternSize = m.patternSize ∧
    ∀ o j c, (shiftRows count top row m).pattern o j c =
      if o = m.order ∧ top + 1 - (top + 1 - row) ≤ j ∧ j ≤ top ∧ c < FM_ch then
        m.pattern m.order (srcRow j count) c
      else m.pattern o j c := by
  unfold shiftRows
  exact shiftLoop_spec count top hw m (top + 1 - row) (by omega)

theorem resize_grow (mt : mtsynth) (P count : Nat) (hP : P < mt.patternCount)
    (h1 : 1 ≤ mt.patternSize P + count) (h2 : mt.patternSize P + count ≤ 256) :
    (mt_resizePattern mt P (mt.patternSize P + count)).order = mt.order ∧
    (mt_resizePattern mt P (mt.patternSize P + count)).patternCount = mt.patternCount ∧
    (mt_resizePattern mt P (mt.patternSize P + count)).patternSize P =
      mt.patternSize P + count ∧
    ∀ o j c, (mt_resizePattern mt P (mt.patternSize P + count)).pattern o j c =
      if o = P ∧ mt.patternSize P ≤ j ∧ j < mt.patternSize P + count then emptyCell
      else mt.pattern o j c := by
  have hc : clampN (mt.patternSize P + count) 1 256 = mt.patternSize P + count := by
    unfold clampN
    split_ifs <;> omega
  refine ⟨?_, (mt_resizePattern_fixed mt P _).2.1, mt_resizePattern_size mt P _ hP h1 h2, ?_⟩
  · unfold mt_resizePattern
    rw [if_neg (by omega), hc]
    show (growClear mt P (mt.patternSize P + count)).order = mt.order
    unfold growClear mt_clearPattern
    split_ifs <;> rfl
  · intro o j c
    unfold mt_resizePattern
    rw [if_neg (by omega), hc]
    show (growClear mt P (mt.patternSize P + count)).pattern o j c = _
    unfold growClear
    by_cases hg : mt.patternSize P + count > mt.patternSize P
    · rw [if_pos hg]
      unfold mt_clearPattern
      rw [if_neg (by omega)]
      show (if o = P ∧ mt.patternSize P ≤ j ∧
          j < mt.patternSize P + (mt.patternSize P + count - mt.patternSize P) then emptyCell
        else mt.pattern o j c) = _
      rw [Nat.add_sub_cancel_left]
    · rw [if_neg hg, if_neg (by omega)]

theorem clearPattern_cells (mt : mtsynth) (P row count : Nat) (hP : P < mt.patternCount)
    (hr : row ≤ 255) (hc : count ≤ 256) (o j c : Nat) :
    (mt_clearPattern mt P row count).pattern o j c =
      if o = P ∧ row ≤ j ∧ j < row + count then emptyCell else mt.pattern o j c := by
  unfold mt_clearPattern
  rw [if_neg (by omega)]

theorem insertRows_eq (mt : mtsynth) (P row count : Nat) (hP : P < mt.patternCount)
    (hrow1 : 1 ≤ row) (hrow : row < mt.patternSize P) (hsz : mt.patternSize P + count ≤ 256) :
    mt_insertRows mt P row count = some (1, insertedRows mt P row count) := by
  have hm : (mt.patternSize P + count) % 4294967296 = mt.patternSize P + count :=
    Nat.mod_eq_of_lt (by omega)
  unfold mt_insertRows
  rw [hm, if_neg (by omega), if_neg (by omega), if_neg (by omega), if_neg (by omega)]
  rfl

theorem insertRows_pre (mt : mtsynth) (P row count v : Nat) (m : mtsynth)
    (hinv : mt.patternSize P ≤ 256) (h : mt_insertRows mt P row count = some (v, m))
    (hv : v ≠ 0) :
    P < mt.patternCount ∧ 1 ≤ row ∧ row < mt.patternSize P ∧ mt.patternSize P + count ≤ 256 := by
  unfold mt_insertRows at h
  by_cases c1 : P ≥ mt.patternCount ∨ row ≥ mt.patternSize P ∨
      (mt.patternSize P + count) % 4294967296 > 256
  · rw [if_pos c1] at h
    injection h with h
    injection h with h3 h4
    exact absurd h3.symm hv
  · rw [if_neg c1] at h
    by_cases c2 : (mt.patternSize P + count) % 4294967296 = 0
    · rw [if_pos c2] at h
      injection h with h
      injection h with h3 h4
      exact absurd h3.symm hv
    · rw [if_neg c2] at h
      by_cases c3 : row = 0
      · rw [if_pos c3] at h
        exact absurd h (by simp)
      · rw [if_neg c3] at h
        by_cases c4 : P ≥ mt.patternCount ∨ row > 255 ∨ count > 256
        · rw [if_pos c4] at h
          injection h with h
          injection h with h3 h4
          exact absurd h3.symm hv
        · have hm : (mt.patternSize P + count) % 4294967296 = mt.patternSize P + count :=
            Nat.mod_eq_of_lt (by omega)
          rw [hm] at c1
          omega

theorem insertedRows_cells (mt : mtsynth) (P row count : Nat) (hP : P < mt.patternCount)
    (hrow1 : 1 ≤ row) (hrow : row < mt.patternSize P) (hsz : mt.patternSize P + count ≤ 256)
    (o j c : Nat) :
    (insertedRows mt P row count).pattern o j c =
      if o = P ∧ row ≤ j ∧ j < row + count then emptyCell
      else if o = mt.order ∧ row ≤ j ∧ j ≤ mt.patternSize P + count - 1 ∧ c < FM_ch then
        (if mt.order = P ∧ mt.patternSize P ≤ srcRow j count ∧
            srcRow j count < mt.patternSize P + count then emptyCell
          else mt.pattern mt.order (srcRow j count) c)
      else if o = P ∧ mt.patternSize P ≤ j ∧ j < mt.patternSize P + count then emptyCell
      else mt.pattern o j c := by
  obtain ⟨r1, r2, r3, r4⟩ := resize_grow mt P count hP (by omega) hsz
  unfold insertedRows
  rw [r3]
  generalize mt_resizePattern mt P (mt.patternSize P + count) = m1 at r1 r2 r3 r4
  obtain ⟨s1, s2, s3, s4⟩ := shiftRows_spec count (mt.patternSize P + count - 1) row (by omega)
    { m1 with channelStatesDone := false }
  rw [clearPattern_cells _ P row count (by rw [s2]; exact r2 ▸ hP) (by omega) (by omega), s4]
  show (if o = P ∧ row ≤ j ∧ j < row + count then emptyCell
    else if o = m1.order ∧ _ ∧ j ≤ mt.patternSize P + count - 1 ∧ c < FM_ch then
      m1.pattern m1.order (srcRow j count) c
    else m1.pattern o j c) = _
  rw [r1, r4, r4]
  by_cases a : o = P ∧ row ≤ j ∧ j < row + count
  · rw [if_pos a, if_pos a]
  · rw [if_neg a, if_neg a]
    by_cases b : o = mt.order ∧ row ≤ j ∧ j ≤ mt.patternSize P + count - 1 ∧ c < FM_ch
    · rw [if_pos b, if_pos ⟨b.1, by omega, b.2.2.1, b.2.2.2⟩]
    · rw [if_neg b, if_neg (by omega)]

/-- Claim C37 (`mt_insertRows`). For a pattern of at most 256 rows: with the
checks of the function passing, a call with `row = 0` never returns and a call
with `row ≥ 1` returns 1. Whenever the call returns 1, rows `row..row+count-1`
of the given pattern are empty; when the current playback order is the given
pattern, no other pattern changes, the rows before `row` are unchanged and every
old row `i ≥ row` is found at row `i + count`; when the current playback order
is another pattern, it is that pattern whose rows `row..size+count-1` are
overwritten (row `j` with its row `j - count` taken modulo 2^32), while the old
rows of the given pattern from `row + count` on stay where they were and the
rows added at its end are empty. -/
theorem insertRows_frame (mt : mtsynth) (P row count : Nat) (hinv : mt.patternSize P ≤ 256) :
    (P < mt.patternCount → row < mt.patternSize P → mt.patternSize P + count ≤ 256 →
      (row = 0 → mt_insertRows mt P row count = none) ∧
      (1 ≤ row → mt_insertRows mt P row count = some (1, insertedRows mt P row count))) ∧
    (∀ m, mt_insertRows mt P row count = some (1, m) →
      (∀ j ch, row ≤ j → j < row + count → m.pattern P j ch = emptyCell) ∧
      (mt.order = P →
        (∀ o j ch, o ≠ P → m.pattern o j ch = mt.pattern o j ch) ∧
        (∀ j ch, j < row → m.pattern P j ch = mt.pattern P j ch) ∧
        (∀ j ch, ch < FM_ch → row ≤ j → j < mt.patternSize P →
          m.pattern P (j + count) ch = mt.pattern P j ch)) ∧
      (mt.order ≠ P →
        (∀ j ch, ch < FM_ch → row ≤ j → j < mt.patternSize P + count →
          m.pattern mt.order j ch = mt.pattern mt.order (srcRow j count) ch) ∧
        (∀ j ch, row + count ≤ j → j < mt.patternSize P →
          m.pattern P j ch = mt.pattern P j ch) ∧
        (∀ j ch, mt.patternSize P ≤ j → j < mt.patternSize P + count →
          m.pattern P j ch = emptyCell))) := by
  refine ⟨fun hP hrow hsz => ⟨fun h0 => ?_, fun h1 => insertRows_eq mt P row count hP h1 hrow hsz⟩,
    fun m h => ?_⟩
  · have hm : (mt.patternSize P + count) % 4294967296 = mt.patternSize P + count :=
      Nat.mod_eq_of_lt (by omega)
    unfold mt_insertRows
    rw [hm, if_neg (by omega), if_neg (by omega), if_pos h0]
  · obtain ⟨hP, hrow1, hrow, hsz⟩ := insertRows_pre mt P row count 1 m hinv h (by decide)
    have e := insertRows_eq mt P row count hP hrow1 hrow hsz
    rw [h] at e
    injection e with e
    injection e with e1 e2
    subst e2
    have cells := insertedRows_cells mt P row count hP hrow1 hrow hsz
    refine ⟨fun j ch a b => ?_, fun ho => ⟨fun o j ch a => ?_, fun j ch a => ?_,
      fun j ch a b c => ?_⟩, fun ho => ⟨fun j ch a b c => ?_, fun j ch a b => ?_,
      fun j ch a b => ?_⟩⟩
    · rw [cells, if_pos ⟨rfl, a, b⟩]
    · rw [cells, if_neg (fun x => a x.1), if_neg (fun x => a (x.1.trans ho)),
        if_neg (fun x => a x.1)]
    · rw [cells, if_neg (by omega), if_neg (by omega), if_neg (by omega)]
    · rw [cells, if_neg (by omega), if_pos ⟨ho.symm, by omega, by omega, a⟩,
        srcRow_ge _ _ (by omega) (by omega), Nat.add_sub_cancel, if_neg (by omega), ho]
    · rw [cells, if_neg (fun x => ho x.1), if_pos ⟨rfl, b, by omega, a⟩,
        if_neg (fun x => ho x.1)]
    · rw [cells, if_neg (by omega), if_neg (fun x => ho x.1.symm), if_neg (by omega)]
    · by_cases hj : j < row + count
      · rw [cells, if_pos ⟨rfl, by omega, hj⟩]
      · rw [cells, if_neg (by omega), if_neg (fun x => ho x.1.symm), if_pos ⟨rfl, a, b⟩]

/-- Witness for C37: in a song with current order 0 (four rows, notes 0..3)
and a second pattern of two rows (notes 10 and 11), inserting one row at row 1
of pattern 1 returns 1; row 2 of pattern 0 then holds note 1 instead of note 2,
and row 2 of pattern 1 is empty where old row 1 (note 11) was expected. -/
theorem insertRows_frame_witness :
    mt_insertRows numberedSong 1 1 1 = some (1, insertedRows numberedSong 1 1 1) ∧
    ((insertedRows numberedSong 1 1 1).pattern 0 2 0).note = 1 ∧
    (numberedSong.pattern 0 2 0).note = 2 ∧
    (insertedRows numberedSong 1 1 1).pattern 1 2 0 = emptyCell ∧
    (numberedSong.pattern 1 1 0).note = 11 :=
  have T := insertRows_frame numberedSong 1 1 1 (by decide)
  have r := (T.1 (by decide) (by decide) (by decide)).2 (by decide)
  have d := ((T.2 _ r).2.2 (by decide))
  ⟨r, congrArg Cell.note (d.1 2 0 (by decide) (by decide) (by decide)), rfl,
    d.2.2 2 0 (by decide) (by decide), rfl⟩

theorem toUnsigned_pos (x : ℚ) (h : 1 ≤ x) : 1 ≤ toUnsigned x := by
  unfold toUnsigned
  have h1 : (1 : Int) ≤ ⌊x⌋ := Int.le_floor.mpr (by exact_mod_cast h)
  omega

theorem toUnsigned_zero : toUnsigned 0 = 0 := by
  unfold toUnsigned
  simp

theorem initReverb_delays (rv : Reverb) (roomSize : ℚ) :
    reverbDelays (mt_initReverb rv roomSize) =
      [toUnsigned (roomSize * (8 / 5) * 4096 / rv.sampleRateRatio),
       toUnsigned (roomSize * (3 / 2) * 2485 / rv.sampleRateRatio),
       toUnsigned (roomSize * (8 / 5) * 3801 / rv.sampleRateRatio),
       toUnsigned (roomSize * (3 / 2) * 2333 / rv.sampleRateRatio),
       toUnsigned (roomSize * ((3 / 2) * 2508) / rv.sampleRateRatio),
       toUnsigned (roomSize * ((3 / 2) * 1170) / rv.sampleRateRatio)] := rfl

theorem initReverb_positive (rv : Reverb) (hr : rv.sampleRateRatio = 1) (roomSize : ℚ)
    (h : 1 / 160 ≤ roomSize) : ∀ d ∈ reverbDelays (mt_initReverb rv roomSize), 1 ≤ d := by
  intro d hd
  rw [initReverb_delays, hr] at hd
  simp only [List.mem_cons, List.mem_singleton, List.not_mem_nil, or_false] at hd
  rcases hd with e | e | e | e | e | e <;> subst e <;> apply toUnsigned_pos <;> linarith

/-- Claim C38 (reverb delay lengths). At sample rate 48000
(`sampleRateRatio = 1`): for every song-file byte `b` from 1 to 255 the six delay
lengths computed by `mt_initReverb` from the room size `b / 160` are at least 1,
and so are those computed by effect `S` for every effect value above 40; for
the byte `b = 0` all six delay lengths and the buffer size are 0. -/
theorem reverbDelays_positive (rv : Reverb) (hr : rv.sampleRateRatio = 1) :
    (∀ b, 1 ≤ b → b ≤ 255 →
      ∀ d ∈ reverbDelays (mt_initReverb rv (loadedRoomSize b)), 1 ≤ d) ∧
    (∀ fxData, 40 < fxData → ∀ d ∈ reverbDelays (effectS fxData rv), 1 ≤ d) ∧
    (∀ d ∈ reverbDelays (mt_initReverb rv (loadedRoomSize 0)), d = 0) ∧
    (mt_initReverb rv (loadedRoomSize 0)).revBufSize = 0 := by
  refine ⟨fun b h1 h2 => ?_, fun fxData h => ?_, ?_, ?_⟩
  · apply initReverb_positive rv hr
    unfold loadedRoomSize
    have : (1 : ℚ) ≤ (b : ℚ) := by exact_mod_cast h1
    linarith
  · unfold effectS
    rw [if_neg (by omega)]
    apply initReverb_positive rv hr
    have hc := (clamp_range ((fxData : Int) - 40) 1 40 (by decide)).1
    have : (1 : ℚ) ≤ ((clamp ((fxData : Int) - 40) 1 40 : Int) : ℚ) := by exact_mod_cast hc
    linarith
  · intro d hd
    rw [initReverb_delays, hr] at hd
    simp only [loadedRoomSize, Nat.cast_zero, zero_div, zero_mul, toUnsigned_zero,
      List.mem_cons, List.mem_singleton, List.not_mem_nil, or_false, or_self] at hd
    exact hd
  · show toUnsigned _ + toUnsigned _ + toUnsigned _ + toUnsigned _ +
      2 * (toUnsigned _ + toUnsigned _) = 0
    simp only [hr, loadedRoomSize, Nat.cast_zero, zero_div, zero_mul, toUnsigned_zero]

/-- Witness for C38: with the reverb of the demo engine (sample rate 48000),
the room-size byte 0 gives a first comb delay and a buffer size of 0, while the
byte 1 and the effect value 41 give a second allpass delay of at least 1. -/
theorem reverbDelays_positive_witness :
    demoReverb.sampleRateRatio = 1 ∧
    (mt_initReverb demoReverb (loadedRoomSize 0)).reverbMod1 = 0 ∧
    (mt_initReverb demoReverb (loadedRoomSize 0)).revBufSize = 0 ∧
    1 ≤ (mt_initReverb demoReverb (loadedRoomSize 1)).allpassMod2 ∧
    1 ≤ (effectS 41 demoReverb).allpassMod2 :=
  have T := reverbDelays_positive demoReverb rfl
  ⟨rfl, T.2.2.1 _ (List.mem_cons_self _ _), T.2.2.2,
    T.1 1 (by decide) (by decide) _ (by simp [reverbDelays]),
    T.2.1 41 (by decide) _ (by simp [reverbDelays])⟩

theorem initReverb_offsets (rv : Reverb) (roomSize : ℚ) :
    (mt_initReverb rv roomSize).revOffset2 =
      (mt_initReverb rv roomSize).reverbMod1 + (mt_initReverb rv roomSize).reverbMod2 ∧
    (mt_initReverb rv roomSize).revOffset3 =
      (mt_initReverb rv roomSize).revOffset2 + (mt_initReverb rv roomSize).reverbMod3 ∧
    (mt_initReverb rv roomSize).revOffset4 =
      (mt_initReverb rv roomSize).revOffset3 + (mt_initReverb rv roomSize).reverbMod4 ∧
    (mt_initReverb rv roomSize).revOffset5 =
      (mt_initReverb rv roomSize).revOffset4 + (mt_initReverb rv roomSize).allpassMod ∧
    (mt_initReverb rv roomSize).revOffset6 =
      (mt_initReverb rv roomSize).revOffset5 + (mt_initReverb rv roomSize).allpassMod ∧
    (mt_initReverb rv roomSize).revOffset7 =
      (mt_initReverb rv roomSize).revOffset6 + (mt_initReverb rv roomSize).allpassMod2 ∧
    (mt_initReverb rv roomSize).revBufSize =
      (mt_initReverb rv roomSize).revOffset7 + (mt_initReverb rv roomSize).allpassMod2 := by
  refine ⟨rfl, rfl, rfl, rfl, rfl, rfl, ?_⟩
  have a : (mt_initReverb rv roomSize).revBufSize =
      (mt_initReverb rv roomSize).reverbMod1 + (mt_initReverb rv roomSize).reverbMod2 +
        (mt_initReverb rv roomSize).reverbMod3 + (mt_initReverb rv roomSize).reverbMod4 +
        2 * ((mt_initReverb rv roomSize).allpassMod + (mt_initReverb rv roomSize).allpassMod2) :=
    rfl
  have b : (mt_initReverb rv roomSize).revOffset7 =
      (mt_initReverb rv roomSize).reverbMod1 + (mt_initReverb rv roomSize).reverbMod2 +
        (mt_initReverb rv roomSize).reverbMod3 + (mt_initReverb rv roomSize).reverbMod4 +
        (mt_initReverb rv roomSize).allpassMod + (mt_initReverb rv roomSize).allpassMod +
        (mt_initReverb rv roomSize).allpassMod2 := rfl
  rw [a, b]
  omega

theorem toUnsigned_ge (n : Nat) (x : ℚ) (h : (n : ℚ) ≤ x) : n ≤ toUnsigned x := by
  unfold toUnsigned
  have h1 : (n : Int) ≤ ⌊x⌋ := Int.le_floor.mpr (by exact_mod_cast h)
  omega

theorem initReverb_above (rv : Reverb) (hr : rv.sampleRateRatio = 1) (roomSize : ℚ) (n : Nat)
    (h0 : 0 ≤ roomSize) (h : (n : ℚ) ≤ roomSize * 1755) :
    ∀ d ∈ reverbDelays (mt_initReverb rv roomSize), n ≤ d := by
  intro d hd
  rw [initReverb_delays, hr] at hd
  simp only [List.mem_cons, List.mem_singleton, List.not_mem_nil, or_false] at hd
  rcases hd with e | e | e | e | e | e <;> subst e <;> apply toUnsigned_ge <;> linarith

theorem demoPhases_below :
    phasesBelow (setPhases (mt_initReverb demoReverb (11 / 20)) 5 5 5 5 5 5 5 5) := by
  have h := initReverb_above demoReverb rfl (11 / 20) 6 (by norm_num) (by norm_num)
  simp only [reverbDelays, List.mem_cons, List.mem_singleton, List.not_mem_nil, or_false,
    forall_eq_or_imp, forall_eq] at h
  obtain ⟨d1, d2, d3, d4, d5, d6⟩ := h
  exact ⟨d1, d2, d3, d4, d5, d5, d6, d6⟩

theorem sliced_indices (rv : Reverb)
    (o2 : rv.revOffset2 = rv.reverbMod1 + rv.reverbMod2)
    (o3 : rv.revOffset3 = rv.revOffset2 + rv.reverbMod3)
    (o4 : rv.revOffset4 = rv.revOffset3 + rv.reverbMod4)
    (o5 : rv.revOffset5 = rv.revOffset4 + rv.allpassMod)
    (o6 : rv.revOffset6 = rv.revOffset5 + rv.allpassMod)
    (o7 : rv.revOffset7 = rv.revOffset6 + rv.allpassMod2)
    (sz : rv.revBufSize = rv.revOffset7 + rv.allpassMod2)
    (hp : phasesBelow rv) :
    ∀ i ∈ revBufIndices rv, i < rv.revBufSize := by
  obtain ⟨p1, p2, p3, p4, p5, p6, p7, p8⟩ := hp
  have m1 := Nat.mod_lt (rv.reverbPhaseL + 1) (Nat.lt_of_le_of_lt (Nat.zero_le _) p1)
  have m2 := Nat.mod_lt (rv.reverbPhaseL2 + 1) (Nat.lt_of_le_of_lt (Nat.zero_le _) p2)
  have m3 := Nat.mod_lt (rv.reverbPhaseR + 1) (Nat.lt_of_le_of_lt (Nat.zero_le _) p3)
  have m4 := Nat.mod_lt (rv.reverbPhaseR2 + 1) (Nat.lt_of_le_of_lt (Nat.zero_le _) p4)
  intro i hi
  simp only [revBufIndices, combPhases, List.mem_cons, List.mem_singleton, List.not_mem_nil,
    or_false] at hi
  generalize (rv.reverbPhaseL + 1) % rv.reverbMod1 = a1 at m1 hi
  generalize (rv.reverbPhaseL2 + 1) % rv.reverbMod2 = a2 at m2 hi
  generalize (rv.reverbPhaseR + 1) % rv.reverbMod3 = a3 at m3 hi
  generalize (rv.reverbPhaseR2 + 1) % rv.reverbMod4 = a4 at m4 hi
  rcases hi with e | e | e | e | e | e | e | e | e | e | e | e <;> subst e <;> omega

theorem sliced_cover (rv : Reverb)
    (o2 : rv.revOffset2 = rv.reverbMod1 + rv.reverbMod2)
    (o3 : rv.revOffset3 = rv.revOffset2 + rv.reverbMod3)
    (o4 : rv.revOffset4 = rv.revOffset3 + rv.reverbMod4)
    (o5 : rv.revOffset5 = rv.revOffset4 + rv.allpassMod)
    (o6 : rv.revOffset6 = rv.revOffset5 + rv.allpassMod)
    (o7 : rv.revOffset7 = rv.revOffset6 + rv.allpassMod2)
    (sz : rv.revBufSize = rv.revOffset7 + rv.allpassMod2) :
    List.Pairwise (fun a b : Nat × Nat => a.1 + a.2 ≤ b.1) (delayLines rv) ∧
    ∀ i, i < rv.revBufSize ↔ ∃ k ∈ delayLines rv, k.1 ≤ i ∧ i < k.1 + k.2 := by
  constructor
  · simp only [delayLines, List.pairwise_cons, List.mem_cons, List.mem_singleton,
      List.not_mem_nil, or_false, forall_eq_or_imp, forall_eq, List.Pairwise.nil, and_true,
      IsEmpty.forall_iff, implies_true]
    omega
  · intro i
    simp only [delayLines, List.mem_cons, List.mem_singleton, List.not_mem_nil, or_false,
      exists_eq_or_imp, exists_eq_left]
    omega

theorem phaseStep_below (rv : Reverb)
    (hd : ∀ d ∈ reverbDelays rv, 1 ≤ d) : phasesBelow (reverbPhaseStep rv) := by
  simp only [reverbDelays, List.mem_cons, List.mem_singleton, List.not_mem_nil, or_false,
    forall_eq_or_imp, forall_eq] at hd
  obtain ⟨d1, d2, d3, d4, d5, d6⟩ := hd
  exact ⟨Nat.mod_lt _ d1, Nat.mod_lt _ d2, Nat.mod_lt _ d3, Nat.mod_lt _ d4,
    Nat.mod_lt _ d5, Nat.mod_lt _ d5, Nat.mod_lt _ d6, Nat.mod_lt _ d6⟩

/-- Claim C39 (the reverb buffer is sliced into eight delay lines). For a
reverb set up by `mt_initReverb` whose six delay lengths are at least 1, with
phase counters each below its delay length: every index at which one sample of
the render loop reads or writes `revBuf` is below `revBufSize`; the eight delay
lines follow one another without overlap and an index is below `revBufSize`
exactly when it lies in one of them; after the sample each phase counter is
again below its delay length, and delay lines and buffer size are unchanged. -/
theorem reverb_sliced (rv0 : Reverb) (roomSize : ℚ) (pL pL2 pR pR2 aL aR aL2 aR2 : Nat)
    (hd : ∀ d ∈ reverbDelays (mt_initReverb rv0 roomSize), 1 ≤ d)
    (hp : phasesBelow (setPhases (mt_initReverb rv0 roomSize) pL pL2 pR pR2 aL aR aL2 aR2)) :
    (∀ i ∈ revBufIndices (setPhases (mt_initReverb rv0 roomSize) pL pL2 pR pR2 aL aR aL2 aR2),
      i < (mt_initReverb rv0 roomSize).revBufSize) ∧
    List.Pairwise (fun a b : Nat × Nat => a.1 + a.2 ≤ b.1)
      (delayLines (mt_initReverb rv0 roomSize)) ∧
    (∀ i, i < (mt_initReverb rv0 roomSize).revBufSize ↔
      ∃ k ∈ delayLines (mt_initReverb rv0 roomSize), k.1 ≤ i ∧ i < k.1 + k.2) ∧
    phasesBelow
      (reverbPhaseStep (setPhases (mt_initReverb rv0 roomSize) pL pL2 pR pR2 aL aR aL2 aR2)) ∧
    delayLines
        (reverbPhaseStep (setPhases (mt_initReverb rv0 roomSize) pL pL2 pR pR2 aL aR aL2 aR2)) =
      delayLines (mt_initReverb rv0 roomSize) ∧
    (reverbPhaseStep
        (setPhases (mt_initReverb rv0 roomSize) pL pL2 pR pR2 aL aR aL2 aR2)).revBufSize =
      (mt_initReverb rv0 roomSize).revBufSize := by
  obtain ⟨o2, o3, o4, o5, o6, o7, sz⟩ := initReverb_offsets rv0 roomSize
  generalize mt_initReverb rv0 roomSize = M at *
  have c := sliced_cover M o2 o3 o4 o5 o6 o7 sz
  exact ⟨sliced_indices (setPhases M pL pL2 pR pR2 aL aR aL2 aR2) o2 o3 o4 o5 o6 o7 sz hp,
    c.1, c.2, phaseStep_below (setPhases M pL pL2 pR pR2 aL aR aL2 aR2) hd, rfl, rfl⟩

/-- Witness for C39: the reverb of the demo engine (room size 11/20), with
every phase counter on 5, satisfies the hypotheses; index 5 of the first comb
line is accessed and lies below the buffer size, and the phase counters are
below their delay lengths after the sample. -/
theorem reverb_sliced_witness :
    phasesBelow (setPhases (mt_initReverb demoReverb (11 / 20)) 5 5 5 5 5 5 5 5) ∧
    (5 : Nat) ∈ revBufIndices (setPhases (mt_initReverb demoReverb (11 / 20)) 5 5 5 5 5 5 5 5) ∧
    5 < (mt_initReverb demoReverb (11 / 20)).revBufSize ∧
    phasesBelow
      (reverbPhaseStep (setPhases (mt_initReverb demoReverb (11 / 20)) 5 5 5 5 5 5 5 5)) :=
  have hm : (5 : Nat) ∈
      revBufIndices (setPhases (mt_initReverb demoReverb (11 / 20)) 5 5 5 5 5 5 5 5) := by
    simp [revBufIndices, setPhases]
  have T := reverb_sliced demoReverb (11 / 20) 5 5 5 5 5 5 5 5
    (initReverb_above demoReverb rfl (11 / 20) 1 (by norm_num) (by norm_num)) demoPhases_below
  ⟨demoPhases_below, hm, T.1 5 hm, T.2.2.2.1⟩

theorem sampleLoop_lt (length : Nat) : ∀ n b, b + 2 * n < length →
    sampleLoop length n b = (b + 2 * n, false) := by
  intro n
  induction n with
  | zero => intro b _; rfl
  | succ n ih =>
    intro b h
    show (if b + 2 ≥ length then (b + 2, true) else sampleLoop length n (b + 2)) = _
    rw [if_neg (by omega), ih (b + 2) (by omega)]
    congr 1
    omega

theorem sampleLoop_eq (length : Nat) : ∀ n b, 1 ≤ n → b + 2 * n = length →
    sampleLoop length n b = (b + 2 * n, true) := by
  intro n
  induction n with
  | zero => intro b h; omega
  | succ n ih =>
    intro b _ h
    show (if b + 2 ≥ length then (b + 2, true) else sampleLoop length n (b + 2)) = _
    by_cases hn : n = 0
    · subst hn
      rw [if_pos (by omega)]
    · rw [if_neg (by omega), ih (b + 2) (by omega) (by omega)]
      congr 1
      omega

theorem renderLoop_zero (pass : Nat → Clock → Clock) (length b : Nat) (s : Nat × Clock) :
    renderLoop pass length 0 b s = s := rfl

theorem renderLoop_succ (pass : Nat → Clock → Clock) (length fuel b : Nat) (s : Nat × Clock) :
    renderLoop pass length (fuel + 1) b s =
      if b < length then
        if (sampleLoop length 8 b).2 then
          (s.1 + ((sampleLoop length 8 b).1 - b) / 2, pass s.1 s.2)
        else
          renderLoop pass length fuel (sampleLoop length 8 b).1
            (s.1 + ((sampleLoop length 8 b).1 - b) / 2, pass s.1 s.2)
      else s := rfl

theorem renderLoop_full (pass : Nat → Clock → Clock) (m : Nat) :
    ∀ fuel i s, i ≤ m → m - i ≤ fuel →
      renderLoop pass (16 * m) fuel (16 * i) s = (passOf 8 pass)^[m - i] s := by
  intro fuel
  induction fuel with
  | zero =>
    intro i s h1 h2
    have : m - i = 0 := by omega
    rw [this]
    rfl
  | succ fuel ih =>
    intro i s h1 h2
    rw [renderLoop_succ]
    by_cases hi : i = m
    · subst hi
      rw [if_neg (by omega), Nat.sub_self]
      rfl
    · rw [if_pos (by omega)]
      by_cases hl : i + 1 = m
      · rw [sampleLoop_eq (16 * m) 8 (16 * i) (by omega) (by omega)]
        have e : m - i = 1 := by omega
        rw [e]
        show (s.1 + (16 * i + 2 * 8 - 16 * i) / 2, pass s.1 s.2) = passOf 8 pass s
        have : (16 * i + 2 * 8 - 16 * i) / 2 = 8 := by omega
        rw [this]
        rfl
      · rw [sampleLoop_lt (16 * m) 8 (16 * i) (by omega)]
        show renderLoop pass (16 * m) fuel (16 * i + 2 * 8)
          (s.1 + (16 * i + 2 * 8 - 16 * i) / 2, pass s.1 s.2) = _
        have : (16 * i + 2 * 8 - 16 * i) / 2 = 8 := by omega
        rw [this]
        have e2 : 16 * i + 2 * 8 = 16 * (i + 1) := by omega
        rw [e2, ih (i + 1) _ (by omega) (by omega)]
        have e3 : m - i = (m - (i + 1)) + 1 := by omega
        rw [e3, Function.iterate_succ_apply]
        rfl

theorem renderCall_full (pass : Nat → Clock → Clock) (m : Nat) (s : Nat × Clock) :
    renderCall pass (16 * m) s = (passOf 8 pass)^[m] s := by
  unfold renderCall
  have h := renderLoop_full pass m (16 * m) 0 s (by omega) (by omega)
  simpa using h

theorem renderCalls_full (pass : Nat → Clock → Clock) :
    ∀ (lengths : List Nat) (N : Nat) (s : Nat × Clock),
      (∀ l ∈ lengths, 16 ∣ l) → lengths.sum = 16 * N →
      renderCalls pass lengths s = (passOf 8 pass)^[N] s := by
  intro lengths
  induction lengths with
  | nil =>
    intro N s _ h
    have : N = 0 := by simpa using h
    subst this
    rfl
  | cons l rest ih =>
    intro N s hd hs
    obtain ⟨a, ha⟩ := hd l (List.mem_cons_self _ _)
    subst ha
    rw [List.sum_cons] at hs
    show renderCalls pass rest (renderCall pass (16 * a) s) = _
    rw [renderCall_full, ih (N - a) _ (fun x hx => hd x (List.mem_cons_of_mem _ hx)) (by omega)]
    rw [← Function.iterate_add_apply]
    congr 1
    omega

theorem renderCall_one (pass : Nat → Clock → Clock) (s : Nat × Clock) :
    renderCall pass 2 s = passOf 1 pass s := rfl

theorem renderCalls_ones (pass : Nat → Clock → Clock) :
    ∀ (n : Nat) (s : Nat × Clock),
      renderCalls pass (List.replicate n 2) s = (passOf 1 pass)^[n] s := by
  intro n
  induction n with
  | zero => intro s; rfl
  | succ n ih =>
    intro s
    show renderCalls pass (List.replicate n 2) (renderCall pass 2 s) = _
    rw [ih, renderCall_one, Function.iterate_succ_apply]

theorem passOf_written (f : Nat) (pass : Nat → Clock → Clock) (w : Nat) (c : Clock) :
    ∀ N, ((passOf f pass)^[N] (w, c)).1 = w + f * N := by
  intro N
  induction N with
  | zero => rfl
  | succ N ih =>
    rw [Function.iterate_succ_apply']
    show ((passOf f pass)^[N] (w, c)).1 + f = _
    rw [ih]
    ring

theorem nextRow_loop (mt : mtsynth) :
    (nextRow mt).looping = mt.looping ∧ (nextRow mt).playing = mt.playing := by
  unfold nextRow; split_ifs <;> exact ⟨rfl, rfl⟩

theorem jumpOrder_loop (mt : mtsynth) :
    (jumpOrder mt).looping = mt.looping ∧ (jumpOrder mt).playing = mt.playing := by
  unfold jumpOrder; split_ifs <;> exact ⟨rfl, rfl⟩

theorem jumpRow_loop (mt : mtsynth) :
    (jumpRow mt).looping = mt.looping ∧ (jumpRow mt).playing = mt.playing := by
  unfold jumpRow; split_ifs <;> exact ⟨rfl, rfl⟩

theorem applyJump_loop (mt : mtsynth) :
    (applyJump mt).looping = mt.looping ∧ (applyJump mt).playing = mt.playing := by
  unfold applyJump
  split_ifs
  · show (jumpRow (jumpOrder { mt with loopCount := mt.loopCount + 1 })).looping = mt.looping ∧
      (jumpRow (jumpOrder { mt with loopCount := mt.loopCount + 1 })).playing = mt.playing
    rw [(jumpRow_loop _).1, (jumpRow_loop _).2, (jumpOrder_loop _).1, (jumpOrder_loop _).2]
    exact ⟨rfl, rfl⟩
  · exact ⟨rfl, rfl⟩

theorem wrapSong_loop (mt : mtsynth) :
    (wrapSong mt).looping = mt.looping ∧ (wrapSong mt).playing = mt.playing := by
  unfold wrapSong; split_ifs <;> exact ⟨rfl, rfl⟩

theorem checkLoop_loop (mt : mtsynth) :
    (checkLoop mt).looping = mt.looping ∧
    (mt.looping = -1 → (checkLoop mt).playing = mt.playing) := by
  unfold checkLoop
  split_ifs with h
  · exact ⟨rfl, fun h1 => absurd h1 h.1⟩
  · exact ⟨rfl, fun _ => rfl⟩

theorem rowAdvance_loop (mt : mtsynth) :
    (rowAdvance mt).looping = mt.looping ∧
    (mt.looping = -1 → (rowAdvance mt).playing = mt.playing) := by
  unfold rowAdvance
  have a := checkLoop_loop (wrapSong (applyJump (nextRow mt)))
  have b := wrapSong_loop (applyJump (nextRow mt))
  have c := applyJump_loop (nextRow mt)
  have d := nextRow_loop mt
  have hl : (wrapSong (applyJump (nextRow mt))).looping = mt.looping := by
    rw [b.1, c.1, d.1]
  refine ⟨a.1.trans hl, fun h => ?_⟩
  rw [a.2 (hl.trans h), b.2, c.2, d.2]

theorem rowLengthR_congr (rnd : ℚ → ℚ) (a b : mtsynth) (h : timing a = timing b) :
    rowLengthR rnd a = rowLengthR rnd b := by
  unfold timing at h
  simp only [Prod.mk.injEq] at h
  unfold rowLengthR
  rw [h.2.1, h.2.2.1, h.2.2.2]

theorem fxThresholdR_congr (rnd : ℚ → ℚ) (a b : mtsynth) (h : timing a = timing b) :
    fxThresholdR rnd a = fxThresholdR rnd b := by
  unfold timing at h
  simp only [Prod.mk.injEq] at h
  unfold fxThresholdR
  rw [h.2.1, h.2.2.1, h.2.2.2]

/-- What the timing depends on, apart from the frame timer. -/
theorem timing_rest (a b : mtsynth) (h : timing a = timing b) :
    a.frameTimer = b.frameTimer ∧ a.tempo = b.tempo ∧ a.diviseur = b.diviseur ∧
      a.sampleRate = b.sampleRate := by
  unfold timing at h
  simp only [Prod.mk.injEq] at h
  exact h

theorem advanceFrameR_spec (rnd : ℚ → ℚ) (mt : mtsynth) :
    (advanceFrameR rnd mt).frameTimer
      = (if ((mt.frameTimer + 8 : Nat) : ℚ) ≥ rowLengthR rnd mt then 0 else mt.frameTimer + 8) ∧
    (advanceFrameR rnd mt).tempo = mt.tempo ∧
    (advanceFrameR rnd mt).diviseur = mt.diviseur ∧
    (advanceFrameR rnd mt).sampleRate = mt.sampleRate ∧
    (advanceFrameR rnd mt).looping = mt.looping ∧
    (mt.looping = -1 → (advanceFrameR rnd mt).playing = mt.playing) := by
  unfold advanceFrameR
  simp only []
  have e : rowLengthR rnd { mt with frameTimer := mt.frameTimer + 8 } = rowLengthR rnd mt := rfl
  rw [e]
  by_cases h : ((mt.frameTimer + 8 : Nat) : ℚ) ≥ rowLengthR rnd mt
  · rw [if_pos h, if_pos h]
    obtain ⟨a1, a2, a3, a4⟩ := rowAdvance_frame
      { { mt with frameTimer := mt.frameTimer + 8 } with frameTimer := 0 }
    obtain ⟨b1, b2⟩ := rowAdvance_loop
      { { mt with frameTimer := mt.frameTimer + 8 } with frameTimer := 0 }
    exact ⟨a1, a2, a3, a4, b1, b2⟩
  · rw [if_neg h, if_neg h]
    exact ⟨rfl, rfl, rfl, rfl, rfl, fun _ => rfl⟩

theorem rowEventStep_spec (ev : mtsynth → mtsynth) (hev : keepsTiming ev) (w : Nat) (c : Clock) :
    (rowEventStep ev w c).frameTimerFx = c.frameTimerFx ∧
    (rowEventStep ev w c).subTicks = c.subTicks ∧
    (rowEventStep ev w c).rowEvents
      = (if c.mt.frameTimer = 0 then c.rowEvents ++ [w] else c.rowEvents) ∧
    timing (rowEventStep ev w c).mt = timing c.mt ∧
    (rowEventStep ev w c).mt.playing = c.mt.playing ∧
    (rowEventStep ev w c).mt.looping = c.mt.looping := by
  unfold rowEventStep
  by_cases h : c.mt.frameTimer = 0
  · rw [if_pos h, if_pos h]
    exact ⟨rfl, rfl, rfl, (hev c.mt).1, (hev c.mt).2.1, (hev c.mt).2.2⟩
  · rw [if_neg h, if_neg h]
    exact ⟨rfl, rfl, rfl, rfl, rfl, rfl⟩

theorem subTickStep_spec (rnd rSub : ℚ → ℚ) (fx : mtsynth → mtsynth) (hfx : keepsTiming fx)
    (w : Nat) (c : Clock) :
    (subTickStep rnd rSub fx w c).rowEvents = c.rowEvents ∧
    (subTickStep rnd rSub fx w c).subTicks
      = (if c.frameTimerFx ≥ fxThresholdR rnd c.mt then c.subTicks ++ [w] else c.subTicks) ∧
    (subTickStep rnd rSub fx w c).frameTimerFx
      = (if c.frameTimerFx ≥ fxThresholdR rnd c.mt
          then rSub (c.frameTimerFx - fxThresholdR rnd c.mt) else c.frameTimerFx) ∧
    timing (subTickStep rnd rSub fx w c).mt = timing c.mt ∧
    (subTickStep rnd rSub fx w c).mt.playing = c.mt.playing ∧
    (subTickStep rnd rSub fx w c).mt.looping = c.mt.looping := by
  unfold subTickStep
  by_cases h : c.frameTimerFx ≥ fxThresholdR rnd c.mt
  · rw [if_pos h, if_pos h, if_pos h]
    refine ⟨rfl, rfl, ?_, (hfx c.mt).1, (hfx c.mt).2.1, (hfx c.mt).2.2⟩
    show rSub (c.frameTimerFx - fxThresholdR rnd (fx c.mt)) = _
    rw [fxThresholdR_congr rnd (fx c.mt) c.mt (hfx c.mt).1]
  · rw [if_neg h, if_neg h, if_neg h]
    exact ⟨rfl, rfl, rfl, rfl, rfl, rfl⟩

theorem playerPass_idle (rnd rSub rInc : ℚ → ℚ) (ev fx : mtsynth → mtsynth) (w : Nat)
    (c : Clock) (h : c.mt.playing = false) : playerPass rnd rSub rInc ev fx w c = c := by
  unfold playerPass
  rw [if_neg (by rw [h]; decide)]

/-- One pass of the player while the song plays: the frame timer advances by 8
or restarts, the row event is recorded when the pass starts with frame timer 0,
the sub-tick is recorded when the sub-tick timer has reached the threshold, which
is then subtracted, and the sub-tick timer advances by 1. -/
theorem playerPass_spec (rnd rSub rInc : ℚ → ℚ) (ev fx : mtsynth → mtsynth)
    (hev : keepsTiming ev) (hfx : keepsTiming fx) (w : Nat) (c : Clock)
    (h : c.mt.playing = true) :
    (playerPass rnd rSub rInc ev fx w c).mt.frameTimer
      = (if ((c.mt.frameTimer + 8 : Nat) : ℚ) ≥ rowLengthR rnd c.mt then 0
          else c.mt.frameTimer + 8) ∧
    ((playerPass rnd rSub rInc ev fx w c).mt.tempo = c.mt.tempo ∧
      (playerPass rnd rSub rInc ev fx w c).mt.diviseur = c.mt.diviseur ∧
      (playerPass rnd rSub rInc ev fx w c).mt.sampleRate = c.mt.sampleRate ∧
      (playerPass rnd rSub rInc ev fx w c).mt.looping = c.mt.looping) ∧
    (c.mt.looping = -1 → (playerPass rnd rSub rInc ev fx w c).mt.playing = true) ∧
    (playerPass rnd rSub rInc ev fx w c).rowEvents
      = (if c.mt.frameTimer = 0 then c.rowEvents ++ [w] else c.rowEvents) ∧
    (playerPass rnd rSub rInc ev fx w c).subTicks
      = (if c.frameTimerFx ≥ fxThresholdR rnd c.mt then c.subTicks ++ [w] else c.subTicks) ∧
    (playerPass rnd rSub rInc ev fx w c).frameTimerFx
      = rInc ((if c.frameTimerFx ≥ fxThresholdR rnd c.mt
          then rSub (c.frameTimerFx - fxThresholdR rnd c.mt) else c.frameTimerFx) + 1) := by
  obtain ⟨a1, a2, a3, a4, a5, a6⟩ := rowEventStep_spec ev hev w c
  obtain ⟨t1, t2, t3, t4⟩ := timing_rest _ _ a4
  obtain ⟨b1, b2, b3, b4, b5, b6⟩ := advanceFrameR_spec rnd (rowEventStep ev w c).mt
  have hL : rowLengthR rnd (rowEventStep ev w c).mt = rowLengthR rnd c.mt :=
    rowLengthR_congr rnd _ _ a4
  obtain ⟨s1, s2, s3, s4, s5, s6⟩ := subTickStep_spec rnd rSub fx hfx w
    { rowEventStep ev w c with mt := advanceFrameR rnd (rowEventStep ev w c).mt }
  obtain ⟨u1, u2, u3, u4⟩ := timing_rest _ _ s4
  have hT : fxThresholdR rnd (advanceFrameR rnd (rowEventStep ev w c).mt)
      = fxThresholdR rnd c.mt := by
    unfold fxThresholdR
    rw [b2, b3, b4, t2, t3, t4]
  have e : playerPass rnd rSub rInc ev fx w c =
      { subTickStep rnd rSub fx w
          { rowEventStep ev w c with mt := advanceFrameR rnd (rowEventStep ev w c).mt } with
        frameTimerFx :=
          rInc ((subTickStep rnd rSub fx w
            { rowEventStep ev w c with
              mt := advanceFrameR rnd (rowEventStep ev w c).mt }).frameTimerFx + 1) } := by
    unfold playerPass
    rw [if_pos h]
  rw [e]
  generalize subTickStep rnd rSub fx w
    { rowEventStep ev w c with mt := advanceFrameR rnd (rowEventStep ev w c).mt } = X
    at s1 s2 s3 s4 s5 s6 u1 u2 u3 u4
  refine ⟨?_, ⟨?_, ?_, ?_, ?_⟩, ?_, ?_, ?_, ?_⟩
  · show X.mt.frameTimer = _
    rw [u1]
    show (advanceFrameR rnd (rowEventStep ev w c).mt).frameTimer = _
    rw [b1, hL, t1]
  · show X.mt.tempo = _
    rw [u2]
    exact b2.trans t2
  · show X.mt.diviseur = _
    rw [u3]
    exact b3.trans t3
  · show X.mt.sampleRate = _
    rw [u4]
    exact b4.trans t4
  · show X.mt.looping = _
    rw [s6]
    exact b5.trans a6
  · intro hl
    show X.mt.playing = true
    rw [s5]
    show (advanceFrameR rnd (rowEventStep ev w c).mt).playing = true
    rw [b6 (a6.trans hl), a5, h]
  · show X.rowEvents = _
    rw [s1]
    exact a3
  · show X.subTicks = _
    rw [s2]
    show (if (rowEventStep ev w c).frameTimerFx ≥
        fxThresholdR rnd (advanceFrameR rnd (rowEventStep ev w c).mt)
      then (rowEventStep ev w c).subTicks ++ [w] else (rowEventStep ev w c).subTicks) = _
    rw [hT, a1, a2]
  · show rInc (X.frameTimerFx + 1) = _
    rw [s3]
    show rInc ((if (rowEventStep ev w c).frameTimerFx ≥
        fxThresholdR rnd (advanceFrameR rnd (rowEventStep ev w c).mt)
      then rSub ((rowEventStep ev w c).frameTimerFx -
        fxThresholdR rnd (advanceFrameR rnd (rowEventStep ev w c).mt))
      else (rowEventStep ev w c).frameTimerFx) + 1) = _
    rw [hT, a1]

theorem rowLengthR_pos (rnd : ℚ → ℚ) (hr : ∀ x, 0 < x → 0 < rnd x) (mt : mtsynth)
    (hT : 1 ≤ mt.tempo) (hD : 1 ≤ mt.diviseur) (hSR : 1 ≤ mt.sampleRate) :
    0 < rowLengthR rnd mt := by
  unfold rowLengthR
  have h1 : (0 : ℚ) < (mt.tempo : ℚ) := by exact_mod_cast hT
  have h2 : (0 : ℚ) < (mt.diviseur : ℚ) := by exact_mod_cast hD
  have h3 : (0 : ℚ) < (mt.sampleRate : ℚ) := by exact_mod_cast hSR
  apply hr
  apply div_pos _ h1
  apply hr
  apply mul_pos _ h3
  apply hr
  exact div_pos (by norm_num) h2

theorem rowLengthR_exact (rnd : ℚ → ℚ) (he : ∀ x, rnd x = x) (mt : mtsynth) :
    rowLengthR rnd mt
      = 60 * (mt.sampleRate : ℚ) / ((mt.tempo : ℚ) * (mt.diviseur : ℚ)) := by
  unfold rowLengthR
  rw [he, he, he]
  by_cases hD : (mt.diviseur : ℚ) = 0
  · rw [hD]
    simp
  · by_cases hT : (mt.tempo : ℚ) = 0
    · rw [hT]
      simp
    · field_simp
      exact Or.inl (mul_comm _ _)

theorem rowPasses_bounds (rnd : ℚ → ℚ) (mt : mtsynth) (hpos : 0 < rowLengthR rnd mt) :
    1 ≤ rowPasses rnd mt ∧ ((8 * (rowPasses rnd mt - 1) : Nat) : ℚ) < rowLengthR rnd mt ∧
      rowLengthR rnd mt ≤ ((8 * rowPasses rnd mt : Nat) : ℚ) := by
  have hc : 0 < ⌈rowLengthR rnd mt / 8⌉ := Int.ceil_pos.mpr (by positivity)
  have hk : ((rowPasses rnd mt : Nat) : ℤ) = ⌈rowLengthR rnd mt / 8⌉ := by
    unfold rowPasses
    exact Int.toNat_of_nonneg (le_of_lt hc)
  have h1 : 1 ≤ rowPasses rnd mt := by
    have : (0 : ℤ) < (rowPasses rnd mt : ℤ) := by rw [hk]; exact hc
    omega
  have hq : ((rowPasses rnd mt : Nat) : ℚ) = ((⌈rowLengthR rnd mt / 8⌉ : ℤ) : ℚ) := by
    rw [← hk]
    norm_cast
  refine ⟨h1, ?_, ?_⟩
  · have h2 : ((⌈rowLengthR rnd mt / 8⌉ : ℤ) : ℚ) < rowLengthR rnd mt / 8 + 1 :=
      Int.ceil_lt_add_one _
    have h3 : ((rowPasses rnd mt - 1 : Nat) : ℚ) = (rowPasses rnd mt : ℚ) - 1 := by
      rw [Nat.cast_sub h1]
      norm_num
    push_cast
    rw [h3, hq]
    linarith
  · have h2 : rowLengthR rnd mt / 8 ≤ ((⌈rowLengthR rnd mt / 8⌉ : ℤ) : ℚ) := Int.le_ceil _
    push_cast
    rw [hq]
    linarith

/-- With frame timer `8 * j`, `j` below the number of passes of a row, the
frame timer reaches the row length in this pass exactly when `j + 1` is that
number. -/
theorem frame_reset_iff (L : ℚ) (k j : Nat) (h1 : ((8 * (k - 1) : Nat) : ℚ) < L)
    (h2 : L ≤ ((8 * k : Nat) : ℚ)) (hj : j < k) :
    ((8 * j + 8 : Nat) : ℚ) ≥ L ↔ j + 1 = k := by
  constructor
  · intro h
    by_contra hne
    have h3 : 8 * j + 8 ≤ 8 * (k - 1) := by omega
    have h4 : ((8 * j + 8 : Nat) : ℚ) ≤ ((8 * (k - 1) : Nat) : ℚ) := by exact_mod_cast h3
    linarith
  · intro h
    have h3 : 8 * j + 8 = 8 * k := by omega
    rw [h3]
    exact h2

theorem divmod_unique (k q j q2 j2 : Nat) (h : q * k + j = q2 * k + j2) (hj : j < k)
    (hj2 : j2 < k) : q = q2 ∧ j = j2 := by
  have hk : 0 < k := by omega
  have e1 : (q * k + j) % k = j := by
    rw [Nat.mul_comm, Nat.mul_add_mod, Nat.mod_eq_of_lt hj]
  have e2 : (q2 * k + j2) % k = j2 := by
    rw [Nat.mul_comm, Nat.mul_add_mod, Nat.mod_eq_of_lt hj2]
  have e3 : (q * k + j) / k = q := by
    rw [Nat.mul_comm, Nat.mul_add_div hk, Nat.div_eq_of_lt hj, Nat.add_zero]
  have e4 : (q2 * k + j2) / k = q2 := by
    rw [Nat.mul_comm, Nat.mul_add_div hk, Nat.div_eq_of_lt hj2, Nat.add_zero]
  rw [h] at e1 e3
  exact ⟨e3.symm.trans e4, e1.symm.trans e2⟩

theorem map_range_succ (g : Nat → Nat) (m : Nat) :
    (List.range (m + 1)).map g = (List.range m).map g ++ [g m] := by
  rw [List.range_succ, List.map_append]
  rfl

/-- The record of row events after `N` passes that write `f` stereo samples
each, from a pass that starts a row with nothing recorded: with `N = q * k + j`,
`j < k`, `k` the number of passes of a row, the positions recorded are the first
multiples of `f * k` counted from the start, one for each row begun while the
song played. -/
theorem rowEvents_inv (rnd rSub rInc : ℚ → ℚ) (ev fx : mtsynth → mtsynth)
    (hev : keepsTiming ev) (hfx : keepsTiming fx) (f : Nat) (c0 : Clock) (w : Nat)
    (hL : 0 < rowLengthR rnd c0.mt) (h0 : c0.mt.frameTimer = 0) (hE : c0.rowEvents = []) :
    ∀ N, ∃ q j m,
      N = q * rowPasses rnd c0.mt + j ∧ j < rowPasses rnd c0.mt ∧
      (((passOf f (playerPass rnd rSub rInc ev fx))^[N] (w, c0)).2.mt.tempo = c0.mt.tempo ∧
        ((passOf f (playerPass rnd rSub rInc ev fx))^[N] (w, c0)).2.mt.diviseur
          = c0.mt.diviseur ∧
        ((passOf f (playerPass rnd rSub rInc ev fx))^[N] (w, c0)).2.mt.sampleRate
          = c0.mt.sampleRate ∧
        ((passOf f (playerPass rnd rSub rInc ev fx))^[N] (w, c0)).2.mt.looping
          = c0.mt.looping) ∧
      ((passOf f (playerPass rnd rSub rInc ev fx))^[N] (w, c0)).2.rowEvents
        = (List.range m).map (fun i => w + f * (rowPasses rnd c0.mt * i)) ∧
      m ≤ (if j = 0 then q else q + 1) ∧
      (((passOf f (playerPass rnd rSub rInc ev fx))^[N] (w, c0)).2.mt.playing = true →
        m = (if j = 0 then q else q + 1) ∧
        ((passOf f (playerPass rnd rSub rInc ev fx))^[N] (w, c0)).2.mt.frameTimer = 8 * j) ∧
      (c0.mt.playing = true → c0.mt.looping = -1 →
        ((passOf f (playerPass rnd rSub rInc ev fx))^[N] (w, c0)).2.mt.playing = true) := by
  obtain ⟨k1, k2, k3⟩ := rowPasses_bounds rnd c0.mt hL
  generalize rowPasses rnd c0.mt = k at k1 k2 k3 ⊢
  intro N
  induction N with
  | zero =>
    refine ⟨0, 0, 0, by omega, by omega, ⟨rfl, rfl, rfl, rfl⟩, ?_, by simp, ?_, fun h _ => h⟩
    · show c0.rowEvents = _
      rw [hE]
      rfl
    · intro _
      exact ⟨rfl, h0⟩
  | succ N ih =>
    obtain ⟨q, j, m, hN, hj, ⟨i1, i2, i3, i4⟩, hev2, hm, hplay, hkeep⟩ := ih
    have hw := passOf_written f (playerPass rnd rSub rInc ev fx) w c0 N
    rw [Function.iterate_succ_apply']
    generalize (passOf f (playerPass rnd rSub rInc ev fx))^[N] (w, c0) = S
      at i1 i2 i3 i4 hev2 hplay hkeep hw
    show ∃ q2 j2 m2, _ ∧ _ ∧
      ((playerPass rnd rSub rInc ev fx S.1 S.2).mt.tempo = _ ∧
        (playerPass rnd rSub rInc ev fx S.1 S.2).mt.diviseur = _ ∧
        (playerPass rnd rSub rInc ev fx S.1 S.2).mt.sampleRate = _ ∧
        (playerPass rnd rSub rInc ev fx S.1 S.2).mt.looping = _) ∧
      (playerPass rnd rSub rInc ev fx S.1 S.2).rowEvents = _ ∧ _ ∧
      ((playerPass rnd rSub rInc ev fx S.1 S.2).mt.playing = true → _ ∧
        (playerPass rnd rSub rInc ev fx S.1 S.2).mt.frameTimer = _) ∧
      (_ → _ → (playerPass rnd rSub rInc ev fx S.1 S.2).mt.playing = true)
    cases hp : S.2.mt.playing with
    | false =>
      rw [playerPass_idle rnd rSub rInc ev fx S.1 S.2 hp]
      have hno : ¬ (c0.mt.playing = true ∧ c0.mt.looping = -1) := by
        intro h
        have := hkeep h.1 h.2
        rw [hp] at this
        exact Bool.noConfusion this
      by_cases hjk : j + 1 = k
      · refine ⟨q + 1, 0, m, ?_, by omega, ⟨i1, i2, i3, i4⟩, hev2, ?_, ?_, ?_⟩
        · rw [hN, Nat.succ_mul]
          omega
        · rw [if_pos rfl]
          split_ifs at hm <;> omega
        · intro h
          rw [hp] at h
          exact Bool.noConfusion h
        · intro a b
          exact absurd ⟨a, b⟩ hno
      · refine ⟨q, j + 1, m, by omega, by omega, ⟨i1, i2, i3, i4⟩, hev2, ?_, ?_, ?_⟩
        · rw [if_neg (by omega)]
          split_ifs at hm <;> omega
        · intro h
          rw [hp] at h
          exact Bool.noConfusion h
        · intro a b
          exact absurd ⟨a, b⟩ hno
    | true =>
      obtain ⟨p1, ⟨p2, p3, p4, p5⟩, p6, p7, _, _⟩ :=
        playerPass_spec rnd rSub rInc ev fx hev hfx S.1 S.2 hp
      obtain ⟨hm2, hft⟩ := hplay hp
      have hLS : rowLengthR rnd S.2.mt = rowLengthR rnd c0.mt := by
        unfold rowLengthR
        rw [i1, i2, i3]
      rw [hLS, hft] at p1
      have hreset := frame_reset_iff (rowLengthR rnd c0.mt) k j k2 k3 hj
      have hkeep2 : c0.mt.playing = true → c0.mt.looping = -1 →
          (playerPass rnd rSub rInc ev fx S.1 S.2).mt.playing = true :=
        fun _ b => p6 (i4.trans b)
      have hrest : (playerPass rnd rSub rInc ev fx S.1 S.2).mt.tempo = c0.mt.tempo ∧
          (playerPass rnd rSub rInc ev fx S.1 S.2).mt.diviseur = c0.mt.diviseur ∧
          (playerPass rnd rSub rInc ev fx S.1 S.2).mt.sampleRate = c0.mt.sampleRate ∧
          (playerPass rnd rSub rInc ev fx S.1 S.2).mt.looping = c0.mt.looping :=
        ⟨p2.trans i1, p3.trans i2, p4.trans i3, p5.trans i4⟩
      rw [hft] at p7
      by_cases hj0 : j = 0
      · subst hj0
        rw [if_pos rfl] at hm2
        subst hm2
        rw [if_pos rfl, hev2] at p7
        have hnew : List.map (fun i => w + f * (k * i)) (List.range m) ++ [S.1]
            = List.map (fun i => w + f * (k * i)) (List.range (m + 1)) := by
          rw [map_range_succ, hw]
          congr 2
          rw [hN]
          ring
        rw [hnew] at p7
        by_cases hjk : 0 + 1 = k
        · rw [if_pos (hreset.mpr hjk)] at p1
          refine ⟨m + 1, 0, m + 1, ?_, by omega, hrest, p7, by simp, fun _ => ⟨by simp, p1⟩,
            hkeep2⟩
          rw [hN, ← hjk]
          omega
        · rw [if_neg (fun h => hjk (hreset.mp h))] at p1
          refine ⟨m, 1, m + 1, by omega, by omega, hrest, p7, by simp,
            fun _ => ⟨by simp, p1⟩, hkeep2⟩
      · rw [if_neg hj0] at hm2
        rw [if_neg (by omega), hev2] at p7
        by_cases hjk : j + 1 = k
        · rw [if_pos (hreset.mpr hjk)] at p1
          refine ⟨q + 1, 0, m, ?_, by omega, hrest, p7, ?_, fun _ => ⟨?_, p1⟩, hkeep2⟩
          · rw [hN, Nat.succ_mul]
            omega
          · rw [if_pos rfl]
            omega
          · rw [if_pos rfl]
            omega
        · rw [if_neg (fun h => hjk (hreset.mp h))] at p1
          refine ⟨q, j + 1, m, by omega, by omega, hrest, p7, ?_, fun _ => ⟨?_, p1⟩, hkeep2⟩
          · rw [if_neg (by omega)]
            omega
          · rw [if_neg (by omega)]
            omega

theorem rowEvents_passes (rnd rSub rInc : ℚ → ℚ) (ev fx : mtsynth → mtsynth)
    (hev : keepsTiming ev) (hfx : keepsTiming fx) (f : Nat) (c0 : Clock) (w : Nat)
    (hL : 0 < rowLengthR rnd c0.mt) (h0 : c0.mt.frameTimer = 0) (hE : c0.rowEvents = [])
    (q j : Nat) (hj : j < rowPasses rnd c0.mt) :
    (∃ m, m ≤ (if j = 0 then q else q + 1) ∧
      ((passOf f (playerPass rnd rSub rInc ev fx))^[q * rowPasses rnd c0.mt + j]
          (w, c0)).2.rowEvents
        = (List.range m).map (fun i => w + f * (rowPasses rnd c0.mt * i))) ∧
    (c0.mt.playing = true → c0.mt.looping = -1 →
      ((passOf f (playerPass rnd rSub rInc ev fx))^[q * rowPasses rnd c0.mt + j]
          (w, c0)).2.rowEvents
        = (List.range (if j = 0 then q else q + 1)).map
            (fun i => w + f * (rowPasses rnd c0.mt * i))) := by
  obtain ⟨q2, j2, m, hN, hj2, _, hev2, hm, hplay, hkeep⟩ :=
    rowEvents_inv rnd rSub rInc ev fx hev hfx f c0 w hL h0 hE (q * rowPasses rnd c0.mt + j)
  obtain ⟨e1, e2⟩ := divmod_unique _ q j q2 j2 hN hj hj2
  subst e1
  subst e2
  refine ⟨⟨m, hm, hev2⟩, fun a b => ?_⟩
  rw [hev2, (hplay (hkeep a b)).1]

/-- Claim C8 (row timing), amended. For an engine with tempo, divisor and
sample rate at least 1, a row event body and a sub-tick body that leave the
timing alone (tempo constant), and a rounding that keeps positive values
positive: let `L` be the value the code computes for `60/D * SR / T` (which is
`60 * SR / (T * D)` in exact arithmetic) and `k = ceil(L / 8)` the number of
passes of a row, so that `8 * k` is the least multiple of 8 not below `L`.
Rendering from a pass that starts a row, in calls whose lengths are multiples of
16 (8 stereo samples), `q * k + j` passes in all with `j < k`: the row events
recorded lie at the output positions `w, w + 8k, w + 16k, ...`, exactly `8 * k`
stereo samples apart, one for each row begun (all of them when the song plays
without a loop limit). Rendering in calls of one stereo sample each (length 2),
the row events lie `k` stereo samples apart. -/
theorem rowEvent_spacing (rnd rSub rInc : ℚ → ℚ) (ev fx : mtsynth → mtsynth) (c : Clock)
    (w : Nat) (hev : keepsTiming ev) (hfx : keepsTiming fx) (hr : ∀ x, 0 < x → 0 < rnd x)
    (hT : 1 ≤ c.mt.tempo) (hD : 1 ≤ c.mt.diviseur) (hSR : 1 ≤ c.mt.sampleRate)
    (h0 : c.mt.frameTimer = 0) (hE : c.rowEvents = []) :
    ((∀ x, rnd x = x) → rowLengthR rnd c.mt
      = 60 * (c.mt.sampleRate : ℚ) / ((c.mt.tempo : ℚ) * (c.mt.diviseur : ℚ))) ∧
    (1 ≤ rowPasses rnd c.mt ∧
      ((8 * (rowPasses rnd c.mt - 1) : Nat) : ℚ) < rowLengthR rnd c.mt ∧
      rowLengthR rnd c.mt ≤ ((8 * rowPasses rnd c.mt : Nat) : ℚ)) ∧
    (∀ (lengths : List Nat) (q j : Nat), (∀ l ∈ lengths, 16 ∣ l) →
      lengths.sum = 16 * (q * rowPasses rnd c.mt + j) → j < rowPasses rnd c.mt →
      (∃ m, m ≤ (if j = 0 then q else q + 1) ∧
        (renderCalls (playerPass rnd rSub rInc ev fx) lengths (w, c)).2.rowEvents
          = (List.range m).map (fun i => w + 8 * (rowPasses rnd c.mt * i))) ∧
      (c.mt.playing = true → c.mt.looping = -1 →
        (renderCalls (playerPass rnd rSub rInc ev fx) lengths (w, c)).2.rowEvents
          = (List.range (if j = 0 then q else q + 1)).map
              (fun i => w + 8 * (rowPasses rnd c.mt * i)))) ∧
    (∀ q j : Nat, j < rowPasses rnd c.mt → c.mt.playing = true → c.mt.looping = -1 →
      (renderCalls (playerPass rnd rSub rInc ev fx)
          (List.replicate (q * rowPasses rnd c.mt + j) 2) (w, c)).2.rowEvents
        = (List.range (if j = 0 then q else q + 1)).map
            (fun i => w + rowPasses rnd c.mt * i)) := by
  have hL := rowLengthR_pos rnd hr c.mt hT hD hSR
  refine ⟨fun he => rowLengthR_exact rnd he c.mt, rowPasses_bounds rnd c.mt hL, ?_, ?_⟩
  · intro lengths q j hd hs hj
    rw [renderCalls_full _ lengths _ _ hd hs]
    exact rowEvents_passes rnd rSub rInc ev fx hev hfx 8 c w hL h0 hE q j hj
  · intro q j hj hp hl
    rw [renderCalls_ones]
    have h := (rowEvents_passes rnd rSub rInc ev fx hev hfx 1 c w hL h0 hE q j hj).2 hp hl
    have e : (fun i => w + 1 * (rowPasses rnd c.mt * i))
        = (fun i => w + rowPasses rnd c.mt * i) := by
      funext i
      rw [Nat.one_mul]
    rw [e] at h
    exact h

theorem keepsTiming_id : keepsTiming (fun m => m) := fun _ => ⟨rfl, rfl, rfl⟩

theorem rowPasses_playing441 : rowPasses (fun x => x) (startClock playing441).mt = 662 := by
  decide!

/-- Witness for the amended C8 at 44100 Hz, tempo 125, divisor 4, in exact
arithmetic: a row lasts 662 passes; one call of 16 * 663 floats records the row
events at the stereo samples 0 and 5296, and 663 calls of one stereo sample
record them at the samples 0 and 662. -/
theorem rowEvent_spacing_witness :
    (1 ≤ (startClock playing441).mt.tempo ∧ 1 ≤ (startClock playing441).mt.diviseur ∧
      1 ≤ (startClock playing441).mt.sampleRate ∧
      (startClock playing441).mt.frameTimer = 0 ∧ (startClock playing441).rowEvents = []) ∧
    (renderCalls (playerPass (fun x => x) gridRound gridRound (fun m => m) (fun m => m))
        [16 * 663] (0, startClock playing441)).2.rowEvents = [0, 5296] ∧
    (renderCalls (playerPass (fun x => x) gridRound gridRound (fun m => m) (fun m => m))
        (List.replicate 663 2) (0, startClock playing441)).2.rowEvents = [0, 662] :=
  have T := rowEvent_spacing (fun x => x) gridRound gridRound (fun m => m) (fun m => m)
    (startClock playing441) 0 keepsTiming_id keepsTiming_id (fun _ h => h)
    (by decide) (by decide) (by decide) rfl rfl
  have a := (T.2.2.1 [16 * 663] 1 1 (by decide) (by rw [rowPasses_playing441]; rfl)
    (by rw [rowPasses_playing441]; decide)).2 rfl rfl
  have b := T.2.2.2 1 1 (by rw [rowPasses_playing441]; decide) rfl rfl
  ⟨⟨by decide, by decide, by decide, rfl, rfl⟩,
    by rw [rowPasses_playing441] at a; exact a,
    by rw [rowPasses_playing441] at b; exact b⟩

/-- C8, counterexample: at 44100 Hz, tempo 125, divisor 4 the row length
`60 * SR / (T * D)` is exactly 5292 samples (every intermediate value is an
integer, so the floating-point computation is exact), yet rendering one buffer
of 16 * 663 floats puts the row event that follows the one at stereo sample 0 at
sample 5296, after 662 passes of 8 samples. -/
theorem rowEvent_spacing_counterexample :
    rowLengthR (fun x => x) playing441 = 5292 ∧
    round ((60 * 44100 : ℚ) / (125 * 4)) = 5292 ∧
    (renderCall (playerPass (fun x => x) (fun x => x) (fun x => x) (fun m => m) (fun m => m))
        (16 * 663) (0, startClock playing441)).2.rowEvents = [0, 5296] ∧
    ((5296 : ℤ) - 0 ≠ round ((60 * 44100 : ℚ) / (125 * 4))) := by
  have hr : round ((60 * 44100 : ℚ) / (125 * 4)) = 5292 := by
    have : ((60 * 44100 : ℚ) / (125 * 4)) = ((5292 : ℤ) : ℚ) := by norm_num
    rw [this, round_intCast]
  have hk : rowPasses (fun x => x) (startClock playing441).mt = 662 := by decide!
  have h := (rowEvents_passes (fun x => x) (fun x => x) (fun x => x) (fun m => m) (fun m => m)
    keepsTiming_id keepsTiming_id 8 (startClock playing441) 0 (by decide!) rfl rfl 1 1
    (by rw [hk]; decide)).2 rfl rfl
  rw [hk] at h
  refine ⟨by decide!, hr, ?_, ?_⟩
  · rw [renderCall_full]
    exact h
  · rw [hr]
    decide

/-- One step of the sub-tick timer that fires: the threshold is subtracted,
the timer advances by 1, and both stored values are rounded. -/
theorem timer_fire (rSub rInc : ℚ → ℚ) (T d t : ℚ) (hd0 : 0 ≤ d) (hd : d ≤ 1 / 2)
    (hT : 1 + 2 * d ≤ T)
    (hSub : ∀ x, 0 ≤ x → x ≤ T + 2 → |rSub x - x| ≤ d)
    (hInc : ∀ x, 0 ≤ x → x ≤ T + 2 → |rInc x - x| ≤ d)
    (h1 : T ≤ t) (h2 : t < T + 1 + 2 * d) :
    t - T + 1 - 2 * d ≤ rInc (rSub (t - T) + 1) ∧ rInc (rSub (t - T) + 1) ≤ t - T + 1 + 2 * d := by
  have a := abs_le.mp (hSub (t - T) (by linarith) (by linarith))
  have b := abs_le.mp (hInc (rSub (t - T) + 1) (by linarith) (by linarith))
  constructor <;> linarith

/-- One step of the sub-tick timer that does not fire: the timer advances by 1,
rounded. -/
theorem timer_idle (rInc : ℚ → ℚ) (T d t : ℚ) (hd0 : 0 ≤ d)
    (hInc : ∀ x, 0 ≤ x → x ≤ T + 2 → |rInc x - x| ≤ d)
    (h0 : 0 ≤ t) (h1 : t < T) :
    t + 1 - d ≤ rInc (t + 1) ∧ rInc (t + 1) ≤ t + 1 + d := by
  have b := abs_le.mp (hInc (t + 1) (by linarith) (by linarith))
  constructor <;> linarith

theorem subTicks_inv (rnd rSub rInc : ℚ → ℚ) (ev fx : mtsynth → mtsynth)
    (hev : keepsTiming ev) (hfx : keepsTiming fx) (f : Nat) (c0 : Clock) (w : Nat) (d : ℚ)
    (hd0 : 0 ≤ d) (hd : d ≤ 1 / 2) (hT : 1 + 2 * d ≤ fxThresholdR rnd c0.mt)
    (hSub : ∀ x, 0 ≤ x → x ≤ fxThresholdR rnd c0.mt + 2 → |rSub x - x| ≤ d)
    (hInc : ∀ x, 0 ≤ x → x ≤ fxThresholdR rnd c0.mt + 2 → |rInc x - x| ≤ d)
    (ht0 : 0 ≤ c0.frameTimerFx) (ht1 : c0.frameTimerFx < fxThresholdR rnd c0.mt + 1 + 2 * d)
    (hS : c0.subTicks = []) :
    ∀ N,
      (((passOf f (playerPass rnd rSub rInc ev fx))^[N] (w, c0)).2.mt.tempo = c0.mt.tempo ∧
        ((passOf f (playerPass rnd rSub rInc ev fx))^[N] (w, c0)).2.mt.diviseur
          = c0.mt.diviseur ∧
        ((passOf f (playerPass rnd rSub rInc ev fx))^[N] (w, c0)).2.mt.sampleRate
          = c0.mt.sampleRate ∧
        ((passOf f (playerPass rnd rSub rInc ev fx))^[N] (w, c0)).2.mt.looping
          = c0.mt.looping) ∧
      (0 ≤ ((passOf f (playerPass rnd rSub rInc ev fx))^[N] (w, c0)).2.frameTimerFx ∧
        ((passOf f (playerPass rnd rSub rInc ev fx))^[N] (w, c0)).2.frameTimerFx
          < fxThresholdR rnd c0.mt + 1 + 2 * d) ∧
      List.Chain' (subTickGap (fxThresholdR rnd c0.mt) d f)
        ((passOf f (playerPass rnd rSub rInc ev fx))^[N] (w, c0)).2.subTicks ∧
      (((passOf f (playerPass rnd rSub rInc ev fx))^[N] (w, c0)).2.mt.playing = true →
        ∀ a, ((passOf f (playerPass rnd rSub rInc ev fx))^[N] (w, c0)).2.subTicks.getLast?
            = some a →
          ∃ (j : Nat) (u : ℚ), 1 ≤ j ∧
            ((passOf f (playerPass rnd rSub rInc ev fx))^[N] (w, c0)).1 = a + f * j ∧
            0 ≤ u ∧ u < 1 + 2 * d ∧
            u + (j : ℚ) - ((j : ℚ) + 1) * d
              ≤ ((passOf f (playerPass rnd rSub rInc ev fx))^[N] (w, c0)).2.frameTimerFx ∧
            ((passOf f (playerPass rnd rSub rInc ev fx))^[N] (w, c0)).2.frameTimerFx
              ≤ u + (j : ℚ) + ((j : ℚ) + 1) * d ∧
            (j = 1 ∨ u + (j : ℚ) - 1 - (j : ℚ) * d < fxThresholdR rnd c0.mt)) ∧
      (c0.mt.playing = true → c0.mt.looping = -1 →
        ((passOf f (playerPass rnd rSub rInc ev fx))^[N] (w, c0)).2.mt.playing = true ∧
        c0.frameTimerFx + (N : ℚ) - 2 * d * (N : ℚ)
          ≤ ((passOf f (playerPass rnd rSub rInc ev fx))^[N] (w, c0)).2.frameTimerFx
            + fxThresholdR rnd c0.mt
              * (((passOf f (playerPass rnd rSub rInc ev fx))^[N] (w, c0)).2.subTicks.length : ℚ) ∧
        ((passOf f (playerPass rnd rSub rInc ev fx))^[N] (w, c0)).2.frameTimerFx
            + fxThresholdR rnd c0.mt
              * (((passOf f (playerPass rnd rSub rInc ev fx))^[N] (w, c0)).2.subTicks.length : ℚ)
          ≤ c0.frameTimerFx + (N : ℚ) + 2 * d * (N : ℚ)) := by
  generalize hTd : fxThresholdR rnd c0.mt = T at hT hSub hInc ht1 ⊢
  intro N
  induction N with
  | zero =>
    refine ⟨⟨rfl, rfl, rfl, rfl⟩, ⟨ht0, ht1⟩, ?_, ?_, ?_⟩
    · show List.Chain' _ c0.subTicks
      rw [hS]
      exact List.chain'_nil
    · intro _ a ha
      have : c0.subTicks.getLast? = some a := ha
      rw [hS] at this
      exact absurd this (by simp)
    · intro hp _
      refine ⟨hp, ?_, ?_⟩
      · show c0.frameTimerFx + ((0 : Nat) : ℚ) - 2 * d * ((0 : Nat) : ℚ)
          ≤ c0.frameTimerFx + T * (c0.subTicks.length : ℚ)
        rw [hS]
        simp
      · show c0.frameTimerFx + T * (c0.subTicks.length : ℚ)
          ≤ c0.frameTimerFx + ((0 : Nat) : ℚ) + 2 * d * ((0 : Nat) : ℚ)
        rw [hS]
        simp
  | succ N ih =>
    obtain ⟨⟨i1, i2, i3, i4⟩, ⟨r1, r2⟩, hch, hlast, hcnt⟩ := ih
    rw [Function.iterate_succ_apply']
    generalize (passOf f (playerPass rnd rSub rInc ev fx))^[N] (w, c0) = S
      at i1 i2 i3 i4 r1 r2 hch hlast hcnt
    show ((playerPass rnd rSub rInc ev fx S.1 S.2).mt.tempo = _ ∧
        (playerPass rnd rSub rInc ev fx S.1 S.2).mt.diviseur = _ ∧
        (playerPass rnd rSub rInc ev fx S.1 S.2).mt.sampleRate = _ ∧
        (playerPass rnd rSub rInc ev fx S.1 S.2).mt.looping = _) ∧
      (0 ≤ (playerPass rnd rSub rInc ev fx S.1 S.2).frameTimerFx ∧
        (playerPass rnd rSub rInc ev fx S.1 S.2).frameTimerFx < _) ∧
      List.Chain' _ (playerPass rnd rSub rInc ev fx S.1 S.2).subTicks ∧
      ((playerPass rnd rSub rInc ev fx S.1 S.2).mt.playing = true →
        ∀ a, (playerPass rnd rSub rInc ev fx S.1 S.2).subTicks.getLast? = some a →
          ∃ (j : Nat) (u : ℚ), 1 ≤ j ∧ S.1 + f = a + f * j ∧ 0 ≤ u ∧ u < 1 + 2 * d ∧
            u + (j : ℚ) - ((j : ℚ) + 1) * d
              ≤ (playerPass rnd rSub rInc ev fx S.1 S.2).frameTimerFx ∧
            (playerPass rnd rSub rInc ev fx S.1 S.2).frameTimerFx
              ≤ u + (j : ℚ) + ((j : ℚ) + 1) * d ∧
            (j = 1 ∨ u + (j : ℚ) - 1 - (j : ℚ) * d < T)) ∧
      (c0.mt.playing = true → c0.mt.looping = -1 →
        (playerPass rnd rSub rInc ev fx S.1 S.2).mt.playing = true ∧
        c0.frameTimerFx + ((N + 1 : Nat) : ℚ) - 2 * d * ((N + 1 : Nat) : ℚ)
          ≤ (playerPass rnd rSub rInc ev fx S.1 S.2).frameTimerFx
            + T * ((playerPass rnd rSub rInc ev fx S.1 S.2).subTicks.length : ℚ) ∧
        (playerPass rnd rSub rInc ev fx S.1 S.2).frameTimerFx
            + T * ((playerPass rnd rSub rInc ev fx S.1 S.2).subTicks.length : ℚ)
          ≤ c0.frameTimerFx + ((N + 1 : Nat) : ℚ) + 2 * d * ((N + 1 : Nat) : ℚ))
    cases hp : S.2.mt.playing with
    | false =>
      rw [playerPass_idle rnd rSub rInc ev fx S.1 S.2 hp]
      refine ⟨⟨i1, i2, i3, i4⟩, ⟨r1, r2⟩, hch, ?_, ?_⟩
      · intro h
        rw [hp] at h
        exact Bool.noConfusion h
      · intro a b
        have := (hcnt a b).1
        rw [hp] at this
        exact Bool.noConfusion this
    | true =>
      obtain ⟨_, ⟨p2, p3, p4, p5⟩, p6, _, p8, p9⟩ :=
        playerPass_spec rnd rSub rInc ev fx hev hfx S.1 S.2 hp
      have hTS : fxThresholdR rnd S.2.mt = T := by
        rw [← hTd]
        unfold fxThresholdR
        rw [i1, i2, i3]
      rw [hTS] at p8 p9
      have hrest : (playerPass rnd rSub rInc ev fx S.1 S.2).mt.tempo = c0.mt.tempo ∧
          (playerPass rnd rSub rInc ev fx S.1 S.2).mt.diviseur = c0.mt.diviseur ∧
          (playerPass rnd rSub rInc ev fx S.1 S.2).mt.sampleRate = c0.mt.sampleRate ∧
          (playerPass rnd rSub rInc ev fx S.1 S.2).mt.looping = c0.mt.looping :=
        ⟨p2.trans i1, p3.trans i2, p4.trans i3, p5.trans i4⟩
      have hN : ((N + 1 : Nat) : ℚ) = (N : ℚ) + 1 := by push_cast; ring
      rw [hN]
      by_cases hf : S.2.frameTimerFx ≥ T
      · rw [if_pos hf] at p8 p9
        obtain ⟨b1, b2⟩ := timer_fire rSub rInc T d S.2.frameTimerFx hd0 hd hT hSub hInc hf r2
        rw [← p9] at b1 b2
        generalize (playerPass rnd rSub rInc ev fx S.1 S.2).frameTimerFx = t2 at b1 b2 ⊢
        rw [p8]
        refine ⟨hrest, ⟨by linarith, by linarith⟩, ?_, ?_, ?_⟩
        · refine List.chain'_append.mpr ⟨hch, List.chain'_singleton _, ?_⟩
          intro a ha y hy
          have hy2 : y = S.1 := by
            have : [S.1].head? = some y := hy
            simpa using this.symm
          subst hy2
          obtain ⟨j, u, j1, jw, u0, u1, lo, hi, hprev⟩ := hlast hp a ha
          refine ⟨j, jw, ?_, ?_⟩
          · linarith
          · rcases hprev with h | h
            · subst h
              push_cast
              linarith
            · linarith
        · intro _ a ha
          rw [List.getLast?_concat] at ha
          have ha2 : S.1 = a := Option.some.inj ha
          subst ha2
          refine ⟨1, S.2.frameTimerFx - T, le_refl _, by ring, by linarith, by linarith, ?_, ?_,
            Or.inl rfl⟩
          · push_cast
            linarith
          · push_cast
            linarith
        · intro a b
          obtain ⟨_, c1, c2⟩ := hcnt a b
          refine ⟨p6 (i4.trans b), ?_, ?_⟩
          · rw [List.length_append, List.length_singleton]
            push_cast
            linarith
          · rw [List.length_append, List.length_singleton]
            push_cast
            linarith
      · rw [if_neg hf] at p8 p9
        obtain ⟨b1, b2⟩ := timer_idle rInc T d S.2.frameTimerFx hd0 hInc r1 (by linarith)
        rw [← p9] at b1 b2
        generalize (playerPass rnd rSub rInc ev fx S.1 S.2).frameTimerFx = t2 at b1 b2 ⊢
        rw [p8]
        have hlt : S.2.frameTimerFx < T := by linarith
        refine ⟨hrest, ⟨by linarith, by linarith⟩, hch, ?_, ?_⟩
        · intro _ a ha
          obtain ⟨j, u, j1, jw, u0, u1, lo, hi, hprev⟩ := hlast hp a ha
          refine ⟨j + 1, u, by omega, ?_, u0, u1, ?_, ?_, Or.inr ?_⟩
          · rw [jw]
            ring
          · push_cast
            linarith
          · push_cast
            linarith
          · push_cast
            linarith
        · intro a b
          obtain ⟨_, c1, c2⟩ := hcnt a b
          exact ⟨p6 (i4.trans b), by linarith, by linarith⟩

theorem fxThresholdR_exact (rnd : ℚ → ℚ) (he : ∀ x, rnd x = x) (mt : mtsynth) :
    fxThresholdR rnd mt
      = (1 / 200) * (60 * (mt.sampleRate : ℚ) / ((mt.tempo : ℚ) * (mt.diviseur : ℚ))) := by
  unfold fxThresholdR
  rw [he, he, he, he, he]
  ring

theorem subTicks_passes (rnd rSub rInc : ℚ → ℚ) (ev fx : mtsynth → mtsynth)
    (hev : keepsTiming ev) (hfx : keepsTiming fx) (f : Nat) (c0 : Clock) (w : Nat) (d : ℚ)
    (hd0 : 0 ≤ d) (hd : d ≤ 1 / 2) (hT : 1 + 2 * d ≤ fxThresholdR rnd c0.mt)
    (hSub : ∀ x, 0 ≤ x → x ≤ fxThresholdR rnd c0.mt + 2 → |rSub x - x| ≤ d)
    (hInc : ∀ x, 0 ≤ x → x ≤ fxThresholdR rnd c0.mt + 2 → |rInc x - x| ≤ d)
    (ht0 : 0 ≤ c0.frameTimerFx) (ht1 : c0.frameTimerFx < fxThresholdR rnd c0.mt + 1)
    (hS : c0.subTicks = []) (N : Nat) :
    List.Chain' (subTickGap (fxThresholdR rnd c0.mt) d f)
      ((passOf f (playerPass rnd rSub rInc ev fx))^[N] (w, c0)).2.subTicks ∧
    (c0.mt.playing = true → c0.mt.looping = -1 →
      c0.frameTimerFx + (N : ℚ) - 2 * d * (N : ℚ) - (fxThresholdR rnd c0.mt + 1 + 2 * d)
        < fxThresholdR rnd c0.mt
          * (((passOf f (playerPass rnd rSub rInc ev fx))^[N] (w, c0)).2.subTicks.length : ℚ) ∧
      fxThresholdR rnd c0.mt
          * (((passOf f (playerPass rnd rSub rInc ev fx))^[N] (w, c0)).2.subTicks.length : ℚ)
        ≤ c0.frameTimerFx + (N : ℚ) + 2 * d * (N : ℚ)) := by
  obtain ⟨_, ⟨r1, r2⟩, hch, _, hcnt⟩ :=
    subTicks_inv rnd rSub rInc ev fx hev hfx f c0 w d hd0 hd hT hSub hInc ht0 (by linarith) hS N
  refine ⟨hch, fun a b => ?_⟩
  obtain ⟨_, c1, c2⟩ := hcnt a b
  constructor <;> linarith

/-- Claim C15 (sub-tick timing), amended. With constant tempo (a row event
body and a sub-tick body that leave the timing alone), let `T` be the value the
code computes for `0.005 * rowSamples` (in exact arithmetic
`0.005 * 60 * SR / (T * D)`), at least `1 + 2d`, where `d <= 1/2` bounds the
rounding error of each value stored in `frameTimerFx` (0 in exact arithmetic).
The timer advances by 1 in every pass of the render loop and the handler runs
in the passes that start with the timer at or above `T`, which is then
subtracted. Rendering in calls whose lengths are multiples of 16 (8 stereo
samples a pass), two consecutive sub-ticks lie `8 * k` stereo samples apart with
`T - 1 - (k + 3) * d < k < T + 1 + k * d`: `T` passes to within one pass and
the rounding, that is about `0.04 * rowSamples` samples and not
`0.005 * rowSamples`; and while the song plays without a loop limit the number
`n` of sub-ticks in `N` passes satisfies
`t0 + N - 2dN - (T + 1 + 2d) < T * n <= t0 + N + 2dN`, `t0` being the timer at the
start: about 25 sub-ticks in the `rowSamples / 8` passes of a row, not 200.
Rendering in calls of one stereo sample each, consecutive sub-ticks lie `k`
samples apart, with the same `k`. -/
theorem subTick_spacing (rnd rSub rInc : ℚ → ℚ) (ev fx : mtsynth → mtsynth) (c : Clock)
    (w : Nat) (d : ℚ) (hev : keepsTiming ev) (hfx : keepsTiming fx)
    (hd0 : 0 ≤ d) (hd : d ≤ 1 / 2) (hT : 1 + 2 * d ≤ fxThresholdR rnd c.mt)
    (hSub : ∀ x, 0 ≤ x → x ≤ fxThresholdR rnd c.mt + 2 → |rSub x - x| ≤ d)
    (hInc : ∀ x, 0 ≤ x → x ≤ fxThresholdR rnd c.mt + 2 → |rInc x - x| ≤ d)
    (ht0 : 0 ≤ c.frameTimerFx) (ht1 : c.frameTimerFx < fxThresholdR rnd c.mt + 1)
    (hS : c.subTicks = []) :
    ((∀ x, rnd x = x) → fxThresholdR rnd c.mt
      = (1 / 200) * (60 * (c.mt.sampleRate : ℚ) / ((c.mt.tempo : ℚ) * (c.mt.diviseur : ℚ)))) ∧
    (∀ (lengths : List Nat) (N : Nat), (∀ l ∈ lengths, 16 ∣ l) → lengths.sum = 16 * N →
      List.Chain' (subTickGap (fxThresholdR rnd c.mt) d 8)
        (renderCalls (playerPass rnd rSub rInc ev fx) lengths (w, c)).2.subTicks ∧
      (c.mt.playing = true → c.mt.looping = -1 →
        c.frameTimerFx + (N : ℚ) - 2 * d * (N : ℚ) - (fxThresholdR rnd c.mt + 1 + 2 * d)
          < fxThresholdR rnd c.mt
            * ((renderCalls (playerPass rnd rSub rInc ev fx) lengths
                (w, c)).2.subTicks.length : ℚ) ∧
        fxThresholdR rnd c.mt
            * ((renderCalls (playerPass rnd rSub rInc ev fx) lengths
                (w, c)).2.subTicks.length : ℚ)
          ≤ c.frameTimerFx + (N : ℚ) + 2 * d * (N : ℚ))) ∧
    (∀ n : Nat,
      List.Chain' (subTickGap (fxThresholdR rnd c.mt) d 1)
        (renderCalls (playerPass rnd rSub rInc ev fx) (List.replicate n 2) (w, c)).2.subTicks) := by
  refine ⟨fun he => fxThresholdR_exact rnd he c.mt, ?_, ?_⟩
  · intro lengths N hd16 hs
    rw [renderCalls_full _ lengths N _ hd16 hs]
    exact subTicks_passes rnd rSub rInc ev fx hev hfx 8 c w d hd0 hd hT hSub hInc ht0 ht1 hS N
  · intro n
    rw [renderCalls_ones]
    exact (subTicks_passes rnd rSub rInc ev fx hev hfx 1 c w d hd0 hd hT hSub hInc ht0 ht1 hS
      n).1

theorem gridRound_error (x : ℚ) : |gridRound x - x| ≤ 1 / 2048 := by
  unfold gridRound
  have h1 : ((⌊x * 1024 + 1 / 2⌋ : ℤ) : ℚ) ≤ x * 1024 + 1 / 2 := Int.floor_le _
  have h2 : x * 1024 + 1 / 2 < ((⌊x * 1024 + 1 / 2⌋ : ℤ) : ℚ) + 1 := Int.lt_floor_add_one _
  rw [abs_le]
  constructor
  · rw [le_sub_iff_add_le, le_div_iff₀ (by norm_num)]
    linarith
  · rw [sub_le_iff_le_add, div_le_iff₀ (by norm_num)]
    linarith

theorem fxThresholdR_playing441 :
    fxThresholdR (fun x => x) (startClock playing441).mt = 1323 / 50 := by
  decide!

/-- Witness for the amended C15 at 44100 Hz, tempo 125, divisor 4, the
threshold computed exactly (26.46) and the timer rounded to multiples of 1/1024
(error at most 1/2048): one call of 16 * 60 floats records sub-ticks at the
stereo samples 216 and 424, which are 26 passes apart, and 60 calls of one
stereo sample record them at the samples 27 and 53. -/
theorem subTick_spacing_witness :
    ((0 : ℚ) ≤ 1 / 2048 ∧ (1 / 2048 : ℚ) ≤ 1 / 2 ∧
      1 + 2 * (1 / 2048) ≤ fxThresholdR (fun x => x) (startClock playing441).mt ∧
      (startClock playing441).frameTimerFx = 0 ∧ (startClock playing441).subTicks = []) ∧
    (renderCalls (playerPass (fun x => x) gridRound gridRound (fun m => m) (fun m => m))
        [16 * 60] (0, startClock playing441)).2.subTicks = [216, 424] ∧
    List.Chain' (subTickGap (fxThresholdR (fun x => x) (startClock playing441).mt) (1 / 2048) 8)
      (renderCalls (playerPass (fun x => x) gridRound gridRound (fun m => m) (fun m => m))
        [16 * 60] (0, startClock playing441)).2.subTicks ∧
    (renderCalls (playerPass (fun x => x) gridRound gridRound (fun m => m) (fun m => m))
        (List.replicate 60 2) (0, startClock playing441)).2.subTicks = [27, 53] :=
  have hT : 1 + 2 * (1 / 2048) ≤ fxThresholdR (fun x => x) (startClock playing441).mt := by
    rw [fxThresholdR_playing441]
    norm_num
  have T := subTick_spacing (fun x => x) gridRound gridRound (fun m => m) (fun m => m)
    (startClock playing441) 0 (1 / 2048) keepsTiming_id keepsTiming_id (by norm_num)
    (by norm_num) hT (fun x _ _ => gridRound_error x) (fun x _ _ => gridRound_error x)
    (le_refl _) (by rw [fxThresholdR_playing441]; exact (by norm_num : (0 : ℚ) < 1323 / 50 + 1)) rfl
  ⟨⟨by norm_num, by norm_num, hT, rfl, rfl⟩, by decide!,
    (T.2.1 [16 * 60] 60 (by decide) rfl).1, by decide!⟩

/-- C15, counterexample: at 44100 Hz, tempo 125, divisor 4 a row lasts 5292
samples and 0.005 of it is 26.46 samples. Rendering one buffer of 16 * 60
floats in exact arithmetic (in these passes the timer never comes closer than
0.02 to the threshold, so the floating-point timer fires in the same passes),
the sub-tick handler runs at the stereo samples 216 and 424 and at no other:
the two sub-ticks are 208 samples apart, 26 passes of 8 samples, and not
26.46. -/
theorem subTick_spacing_counterexample :
    (renderCall (playerPass (fun x => x) (fun x => x) (fun x => x) (fun m => m) (fun m => m))
        (16 * 60) (0, startClock playing441)).2.subTicks = [216, 424] ∧
    (1 / 200 : ℚ) * rowLengthR (fun x => x) playing441 = 1323 / 50 ∧
    ((424 - 216 : Nat) : ℚ) ≠ (1 / 200 : ℚ) * rowLengthR (fun x => x) playing441 := by
  decide!

end MtLib
